import Mathlib

/-!
# xdd: the pre-issue pipeline (`io_loop_before_io_operation.c`), the target data
and the options of `xdd-lite`

A shallow embedding of the stages that run before every I/O operation, of the
functions of `target_data.c` that size a pass and build the substructure of a
target, and of the parsers of the target options in `xdd-lite-options.c`, and the
properties of the specification that concern them.

Conventions of the embedding.

* C integers are mathematical integers (`Int`); where the source narrows or casts
  explicitly the wrap is written out (`% 2 ^ 32`, `% 2 ^ 64`).
* The declarations of `xdd.h` (structure layouts, bit masks, `SUCCESS`, `FAILED`,
  `PTDS_E2E_MAGIQ`, ...) are not part of the sources at hand.  The numeric
  constants are taken as a parameter (`xdd_h`).  A bit set is a record with one
  `Bool` per mask that the code tests and the remaining bits kept as a number.
* Pointers are indices into partial heaps (`Nat → Option _`), `none` being `NULL`
  or an unmapped address.  Blocks that only their worker reaches (`rawp`, `e2ep`,
  `tsp`) are held by value.
* The environment (clock, socket, `fstat`, `xdd_open_target`) is scripted in the
  `World`; barrier entries, mutex operations and system calls are appended to
  `World.trace` in program order.
-/

namespace Xdd

/-! ## Constants of `xdd.h` -/

/-- Constants that `xdd.h` defines and the stages compare against. -/
structure xdd_h where
  SUCCESS : Int
  FAILED : Int
  PTDS_E2E_MAGIQ : Int
  BILLION : Int
  CLK_TCK : Int
deriving DecidableEq

/-- The C truth value `TRUE`. -/
def TRUE : Int := 1

/-- The C truth value `FALSE`. -/
def FALSE : Int := 0

/-! ## Data model -/

/-- The bits of `p->target_options` that the pre-issue stages test. -/
structure target_options_t where
  TO_WAITFORSTART : Bool
  TO_DIO : Bool
  TO_SGIO : Bool
  TO_READAFTERWRITE : Bool
  TO_RAW_READER : Bool
  TO_ENDTOEND : Bool
  TO_E2E_SOURCE : Bool
  other_bits : Nat
deriving DecidableEq

/-- The bits of `tgp->trigger_types`. -/
structure trigger_types_t where
  TRIGGER_STARTTIME : Bool
  TRIGGER_STARTOP : Bool
  TRIGGER_STARTPERCENT : Bool
  TRIGGER_STARTBYTES : Bool
  other_bits : Nat
deriving DecidableEq

/-- The C test `if (tgp->trigger_types)`: some bit is set. -/
def trigger_types_t.nonzero (t : trigger_types_t) : Bool :=
  t.TRIGGER_STARTTIME || t.TRIGGER_STARTOP || t.TRIGGER_STARTPERCENT ||
    t.TRIGGER_STARTBYTES || decide (t.other_bits ≠ 0)

/-- The trigger block `trigger_t`. -/
structure trigger_t where
  trigger_types : trigger_types_t
  start_trigger_target : Int
  start_trigger_time : Int
  start_trigger_op : Int
  start_trigger_percent : Rat
  start_trigger_bytes : Int
  Start_Trigger_Barrier_index : Nat
deriving DecidableEq

/-- The bits of `ls_interval_type` and of `ls_task_type` (time, op, percent, bytes). -/
structure ls_types_t where
  TIME : Bool
  OP : Bool
  PERCENT : Bool
  BYTES : Bool
deriving DecidableEq

/-- The bits of `ls_ms_state`. -/
structure ls_ms_state_t where
  LS_SLAVE_WAITING : Bool
  LS_SLAVE_COMPLETE : Bool
  LS_SLAVE_STOP : Bool
  LS_MASTER_FINISHED : Bool
  LS_MASTER_WAITING : Bool
  other_bits : Nat
deriving DecidableEq

/-- The lockstep block `lockstep_t`. -/
structure lockstep_t where
  ls_task_counter : Int
  ls_interval_type : ls_types_t
  ls_interval_value : Int
  ls_interval_base_value : Int
  ls_task_type : ls_types_t
  ls_task_value : Int
  ls_task_base_value : Int
  ls_ms_state : ls_ms_state_t
  ls_master : Int
  ls_slave : Int
  ls_slave_loop_counter : Int
  Lock_Step_Barrier_Slave_Index : Nat
  Lock_Step_Barrier_Master_Index : Nat
deriving DecidableEq

/-- One entry of the seek table `p->seekhdr.seeks[]`. -/
structure seek_t where
  block_location : Int
  operation : Int
  time1 : Int
deriving DecidableEq

/-- The seek header `p->seekhdr`. -/
structure seekhdr_t where
  SO_SEEK_NONE : Bool
  seeks : List seek_t
deriving DecidableEq

/-- A read-after-write notification `{sequence, location, length}`. -/
structure raw_msg_t where
  sequence : Int
  location : Int
  length : Int
deriving DecidableEq

/-- The read-after-write block `raw_t` of a reader. -/
structure raw_t where
  PTDS_RAW_STAT : Bool
  raw_data_ready : Int
  raw_msg : raw_msg_t
  raw_msg_last_sequence : Int
  raw_prev_loc : Int
  raw_prev_len : Int
  raw_data_length : Int
deriving DecidableEq

/-- The header of an end-to-end frame. -/
structure e2e_msg_t where
  magic : Int
  sequence : Int
  location : Int
  length : Int
deriving DecidableEq

/-- The end-to-end block `e2e_t` of a destination worker. -/
structure e2e_t where
  e2e_data_ready : Int
  e2e_msg : e2e_msg_t
  e2e_msg_last_sequence : Int
  e2e_prev_loc : Int
  e2e_prev_len : Int
  e2e_data_length : Int
  e2e_sr_time : Int
  e2e_timedout : Bool
deriving DecidableEq

/-- The bits of `tsp->ts_options`. -/
structure ts_options_t where
  TS_ON : Bool
  TS_TRIGGERED : Bool
  TS_ALL : Bool
  TS_TRIGTIME : Bool
  TS_TRIGOP : Bool
  other_bits : Nat
deriving DecidableEq

/-- One record of the timestamp table. -/
structure tte_t where
  rwvop : Int
  pass : Int
  byte_location : Int
  opnumber : Int
  start : Int
deriving DecidableEq

/-- The timestamp table header `tsp->ttp`; the list `tte` has one cell per slot
of the allocated table. -/
structure tthdr_t where
  tte_indx : Int
  tte : List tte_t
deriving DecidableEq

/-- The timestamp block `timestamp_t`. -/
structure timestamp_t where
  ts_options : ts_options_t
  ts_trigtime : Int
  ts_trigop : Int
  timestamps : Int
  ttp : Option tthdr_t
deriving DecidableEq

/-- The per-thread data structure `ptds_t`, restricted to the fields that the
pre-issue stages read or write. -/
structure ptds_t where
  my_target_number : Int
  target_options : target_options_t
  run_status : Int
  my_current_op : Int
  target_ops : Int
  my_current_bytes_xfered : Int
  my_current_pass_number : Int
  my_pass_start_time : Int
  my_pass_ring : Int
  my_error_break : Int
  my_current_byte_location : Int
  block_size : Int
  iosize : Int
  last_iosize : Int
  fd : Int
  syncio_barrier_index : Nat
  seekhdr : seekhdr_t
  throttle : Rat
  PTDS_THROTTLE_DELAY : Bool
  tgp : Option Nat
  lsp : Option Nat
  rawp : Option raw_t
  e2ep : Option e2e_t
  tsp : Option timestamp_t
deriving DecidableEq

/-! ## Environment, trace and outcomes -/

/-- A barrier object, named by the block that owns it and the index used. -/
inductive Barrier where
  | syncio (index : Nat)
  | start_trigger (tgp : Nat) (index : Nat)
  | lock_step (lsp : Nat) (index : Nat)
deriving DecidableEq

/-- The externally visible actions of the stages.  `mutex_unlock` also carries the
value that `ls_task_counter` of the block has at the moment of the release. -/
inductive Event where
  | barrier (b : Barrier)
  | mutex_lock (lsp : Nat)
  | mutex_unlock (lsp : Nat) (task_counter : Int)
  | close (fd : Int)
  | open_target (p : Nat) (dio : Bool)
  | usleep (usec : Int)
deriving DecidableEq

/-- What one call of `xdd_raw_read_wait` delivers. -/
structure raw_recv_t where
  status : Int
  msg : raw_msg_t
deriving DecidableEq

/-- What one call of `xdd_e2e_dest_wait` delivers: its return status, the frame
header left in `e2e_msg` and the value of `e2e_timedout` after the call. -/
structure e2e_recv_t where
  status : Int
  msg : e2e_msg_t
  timedout : Bool
deriving DecidableEq

/-- What one call of `fstat` delivers. -/
structure stat_t where
  status : Int
  st_size : Int
deriving DecidableEq

/-- The global data `xgp`, the heaps and the scripted environment. -/
structure World where
  syncio : Int
  number_of_targets : Int
  passes : Int
  target_offset : Int
  abort_io : Int
  ptdsp : Nat → Option Nat
  ptds : Nat → Option ptds_t
  lockstep : Nat → Option lockstep_t
  trigger : Nat → Option trigger_t
  pagesize : Int
  clock : Nat → Int
  clock_reads : Nat
  open_fd : Nat → Int
  opens : Nat
  stat_results : List stat_t
  raw_msgs : List raw_recv_t
  e2e_msgs : List e2e_recv_t
  trace : List Event

/-- How a call ends: it returns a value, it waits for ever on the environment
(no further `fstat` result or message is scripted), or it dereferences an invalid
pointer or index.  Each case carries the state reached. -/
inductive Outcome (α : Type) where
  | ret (a : α) (w : World)
  | blocked (w : World)
  | fault (w : World)

/-- The state an outcome carries. -/
def Outcome.world {α : Type} : Outcome α → World
  | .ret _ w => w
  | .blocked w => w
  | .fault w => w

/-- Sequencing of two steps: the second runs only if the first returns. -/
def Outcome.andThen {α β : Type} (o : Outcome α) (f : α → World → Outcome β) : Outcome β :=
  match o with
  | .ret a w => f a w
  | .blocked w => .blocked w
  | .fault w => .fault w

/-- Appends an event to the trace. -/
def World.emit (w : World) (e : Event) : World :=
  { w with trace := w.trace ++ [e] }

/-- Stores `q` at address `p` of the `ptds_t` heap. -/
def World.setPtds (w : World) (p : Nat) (q : ptds_t) : World :=
  { w with ptds := Function.update w.ptds p (some q) }

/-- Stores `ls` at address `l` of the lockstep heap. -/
def World.setLockstep (w : World) (l : Nat) (ls : lockstep_t) : World :=
  { w with lockstep := Function.update w.lockstep l (some ls) }

/-- Stores `tg` at address `t` of the trigger heap. -/
def World.setTrigger (w : World) (t : Nat) (tg : trigger_t) : World :=
  { w with trigger := Function.update w.trigger t (some tg) }

/-- The value that the next `pclk_now` stores. -/
def World.now (w : World) : Int := w.clock w.clock_reads

/-- The state after one `pclk_now`. -/
def World.tick (w : World) : World :=
  { w with clock_reads := w.clock_reads + 1 }

/-- The table lookup `xgp->ptdsp[i]`. -/
def World.target (w : World) (i : Int) : Option Nat :=
  if 0 ≤ i then w.ptdsp i.toNat else none

/-- The array read `p->seekhdr.seeks[i]`. -/
def seekhdr_t.seek (h : seekhdr_t) (i : Int) : Option seek_t :=
  if 0 ≤ i then h.seeks.get? i.toNat else none

/-- The explicit cast `(int64_t) x`. -/
def int64_cast (x : Int) : Int := (x + 2 ^ 63) % 2 ^ 64 - 2 ^ 63

/-- The explicit cast `(uint64_t) x`. -/
def uint64_cast (x : Int) : Int := x % 2 ^ 64

/-- The narrowing of a value stored into an `int32_t` local. -/
def int32_cast (x : Int) : Int := (x + 2 ^ 31) % 2 ^ 32 - 2 ^ 31

/-! ## Syncio (lines 42-54) -/

/-- The stage `xdd_syncio_before_io_operation`. -/
def xdd_syncio_before_io_operation (p : Nat) (w : World) : Outcome Unit :=
  match w.ptds p with
  | none => .fault w
  | some q =>
    if 0 < w.syncio ∧ 1 < w.number_of_targets ∧ q.my_current_op.tmod w.syncio = 0 then
      .ret () ((w.emit (.barrier (.syncio q.syncio_barrier_index))).setPtds p
        { q with syncio_barrier_index := q.syncio_barrier_index ^^^ 1 })
    else .ret () w

/-! ## Start triggers (lines 62-129) -/

/-- The call `xdd_barrier(&tgp2->Start_Trigger_Barrier[tgp2->Start_Trigger_Barrier_index])`
through the pointer `tgp2`. -/
def start_trigger_release (tgp2 : Option Nat) (w : World) : Outcome Unit :=
  match tgp2 with
  | none => .fault w
  | some t2 =>
    match w.trigger t2 with
    | none => .fault w
    | some tg2 => .ret () (w.emit (.barrier (.start_trigger t2 tg2.Start_Trigger_Barrier_index)))

/-- The four threshold tests of lines 97-123, made once the triggeree was found
not started. -/
def start_trigger_thresholds (q : ptds_t) (tg : trigger_t) (tgp2 : Option Nat) (w : World) :
    Outcome Unit :=
  let s1 : Outcome Unit :=
    if tg.trigger_types.TRIGGER_STARTTIME then
      if w.now > tg.start_trigger_time + q.my_pass_start_time then
        start_trigger_release tgp2 w.tick
      else .ret () w.tick
    else .ret () w
  let s2 : Outcome Unit := s1.andThen fun _ w1 =>
    if tg.trigger_types.TRIGGER_STARTOP ∧ q.my_current_op > tg.start_trigger_op then
      start_trigger_release tgp2 w1
    else .ret () w1
  let s3 : Outcome Unit := s2.andThen fun _ w2 =>
    if tg.trigger_types.TRIGGER_STARTPERCENT ∧
        (q.my_current_op : Rat) > tg.start_trigger_percent * (q.target_ops : Rat) then
      start_trigger_release tgp2 w2
    else .ret () w2
  s3.andThen fun _ w3 =>
    if tg.trigger_types.TRIGGER_STARTBYTES ∧ q.my_current_bytes_xfered > tg.start_trigger_bytes then
      start_trigger_release tgp2 w3
    else .ret () w3

/-- The stage `xdd_start_trigger_before_io_operation`.  The value is `none` on the
path that reaches the end of the function without a `return` statement. -/
def xdd_start_trigger_before_io_operation (K : xdd_h) (p : Nat) (w : World) :
    Outcome (Option Int) :=
  match w.ptds p with
  | none => .fault w
  | some q =>
    match q.tgp with
    | none => .ret (some K.SUCCESS) w
    | some t =>
      match w.trigger t with
      | none => .fault w
      | some tg =>
        if q.target_options.TO_WAITFORSTART ∧ q.run_status = 0 then
          let w1 := w.emit (.barrier (.start_trigger t tg.Start_Trigger_Barrier_index))
          let w2 := w1.setTrigger t
            { tg with Start_Trigger_Barrier_index := tg.Start_Trigger_Barrier_index ^^^ 1 }
          .ret (some 1) (w2.setPtds p { q with run_status := 1 })
        else if tg.trigger_types.nonzero then
          match w.target tg.start_trigger_target with
          | none => .fault w
          | some p2 =>
            match w.ptds p2 with
            | none => .fault w
            | some q2 =>
              if q2.run_status = 0 then
                (start_trigger_thresholds q tg q2.tgp w).andThen fun _ w1 => .ret none w1
              else .ret none w
        else .ret none w

/-! ## Lockstep (lines 134-326) -/

/-- The assignment of a new interval base (lines 165, 173, 181, 190). -/
def ls_interval_rebase (ls : lockstep_t) (base : Int) : lockstep_t :=
  { ls with ls_interval_base_value := base }

/-- The master's interval tests of lines 159-192: whether to ping the slave, and
the block with its interval base advanced.  `time_now` is the clock value read
when the time interval is configured. -/
def ls_interval_check (q : ptds_t) (ls : lockstep_t) (time_now : Int) : Bool × lockstep_t :=
  let r1 : Bool × lockstep_t :=
    if ls.ls_interval_type.TIME ∧ time_now > ls.ls_interval_value + ls.ls_interval_base_value then
      (true, ls_interval_rebase ls time_now)
    else (false, ls)
  let r2 : Bool × lockstep_t :=
    if r1.2.ls_interval_type.OP ∧
        q.my_current_op ≥ r1.2.ls_interval_value + r1.2.ls_interval_base_value then
      (true, ls_interval_rebase r1.2 q.my_current_op)
    else r1
  let r3 : Bool × lockstep_t :=
    if r2.2.ls_interval_type.PERCENT ∧
        q.my_current_op ≥ (r2.2.ls_interval_value * r2.2.ls_interval_base_value) * q.target_ops then
      (true, ls_interval_rebase r2.2 (r2.2.ls_interval_base_value + 1))
    else r2
  if r3.2.ls_interval_type.BYTES ∧
      q.my_current_bytes_xfered ≥
        r3.2.ls_interval_value + int64_cast r3.2.ls_interval_base_value then
    (true, ls_interval_rebase r3.2 q.my_current_bytes_xfered)
  else r3

/-- The ping of lines 193-220, through the pointer `lsp2` to the slave's block. -/
def ls_ping_slave (lsp2 : Option Nat) (w : World) : Outcome Unit :=
  match lsp2 with
  | none => .fault w
  | some l2 =>
    match w.lockstep l2 with
    | none => .fault w
    | some ls2 =>
      let w1 := w.emit (.mutex_lock l2)
      let ls2a := { ls2 with ls_task_counter := ls2.ls_task_counter + 1 }
      if ls2a.ls_ms_state.LS_SLAVE_WAITING then
        let ls2b := { ls2a with ls_ms_state := { ls2a.ls_ms_state with LS_SLAVE_WAITING := false } }
        let w2 := (w1.setLockstep l2 ls2b).emit (.mutex_unlock l2 ls2b.ls_task_counter)
        let w3 := w2.emit (.barrier (.lock_step l2 ls2b.Lock_Step_Barrier_Master_Index))
        .ret () (w3.setLockstep l2
          { ls2b with Lock_Step_Barrier_Master_Index := ls2b.Lock_Step_Barrier_Master_Index ^^^ 1 })
      else
        .ret () ((w1.setLockstep l2 ls2a).emit (.mutex_unlock l2 ls2a.ls_task_counter))

/-- The master half of the stage (lines 154-221); `q` is the caller's `ptds_t` and
`l` its lockstep block. -/
def lockstep_master (q : ptds_t) (l : Nat) (w : World) : Outcome Unit :=
  match w.lockstep l with
  | none => .fault w
  | some ls =>
    if 0 ≤ ls.ls_slave then
      match w.target ls.ls_slave with
      | none => .fault w
      | some p2 =>
        match w.ptds p2 with
        | none => .fault w
        | some q2 =>
          let w1 := if ls.ls_interval_type.TIME then w.tick else w
          let r := ls_interval_check q ls w.now
          let w2 := w1.setLockstep l r.2
          if r.1 then ls_ping_slave q2.lsp w2 else .ret () w2
    else .ret () w

/-- A task fire (lines 238-239, 247-248, 256-257, 265-266): the task base is
advanced and the task counter decremented. -/
def ls_task_fire (ls : lockstep_t) (base : Int) : lockstep_t :=
  { ls with ls_task_base_value := base, ls_task_counter := ls.ls_task_counter - 1 }

/-- The slave's task tests of lines 229-271: whether the slave has to wait, and
the block with its task base advanced and its counter decremented. -/
def ls_task_check (q : ptds_t) (ls : lockstep_t) (time_now : Int) : Bool × lockstep_t :=
  if 0 < ls.ls_task_counter then
    let r1 : Bool × lockstep_t :=
      if ls.ls_task_type.TIME ∧ time_now > ls.ls_task_value + ls.ls_task_base_value then
        (true, ls_task_fire ls time_now)
      else (false, ls)
    let r2 : Bool × lockstep_t :=
      if r1.2.ls_task_type.OP ∧ q.my_current_op ≥ r1.2.ls_task_value + r1.2.ls_task_base_value then
        (true, ls_task_fire r1.2 q.my_current_op)
      else r1
    let r3 : Bool × lockstep_t :=
      if r2.2.ls_task_type.PERCENT ∧
          q.my_current_op ≥ (r2.2.ls_task_value * r2.2.ls_task_base_value) * q.target_ops then
        (true, ls_task_fire r2.2 (r2.2.ls_task_base_value + 1))
      else r2
    if r3.2.ls_task_type.BYTES ∧
        q.my_current_bytes_xfered ≥ r3.2.ls_task_value + int64_cast r3.2.ls_task_base_value then
      (true, ls_task_fire r3.2 q.my_current_bytes_xfered)
    else r3
  else (true, ls)

/-- The sequence "unlock, enter the slave-side barrier, toggle the slave index,
bump the loop counter" of lines 285-288, 299-302 and 312-315. -/
def ls_slave_rendezvous (l : Nat) (ls : lockstep_t) (w : World) : World :=
  let w1 := (w.setLockstep l ls).emit (.mutex_unlock l ls.ls_task_counter)
  let w2 := w1.emit (.barrier (.lock_step l ls.Lock_Step_Barrier_Slave_Index))
  w2.setLockstep l
    { ls with Lock_Step_Barrier_Slave_Index := ls.Lock_Step_Barrier_Slave_Index ^^^ 1,
              ls_slave_loop_counter := ls.ls_slave_loop_counter + 1 }

/-- The plain `pthread_mutex_unlock(&lsp->ls_mutex)` with the block written back. -/
def ls_slave_unlock (l : Nat) (ls : lockstep_t) (w : World) : World :=
  (w.setLockstep l ls).emit (.mutex_unlock l ls.ls_task_counter)

/-- The drain of lines 282-291 and 296-305, taken once the master has finished. -/
def ls_slave_drain (l : Nat) (ls : lockstep_t) (w : World) : World :=
  let ls1 := { ls with ls_ms_state := { ls.ls_ms_state with LS_SLAVE_WAITING := false } }
  if ls1.ls_ms_state.LS_MASTER_WAITING then
    ls_slave_rendezvous l
      { ls1 with ls_ms_state := { ls1.ls_ms_state with LS_MASTER_WAITING := false } } w
  else ls_slave_unlock l ls1 w

/-- The slave half of the stage (lines 222-322); `p` is the caller, `q` its
`ptds_t` and `l` its lockstep block. -/
def lockstep_slave (p : Nat) (q : ptds_t) (l : Nat) (w : World) : Outcome Int :=
  match w.lockstep l with
  | none => .fault w
  | some ls =>
    if 0 ≤ ls.ls_master then
      let w1 := w.emit (.mutex_lock l)
      let w2 := if 0 < ls.ls_task_counter ∧ ls.ls_task_type.TIME then w1.tick else w1
      let r := ls_task_check q ls w1.now
      let ls1 := r.2
      if r.1 then
        if ls1.ls_ms_state.LS_MASTER_FINISHED ∧ ls1.ls_ms_state.LS_SLAVE_COMPLETE then
          .ret 0 (ls_slave_drain l ls1 w2)
        else if ls1.ls_ms_state.LS_MASTER_FINISHED ∧ ls1.ls_ms_state.LS_SLAVE_STOP then
          .ret 1 ((ls_slave_drain l ls1 w2).setPtds p { q with my_pass_ring := TRUE })
        else
          let ls2 := { ls1 with ls_ms_state :=
            { ls1.ls_ms_state with LS_MASTER_WAITING := false, LS_SLAVE_WAITING := true } }
          .ret 0 (ls_slave_rendezvous l ls2 w2)
      else .ret 0 (ls_slave_unlock l ls1 w2)
    else .ret 0 w

/-- The stage `xdd_lockstep_before_io_operation`. -/
def xdd_lockstep_before_io_operation (p : Nat) (w : World) : Outcome Int :=
  match w.ptds p with
  | none => .fault w
  | some q =>
    match q.lsp with
    | none => .ret 0 w
    | some l => (lockstep_master q l w).andThen fun _ w1 => lockstep_slave p q l w1

/-! ## Direct I/O check (lines 335-382) -/

/-- The conversion `(unsigned int) x`. -/
def uint32_cast (x : Int) : Int := x % 2 ^ 32

/-- The alignment test of lines 352-359: `1` when the short last operation does
not fit direct I/O, `0` otherwise. -/
def dio_status (q : ptds_t) (pagesize : Int) : Int :=
  if q.my_current_op = q.target_ops - 1 ∧ q.last_iosize ≠ 0 then
    if q.last_iosize.tmod pagesize ≠ 0 ∨ q.my_current_byte_location.tmod pagesize ≠ 0 then 1
    else 0
  else 0

/-- The stage `xdd_dio_before_io_operation`.  `xdd_open_target` is the scripted
call `World.open_fd`; the event records the DIO bit the target has when it is
called. -/
def xdd_dio_before_io_operation (p : Nat) (w : World) : Outcome Unit :=
  match w.ptds p with
  | none => .fault w
  | some q =>
    if !q.target_options.TO_DIO then .ret () w
    else if q.target_options.TO_SGIO then .ret () w
    else if dio_status q w.pagesize = 0 then .ret () w
    else
      let q1 := { q with target_options := { q.target_options with TO_DIO := false } }
      let w1 := (w.emit (.close q.fd)).emit (.open_target p q1.target_options.TO_DIO)
      let q2 := { q1 with fd := w.open_fd w.opens }
      let w2 := { w1 with opens := w.opens + 1 }
      let w3 := if uint32_cast q2.fd = uint32_cast (-1) then { w2 with abort_io := 1 } else w2
      let q3 :=
        if w.passes > 1 then { q2 with target_options := { q2.target_options with TO_DIO := true } }
        else q2
      .ret () (w3.setPtds p q3)

/-! ## Read-after-write (lines 387-476) -/

/-- How a receive loop of the read-after-write stage ends. -/
structure raw_run where
  blocked : Bool
  rawp : raw_t
  stats : List stat_t
  msgs : List raw_recv_t
deriving DecidableEq

/-- The body of the polling loop (lines 413-430) for one `fstat` result. -/
def raw_stat_iteration (q : ptds_t) (r : raw_t) (st : stat_t) : raw_t :=
  if st.status < 0 then { r with raw_data_ready := q.iosize }
  else
    let r1 := { r with raw_data_ready := st.st_size - q.my_current_byte_location }
    if r1.raw_data_ready < 0 then { r1 with raw_data_ready := q.iosize } else r1

/-- The polling loop of lines 410-431 over the scripted `fstat` results. -/
def raw_stat_loop (q : ptds_t) (msgs : List raw_recv_t) : List stat_t → raw_t → raw_run
  | [], r =>
    if r.raw_data_ready < q.iosize then ⟨true, r, [], msgs⟩ else ⟨false, r, [], msgs⟩
  | st :: rest, r =>
    if r.raw_data_ready < q.iosize then raw_stat_loop q msgs rest (raw_stat_iteration q r st)
    else ⟨false, r, st :: rest, msgs⟩

/-- The body of the message loop (lines 435-470) for one notification: the block
afterwards. -/
def raw_msg_iteration (r : raw_t) (m : raw_recv_t) : raw_t :=
  let r1 := { r with raw_msg := m.msg }
  if r1.raw_msg_last_sequence ≠ 0 ∧ r1.raw_msg.location ≤ r1.raw_prev_loc then r1
  else
    let r2 :=
      if r1.raw_msg_last_sequence = 0 then
        { r1 with raw_prev_loc := r1.raw_msg.location, raw_prev_len := 0 }
      else r1
    let r3 := { r2 with raw_msg_last_sequence := r2.raw_msg_last_sequence + 1 }
    let r4 := { r3 with raw_data_length :=
      (r3.raw_msg.location + r3.raw_msg.length) - (r3.raw_prev_loc + r3.raw_prev_len) }
    let r5 := { r4 with raw_data_ready := r4.raw_data_ready + r4.raw_data_length }
    { r5 with raw_prev_loc := r5.raw_msg.location, raw_prev_len := r5.raw_data_length }

/-- The message loop of lines 433-471 over the scripted notifications. -/
def raw_msg_loop (q : ptds_t) (stats : List stat_t) : List raw_recv_t → raw_t → raw_run
  | [], r =>
    if r.raw_data_ready < q.iosize then ⟨true, r, stats, []⟩ else ⟨false, r, stats, []⟩
  | m :: rest, r =>
    if r.raw_data_ready < q.iosize then raw_msg_loop q stats rest (raw_msg_iteration r m)
    else ⟨false, r, stats, m :: rest⟩

/-- The stage `xdd_raw_before_io_operation`. -/
def xdd_raw_before_io_operation (p : Nat) (w : World) : Outcome Unit :=
  match w.ptds p with
  | none => .fault w
  | some q =>
    match q.rawp with
    | none => .ret () w
    | some r =>
      if q.target_options.TO_READAFTERWRITE ∧ q.target_options.TO_RAW_READER then
        let run :=
          if r.PTDS_RAW_STAT then raw_stat_loop q w.raw_msgs w.stat_results r
          else raw_msg_loop q w.stat_results w.raw_msgs r
        let w1 := ({ w with stat_results := run.stats, raw_msgs := run.msgs }).setPtds p
          { q with rawp := some run.rawp }
        if run.blocked then .blocked w1 else .ret () w1
      else .ret () w

/-! ## End-to-end destination (lines 482-610) -/

/-- The part of the state that the receive loop of the destination works on. -/
structure e2e_state where
  q : ptds_t
  ep : e2e_t
  clock_reads : Nat
deriving DecidableEq

/-- What one pass through the body of the receive loop does with a message. -/
inductive e2e_iter where
  | failed (s : e2e_state)
  | stale (s : e2e_state)
  | accepted (s : e2e_state)
  | short_tail (s : e2e_state)
deriving DecidableEq

/-- The state an iteration leaves. -/
def e2e_iter.state : e2e_iter → e2e_state
  | .failed s => s
  | .stale s => s
  | .accepted s => s
  | .short_tail s => s

/-- Lines 525-528: the call of `xdd_e2e_dest_wait` between two clock readings; the
delivery `r` lands in `e2e_msg` and `e2e_timedout`, the time spent is added to
`e2e_sr_time`. -/
def e2e_dest_wait (clock : Nat → Int) (s : e2e_state) (r : e2e_recv_t) : e2e_state :=
  let beg_time_tmp := clock s.clock_reads
  let ep1 := { s.ep with e2e_msg := r.msg, e2e_timedout := r.timedout }
  let end_time_tmp := clock (s.clock_reads + 1)
  { q := s.q,
    ep := { ep1 with e2e_sr_time := ep1.e2e_sr_time + (end_time_tmp - beg_time_tmp) },
    clock_reads := s.clock_reads + 2 }

/-- Lines 552-553: an end-of-transmission frame rings the pass. -/
def e2e_mark_ring (K : xdd_h) (q : ptds_t) (ep : e2e_t) : ptds_t :=
  if ep.e2e_msg.magic = K.PTDS_E2E_MAGIQ then { q with my_pass_ring := 1 } else q

/-- Lines 573-576 and 585-592: the counters of an accepted message. -/
def e2e_credit (ep : e2e_t) : e2e_t :=
  let ep3 :=
    if ep.e2e_msg_last_sequence = 0 then
      { ep with e2e_prev_loc := ep.e2e_msg.location, e2e_prev_len := 0 }
    else ep
  let ep4 := { ep3 with e2e_msg_last_sequence := ep3.e2e_msg_last_sequence + 1 }
  let ep5 := { ep4 with e2e_data_length := ep4.e2e_msg.length }
  let ep6 := { ep5 with e2e_data_ready := ep5.e2e_data_ready + ep5.e2e_data_length }
  { ep6 with e2e_prev_loc := ep6.e2e_msg.location, e2e_prev_len := ep6.e2e_data_length }

/-- Lines 598: the short last operation takes the length of the message. -/
def e2e_shrink (q : ptds_t) (ep : e2e_t) : ptds_t :=
  { q with iosize := ep.e2e_msg.length }

/-- The body of the receive loop (lines 525-600) for one delivery `r` of
`xdd_e2e_dest_wait`. -/
def e2e_iteration (K : xdd_h) (clock : Nat → Int) (s : e2e_state) (r : e2e_recv_t) : e2e_iter :=
  let s2 := e2e_dest_wait clock s r
  if r.status = K.FAILED then .failed s2
  else if s2.ep.e2e_msg.sequence ≠ s2.ep.e2e_msg_last_sequence ∧
      s2.ep.e2e_msg.magic ≠ K.PTDS_E2E_MAGIQ then
    .failed s2
  else
    let q3 := e2e_mark_ring K s2.q s2.ep
    if s2.ep.e2e_timedout then .failed ⟨q3, s2.ep, s2.clock_reads + 1⟩
    else if s2.ep.e2e_msg_last_sequence ≠ 0 ∧ s2.ep.e2e_msg.location ≤ s2.ep.e2e_prev_loc then
      .stale ⟨q3, s2.ep, s2.clock_reads⟩
    else
      let ep7 := e2e_credit s2.ep
      if q3.my_current_op = q3.target_ops - 1 ∧ ep7.e2e_msg.length < q3.iosize then
        .short_tail ⟨e2e_shrink q3 ep7, ep7, s2.clock_reads⟩
      else .accepted ⟨q3, ep7, s2.clock_reads⟩

/-- How the receive loop was left. -/
inductive e2e_ending where
  | failed
  | completed
  | blocked
deriving DecidableEq

/-- A run of the receive loop: how it ended, the state it left, the deliveries not
consumed, and (for reference in the properties) every delivery received, in
order, paired with the state held just before it was received. -/
structure e2e_run where
  ending : e2e_ending
  final : e2e_state
  rest : List e2e_recv_t
  received : List (e2e_state × e2e_recv_t)
deriving DecidableEq

/-- The receive loop of lines 523-601 over the scripted deliveries. -/
def e2e_loop (K : xdd_h) (clock : Nat → Int) : List e2e_recv_t → e2e_state → e2e_run
  | [], s =>
    if s.ep.e2e_data_ready < s.q.iosize then ⟨.blocked, s, [], []⟩
    else ⟨.completed, s, [], []⟩
  | r :: rest, s =>
    if s.ep.e2e_data_ready < s.q.iosize then
      match e2e_iteration K clock s r with
      | .failed s1 => ⟨.failed, s1, rest, [(s, r)]⟩
      | .short_tail s1 => ⟨.completed, s1, rest, [(s, r)]⟩
      | .stale s1 =>
        let run := e2e_loop K clock rest s1
        { run with received := (s, r) :: run.received }
      | .accepted s1 =>
        let run := e2e_loop K clock rest s1
        { run with received := (s, r) :: run.received }
    else ⟨.completed, s, r :: rest, []⟩

/-- The state of the world once the receive loop has been left. -/
def e2e_commit (p : Nat) (w : World) (run : e2e_run) : World :=
  ({ w with clock_reads := run.final.clock_reads, e2e_msgs := run.rest }).setPtds p
    { run.final.q with e2ep := some run.final.ep }

/-- Line 605: the location of the operation is the one of the message in `e2e_msg`. -/
def e2e_relocate (run : e2e_run) : e2e_run :=
  { run with final :=
    { run.final with q :=
      { run.final.q with my_current_byte_location := run.final.ep.e2e_msg.location } } }

/-- What the stage returns once the loop is left: `FAILED` from the two `return`
statements inside the loop, else `SUCCESS` after line 605. -/
def e2e_finish (K : xdd_h) (p : Nat) (w : World) (run : e2e_run) : Outcome Int :=
  match run.ending with
  | .blocked => .blocked (e2e_commit p w run)
  | .failed => .ret K.FAILED (e2e_commit p w run)
  | .completed => .ret K.SUCCESS (e2e_commit p w (e2e_relocate run))

/-- The stage `xdd_e2e_before_io_operation`. -/
def xdd_e2e_before_io_operation (K : xdd_h) (p : Nat) (w : World) : Outcome Int :=
  match w.ptds p with
  | none => .fault w
  | some q =>
    if !q.target_options.TO_ENDTOEND then .ret K.SUCCESS w
    else if q.target_options.TO_E2E_SOURCE then .ret K.SUCCESS w
    else
      match q.e2ep with
      | none => .ret K.SUCCESS w
      | some ep => e2e_finish K p w (e2e_loop K w.clock w.e2e_msgs ⟨q, ep, w.clock_reads⟩)

/-- The deliveries received during a call of the stage, in order, each paired with
the state held just before it was received (none when the stage does not reach
its receive loop). -/
def e2e_received (K : xdd_h) (p : Nat) (w : World) : List (e2e_state × e2e_recv_t) :=
  match w.ptds p with
  | none => []
  | some q =>
    if !q.target_options.TO_ENDTOEND then []
    else if q.target_options.TO_E2E_SOURCE then []
    else
      match q.e2ep with
      | none => []
      | some ep => (e2e_loop K w.clock w.e2e_msgs ⟨q, ep, w.clock_reads⟩).received

/-- The failing condition of a delivery as the specification words it: the receive
primitive failed, or the frame is not an end-of-transmission frame and its
sequence differs from the expected one, or the timed-out flag is set. -/
def e2e_msg_fails (K : xdd_h) (s : e2e_state) (r : e2e_recv_t) : Prop :=
  r.status = K.FAILED ∨
    (r.msg.magic ≠ K.PTDS_E2E_MAGIQ ∧ r.msg.sequence ≠ s.ep.e2e_msg_last_sequence) ∨
    r.timedout = true

/-- The counters that a failing delivery must leave alone: `q` and `ep` carry the
values that the state `s` had for `data_ready`, the expected sequence, `prev_loc`,
`prev_len`, the I/O size and the byte location. -/
def e2e_same_credit (s : e2e_state) (q : ptds_t) (ep : e2e_t) : Prop :=
  ep.e2e_data_ready = s.ep.e2e_data_ready ∧
  ep.e2e_msg_last_sequence = s.ep.e2e_msg_last_sequence ∧
  ep.e2e_prev_loc = s.ep.e2e_prev_loc ∧
  ep.e2e_prev_len = s.ep.e2e_prev_len ∧
  q.iosize = s.q.iosize ∧
  q.my_current_byte_location = s.q.my_current_byte_location

/-- Whether the loop body accepts the delivery, that is, reaches the credit of
lines 585-592. -/
def e2e_is_accepted (K : xdd_h) (clock : Nat → Int) (e : e2e_state × e2e_recv_t) : Bool :=
  match e2e_iteration K clock e.1 e.2 with
  | .accepted _ => true
  | .short_tail _ => true
  | _ => false

/-- The accepted deliveries of a call of the stage, in order. -/
def e2e_accepted (K : xdd_h) (p : Nat) (w : World) : List (e2e_state × e2e_recv_t) :=
  (e2e_received K p w).filter (e2e_is_accepted K w.clock)

/-! ## Timestamps (lines 616-647) -/

/-- The stage `xdd_ts_before_io_operation`. -/
def xdd_ts_before_io_operation (p : Nat) (w : World) : Outcome Unit :=
  match w.ptds p with
  | none => .fault w
  | some q =>
    match q.tsp with
    | none => .ret () w
    | some ts =>
      if !ts.ts_options.TS_ON then .ret () w
      else
        let tt := w.now
        let w1 := w.tick
        if ts.ts_options.TS_TRIGGERED ∨ ts.ts_options.TS_ALL ∨
            (ts.ts_options.TS_TRIGTIME ∧ tt ≥ ts.ts_trigtime) ∨
            (ts.ts_options.TS_TRIGOP ∧ ts.ts_trigop = q.my_current_op) then
          let ts1 := { ts with ts_options := { ts.ts_options with TS_TRIGGERED := true } }
          let w2 := w1.setPtds p { q with tsp := some ts1 }
          match ts1.ttp, q.seekhdr.seek q.my_current_op with
          | some hdr, some sk =>
            let indx := hdr.tte_indx
            if 0 ≤ indx ∧ indx.toNat < hdr.tte.length then
              let rec_ : tte_t :=
                { rwvop := sk.operation, pass := q.my_current_pass_number,
                  byte_location := q.my_current_byte_location, opnumber := q.my_current_op,
                  start := tt }
              let ts2 := { ts1 with ttp := some { hdr with tte := hdr.tte.set indx.toNat rec_ },
                                    timestamps := ts1.timestamps + 1 }
              .ret () (w1.setPtds p { q with tsp := some ts2 })
            else .fault w2
          | _, _ => .fault w2
        else .ret () w1

/-! ## Throttle (lines 654-695, the LINUX build) -/

/-- The stage `xdd_throttle_before_io_operation`.  In the LINUX build the `if` of
line 683, which has no braces, is followed by the `fprintf` of line 687: the test
of `sleep_time_dw * CLK_TCK` decides about that output only, which leaves no trace
here, and the `usleep` of line 688 is the statement after it. -/
def xdd_throttle_before_io_operation (K : xdd_h) (p : Nat) (w : World) : Outcome Unit :=
  match w.ptds p with
  | none => .fault w
  | some q =>
    if q.throttle ≤ 0 then .ret () w
    else
      let now := w.now
      let w1 := w.tick
      if q.PTDS_THROTTLE_DELAY then .ret () w1
      else
        let now1 := now - q.my_pass_start_time
        match q.seekhdr.seek q.my_current_op with
        | none => .fault w1
        | some sk =>
          if now1 < sk.time1 then
            let sleep_time := (sk.time1 - now1).tdiv K.BILLION
            if sleep_time > 0 then
              let sleep_time_dw := int32_cast sleep_time
              .ret () (w1.emit (.usleep (sleep_time_dw * 1000)))
            else .ret () w1
          else .ret () w1

/-! ## The driver (lines 702-771) -/

/-- Lines 725-734: the break flag is cleared and the byte location of the
operation is taken from the seek table. -/
def seek_resolution (p : Nat) (w : World) : Outcome Unit :=
  match w.ptds p with
  | none => .fault w
  | some q =>
    let q1 := { q with my_error_break := 0 }
    match q1.seekhdr.seek (if q1.seekhdr.SO_SEEK_NONE then 0 else q1.my_current_op) with
    | none => .fault (w.setPtds p q1)
    | some sk =>
      let location :=
        uint64_cast (uint64_cast (q1.my_target_number * w.target_offset + sk.block_location) *
          q1.block_size)
      .ret () (w.setPtds p { q1 with my_current_byte_location := location })

/-- Lines 706-721 of the driver: syncio, start trigger and lockstep; the value is
the status of the lockstep stage. -/
def driver_to_lockstep (K : xdd_h) (p : Nat) (w : World) : Outcome Int :=
  (xdd_syncio_before_io_operation p w).andThen fun _ w1 =>
  (xdd_start_trigger_before_io_operation K p w1).andThen fun _ w2 =>
  xdd_lockstep_before_io_operation p w2

/-- Lines 725-749 of the driver: seek resolution, direct I/O check, read-after-write
and end-to-end; the value is the status of the end-to-end stage. -/
def driver_to_e2e (K : xdd_h) (p : Nat) (w : World) : Outcome Int :=
  (seek_resolution p w).andThen fun _ w4 =>
  (xdd_dio_before_io_operation p w4).andThen fun _ w5 =>
  (xdd_raw_before_io_operation p w5).andThen fun _ w6 =>
  xdd_e2e_before_io_operation K p w6

/-- Lines 757-765 of the driver: timestamp and throttle. -/
def driver_tail (K : xdd_h) (p : Nat) (w : World) : Outcome Unit :=
  (xdd_ts_before_io_operation p w).andThen fun _ w8 =>
  xdd_throttle_before_io_operation K p w8

/-- The driver `xdd_io_loop_before_io_operation`.  The expression statement
`xgp->abort_io;` of line 753 has no effect and leaves no trace here. -/
def xdd_io_loop_before_io_operation (K : xdd_h) (p : Nat) (w : World) : Outcome Int :=
  (driver_to_lockstep K p w).andThen fun status w3 =>
  if status ≠ 0 then .ret K.FAILED w3
  else
    (driver_to_e2e K p w3).andThen fun status2 w7 =>
    if status2 = K.FAILED then .ret K.FAILED w7
    else (driver_tail K p w7).andThen fun _ w9 => .ret K.SUCCESS w9

/-! ## Properties of traces and of the heaps -/

/-- The value a call returned, if it returned. -/
def Outcome.value? {α : Type} : Outcome α → Option α
  | .ret a _ => some a
  | .blocked _ => none
  | .fault _ => none

/-- The mutex discipline of a trace, scanned from the left with the mutex held so
far and whether the last event released it: a lock is taken only when none is
held, an unlock releases the mutex held, a barrier is entered only right after
the release and with no mutex held, and no mutex is held at the end. -/
def mutex_discipline : Option Nat → Bool → List Event → Bool
  | held, _, [] => held.isNone
  | none, _, .mutex_lock l :: es => mutex_discipline (some l) false es
  | some _, _, .mutex_lock _ :: _ => false
  | some l, _, .mutex_unlock l1 _ :: es => decide (l = l1) && mutex_discipline none true es
  | none, _, .mutex_unlock _ _ :: _ => false
  | none, true, .barrier _ :: es => mutex_discipline none false es
  | none, false, .barrier _ :: _ => false
  | some _, _, .barrier _ :: _ => false
  | held, _, .close _ :: es => mutex_discipline held false es
  | held, _, .open_target _ _ :: es => mutex_discipline held false es
  | held, _, .usleep _ :: es => mutex_discipline held false es

/-- The shapes of what one half of the lockstep stage appends to the trace. -/
inductive ls_events : List Event → Prop where
  | none : ls_events []
  | locked (l : Nat) (c : Int) : ls_events [.mutex_lock l, .mutex_unlock l c]
  | rendezvous (l : Nat) (c : Int) (b : Barrier) :
      ls_events [.mutex_lock l, .mutex_unlock l c, .barrier b]

/-- The heaps after a step on the lockstep block at `lb`, compared with the heaps
of `w` where the block was `s`: the `ptds_t` heap and the target table are the
same, every other lockstep block is the same, and the block at `lb` has the task
counter `c` and still the roles, the task type and the `MASTER_FINISHED` and
`SLAVE_COMPLETE` flags of `s`. -/
def ls_block_step (lb : Nat) (w : World) (s : lockstep_t) (c : Int) (w1 : World) : Prop :=
  w1.ptds = w.ptds ∧ w1.ptdsp = w.ptdsp ∧ (∀ l, l ≠ lb → w1.lockstep l = w.lockstep l) ∧
  ∃ s1, w1.lockstep lb = some s1 ∧ s1.ls_task_counter = c ∧
    s1.ls_master = s.ls_master ∧ s1.ls_slave = s.ls_slave ∧
    s1.ls_task_type = s.ls_task_type ∧
    s1.ls_ms_state.LS_MASTER_FINISHED = s.ls_ms_state.LS_MASTER_FINISHED ∧
    s1.ls_ms_state.LS_SLAVE_COMPLETE = s.ls_ms_state.LS_SLAVE_COMPLETE

/-- The global abort flag and the `my_error_break` flag of every worker are in
`w1` what they are in `w`. -/
def keeps_flags (w w1 : World) : Prop :=
  w1.abort_io = w.abort_io ∧
  ∀ p q, w.ptds p = some q → ∃ q1, w1.ptds p = some q1 ∧ q1.my_error_break = q.my_error_break

/-! ## Runs of a master/slave pair -/

/-- The number of task types configured. -/
def ls_types_t.count (t : ls_types_t) : Nat :=
  t.TIME.toNat + t.OP.toNat + t.PERCENT.toNat + t.BYTES.toNat

/-- A master worker, a slave worker and the slave's lockstep block. -/
structure ls_pair where
  master : Nat
  slave : Nat
  block : Nat

/-- The steps of a run of a pair: a call of the lockstep stage by the master worker
or by the slave worker, at the operation number and byte count given, and the
master's announcement of its end.  The critical sections of the stage are
serialised by the slave's mutex, so a run is a sequence of whole calls. -/
inductive ls_step where
  | master_call (op bytes : Int)
  | slave_call (op bytes : Int)
  | master_finished

/-- Whether the step is a call by the slave. -/
def ls_step.is_slave_call : ls_step → Bool
  | .slave_call _ _ => true
  | _ => false

/-- Modelled from the spec: between two calls the I/O loop, which is not among the
sources at hand, moves the worker at `p` to its operation `op` with `bytes`
transferred. -/
def World.advance (w : World) (p : Nat) (op bytes : Int) : World :=
  match w.ptds p with
  | some q => w.setPtds p { q with my_current_op := op, my_current_bytes_xfered := bytes }
  | none => w

/-- Modelled from the spec: the master announces its end by setting
`MASTER_FINISHED | SLAVE_COMPLETE` in the `ls_ms_state` of the slave's block `l`;
the code that does so is not among the sources at hand. -/
def master_finished (w : World) (l : Nat) : World :=
  match w.lockstep l with
  | some ls => w.setLockstep l { ls with ls_ms_state :=
      { ls.ls_ms_state with LS_MASTER_FINISHED := true, LS_SLAVE_COMPLETE := true } }
  | none => w

/-- The task counter of the block at `l`. -/
def ls_task_counter_at (w : World) (l : Nat) : Int :=
  match w.lockstep l with
  | some ls => ls.ls_task_counter
  | none => 0

/-- The books of a run: the state reached, the pings made (increments of the
slave's task counter by master calls), the task fires (decrements of it by slave
calls) and what each slave call returned. -/
structure ls_tally where
  world : World
  pings : Int
  fires : Int
  slave_codes : List (Option Int)

/-- One step of a run. -/
def ls_run_step (c : ls_pair) (t : ls_tally) : ls_step → ls_tally
  | .master_call op bytes =>
    let w0 := t.world.advance c.master op bytes
    let w1 := (xdd_lockstep_before_io_operation c.master w0).world
    { t with world := w1,
             pings := t.pings + (ls_task_counter_at w1 c.block - ls_task_counter_at w0 c.block) }
  | .slave_call op bytes =>
    let w0 := t.world.advance c.slave op bytes
    let o := xdd_lockstep_before_io_operation c.slave w0
    { world := o.world, pings := t.pings,
      fires := t.fires + (ls_task_counter_at w0 c.block - ls_task_counter_at o.world c.block),
      slave_codes := t.slave_codes ++ [o.value?] }
  | .master_finished => { t with world := master_finished t.world c.block }

/-- A run: the steps taken in order. -/
def ls_run (c : ls_pair) : List ls_step → ls_tally → ls_tally
  | [], t => t
  | st :: rest, t => ls_run c rest (ls_run_step c t st)

/-- A pair set up for lockstep: the master worker has a block of its own that
names the slave's target, whose table entry leads to the slave's block; the slave
worker has the block `c.block`, which names a master, has at most one task type
configured and a task counter that is not negative, and in which
`MASTER_FINISHED` is set only together with `SLAVE_COMPLETE`. -/
def ls_pair_ready (c : ls_pair) (w : World) : Prop :=
  (∃ qm lm m p2 q2, w.ptds c.master = some qm ∧ qm.lsp = some lm ∧ lm ≠ c.block ∧
    w.lockstep lm = some m ∧ m.ls_master < 0 ∧ 0 ≤ m.ls_slave ∧
    w.target m.ls_slave = some p2 ∧ w.ptds p2 = some q2 ∧ q2.lsp = some c.block) ∧
  (∃ qs s, w.ptds c.slave = some qs ∧ qs.lsp = some c.block ∧
    w.lockstep c.block = some s ∧ 0 ≤ s.ls_master ∧ s.ls_slave < 0 ∧
    s.ls_task_type.count ≤ 1 ∧ 0 ≤ s.ls_task_counter ∧
    (s.ls_ms_state.LS_MASTER_FINISHED = true → s.ls_ms_state.LS_SLAVE_COMPLETE = true))

/-! ## Sample states -/

/-- Sample values for the constants of `xdd.h`. -/
def sample_h : xdd_h :=
  { SUCCESS := 1, FAILED := 0, PTDS_E2E_MAGIQ := 119544160, BILLION := 1000000000, CLK_TCK := 100 }

/-- A worker at operation `op` of a pass of four operations of 4096 bytes, with no
option set and no block attached. -/
def sample_ptds (op : Int) : ptds_t :=
  { my_target_number := 0,
    target_options := ⟨false, false, false, false, false, false, false, 0⟩,
    run_status := 1, my_current_op := op, target_ops := 4, my_current_bytes_xfered := 4096 * op,
    my_current_pass_number := 1, my_pass_start_time := 0, my_pass_ring := 0,
    my_error_break := 0, my_current_byte_location := 0, block_size := 1024, iosize := 4096,
    last_iosize := 0, fd := 3, syncio_barrier_index := 0,
    seekhdr := ⟨false, [⟨0, 0, 0⟩, ⟨4, 0, 0⟩, ⟨8, 0, 0⟩, ⟨12, 0, 0⟩]⟩,
    throttle := 0, PTDS_THROTTLE_DELAY := false,
    tgp := none, lsp := none, rawp := none, e2ep := none, tsp := none }

/-- A world with one target, nothing on the heaps and a clock that advances by 10
at each reading. -/
def sample_world : World :=
  { syncio := 0, number_of_targets := 1, passes := 1, target_offset := 0, abort_io := 0,
    ptdsp := fun _ => none, ptds := fun _ => none, lockstep := fun _ => none,
    trigger := fun _ => none, pagesize := 4096, clock := fun n => 10 * (n : Int),
    clock_reads := 0, open_fd := fun _ => 5, opens := 0, stat_results := [], raw_msgs := [],
    e2e_msgs := [], trace := [] }

/-- An end-to-end block that expects the sequence number `seq`, with `ready`
bytes credited and the last accepted message at `prev_loc`. -/
def sample_e2e (seq prev_loc ready : Int) : e2e_t :=
  { e2e_data_ready := ready, e2e_msg := ⟨0, 0, 0, 0⟩, e2e_msg_last_sequence := seq,
    e2e_prev_loc := prev_loc, e2e_prev_len := 0, e2e_data_length := 0, e2e_sr_time := 0,
    e2e_timedout := false }

/-- A destination worker at operation `op` with the end-to-end block `ep`. -/
def sample_dest (op : Int) (ep : e2e_t) : ptds_t :=
  { sample_ptds op with
    target_options := ⟨false, false, false, false, false, true, false, 0⟩, e2ep := some ep }

/-- The world of the destination worker `q` (at address 0) with the deliveries
`msgs` waiting on its socket. -/
def sample_dest_world (q : ptds_t) (msgs : List e2e_recv_t) : World :=
  { sample_world with ptds := fun i => if i = 0 then some q else none, e2e_msgs := msgs }

/-- A successful delivery of a data frame. -/
def data_frame (seq loc len : Int) : e2e_recv_t :=
  { status := 1, msg := ⟨119544153, seq, loc, len⟩, timedout := false }

/-- A successful delivery of an end-of-transmission frame. -/
def magiq_frame (seq loc len : Int) : e2e_recv_t :=
  { status := 1, msg := ⟨119544160, seq, loc, len⟩, timedout := false }

/-- Two frames for the first operation of a fresh destination: the first in
sequence, the second out of sequence. -/
def e2e_sequence_error_world : World :=
  sample_dest_world (sample_dest 0 (sample_e2e 0 0 0)) [data_frame 0 0 1024, data_frame 5 1024 4096]

/-- A fresh destination receives a single data frame with sequence number 0 at
location 0. -/
def e2e_first_frame_world : World :=
  sample_dest_world (sample_dest 0 (sample_e2e 0 0 0)) [data_frame 0 0 4096]

/-- A destination whose expected sequence is 1 receives an end-of-transmission
frame with sequence number 9. -/
def e2e_magiq_first_world : World :=
  sample_dest_world (sample_dest 0 (sample_e2e 1 0 0)) [magiq_frame 9 4096 4096]

/-- A fresh destination receives two data frames in sequence. -/
def e2e_two_frames_world : World :=
  sample_dest_world (sample_dest 0 (sample_e2e 0 0 0)) [data_frame 0 0 1024, data_frame 1 1024 4096]

/-- The last operation of the pass, five messages accepted before, nothing
credited: an end-of-transmission frame with sequence 6 and 2048 bytes arrives. -/
def e2e_short_tail_world : World :=
  sample_dest_world (sample_dest 3 (sample_e2e 6 20480 0)) [magiq_frame 6 24576 2048]

/-- As `e2e_short_tail_world`, with 3000 bytes already credited. -/
def e2e_short_tail_credit_world : World :=
  sample_dest_world (sample_dest 3 (sample_e2e 6 20480 3000)) [magiq_frame 6 24576 2048]

/-- An end-of-transmission frame whose sequence number (99) is not the expected
one (6), on an operation that is not the last. -/
def e2e_magiq_mismatch_world : World :=
  sample_dest_world (sample_dest 1 (sample_e2e 6 20480 0)) [magiq_frame 99 24576 4096]

/-- A lockstep block. -/
def sample_block (counter : Int) (interval task : ls_types_t) (state : ls_ms_state_t)
    (master slave : Int) : lockstep_t :=
  { ls_task_counter := counter, ls_interval_type := interval, ls_interval_value := 1,
    ls_interval_base_value := 0, ls_task_type := task, ls_task_value := 1,
    ls_task_base_value := 0, ls_ms_state := state, ls_master := master, ls_slave := slave,
    ls_slave_loop_counter := 0, Lock_Step_Barrier_Slave_Index := 0,
    Lock_Step_Barrier_Master_Index := 0 }

/-- Two targets in lockstep: the master worker at address 0 with the block `m`
at address 0, the slave worker at address 1, at its operation `op` of a pass of two,
with the block `s` at address 1. -/
def sample_pair_world (m s : lockstep_t) (op : Int) : World :=
  { sample_world with
    number_of_targets := 2,
    ptdsp := fun i => if i < 2 then some i else none,
    ptds := fun i =>
      if i = 0 then some { sample_ptds 0 with lsp := some 0 }
      else if i = 1 then
        some { sample_ptds op with my_target_number := 1, target_ops := 2, lsp := some 1 }
      else none,
    lockstep := fun i => if i = 0 then some m else if i = 1 then some s else none }

/-- No bit of `ls_ms_state` set. -/
def ls_idle : ls_ms_state_t := ⟨false, false, false, false, false, 0⟩

/-- The block of a master of target 1 that pings every operation. -/
def sample_master_block : lockstep_t :=
  sample_block 0 ⟨false, true, false, false⟩ ⟨false, false, false, false⟩ ls_idle (-1) 1

/-- The slave at operation 2 with one task pending and two task types configured,
operation count and byte count. -/
def ls_double_fire_world : World :=
  sample_pair_world sample_master_block
    (sample_block 1 ⟨false, false, false, false⟩ ⟨false, true, false, true⟩ ls_idle 0 (-1)) 2

/-- The slave with no task pending, its master finished and waiting, and told to
stop. -/
def ls_stop_world : World :=
  sample_pair_world sample_master_block
    (sample_block 0 ⟨false, false, false, false⟩ ⟨false, true, false, false⟩
      ⟨false, false, true, true, true, 0⟩ 0 (-1)) 0

/-- The pair before the run: the slave has one task type (operation count) and no
task pending. -/
def ls_run_world : World :=
  sample_pair_world sample_master_block
    (sample_block 0 ⟨false, false, false, false⟩ ⟨false, true, false, false⟩ ls_idle 0 (-1)) 0

/-- The master runs its four operations, which makes three pings, and announces its
end; the slave then runs its pass of two operations. -/
def ls_run_steps : List ls_step :=
  [.master_call 0 0, .master_call 1 4096, .master_call 2 8192, .master_call 3 12288,
   .master_finished, .slave_call 0 0, .slave_call 1 4096]

/-- The master worker, the slave worker and the slave's block of `sample_pair_world`. -/
def sample_pair : ls_pair := ⟨0, 1, 1⟩

/-- The first delivery of `e2e_short_tail_world` with the state held before it. -/
def e2e_short_tail_entry : e2e_state × e2e_recv_t :=
  (⟨sample_dest 3 (sample_e2e 6 20480 0), sample_e2e 6 20480 0, 0⟩, magiq_frame 6 24576 2048)

/-- The first delivery of `e2e_magiq_mismatch_world` with the state held before it. -/
def e2e_magiq_mismatch_entry : e2e_state × e2e_recv_t :=
  (⟨sample_dest 1 (sample_e2e 6 20480 0), sample_e2e 6 20480 0, 0⟩, magiq_frame 99 24576 4096)

/-! ## Passes through the syncio stage -/

/-- The syncio barrier index of the worker at `p`. -/
def syncio_index_at (w : World) (p : Nat) : Nat :=
  match w.ptds p with
  | some q => q.syncio_barrier_index
  | none => 0

/-- The books of a pass through the syncio stage: the state reached, the events
the stage appended to the trace, each with the operation number at which it was
appended, and the number of calls that changed the worker's barrier index. -/
structure syncio_tally where
  world : World
  entries : List (Int × Event)
  toggles : Nat

/-- One operation of a pass: the worker at `p` is moved to the operation `op` and
calls the syncio stage. -/
def syncio_run_step (p : Nat) (bytes : Int → Int) (t : syncio_tally) (op : Int) : syncio_tally :=
  let w0 := t.world.advance p op (bytes op)
  let w1 := (xdd_syncio_before_io_operation p w0).world
  { world := w1,
    entries := t.entries ++ (w1.trace.drop w0.trace.length).map fun e => (op, e),
    toggles := t.toggles + if syncio_index_at w1 p = syncio_index_at w0 p then 0 else 1 }

/-- The worker at `p` runs the operations `ops` in order. -/
def syncio_run (p : Nat) (bytes : Int → Int) (ops : List Int) (t : syncio_tally) : syncio_tally :=
  ops.foldl (syncio_run_step p bytes) t

/-- The operations `0, ..., n - 1` of a pass. -/
def pass_ops (n : Nat) : List Int := (List.range n).map Int.ofNat

/-! ## The stopping condition of the polling loop -/

/-- The stopping condition of the polling loop as the specification words it: the
`fstat` fails, or reports a size below the byte location, or reports at least
`iosize` bytes beyond the byte location. -/
def raw_stat_stops (q : ptds_t) (st : stat_t) : Prop :=
  st.status < 0 ∨ st.st_size < q.my_current_byte_location ∨
    st.st_size - q.my_current_byte_location ≥ q.iosize

instance (q : ptds_t) (st : stat_t) : Decidable (raw_stat_stops q st) := by
  unfold raw_stat_stops
  infer_instance

/-! ## Sample states of the syncio, trigger, direct I/O and polling stages -/

/-- Two targets with a syncio period of 4; the worker at address 0 has a pass of
ten operations. -/
def syncio_sample_world : World :=
  { sample_world with
    syncio := 4, number_of_targets := 2,
    ptds := fun i => if i = 0 then some { sample_ptds 0 with target_ops := 10 } else none }

/-- A trigger block aimed at target 1, with an operation threshold of 5 and a byte
threshold of 1000. -/
def sample_trigger (types : trigger_types_t) : trigger_t :=
  { trigger_types := types, start_trigger_target := 1, start_trigger_time := 0,
    start_trigger_op := 5, start_trigger_percent := 0, start_trigger_bytes := 1000,
    Start_Trigger_Barrier_index := 0 }

/-- No trigger type configured. -/
def no_trigger_types : trigger_types_t := ⟨false, false, false, false, 0⟩

/-- Target A (worker and trigger block at address 0) at its operation `op`, with the
trigger types `types` aimed at target B (worker and trigger block at address 1),
which waits for a start and has the run status `status`. -/
def sample_trigger_world (types : trigger_types_t) (op : Int) (status : Int) : World :=
  { sample_world with
    number_of_targets := 2,
    ptdsp := fun i => if i < 2 then some i else none,
    ptds := fun i =>
      if i = 0 then some { sample_ptds op with target_ops := 10, tgp := some 0 }
      else if i = 1 then
        some { sample_ptds 0 with
          my_target_number := 1, run_status := status,
          target_options := ⟨true, false, false, false, false, false, false, 0⟩,
          tgp := some 1 }
      else none,
    trigger := fun i =>
      if i = 0 then some (sample_trigger types)
      else if i = 1 then some (sample_trigger no_trigger_types)
      else none }

/-- Only the operation threshold configured. -/
def start_op_only : trigger_types_t := ⟨false, true, false, false, 0⟩

/-- The operation threshold and the byte threshold configured. -/
def start_op_and_bytes : trigger_types_t := ⟨false, true, false, true, 0⟩

/-- A worker with direct I/O and a block size of 4096 at the last operation of its
pass, with the tail size `last` and the byte location `loc`. -/
def sample_dio_ptds (last loc : Int) : ptds_t :=
  { sample_ptds 3 with
    target_options := ⟨false, true, false, false, false, false, false, 0⟩,
    block_size := 4096, last_iosize := last, my_current_byte_location := loc }

/-- The world of `sample_dio_ptds`, with `passes` passes and an `xdd_open_target`
that returns `fd`; the page size is 4096. -/
def sample_dio_world (last loc passes fd : Int) : World :=
  { sample_world with
    passes := passes, open_fd := fun _ => fd,
    ptds := fun i => if i = 0 then some (sample_dio_ptds last loc) else none }

/-- A read-after-write block in polling mode with `ready` bytes known to be readable. -/
def sample_raw (ready : Int) : raw_t :=
  { PTDS_RAW_STAT := true, raw_data_ready := ready, raw_msg := ⟨0, 0, 0⟩,
    raw_msg_last_sequence := 0, raw_prev_loc := 0, raw_prev_len := 0, raw_data_length := 0 }

/-- A polling reader at the byte location 8192 with an I/O size of 4096. -/
def sample_reader (ready : Int) : ptds_t :=
  { sample_ptds 2 with
    target_options := ⟨false, false, false, true, true, false, false, 0⟩,
    my_current_byte_location := 8192, rawp := some (sample_raw ready) }

/-- The world of `sample_reader` with the `fstat` results `stats` to come. -/
def sample_reader_world (ready : Int) (stats : List stat_t) : World :=
  { sample_world with
    stat_results := stats,
    ptds := fun i => if i = 0 then some (sample_reader ready) else none }

/-- Three `fstat` results: 808 bytes beyond the byte location of `sample_reader`, a
failure, and a large file. -/
def sample_stats : List stat_t := [⟨0, 9000⟩, ⟨-1, 0⟩, ⟨0, 20000⟩]

/-- The worker of `sample_dio_world` once the driver has resolved its byte location:
operation 3 starts at block 12 of 4096 bytes. -/
def sample_dio_resolved (last : Int) : ptds_t := sample_dio_ptds last 49152

/-! ## The byte location of an operation -/

/-- The fields of a worker from which the driver computes the byte location of an
operation, and those that decide whether the end-to-end stage replaces it, are
in `q1` what they are in `q`. -/
def same_seek_inputs (q q1 : ptds_t) : Prop :=
  q1.my_target_number = q.my_target_number ∧ q1.block_size = q.block_size ∧
  q1.seekhdr = q.seekhdr ∧ q1.my_current_op = q.my_current_op ∧
  q1.target_options = q.target_options ∧ q1.e2ep = q.e2ep

/-- The step from `w` to `w1` leaves `target_offset` and the seek inputs of the
worker at `p` alone. -/
def keeps_seek_inputs (p : Nat) (w w1 : World) : Prop :=
  w1.target_offset = w.target_offset ∧
  ∀ q, w.ptds p = some q → ∃ q1, w1.ptds p = some q1 ∧ same_seek_inputs q q1

/-- The byte location, the end-to-end block and the end-to-end bits of the options
are in `q1` what they are in `q`. -/
def same_location (q q1 : ptds_t) : Prop :=
  q1.my_current_byte_location = q.my_current_byte_location ∧ q1.e2ep = q.e2ep ∧
  q1.target_options.TO_ENDTOEND = q.target_options.TO_ENDTOEND ∧
  q1.target_options.TO_E2E_SOURCE = q.target_options.TO_E2E_SOURCE

/-- Whether the worker receives as the destination of an end-to-end transfer: the
three tests of lines 494-501. -/
def e2e_destination (q : ptds_t) : Prop :=
  q.target_options.TO_ENDTOEND = true ∧ q.target_options.TO_E2E_SOURCE = false ∧ q.e2ep ≠ none

instance (q : ptds_t) : Decidable (e2e_destination q) := by
  unfold e2e_destination
  infer_instance

/-! ## Sample states of the message loop, the seek resolution, the timestamps and the throttle -/

/-- A read-after-write block in message mode that expects the sequence number
`seq`, with `ready` bytes credited and the last accepted notification at
`prev_loc` with the length `prev_len`. -/
def sample_raw_mp (seq prev_loc prev_len ready : Int) : raw_t :=
  { PTDS_RAW_STAT := false, raw_data_ready := ready, raw_msg := ⟨0, 0, 0⟩,
    raw_msg_last_sequence := seq, raw_prev_loc := prev_loc, raw_prev_len := prev_len,
    raw_data_length := prev_len }

/-- A worker at operation 1 with `SO_SEEK_NONE` set, at address 0 of a world with
nothing else. -/
def sample_noseek_world : World :=
  { sample_world with
    ptds := fun i =>
      if i = 0 then
        some { sample_ptds 1 with seekhdr := ⟨true, [⟨0, 0, 0⟩, ⟨4, 0, 0⟩, ⟨8, 0, 0⟩, ⟨12, 0, 0⟩]⟩ }
      else none }

/-- An empty slot of the timestamp table. -/
def blank_tte : tte_t := ⟨0, 0, 0, 0, 0⟩

/-- A timestamp block with the options `opts`, a table of two slots and the
insertion index 0. -/
def sample_ts (opts : ts_options_t) : timestamp_t :=
  { ts_options := opts, ts_trigtime := 0, ts_trigop := 2, timestamps := 0,
    ttp := some ⟨0, [blank_tte, blank_tte]⟩ }

/-- Timestamping on, recording every operation. -/
def ts_all : ts_options_t := ⟨true, false, true, false, false, 0⟩

/-- Timestamping on, armed at operation 2 (`ts_trigop` of `sample_ts`). -/
def ts_at_op : ts_options_t := ⟨true, false, false, false, true, 0⟩

/-- A worker at operation `op` with the timestamp block `sample_ts opts`, at
address 0. -/
def sample_ts_world (opts : ts_options_t) (op : Int) : World :=
  { sample_world with
    ptds := fun i => if i = 0 then some { sample_ptds op with tsp := some (sample_ts opts) }
      else none }

/-- The timestamp block of the worker at `p`. -/
def tsp_at (w : World) (p : Nat) : Option timestamp_t :=
  match w.ptds p with
  | some q => q.tsp
  | none => none

/-- The worker at `p` runs the timestamp stage at each of the operations `ops` in
order. -/
def ts_run (p : Nat) (ops : List Int) (w : World) : World :=
  ops.foldl (fun w1 op => (xdd_ts_before_io_operation p (w1.advance p op 0)).world) w

/-- A throttled worker at operation 0 whose schedule has the first operation due
at `time1`; `delay` selects the DELAY mode. -/
def sample_throttle_world (time1 : Int) (delay : Bool) : World :=
  { sample_world with
    ptds := fun i =>
      if i = 0 then
        some { sample_ptds 0 with
          throttle := 2, PTDS_THROTTLE_DELAY := delay,
          seekhdr := ⟨false, [⟨0, 0, time1⟩, ⟨4, 0, 0⟩, ⟨8, 0, 0⟩, ⟨12, 0, 0⟩]⟩ }
      else none }

/-! ## Target data (`target_data.c`)

The declarations of `xint.h` are not among the sources at hand: the fields are
integers, the explicit `(uint64_t)` of lines 159 and 161 and the `int32_t` of the
local `number_of_ports` are written out.  `tp` in lines 309 and 321, which is not
declared, is read as `tdp`. -/

/-- The restart block `td_restartp`. -/
structure restart_t where
  RESTART_FLAG_RESUME_COPY : Bool
  byte_offset : Int
deriving DecidableEq

/-- One entry of `e2e_address_table`. -/
structure e2e_address_t where
  base_port : Int
  port_count : Int
deriving DecidableEq

/-- The fields of the end-to-end block of a target that the builder of the
substructure uses; the list has one cell per slot of the address table. -/
structure td_e2e_t where
  e2e_address_table_host_count : Int
  e2e_address_table_port_count : Int
  e2e_address_table : List e2e_address_t
deriving DecidableEq

/-- The Target_Data structure `target_data_t`, restricted to the fields that
`target_data.c` computes with. -/
structure target_data_t where
  td_target_number : Int
  td_target_options : target_options_t
  td_reqsize : Int
  td_block_size : Int
  td_iosize : Int
  td_numreqs : Int
  td_bytes : Int
  td_start_offset : Int
  td_target_bytes_to_xfer_per_pass : Int
  td_target_ops : Int
  td_queue_depth : Int
  td_restartp : Option restart_t
  td_e2ep : Option td_e2e_t
  td_next_wdp : Option Nat
deriving DecidableEq

/-- The Worker_Data structure `worker_data_t`; `wd_tdp` is the number of the target
it points back to, `wd_tgtstp` whether the Target_State structure is attached. -/
structure worker_data_t where
  wd_tdp : Int
  wd_next_wdp : Option Nat
  wd_thread_number : Int
  wd_tgtstp : Bool
  wd_e2ep : Option td_e2e_t
deriving DecidableEq

/-- The plan `xdd_plan_t` with the Target_Data structures that `target_datap[]`
points to, the heap of Worker_Data structures (an address is a position in
`workers`), the number of allocation requests made so far and the global
`xgp->abort`. -/
structure xdd_plan_t where
  number_of_targets : Int
  number_of_iothreads : Int
  target_datap : List target_data_t
  workers : List worker_data_t
  allocations : Nat
  abort : Int
deriving DecidableEq

/-- How a call of a builder ends: it returns, it dereferences an invalid pointer or
index, or it stays in a loop. -/
inductive Built (α : Type) where
  | done (a : α)
  | fault
  | diverges
deriving DecidableEq

/-- Lines 173-182: the shift of a resumed copy. -/
def xfer_restart (t : target_data_t) : target_data_t :=
  match t.td_restartp with
  | none => t
  | some rp =>
    if rp.RESTART_FLAG_RESUME_COPY then
      let t1 := { t with td_start_offset := rp.byte_offset.tdiv t.td_block_size }
      { t1 with td_target_bytes_to_xfer_per_pass :=
          t1.td_target_bytes_to_xfer_per_pass - rp.byte_offset }
    else t

/-- Lines 185-191: the number of operations of a pass. -/
def xfer_target_ops (t : target_data_t) : target_data_t :=
  let t1 := { t with td_target_ops := t.td_target_bytes_to_xfer_per_pass.tdiv t.td_iosize }
  if t1.td_target_bytes_to_xfer_per_pass.tmod t1.td_iosize ≠ 0 then
    { t1 with td_target_ops := t1.td_target_ops + 1 }
  else t1

/-- The function `xdd_calculate_xfer_info`. -/
def xdd_calculate_xfer_info (t : target_data_t) : target_data_t :=
  let t1 := { t with td_iosize := t.td_reqsize * t.td_block_size }
  if t1.td_iosize = 0 then { t1 with td_target_bytes_to_xfer_per_pass := 0 }
  else if t1.td_numreqs ≠ 0 then
    let bytes := uint64_cast (t1.td_numreqs * t1.td_iosize)
    xfer_target_ops (xfer_restart { t1 with td_target_bytes_to_xfer_per_pass := bytes })
  else if t1.td_bytes ≠ 0 then
    let bytes := uint64_cast t1.td_bytes
    xfer_target_ops (xfer_restart { t1 with td_target_bytes_to_xfer_per_pass := bytes })
  else { t1 with td_target_bytes_to_xfer_per_pass := 0 }

/-- The update `table[entry].port_count = f (table[entry].port_count)`; `none` when
`entry` is outside the table. -/
def e2e_update_port_count (f : Int → Int) (entry : Int) (tbl : List e2e_address_t) :
    Option (List e2e_address_t) :=
  if 0 ≤ entry then
    match tbl.get? entry.toNat with
    | some e => some (tbl.set entry.toNat { e with port_count := f e.port_count })
    | none => none
  else none

/-- The loops of lines 385-386 and 395-396: `n` more entries, from `entry` on, get
the port count `v`. -/
def e2e_fill_port_counts (v : Int) : Nat → Int → List e2e_address_t →
    Option (List e2e_address_t)
  | 0, _, tbl => some tbl
  | n + 1, entry, tbl =>
    match e2e_update_port_count (fun _ => v) entry tbl with
    | some tbl1 => e2e_fill_port_counts v n (entry + 1) tbl1
    | none => none

/-- The loop of lines 401-407 with `n` ports left to hand out, the next one to the
entry `entry`. -/
def e2e_distribute_ports (host_count : Int) : Nat → Int → List e2e_address_t →
    Option (List e2e_address_t)
  | 0, _, tbl => some tbl
  | n + 1, entry, tbl =>
    match e2e_update_port_count (fun c => c + 1) entry tbl with
    | some tbl1 =>
      e2e_distribute_ports host_count n (if entry + 1 ≥ host_count then 0 else entry + 1) tbl1
    | none => none

/-- Lines 395-407: the even distribution of `td_queue_depth` ports.  A negative
count never reaches 0 by decrements. -/
def e2e_spread (t : target_data_t) (e : td_e2e_t) : Built target_data_t :=
  match e2e_fill_port_counts 0 e.e2e_address_table_host_count.toNat 0 e.e2e_address_table with
  | none => .fault
  | some tbl0 =>
    let e1 := { e with e2e_address_table_port_count := t.td_queue_depth }
    let number_of_ports := int32_cast e1.e2e_address_table_port_count
    if number_of_ports < 0 then .diverges
    else
      match e2e_distribute_ports e.e2e_address_table_host_count number_of_ports.toNat 0 tbl0 with
      | none => .fault
      | some tbl => .done { t with td_e2ep := some { e1 with e2e_address_table := tbl } }

/-- Lines 382-386: one port for each host. -/
def e2e_one_each (t : target_data_t) (e : td_e2e_t) : Built target_data_t :=
  let t1 := { t with td_queue_depth := e.e2e_address_table_host_count }
  let e1 := { e with e2e_address_table_port_count := e.e2e_address_table_host_count }
  match e2e_fill_port_counts 1 e.e2e_address_table_host_count.toNat 0 e.e2e_address_table with
  | none => .fault
  | some tbl => .done { t1 with td_e2ep := some { e1 with e2e_address_table := tbl } }

/-- The function `xdd_build_target_data_substructure_e2e`; the value is the global
`xgp->abort` and the target afterwards. -/
def xdd_build_target_data_substructure_e2e (abort : Int) (t : target_data_t) :
    Built (Int × target_data_t) :=
  match t.td_e2ep with
  | none => .fault
  | some e =>
    if e.e2e_address_table_host_count = 0 then .done (1, t)
    else if e.e2e_address_table_port_count > 0 then
      .done (abort, { t with td_queue_depth := e.e2e_address_table_port_count })
    else if t.td_queue_depth ≤ e.e2e_address_table_host_count then
      match e2e_one_each t e with
      | .done t1 => .done (abort, t1)
      | .fault => .fault
      | .diverges => .diverges
    else
      match e2e_spread t e with
      | .done t1 => .done (abort, t1)
      | .fault => .fault
      | .diverges => .diverges

/-- The function `xdd_create_worker_data` for the target `t` and the queue number
`q`: the address of the new structure, or `none` for `NULL`.  `ok n` tells whether
the allocation request number `n` succeeds. -/
def xdd_create_worker_data (ok : Nat → Bool) (plan : xdd_plan_t) (t : target_data_t) (q : Int) :
    Option Nat × xdd_plan_t :=
  if !ok plan.allocations then (none, { plan with allocations := plan.allocations + 1 })
  else
    let wdp := plan.workers.length
    let wd : worker_data_t := ⟨t.td_target_number, none, q, false, none⟩
    if !ok (plan.allocations + 1) then
      (none, { plan with workers := plan.workers ++ [wd], allocations := plan.allocations + 2 })
    else
      let wd1 := { wd with wd_tgtstp := true }
      if t.td_target_options.TO_ENDTOEND then
        if !ok (plan.allocations + 2) then
          (none, { plan with workers := plan.workers ++ [wd1], allocations := plan.allocations + 3 })
        else
          let wd2 := { wd1 with wd_e2ep := some (t.td_e2ep.getD ⟨0, 0, []⟩) }
          (some wdp,
            { plan with workers := plan.workers ++ [wd2], allocations := plan.allocations + 3 })
      else
        (some wdp, { plan with workers := plan.workers ++ [wd1], allocations := plan.allocations + 2 })

/-- The loop of lines 316-324 with `n` iterations left, the counter at `q` and the
last structure of the chain at `wdp`; the value is the counter when the loop is
left, and the plan. -/
def build_worker_chain (ok : Nat → Bool) (t : target_data_t) : Nat → Int → Option Nat →
    xdd_plan_t → Built (Int × xdd_plan_t)
  | 0, q, _, plan => .done (q, plan)
  | n + 1, q, wdp, plan =>
    let plan1 := { plan with number_of_iothreads := plan.number_of_iothreads + 1 }
    let created := xdd_create_worker_data ok plan1 t q
    match wdp with
    | none => .fault
    | some a =>
      match created.2.workers.get? a with
      | none => .fault
      | some wd =>
        let plan2 := { created.2 with
          workers := created.2.workers.set a { wd with wd_next_wdp := created.1 } }
        match created.1 with
        | none => .done (q, plan2)
        | some b => build_worker_chain ok t n (q + 1) (some b) plan2

/-- The body of the loop of lines 296-326 for the target number `target_number`,
entered with the local `q` at the value `q`. -/
def build_target (ok : Nat → Bool) (target_number q : Int) (plan : xdd_plan_t) :
    Built (Int × xdd_plan_t) :=
  match (if 0 ≤ target_number then plan.target_datap.get? target_number.toNat else none) with
  | none => .fault
  | some t =>
    let plan1 := { plan with number_of_iothreads := plan.number_of_iothreads + 1 }
    let e2e : Built (Int × target_data_t) :=
      if t.td_target_options.TO_ENDTOEND then xdd_build_target_data_substructure_e2e plan1.abort t
      else .done (plan1.abort, t)
    match e2e with
    | .fault => .fault
    | .diverges => .diverges
    | .done (abort, t1) =>
      let t2 := xdd_calculate_xfer_info t1
      let created := xdd_create_worker_data ok { plan1 with abort := abort } t2 q
      let t3 := { t2 with td_next_wdp := created.1 }
      let plan2 := { created.2 with
        target_datap := created.2.target_datap.set target_number.toNat t3 }
      build_worker_chain ok t3 t3.td_queue_depth.toNat 0 created.1 plan2

/-- The loop of lines 296-326 with `n` targets left. -/
def build_targets (ok : Nat → Bool) : Nat → Int → Int → xdd_plan_t → Built xdd_plan_t
  | 0, _, _, plan => .done plan
  | n + 1, target_number, q, plan =>
    match build_target ok target_number q plan with
    | .fault => .fault
    | .diverges => .diverges
    | .done (q1, plan1) => build_targets ok n (target_number + 1) q1 plan1

/-- The function `xdd_build_target_data_substructure`.  The local `q` is read at
line 312 before anything is assigned to it; `q0` is the value found there. -/
def xdd_build_target_data_substructure (ok : Nat → Bool) (q0 : Int) (plan : xdd_plan_t) :
    Built xdd_plan_t :=
  build_targets ok plan.number_of_targets.toNat 0 q0 { plan with number_of_iothreads := 0 }

/-- The Worker_Data structures reached from `start` along `wd_next_wdp`, at most
`fuel` of them. -/
def worker_chain (workers : List worker_data_t) : Nat → Option Nat → List worker_data_t
  | 0, _ => []
  | _ + 1, none => []
  | fuel + 1, some a =>
    match workers.get? a with
    | none => []
    | some wd => wd :: worker_chain workers fuel wd.wd_next_wdp

/-- The queue numbers along the chain of the target number `n` of a plan. -/
def chain_numbers (plan : xdd_plan_t) (n : Nat) : List Int :=
  match plan.target_datap.get? n with
  | none => []
  | some t => (worker_chain plan.workers (plan.workers.length + 1) t.td_next_wdp).map
      fun wd => wd.wd_thread_number

/-- The table `tbl` is the table `orig` with the port counts of its first `H`
entries replaced by `count`. -/
def ports_spread (orig tbl : List e2e_address_t) (H : Nat) (count : Nat → Int) : Prop :=
  tbl.length = orig.length ∧
  (∀ i, i < H → ∃ a a0, tbl.get? i = some a ∧ orig.get? i = some a0 ∧
    a.base_port = a0.base_port ∧ a.port_count = count i) ∧
  (∀ i, H ≤ i → tbl.get? i = orig.get? i)

/-! ## Sample states of the target data -/

/-- A target with a request size of 8 blocks of 512 bytes and the queue depth `qd`. -/
def sample_target (qd : Int) : target_data_t :=
  { td_target_number := 0, td_target_options := ⟨false, false, false, false, false, false, false, 0⟩,
    td_reqsize := 8, td_block_size := 512, td_iosize := 0, td_numreqs := 0, td_bytes := 10000,
    td_start_offset := 0, td_target_bytes_to_xfer_per_pass := 0, td_target_ops := 0,
    td_queue_depth := qd, td_restartp := none, td_e2ep := none, td_next_wdp := none }

/-- An end-to-end target with the queue depth `qd` and `hosts` destination hosts for
which no port count was given. -/
def sample_e2e_target (qd : Int) (hosts : Nat) : target_data_t :=
  { sample_target qd with
    td_target_options := ⟨false, false, false, false, false, true, false, 0⟩,
    td_e2ep := some ⟨hosts, 0, List.replicate hosts ⟨40010, 0⟩⟩ }

/-- A plan with the single target `t` and nothing built yet. -/
def sample_plan (t : target_data_t) : xdd_plan_t :=
  { number_of_targets := 1, number_of_iothreads := 0, target_datap := [t], workers := [],
    allocations := 0, abort := 0 }

/-- A plan with two targets of the queue depths 3 and 2 (the targets 0 and 1 of the
picture above `xdd_build_target_data_substructure`) and nothing built yet. -/
def sample_plan2 : xdd_plan_t :=
  { number_of_targets := 2, number_of_iothreads := 0,
    target_datap := [sample_target 3, { sample_target 2 with td_target_number := 1 }],
    workers := [], allocations := 0, abort := 0 }

/-- The plan that `xdd_build_target_data_substructure` leaves, when it returns. -/
def Built.plan? : Built xdd_plan_t → Option xdd_plan_t
  | .done plan => some plan
  | _ => none

/-! ## Entries into the lockstep barriers -/

/-- The indices with which the events `evs` enter a barrier of the lockstep block
at `l`, in order. -/
def lock_step_entries (l : Nat) (evs : List Event) : List Nat :=
  evs.filterMap fun e =>
    match e with
    | .barrier (.lock_step l1 i) => if l1 = l then some i else none
    | _ => none
/-! ## What the receivers keep of a message -/

/-- The frame header that the end-to-end block holds once the deliveries
`received` have landed in it one after the other: the one of the last delivery,
or the header `msg` it held before when there is none. -/
def e2e_last_msg (msg : e2e_msg_t) (received : List (e2e_state × e2e_recv_t)) : e2e_msg_t :=
  match received.getLast? with
  | some e => e.2.msg
  | none => msg

/-- Two deliveries of `xdd_raw_read_wait` that differ at most in the sequence
number of the notification. -/
def same_but_sequence (m1 m2 : raw_recv_t) : Prop :=
  m1.status = m2.status ∧ m1.msg.location = m2.msg.location ∧ m1.msg.length = m2.msg.length

/-- The counters of a reader are the same in two read-after-write blocks:
`raw_data_ready`, the expected sequence, `raw_prev_loc`, `raw_prev_len` and
`raw_data_length`. -/
def same_raw_counters (r1 r2 : raw_t) : Prop :=
  r1.raw_data_ready = r2.raw_data_ready ∧
  r1.raw_msg_last_sequence = r2.raw_msg_last_sequence ∧
  r1.raw_prev_loc = r2.raw_prev_loc ∧ r1.raw_prev_len = r2.raw_prev_len ∧
  r1.raw_data_length = r2.raw_data_length

/-- The bytes between the end of the notification `prev` and the end of the
notification `cur`: the length to credit as the comment of line 458 words it. -/
def data_length_between (prev cur : raw_msg_t) : Int :=
  (cur.location + cur.length) - (prev.location + prev.length)

/-- A destination at operation 1 whose block holds the frame of 8192 bytes at
location 0 that it accepted for operation 0, all of them credited; one more frame
is waiting on the socket. -/
def e2e_credited_world : World :=
  sample_dest_world
    (sample_dest 1 { sample_e2e 1 0 8192 with e2e_msg := ⟨119544153, 0, 0, 8192⟩ })
    [data_frame 1 8192 4096]

/-- A reader in message mode with an I/O size of 4096 bytes and nothing received
yet. -/
def sample_mp_reader : ptds_t :=
  { sample_reader 0 with rawp := some (sample_raw_mp 0 0 0 0) }

/-- Three notifications of 100 bytes each, at the locations 0, 200 and 300: the
bytes 100 to 199 are announced by none of them. -/
def raw_gap_msgs : List raw_recv_t := [⟨0, ⟨0, 0, 100⟩⟩, ⟨0, ⟨1, 200, 100⟩⟩, ⟨0, ⟨2, 300, 100⟩⟩]

/-- The world of `sample_mp_reader` (at address 0) with the notifications `msgs` to
come. -/
def sample_mp_world (msgs : List raw_recv_t) : World :=
  { sample_world with
    raw_msgs := msgs, ptds := fun i => if i = 0 then some sample_mp_reader else none }

/-- The read-after-write block of the worker at `p` in the state an outcome
carries. -/
def rawp_at (o : Outcome Unit) (p : Nat) : Option raw_t :=
  match o.world.ptds p with
  | none => none
  | some q => q.rawp
/-! ## Sample states of the ping and of the waiting slave -/

/-- A pair whose master pings at every operation; the slave has no task pending and
`waiting` tells whether it has announced that it waits. -/
def ls_ping_world (waiting : Bool) : World :=
  sample_pair_world { sample_master_block with ls_interval_value := 0 }
    (sample_block 0 ⟨false, false, false, false⟩ ⟨false, true, false, false⟩
      ⟨waiting, false, false, false, false, 0⟩ 0 (-1)) 0

/-- The slave with no task pending and every flag of `ls_ms_state` set: its master
has finished and waits, and the slave is both complete and told to stop. -/
def ls_complete_world : World :=
  sample_pair_world sample_master_block
    (sample_block 0 ⟨false, false, false, false⟩ ⟨false, true, false, false⟩
      ⟨true, true, true, true, true, 0⟩ 0 (-1)) 0
/-! ## The divisions of `xdd_calculate_xfer_info`

The function once more, with every division and remainder stopping the run when
its divisor is 0. -/

/-- Lines 173-182; line 177 divides by `td_block_size`. -/
def xfer_restart_guarded (t : target_data_t) : Built target_data_t :=
  match t.td_restartp with
  | none => .done t
  | some rp =>
    if rp.RESTART_FLAG_RESUME_COPY then
      if t.td_block_size = 0 then .fault
      else
        let t1 := { t with td_start_offset := rp.byte_offset.tdiv t.td_block_size }
        let bytes := t1.td_target_bytes_to_xfer_per_pass - rp.byte_offset
        .done { t1 with td_target_bytes_to_xfer_per_pass := bytes }
    else .done t

/-- Lines 185-191; lines 185 and 190 divide by `td_iosize`. -/
def xfer_target_ops_guarded (t : target_data_t) : Built target_data_t :=
  if t.td_iosize = 0 then .fault
  else
    let t1 := { t with td_target_ops := t.td_target_bytes_to_xfer_per_pass.tdiv t.td_iosize }
    if t1.td_target_bytes_to_xfer_per_pass.tmod t1.td_iosize ≠ 0 then
      .done { t1 with td_target_ops := t1.td_target_ops + 1 }
    else .done t1

/-- Lines 170-191 for a target whose bytes of a pass are set. -/
def xfer_finish_guarded (t : target_data_t) : Built target_data_t :=
  match xfer_restart_guarded t with
  | .done t1 => xfer_target_ops_guarded t1
  | .fault => .fault
  | .diverges => .diverges

/-- The function `xdd_calculate_xfer_info` with its divisions guarded. -/
def xdd_calculate_xfer_info_guarded (t : target_data_t) : Built target_data_t :=
  let t1 := { t with td_iosize := t.td_reqsize * t.td_block_size }
  if t1.td_iosize = 0 then .done { t1 with td_target_bytes_to_xfer_per_pass := 0 }
  else if t1.td_numreqs ≠ 0 then
    let bytes := uint64_cast (t1.td_numreqs * t1.td_iosize)
    xfer_finish_guarded { t1 with td_target_bytes_to_xfer_per_pass := bytes }
  else if t1.td_bytes ≠ 0 then
    let bytes := uint64_cast t1.td_bytes
    xfer_finish_guarded { t1 with td_target_bytes_to_xfer_per_pass := bytes }
  else .done { t1 with td_target_bytes_to_xfer_per_pass := 0 }
/-! ## The options of `xdd-lite` (`xdd-lite-options.c`)

The declarations of `xdd-lite.h` are not among the sources at hand: the two
structures hold the fields that the parsers name, the enumeration constants and
the limits of the C library are taken as a parameter.  A string is the list of
the characters in front of its terminating NUL; reading past the last character
yields the NUL.  `strlen`, `strncmp`, `strtoul` and `strtoull` are the calls of the
C library as ISO C describes them, for the base 10 that the parsers ask for.
What `fprintf` writes to `stderr` is not recorded. -/

/-- The enumeration constants of `xdd-lite.h`, and `ULONG_MAX`, `ULLONG_MAX` and
`ERANGE` of the C library. -/
structure xdd_lite_h where
  XDDLITE_LOOSE_ACCESS_TYPE : Int
  XDDLITE_RANDOM_ACCESS_TYPE : Int
  XDDLITE_SERIAL_ACCESS_TYPE : Int
  XDDLITE_UNORDERED_ACCESS_TYPE : Int
  XDDLITE_ANY_POLICY_TYPE : Int
  ULONG_MAX : Nat
  ULLONG_MAX : Nat
  ERANGE : Int
deriving DecidableEq

/-- The options of one target, `struct target_options`; `next` is the address of
the next element of the list. -/
structure target_options where
  type : Int
  uri : List Char
  access : Int
  dio_flag : Int
  length : Nat
  num_threads : Nat
  policy : Int
  start_offset : Nat
  next : Option Nat
deriving DecidableEq

/-- The options structure `xdd_lite_options_t`; `to_head` and `to_current` are
addresses of target options, `none` being `NULL`. -/
structure xdd_lite_options_t where
  again_flag : Int
  help_flag : Int
  verbose_flag : Int
  block_size : Nat
  request_size : Nat
  num_targets : Nat
  to_head : Option Nat
  to_current : Option Nat
deriving DecidableEq

/-- What the parsers work on: the structure `opts` points to, the target options
allocated so far (an address is a position in `targets`) and `errno`. -/
structure lite_state where
  opts : xdd_lite_options_t
  targets : List target_options
  errno : Int
deriving DecidableEq

/-- How a call of a parser ends: it returns `rc`, it dereferences `NULL` or an
address that holds nothing, or an `assert` fails and the program is aborted. -/
inductive Parsed where
  | ret (rc : Int) (m : lite_state)
  | fault
  | assert_failed
deriving DecidableEq

/-- The character `*p`: the first one of the string at `p`, the NUL at its end. -/
def deref (p : List Char) : Nat :=
  match p with
  | [] => 0
  | c :: _ => c.toNat

/-- The call `strlen(s)`. -/
def strlen (s : List Char) : Nat :=
  (s.takeWhile fun c => decide (c.toNat ≠ 0)).length

/-- The call `strncmp(a, b, n)`: at most `n` characters are compared, as unsigned
values, and none after a NUL; of a non-zero result only the sign is specified. -/
def strncmp : List Char → List Char → Nat → Int
  | _, _, 0 => 0
  | a, b, n + 1 =>
    if deref a < deref b then -1
    else if deref a > deref b then 1
    else if deref a = 0 then 0
    else strncmp a.tail b.tail n

/-- The test `isspace(c)` in the C locale. -/
def isspace (c : Char) : Bool :=
  decide (c.toNat = 32 ∨ (9 ≤ c.toNat ∧ c.toNat ≤ 13))

/-- The value of a decimal digit, `none` for any other character. -/
def digit_value (c : Char) : Option Nat :=
  if 48 ≤ c.toNat ∧ c.toNat ≤ 57 then some (c.toNat - 48) else none

/-- The digits in front of a string, read on from the value `acc`: the value, and
the string from the first character that is no digit. -/
def scan_digits : List Char → Nat → Nat × List Char
  | [], acc => (acc, [])
  | c :: cs, acc =>
    match digit_value c with
    | some d => scan_digits cs (10 * acc + d)
    | none => (acc, c :: cs)

/-- What a conversion delivers: the value returned, the string that `*endptr` is
left pointing to, and whether `errno` was set to `ERANGE`. -/
structure strto_t where
  value : Nat
  endptr : List Char
  erange : Bool
deriving DecidableEq

/-- The conversion of `strtoul` and `strtoull` in base 10 for the largest value
`max` of the type: white space is skipped, a sign is taken, the digits are read;
without a digit nothing is converted and `*endptr` is the string itself; a value
above `max` gives `max` and `ERANGE`; a minus sign negates in the unsigned type. -/
def strtou (max : Nat) (nptr : List Char) : strto_t :=
  let s := nptr.dropWhile isspace
  let negative := decide (deref s = 45)
  let s1 := if deref s = 45 ∨ deref s = 43 then s.tail else s
  if 48 ≤ deref s1 ∧ deref s1 ≤ 57 then
    let r := scan_digits s1 0
    if r.1 > max then ⟨max, r.2, true⟩
    else ⟨if negative then (max + 1 - r.1) % (max + 1) else r.1, r.2, false⟩
  else ⟨0, nptr, false⟩

/-- The call `strtoul(val, &p, 10)`. -/
def strtoul (H : xdd_lite_h) (val : List Char) : strto_t := strtou H.ULONG_MAX val

/-- The call `strtoull(val, &p, 10)`. -/
def strtoull (H : xdd_lite_h) (val : List Char) : strto_t := strtou H.ULLONG_MAX val

/-- The state after a conversion: `errno` is `ERANGE` when the value was out of
range and is left alone otherwise. -/
def lite_state.converted (H : xdd_lite_h) (m : lite_state) (r : strto_t) : lite_state :=
  if r.erange then { m with errno := H.ERANGE } else m

/-- The state with the target options at the address `a` replaced by `t`. -/
def lite_state.put (m : lite_state) (a : Nat) (t : target_options) : lite_state :=
  { m with targets := m.targets.set a t }

/-- An assignment `opts->to_current->field = ...` followed by `return rc`. -/
def lite_state.store (m : lite_state) (f : target_options → target_options) (rc : Int) : Parsed :=
  match m.opts.to_current with
  | none => .fault
  | some a =>
    match m.targets.get? a with
    | none => .fault
    | some t => .ret rc (m.put a (f t))

/-- The function `parse_target_access` (lines 332-357). -/
def parse_target_access (H : xdd_lite_h) (m : lite_state) (val : List Char) : Parsed :=
  let len := strlen val
  if m.opts.to_current = none then .ret 1 m
  else if strncmp "loose".toList val len = 0 then
    m.store (fun t => { t with access := H.XDDLITE_LOOSE_ACCESS_TYPE }) 0
  else if strncmp "random".toList val len = 0 then
    m.store (fun t => { t with access := H.XDDLITE_RANDOM_ACCESS_TYPE }) 0
  else if strncmp "serial".toList val len = 0 then
    m.store (fun t => { t with access := H.XDDLITE_SERIAL_ACCESS_TYPE }) 0
  else if strncmp "unordered".toList val len = 0 then
    m.store (fun t => { t with access := H.XDDLITE_UNORDERED_ACCESS_TYPE }) 0
  else .ret 1 m

/-- The function `parse_target_direct_io` (lines 360-371). -/
def parse_target_direct_io (m : lite_state) : Parsed :=
  if m.opts.to_current = none then .ret 1 m
  else m.store (fun t => { t with dio_flag := 1 }) 0

/-- The function `parse_target_length` (lines 374-397). -/
def parse_target_length (H : xdd_lite_h) (m : lite_state) (val : List Char) : Parsed :=
  let r := strtoull H val
  let m1 := ({ m with errno := 0 }).converted H r
  if m1.opts.to_current = none then .ret 1 m1
  else if H.ERANGE = m1.errno then .ret 1 m1
  else if deref r.endptr ≠ 0 then .ret 1 m1
  else m1.store (fun t => { t with length := r.value }) 0

/-- The function `parse_target_num_threads` (lines 400-423).  The test for a
missing target (line 407) only sets `rc`: the chain of tests that follows is a
statement of its own, and its third arm is taken when `*p` is not the NUL. -/
def parse_target_num_threads (H : xdd_lite_h) (m : lite_state) (val : List Char) : Parsed :=
  let r := strtoul H val
  let m1 := ({ m with errno := 0 }).converted H r
  let rc : Int := if m1.opts.to_current = none then 1 else 0
  if H.ERANGE = m1.errno then .ret 1 m1
  else if deref r.endptr = 0 then .ret 1 m1
  else m1.store (fun t => { t with num_threads := r.value }) rc

/-- The function `parse_target_policy` (lines 426-443); `assert.h` is included
with `NDEBUG` not defined, so the assertion of line 428 is evaluated. -/
def parse_target_policy (H : xdd_lite_h) (m : lite_state) (val : List Char) : Parsed :=
  if m.opts.to_current = none then .assert_failed
  else
    let len := strlen val
    if m.opts.to_current = none then .ret 1 m
    else if strncmp "any".toList val len = 0 then
      m.store (fun t => { t with policy := H.XDDLITE_ANY_POLICY_TYPE }) 0
    else .ret 1 m

/-- The function `parse_target_start_offset` (lines 446-467); `errno` is not
cleared before the conversion. -/
def parse_target_start_offset (H : xdd_lite_h) (m : lite_state) (val : List Char) : Parsed :=
  let r := strtoul H val
  let m1 := m.converted H r
  if m1.opts.to_current = none then .ret 1 m1
  else if H.ERANGE = m1.errno then .ret 1 m1
  else if deref r.endptr = 0 then .ret 1 m1
  else m1.store (fun t => { t with start_offset := r.value }) 0

/-- The value of a string of decimal digits. -/
def decimal (val : List Char) : Nat :=
  val.foldl (fun n c => 10 * n + (c.toNat - 48)) 0

/-- The string is a decimal number: at least one character, all of them digits. -/
def is_decimal (val : List Char) : Prop :=
  val ≠ [] ∧ ∀ c ∈ val, 48 ≤ c.toNat ∧ c.toNat ≤ 57

instance (val : List Char) : Decidable (is_decimal val) := by
  unfold is_decimal; infer_instance

/-! ## Sample states of the options -/

/-- Constants of an LP64 build. -/
def sample_lite_h : xdd_lite_h :=
  { XDDLITE_LOOSE_ACCESS_TYPE := 1, XDDLITE_RANDOM_ACCESS_TYPE := 2,
    XDDLITE_SERIAL_ACCESS_TYPE := 3, XDDLITE_UNORDERED_ACCESS_TYPE := 4,
    XDDLITE_ANY_POLICY_TYPE := 1, ULONG_MAX := 2 ^ 64 - 1, ULLONG_MAX := 2 ^ 64 - 1,
    ERANGE := 34 }

/-- The target options that `calloc` delivers for an output target. -/
def blank_target : target_options := ⟨0, "out.dat".toList, 0, 0, 0, 0, 0, 0, none⟩

/-- The options after one target was declared. -/
def lite_one_target : lite_state :=
  { opts := ⟨0, 0, 0, 0, 0, 1, some 0, some 0⟩, targets := [blank_target], errno := 0 }

/-- The options before any target is declared, as `xdd_lite_options_init` leaves
them. -/
def lite_no_target : lite_state :=
  { opts := ⟨0, 0, 0, 0, 0, 0, none, none⟩, targets := [], errno := 0 }

/-! # Theorems -/

/-! ## Lemmas on the state -/

@[simp]
theorem emit_trace (w : World) (e : Event) : (w.emit e).trace = w.trace ++ [e] := rfl

@[simp]
theorem emit_ptds (w : World) (e : Event) : (w.emit e).ptds = w.ptds := rfl

@[simp]
theorem emit_lockstep (w : World) (e : Event) : (w.emit e).lockstep = w.lockstep := rfl

@[simp]
theorem emit_ptdsp (w : World) (e : Event) : (w.emit e).ptdsp = w.ptdsp := rfl

@[simp]
theorem emit_now (w : World) (e : Event) : (w.emit e).now = w.now := rfl

@[simp]
theorem setPtds_trace (w : World) (p : Nat) (q : ptds_t) : (w.setPtds p q).trace = w.trace := rfl

@[simp]
theorem setLockstep_trace (w : World) (l : Nat) (ls : lockstep_t) : (w.setLockstep l ls).trace = w.trace := rfl

@[simp]
theorem setLockstep_ptds (w : World) (l : Nat) (ls : lockstep_t) : (w.setLockstep l ls).ptds = w.ptds := rfl

@[simp]
theorem setLockstep_ptdsp (w : World) (l : Nat) (ls : lockstep_t) : (w.setLockstep l ls).ptdsp = w.ptdsp := rfl

@[simp]
theorem tick_trace (w : World) : w.tick.trace = w.trace := rfl

@[simp]
theorem tick_ptds (w : World) : w.tick.ptds = w.ptds := rfl

@[simp]
theorem tick_lockstep (w : World) : w.tick.lockstep = w.lockstep := rfl

@[simp]
theorem tick_ptdsp (w : World) : w.tick.ptdsp = w.ptdsp := rfl

@[simp]
theorem emit_abort (w : World) (e : Event) : (w.emit e).abort_io = w.abort_io := rfl

@[simp]
theorem setPtds_lockstep (w : World) (p : Nat) (q : ptds_t) : (w.setPtds p q).lockstep = w.lockstep := rfl

@[simp]
theorem setPtds_ptdsp (w : World) (p : Nat) (q : ptds_t) : (w.setPtds p q).ptdsp = w.ptdsp := rfl

@[simp]
theorem setPtds_abort (w : World) (p : Nat) (q : ptds_t) : (w.setPtds p q).abort_io = w.abort_io := rfl

@[simp]
theorem setLockstep_abort (w : World) (l : Nat) (ls : lockstep_t) : (w.setLockstep l ls).abort_io = w.abort_io := rfl

@[simp]
theorem setLockstep_now (w : World) (l : Nat) (ls : lockstep_t) : (w.setLockstep l ls).now = w.now := rfl

@[simp]
theorem tick_abort (w : World) : w.tick.abort_io = w.abort_io := rfl

@[simp]
theorem target_emit (w : World) (e : Event) (i : Int) : (w.emit e).target i = w.target i := rfl

@[simp]
theorem target_setPtds (w : World) (p : Nat) (q : ptds_t) (i : Int) : (w.setPtds p q).target i = w.target i := rfl

@[simp]
theorem target_setLockstep (w : World) (l : Nat) (ls : lockstep_t) (i : Int) : (w.setLockstep l ls).target i = w.target i := rfl

@[simp]
theorem target_tick (w : World) (i : Int) : w.tick.target i = w.target i := rfl

@[simp]
theorem setPtds_same (w : World) (p : Nat) (q : ptds_t) : (w.setPtds p q).ptds p = some q := by
  simp [World.setPtds]

theorem setPtds_other (w : World) (p : Nat) (q : ptds_t) (p1 : Nat) (h : p1 ≠ p) :
    (w.setPtds p q).ptds p1 = w.ptds p1 := by
  simp [World.setPtds, Function.update_noteq h]

@[simp]
theorem setLockstep_same (w : World) (l : Nat) (ls : lockstep_t) :
    (w.setLockstep l ls).lockstep l = some ls := by
  simp [World.setLockstep]

theorem setLockstep_other (w : World) (l : Nat) (ls : lockstep_t) (l1 : Nat) (h : l1 ≠ l) :
    (w.setLockstep l ls).lockstep l1 = w.lockstep l1 := by
  simp [World.setLockstep, Function.update_noteq h]

theorem andThen_ret {α β : Type} (o : Outcome α) (f : α → World → Outcome β) (b : β) (w1 : World)
    (h : o.andThen f = .ret b w1) : ∃ a w0, o = .ret a w0 ∧ f a w0 = .ret b w1 := by
  cases o with
  | ret a w0 => exact ⟨a, w0, rfl, h⟩
  | blocked w0 => cases h
  | fault w0 => cases h

theorem ite_tick_ptds (c : Prop) [Decidable c] (w : World) :
    (if c then w.tick else w).ptds = w.ptds := by
  split <;> rfl

theorem ite_tick_abort (c : Prop) [Decidable c] (w : World) :
    (if c then w.tick else w).abort_io = w.abort_io := by
  split <;> rfl

/-! ## Lockstep: the mutex and the barriers -/

theorem ls_ping_slave_trace (lsp2 : Option Nat) (w : World) :
    ∃ evs, (ls_ping_slave lsp2 w).world.trace = w.trace ++ evs ∧ ls_events evs := by
  unfold ls_ping_slave
  split
  · exact ⟨[], by simp [Outcome.world], .none⟩
  · split
    · exact ⟨[], by simp [Outcome.world], .none⟩
    · rename_i l2 _ ls2 _
      simp only
      split
      · exact ⟨[.mutex_lock l2, .mutex_unlock l2 (ls2.ls_task_counter + 1),
          .barrier (.lock_step l2 ls2.Lock_Step_Barrier_Master_Index)],
          by simp [Outcome.world], .rendezvous _ _ _⟩
      · exact ⟨[.mutex_lock l2, .mutex_unlock l2 (ls2.ls_task_counter + 1)],
          by simp [Outcome.world], .locked _ _⟩

theorem lockstep_master_trace (q : ptds_t) (l : Nat) (w : World) :
    ∃ evs, (lockstep_master q l w).world.trace = w.trace ++ evs ∧ ls_events evs := by
  unfold lockstep_master
  split
  · exact ⟨[], by simp [Outcome.world], .none⟩
  · rename_i ls _
    split
    · split
      · exact ⟨[], by simp [Outcome.world], .none⟩
      · split
        · exact ⟨[], by simp [Outcome.world], .none⟩
        · rename_i q2 _
          simp only
          split
          · obtain ⟨evs, h1, h2⟩ := ls_ping_slave_trace q2.lsp
              ((if ls.ls_interval_type.TIME = true then w.tick else w).setLockstep l
                (ls_interval_check q ls w.now).2)
            refine ⟨evs, ?_, h2⟩
            rw [h1]
            split <;> simp
          · refine ⟨[], ?_, .none⟩
            simp only [Outcome.world, setLockstep_trace, List.append_nil]
            split <;> simp
    · exact ⟨[], by simp [Outcome.world], .none⟩

theorem ls_slave_drain_trace (l : Nat) (ls : lockstep_t) (w : World) :
    ∃ evs, (ls_slave_drain l ls w).trace = w.trace ++ evs ∧ ls_events (.mutex_lock l :: evs) := by
  unfold ls_slave_drain
  simp only
  split
  · exact ⟨[.mutex_unlock l ls.ls_task_counter,
      .barrier (.lock_step l ls.Lock_Step_Barrier_Slave_Index)],
      by simp [ls_slave_rendezvous], .rendezvous _ _ _⟩
  · exact ⟨[.mutex_unlock l ls.ls_task_counter], by simp [ls_slave_unlock], .locked _ _⟩

theorem lockstep_slave_trace (p : Nat) (q : ptds_t) (l : Nat) (w : World) :
    ∃ evs, (lockstep_slave p q l w).world.trace = w.trace ++ evs ∧ ls_events evs := by
  unfold lockstep_slave
  split
  · exact ⟨[], by simp [Outcome.world], .none⟩
  · rename_i ls _
    simp only
    have hw2 : ∀ c : Prop, ∀ _ : Decidable c,
        (if c then (w.emit (.mutex_lock l)).tick else w.emit (.mutex_lock l)).trace =
          w.trace ++ [.mutex_lock l] := by
      intro c _; split <;> simp
    split
    · split
      · split
        · obtain ⟨evs, h1, h2⟩ := ls_slave_drain_trace l (ls_task_check q ls (w.emit (.mutex_lock l)).now).2
            (if 0 < ls.ls_task_counter ∧ ls.ls_task_type.TIME = true then (w.emit (.mutex_lock l)).tick
              else w.emit (.mutex_lock l))
          refine ⟨_, ?_, h2⟩
          simp only [Outcome.world]
          rw [h1, hw2]
          simp
        · split
          · obtain ⟨evs, h1, h2⟩ := ls_slave_drain_trace l (ls_task_check q ls (w.emit (.mutex_lock l)).now).2
              (if 0 < ls.ls_task_counter ∧ ls.ls_task_type.TIME = true then (w.emit (.mutex_lock l)).tick
                else w.emit (.mutex_lock l))
            refine ⟨_, ?_, h2⟩
            simp only [Outcome.world, setPtds_trace]
            rw [h1, hw2]
            simp
          · refine ⟨[.mutex_lock l,
              .mutex_unlock l (ls_task_check q ls (w.emit (.mutex_lock l)).now).2.ls_task_counter,
              .barrier (.lock_step l
                (ls_task_check q ls (w.emit (.mutex_lock l)).now).2.Lock_Step_Barrier_Slave_Index)],
              ?_, .rendezvous l _ _⟩
            simp only [Outcome.world, ls_slave_rendezvous, setLockstep_trace, emit_trace]
            rw [hw2]
            simp
      · refine ⟨[.mutex_lock l,
          .mutex_unlock l (ls_task_check q ls (w.emit (.mutex_lock l)).now).2.ls_task_counter],
          ?_, .locked l _⟩
        simp only [Outcome.world, ls_slave_unlock, setLockstep_trace, emit_trace]
        rw [hw2]
        simp
    · exact ⟨[], by simp [Outcome.world], .none⟩

theorem ls_events_discipline (a b : List Event) (ha : ls_events a) (hb : ls_events b) :
    mutex_discipline none false (a ++ b) = true := by
  cases ha <;> cases hb <;> simp [mutex_discipline]

/-- C8: on every path of the lockstep stage, whether it returns or stops on an
invalid pointer, the events it appends to the trace keep the mutex discipline: a
barrier is entered only right after the unlock that matches the last lock, and no
mutex is held when the stage is left. -/
theorem lockstep_mutex_released_before_barrier (p : Nat) (w : World) :
    ∃ evs, (xdd_lockstep_before_io_operation p w).world.trace = w.trace ++ evs ∧
      mutex_discipline none false evs = true := by
  unfold xdd_lockstep_before_io_operation
  split
  · exact ⟨[], by simp [Outcome.world], rfl⟩
  · rename_i q _
    split
    · exact ⟨[], by simp [Outcome.world], rfl⟩
    · rename_i l _
      obtain ⟨a, ha1, ha2⟩ := lockstep_master_trace q l w
      cases hm : lockstep_master q l w with
      | ret u w1 =>
        rw [hm] at ha1
        simp only [Outcome.world] at ha1
        obtain ⟨b, hb1, hb2⟩ := lockstep_slave_trace p q l w1
        refine ⟨a ++ b, ?_, ls_events_discipline a b ha2 hb2⟩
        simp only [Outcome.andThen]
        rw [hb1, ha1, List.append_assoc]
      | blocked w1 =>
        rw [hm] at ha1
        simp only [Outcome.world] at ha1
        refine ⟨a ++ [], ?_, ls_events_discipline a [] ha2 .none⟩
        simp [Outcome.andThen, Outcome.world, ha1]
      | fault w1 =>
        rw [hm] at ha1
        simp only [Outcome.world] at ha1
        refine ⟨a ++ [], ?_, ls_events_discipline a [] ha2 .none⟩
        simp [Outcome.andThen, Outcome.world, ha1]


/-! ## Lockstep: the task counter -/

@[simp]
theorem ls_task_fire_counter (ls : lockstep_t) (base : Int) :
    (ls_task_fire ls base).ls_task_counter = ls.ls_task_counter - 1 := rfl

@[simp]
theorem ls_task_fire_type (ls : lockstep_t) (base : Int) :
    (ls_task_fire ls base).ls_task_type = ls.ls_task_type := rfl

@[simp]
theorem ls_task_fire_state (ls : lockstep_t) (base : Int) :
    (ls_task_fire ls base).ls_ms_state = ls.ls_ms_state := rfl

@[simp]
theorem ls_task_fire_master (ls : lockstep_t) (base : Int) :
    (ls_task_fire ls base).ls_master = ls.ls_master := rfl

@[simp]
theorem ls_task_fire_slave (ls : lockstep_t) (base : Int) :
    (ls_task_fire ls base).ls_slave = ls.ls_slave := rfl

@[simp]
theorem ls_task_fire_index (ls : lockstep_t) (base : Int) :
    (ls_task_fire ls base).Lock_Step_Barrier_Slave_Index =
      ls.Lock_Step_Barrier_Slave_Index := rfl

@[simp]
theorem ls_interval_rebase_master (ls : lockstep_t) (base : Int) :
    (ls_interval_rebase ls base).ls_master = ls.ls_master := rfl

@[simp]
theorem ls_interval_rebase_slave (ls : lockstep_t) (base : Int) :
    (ls_interval_rebase ls base).ls_slave = ls.ls_slave := rfl

@[simp]
theorem ls_interval_rebase_type (ls : lockstep_t) (base : Int) :
    (ls_interval_rebase ls base).ls_interval_type = ls.ls_interval_type := rfl

@[simp]
theorem ls_interval_rebase_value (ls : lockstep_t) (base : Int) :
    (ls_interval_rebase ls base).ls_interval_value = ls.ls_interval_value := rfl

@[simp]
theorem ls_interval_rebase_counter (ls : lockstep_t) (base : Int) :
    (ls_interval_rebase ls base).ls_task_counter = ls.ls_task_counter := rfl

@[simp]
theorem ls_interval_rebase_task_type (ls : lockstep_t) (base : Int) :
    (ls_interval_rebase ls base).ls_task_type = ls.ls_task_type := rfl

@[simp]
theorem ls_interval_rebase_state (ls : lockstep_t) (base : Int) :
    (ls_interval_rebase ls base).ls_ms_state = ls.ls_ms_state := rfl

/-- The task tests touch the task base and the task counter only. -/
theorem ls_task_check_frame (q : ptds_t) (ls : lockstep_t) (t : Int) :
    (ls_task_check q ls t).2.ls_ms_state = ls.ls_ms_state ∧
    (ls_task_check q ls t).2.ls_master = ls.ls_master ∧
    (ls_task_check q ls t).2.ls_slave = ls.ls_slave ∧
    (ls_task_check q ls t).2.ls_task_type = ls.ls_task_type ∧
    (ls_task_check q ls t).2.Lock_Step_Barrier_Slave_Index = ls.Lock_Step_Barrier_Slave_Index := by
  simp only [ls_task_check]
  split_ifs <;> simp

/-- The interval tests touch the interval base only. -/
theorem ls_interval_check_frame (q : ptds_t) (ls : lockstep_t) (t : Int) :
    (ls_interval_check q ls t).2.ls_master = ls.ls_master ∧
    (ls_interval_check q ls t).2.ls_slave = ls.ls_slave ∧
    (ls_interval_check q ls t).2.ls_task_counter = ls.ls_task_counter ∧
    (ls_interval_check q ls t).2.ls_task_type = ls.ls_task_type ∧
    (ls_interval_check q ls t).2.ls_ms_state = ls.ls_ms_state := by
  simp only [ls_interval_check]
  split_ifs <;> simp

/-- The slave has to wait exactly when its counter is not positive on entry or a
task predicate fired (the counter was decremented). -/
theorem ls_task_check_wait (q : ptds_t) (ls : lockstep_t) (t : Int) :
    (ls_task_check q ls t).1 = true ↔
      (ls.ls_task_counter ≤ 0 ∨ (ls_task_check q ls t).2.ls_task_counter < ls.ls_task_counter) := by
  simp only [ls_task_check]
  split_ifs <;> simp <;> omega

/-- With at most one task type configured a call fires at most once, and never
below zero. -/
theorem ls_task_check_single (q : ptds_t) (ls : lockstep_t) (t : Int)
    (h1 : ls.ls_task_type.count ≤ 1) (h0 : 0 ≤ ls.ls_task_counter) :
    0 ≤ (ls_task_check q ls t).2.ls_task_counter ∧
    ((ls_task_check q ls t).2.ls_task_counter = ls.ls_task_counter ∨
      (ls_task_check q ls t).2.ls_task_counter = ls.ls_task_counter - 1) := by
  unfold ls_types_t.count at h1
  simp only [ls_task_check]
  split_ifs <;> simp_all <;> omega

/-- C9: in the slave path, when the slave must wait (its task counter is not
positive on entry, or a task predicate fired) and `ls_ms_state` has
`MASTER_FINISHED` and `SLAVE_STOP` set and `SLAVE_COMPLETE` clear, the stage sets
the worker's `my_pass_ring` to `TRUE` and returns 1; after the lock and the unlock
it enters the slave-side barrier exactly when `MASTER_WAITING` was set. -/
theorem lockstep_slave_stop (p : Nat) (w w1 : World) (q : ptds_t) (l : Nat) (ls : lockstep_t)
    (hq : w.ptds p = some q) (hl : q.lsp = some l)
    (hm : lockstep_master q l w = .ret () w1)
    (hls : w1.lockstep l = some ls) (hslave : 0 ≤ ls.ls_master)
    (hwait : ls.ls_task_counter ≤ 0 ∨
      (ls_task_check q ls w1.now).2.ls_task_counter < ls.ls_task_counter)
    (hfin : ls.ls_ms_state.LS_MASTER_FINISHED = true)
    (hstop : ls.ls_ms_state.LS_SLAVE_STOP = true)
    (hnc : ls.ls_ms_state.LS_SLAVE_COMPLETE = false) :
    ∃ w2 q2, xdd_lockstep_before_io_operation p w = .ret 1 w2 ∧
      w2.ptds p = some q2 ∧ q2.my_pass_ring = TRUE ∧
      w2.trace = w1.trace ++
        (if ls.ls_ms_state.LS_MASTER_WAITING = true then
          [.mutex_lock l, .mutex_unlock l (ls_task_check q ls w1.now).2.ls_task_counter,
            .barrier (.lock_step l ls.Lock_Step_Barrier_Slave_Index)]
        else [.mutex_lock l, .mutex_unlock l (ls_task_check q ls w1.now).2.ls_task_counter]) := by
  obtain ⟨f1, -, -, -, f5⟩ := ls_task_check_frame q ls w1.now
  replace hwait := (ls_task_check_wait q ls w1.now).2 hwait
  have hw2 : ∀ c : Prop, ∀ _ : Decidable c,
      (if c then (w1.emit (.mutex_lock l)).tick else w1.emit (.mutex_lock l)).trace =
        w1.trace ++ [.mutex_lock l] := by
    intro c _; split <;> simp
  unfold xdd_lockstep_before_io_operation
  simp only [hq, hl, hm, Outcome.andThen]
  unfold lockstep_slave
  simp only [hls, hslave, if_true, emit_now, hwait, f1, hfin, hstop, hnc, Bool.false_eq_true,
    and_false, and_self, if_false]
  refine ⟨_, _, rfl, setPtds_same _ _ _, rfl, ?_⟩
  simp only [setPtds_trace, ls_slave_drain]
  by_cases hmw : ls.ls_ms_state.LS_MASTER_WAITING = true
  · simp [hmw, f1, f5, ls_slave_rendezvous, hw2]
  · simp [hmw, f1, ls_slave_unlock, hw2]


/-- What a call of the stage by a worker that is a master only does to the heaps. -/
theorem lockstep_master_call (pm lm lb p2 : Nat) (w : World) (qm q2 : ptds_t) (m s : lockstep_t)
    (hqm : w.ptds pm = some qm) (hlm : qm.lsp = some lm) (hm : w.lockstep lm = some m)
    (hmm : m.ls_master < 0) (hms : 0 ≤ m.ls_slave) (ht : w.target m.ls_slave = some p2)
    (hq2 : w.ptds p2 = some q2) (hl2 : q2.lsp = some lb) (hne : lm ≠ lb)
    (hs : w.lockstep lb = some s) :
    ∃ w1 m1 s1, xdd_lockstep_before_io_operation pm w = .ret 0 w1 ∧
      w1.ptds = w.ptds ∧ w1.ptdsp = w.ptdsp ∧
      w1.lockstep lm = some m1 ∧ m1.ls_master = m.ls_master ∧ m1.ls_slave = m.ls_slave ∧
      w1.lockstep lb = some s1 ∧ s1.ls_master = s.ls_master ∧ s1.ls_slave = s.ls_slave ∧
      s1.ls_task_type = s.ls_task_type ∧
      s1.ls_ms_state.LS_MASTER_FINISHED = s.ls_ms_state.LS_MASTER_FINISHED ∧
      s1.ls_ms_state.LS_SLAVE_COMPLETE = s.ls_ms_state.LS_SLAVE_COMPLETE ∧
      (s1.ls_task_counter = s.ls_task_counter ∨ s1.ls_task_counter = s.ls_task_counter + 1) := by
  obtain ⟨f1, f2, -, -, -⟩ := ls_interval_check_frame qm m w.now
  have hne2 : lb ≠ lm := fun h => hne h.symm
  have hslave : ∀ w1 : World, w1.lockstep lm = some (ls_interval_check qm m w.now).2 →
      lockstep_slave pm qm lm w1 = .ret 0 w1 := by
    intro w1 h1
    unfold lockstep_slave
    simp only [h1]
    rw [if_neg]
    rw [f1]; omega
  unfold xdd_lockstep_before_io_operation
  simp only [hqm, hlm]
  unfold lockstep_master
  simp only [hm, hms, if_true, ht, hq2]
  by_cases hping : (ls_interval_check qm m w.now).1 = true
  · simp only [hping, if_true, hl2]
    unfold ls_ping_slave
    have hs2 : ((if m.ls_interval_type.TIME = true then w.tick else w).setLockstep lm
        (ls_interval_check qm m w.now).2).lockstep lb = some s := by
      rw [setLockstep_other _ _ _ _ hne2]
      split <;> simpa using hs
    simp only [hs2]
    by_cases hsw : s.ls_ms_state.LS_SLAVE_WAITING = true
    · simp only [hsw, if_true, Outcome.andThen]
      rw [hslave]
      · refine ⟨_, _, _, rfl, ?_, ?_, ?_, f1, f2, setLockstep_same _ _ _, rfl, rfl, rfl, rfl, rfl,
          Or.inr rfl⟩
        · simp only [setLockstep_ptds, emit_ptds]; split <;> rfl
        · simp only [setLockstep_ptdsp, emit_ptdsp]; split <;> rfl
        · rw [setLockstep_other _ _ _ _ hne]
          simp only [emit_lockstep]
          rw [setLockstep_other _ _ _ _ hne]
          simp
      · rw [setLockstep_other _ _ _ _ hne]
        simp only [emit_lockstep]
        rw [setLockstep_other _ _ _ _ hne]
        simp
    · simp only [hsw, Bool.false_eq_true, if_false, Outcome.andThen]
      rw [hslave]
      · refine ⟨_, _, { s with ls_task_counter := s.ls_task_counter + 1 }, rfl, ?_, ?_, ?_, f1, f2,
          ?_, rfl, rfl, rfl, rfl, rfl, Or.inr rfl⟩
        · simp only [setLockstep_ptds, emit_ptds]; split <;> rfl
        · simp only [setLockstep_ptdsp, emit_ptdsp]; split <;> rfl
        · simp only [emit_lockstep]
          rw [setLockstep_other _ _ _ _ hne]
          simp
        · simp
      · simp only [emit_lockstep]
        rw [setLockstep_other _ _ _ _ hne]
        simp
  · simp only [hping, Bool.false_eq_true, if_false, Outcome.andThen]
    rw [hslave _ (setLockstep_same _ _ _)]
    refine ⟨_, _, s, rfl, ?_, ?_, setLockstep_same _ _ _, f1, f2, ?_, rfl, rfl, rfl, rfl, rfl,
      Or.inl rfl⟩
    · simp only [setLockstep_ptds]; split <;> rfl
    · simp only [setLockstep_ptdsp]; split <;> rfl
    · rw [setLockstep_other _ _ _ _ hne2]
      split <;> simpa using hs


theorem ls_block_step_unlock (lb : Nat) (w w0 : World) (s ls : lockstep_t)
    (hw : w0.lockstep = w.lockstep ∧ w0.ptds = w.ptds ∧ w0.ptdsp = w.ptdsp)
    (h1 : ls.ls_master = s.ls_master) (h2 : ls.ls_slave = s.ls_slave)
    (h3 : ls.ls_task_type = s.ls_task_type)
    (h4 : ls.ls_ms_state.LS_MASTER_FINISHED = s.ls_ms_state.LS_MASTER_FINISHED)
    (h5 : ls.ls_ms_state.LS_SLAVE_COMPLETE = s.ls_ms_state.LS_SLAVE_COMPLETE) :
    ls_block_step lb w s ls.ls_task_counter (ls_slave_unlock lb ls w0) := by
  obtain ⟨a, b, c⟩ := hw
  refine ⟨b, c, ?_, ls, ?_, rfl, h1, h2, h3, h4, h5⟩
  · intro l hl
    simp only [ls_slave_unlock, emit_lockstep]
    rw [setLockstep_other _ _ _ _ hl, a]
  · simp [ls_slave_unlock]

theorem ls_block_step_rendezvous (lb : Nat) (w w0 : World) (s ls : lockstep_t)
    (hw : w0.lockstep = w.lockstep ∧ w0.ptds = w.ptds ∧ w0.ptdsp = w.ptdsp)
    (h1 : ls.ls_master = s.ls_master) (h2 : ls.ls_slave = s.ls_slave)
    (h3 : ls.ls_task_type = s.ls_task_type)
    (h4 : ls.ls_ms_state.LS_MASTER_FINISHED = s.ls_ms_state.LS_MASTER_FINISHED)
    (h5 : ls.ls_ms_state.LS_SLAVE_COMPLETE = s.ls_ms_state.LS_SLAVE_COMPLETE) :
    ls_block_step lb w s ls.ls_task_counter (ls_slave_rendezvous lb ls w0) := by
  obtain ⟨a, b, c⟩ := hw
  refine ⟨b, c, ?_, { ls with
      Lock_Step_Barrier_Slave_Index := ls.Lock_Step_Barrier_Slave_Index ^^^ 1,
      ls_slave_loop_counter := ls.ls_slave_loop_counter + 1 }, ?_, rfl, h1, h2, h3, h4, h5⟩
  · intro l hl
    simp only [ls_slave_rendezvous, emit_lockstep]
    rw [setLockstep_other _ _ _ _ hl]
    simp only [emit_lockstep]
    rw [setLockstep_other _ _ _ _ hl, a]
  · simp [ls_slave_rendezvous]

theorem ls_block_step_drain (lb : Nat) (w w0 : World) (s ls : lockstep_t)
    (hw : w0.lockstep = w.lockstep ∧ w0.ptds = w.ptds ∧ w0.ptdsp = w.ptdsp)
    (h1 : ls.ls_master = s.ls_master) (h2 : ls.ls_slave = s.ls_slave)
    (h3 : ls.ls_task_type = s.ls_task_type)
    (h4 : ls.ls_ms_state.LS_MASTER_FINISHED = s.ls_ms_state.LS_MASTER_FINISHED)
    (h5 : ls.ls_ms_state.LS_SLAVE_COMPLETE = s.ls_ms_state.LS_SLAVE_COMPLETE) :
    ls_block_step lb w s ls.ls_task_counter (ls_slave_drain lb ls w0) := by
  unfold ls_slave_drain
  simp only
  split
  · exact ls_block_step_rendezvous lb w w0 s _ hw h1 h2 h3 h4 h5
  · exact ls_block_step_unlock lb w w0 s _ hw h1 h2 h3 h4 h5

/-- What a call of the stage by a worker that is a slave only does to the heaps, when
its master, once finished, lets it complete. -/
theorem lockstep_slave_call (ps lb : Nat) (w : World) (qs : ptds_t) (s : lockstep_t)
    (hqs : w.ptds ps = some qs) (hl : qs.lsp = some lb) (hs : w.lockstep lb = some s)
    (hsm : 0 ≤ s.ls_master) (hss : s.ls_slave < 0)
    (hfc : s.ls_ms_state.LS_MASTER_FINISHED = true → s.ls_ms_state.LS_SLAVE_COMPLETE = true) :
    ∃ w1, xdd_lockstep_before_io_operation ps w = .ret 0 w1 ∧
      ls_block_step lb w s (ls_task_check qs s w.now).2.ls_task_counter w1 := by
  obtain ⟨f1, f2, f3, f4, -⟩ := ls_task_check_frame qs s w.now
  have hw2 : ∀ c : Prop, ∀ _ : Decidable c,
      (if c then (w.emit (.mutex_lock lb)).tick else w.emit (.mutex_lock lb)).lockstep =
        w.lockstep ∧
      (if c then (w.emit (.mutex_lock lb)).tick else w.emit (.mutex_lock lb)).ptds = w.ptds ∧
      (if c then (w.emit (.mutex_lock lb)).tick else w.emit (.mutex_lock lb)).ptdsp = w.ptdsp := by
    intro c _; split <;> simp
  unfold xdd_lockstep_before_io_operation
  simp only [hqs, hl]
  unfold lockstep_master
  simp only [hs]
  rw [if_neg (by omega)]
  simp only [Outcome.andThen]
  unfold lockstep_slave
  simp only [hs, hsm, if_true, emit_now]
  generalize hw0 : (if 0 < s.ls_task_counter ∧ s.ls_task_type.TIME = true then
    (w.emit (.mutex_lock lb)).tick else w.emit (.mutex_lock lb)) = w0
  have hw : w0.lockstep = w.lockstep ∧ w0.ptds = w.ptds ∧ w0.ptdsp = w.ptdsp := by
    rw [← hw0]; exact hw2 _ _
  split_ifs with hwait h1 h2
  · exact ⟨_, rfl, ls_block_step_drain lb w w0 s _ hw f2 f3 f4 (by rw [f1]) (by rw [f1])⟩
  · exfalso
    rw [f1] at h1 h2
    exact h1 ⟨h2.1, hfc h2.1⟩
  · exact ⟨_, rfl, ls_block_step_rendezvous lb w w0 s _ hw f2 f3 f4
      (by show (ls_task_check qs s w.now).2.ls_ms_state.LS_MASTER_FINISHED = _; rw [f1])
      (by show (ls_task_check qs s w.now).2.ls_ms_state.LS_SLAVE_COMPLETE = _; rw [f1])⟩
  · exact ⟨_, rfl, ls_block_step_unlock lb w w0 s _ hw f2 f3 f4 (by rw [f1]) (by rw [f1])⟩

theorem target_of_ptdsp (w w1 : World) (h : w1.ptdsp = w.ptdsp) (i : Int) :
    w1.target i = w.target i := by
  unfold World.target
  rw [h]

theorem advance_ptdsp (w : World) (p : Nat) (op bytes : Int) :
    (w.advance p op bytes).ptdsp = w.ptdsp := by
  unfold World.advance
  split <;> rfl

theorem advance_lockstep (w : World) (p : Nat) (op bytes : Int) :
    (w.advance p op bytes).lockstep = w.lockstep := by
  unfold World.advance
  split <;> rfl

theorem advance_ptds (w : World) (p : Nat) (op bytes : Int) (p1 : Nat) (q : ptds_t)
    (h : w.ptds p1 = some q) :
    ∃ q1, (w.advance p op bytes).ptds p1 = some q1 ∧ q1.lsp = q.lsp ∧
      q1.my_pass_ring = q.my_pass_ring := by
  unfold World.advance
  split
  · rename_i q0 h0
    by_cases hp : p1 = p
    · subst hp
      rw [h] at h0
      injection h0 with h0
      subst h0
      exact ⟨_, setPtds_same _ _ _, rfl, rfl⟩
    · exact ⟨q, by rw [setPtds_other _ _ _ _ hp]; exact h, rfl, rfl⟩
  · exact ⟨q, h, rfl, rfl⟩

theorem advance_ready (c : ls_pair) (w : World) (p : Nat) (op bytes : Int)
    (h : ls_pair_ready c w) : ls_pair_ready c (w.advance p op bytes) := by
  obtain ⟨⟨qm, lm, m, p2, q2, a1, a2, a3, a4, a5, a6, a7, a8, a9⟩,
    ⟨qs, s, b1, b2, b3, b4⟩⟩ := h
  obtain ⟨qm1, c1, c2, -⟩ := advance_ptds w p op bytes _ _ a1
  obtain ⟨q21, d1, d2, -⟩ := advance_ptds w p op bytes _ _ a8
  obtain ⟨qs1, e1, e2, -⟩ := advance_ptds w p op bytes _ _ b1
  refine ⟨⟨qm1, lm, m, p2, q21, c1, c2.trans a2, a3, ?_, a5, a6, ?_, d1, d2.trans a9⟩,
    ⟨qs1, s, e1, e2.trans b2, ?_, b4⟩⟩
  · rw [advance_lockstep]; exact a4
  · rw [target_of_ptdsp w _ (advance_ptdsp w p op bytes)]; exact a7
  · rw [advance_lockstep]; exact b3

theorem advance_counter (w : World) (p : Nat) (op bytes : Int) (l : Nat) :
    ls_task_counter_at (w.advance p op bytes) l = ls_task_counter_at w l := by
  unfold ls_task_counter_at
  rw [advance_lockstep]


theorem master_finished_counter (w : World) (l : Nat) :
    ls_task_counter_at (master_finished w l) l = ls_task_counter_at w l := by
  unfold master_finished ls_task_counter_at
  cases h : w.lockstep l with
  | none => simp [h]
  | some ls => simp [h]

theorem master_finished_ptds (w : World) (l : Nat) : (master_finished w l).ptds = w.ptds := by
  unfold master_finished
  split <;> rfl

theorem master_finished_ready (c : ls_pair) (w : World) (h : ls_pair_ready c w) :
    ls_pair_ready c (master_finished w c.block) := by
  obtain ⟨⟨qm, lm, m, p2, q2, a1, a2, a3, a4, a5, a6, a7, a8, a9⟩,
    ⟨qs, s, b1, b2, b3, b4, b5, b6, b7, -⟩⟩ := h
  have hw : master_finished w c.block = w.setLockstep c.block { s with ls_ms_state :=
      { s.ls_ms_state with LS_MASTER_FINISHED := true, LS_SLAVE_COMPLETE := true } } := by
    unfold master_finished
    rw [b3]
  rw [hw]
  refine ⟨⟨qm, lm, m, p2, q2, a1, a2, a3, ?_, a5, a6, a7, a8, a9⟩,
    ⟨qs, _, b1, b2, setLockstep_same _ _ _, b4, b5, b6, b7, fun _ => rfl⟩⟩
  rw [setLockstep_other _ _ _ _ a3]; exact a4

/-- What one step of a run keeps. -/
theorem ls_run_step_keeps (c : ls_pair) (t : ls_tally) (st : ls_step) (ring : Int)
    (hready : ls_pair_ready c t.world)
    (hring : ∃ qs, t.world.ptds c.slave = some qs ∧ qs.my_pass_ring = ring) :
    ls_pair_ready c (ls_run_step c t st).world ∧
    (∃ qs, (ls_run_step c t st).world.ptds c.slave = some qs ∧ qs.my_pass_ring = ring) ∧
    ls_task_counter_at (ls_run_step c t st).world c.block -
        (ls_run_step c t st).pings + (ls_run_step c t st).fires =
      ls_task_counter_at t.world c.block - t.pings + t.fires ∧
    (ls_run_step c t st).slave_codes =
      t.slave_codes ++ (if st.is_slave_call then [some 0] else []) := by
  cases st with
  | master_call op bytes =>
    have hr0 := advance_ready c t.world c.master op bytes hready
    obtain ⟨qs0, r1, r2⟩ := hring
    obtain ⟨qs1, r3, -, r4⟩ := advance_ptds t.world c.master op bytes _ _ r1
    obtain ⟨⟨qm, lm, m, p2, q2, a1, a2, a3, a4, a5, a6, a7, a8, a9⟩,
      ⟨qs, s, b1, b2, b3, b4, b5, b6, b7, b8⟩⟩ := hr0
    obtain ⟨w1, m1, s1, e0, e1, e2, e3, e4, e5, e6, e7, e8, e9, e10, e11, e12⟩ :=
      lockstep_master_call c.master lm c.block p2 _ qm q2 m s a1 a2 a4 a5 a6 a7 a8 a9 a3 b3
    have hw : (ls_run_step c t (.master_call op bytes)).world = w1 := by
      simp only [ls_run_step, e0, Outcome.world]
    refine ⟨?_, ?_, ?_, ?_⟩
    · rw [hw]
      refine ⟨⟨qm, lm, m1, p2, q2, by rw [e1]; exact a1, a2, a3, e3, by rw [e4]; exact a5,
        by rw [e5]; exact a6, ?_, by rw [e1]; exact a8, a9⟩,
        ⟨qs, s1, by rw [e1]; exact b1, b2, e6, by rw [e7]; exact b4, by rw [e8]; exact b5,
          by rw [e9]; exact b6, ?_, ?_⟩⟩
      · rw [target_of_ptdsp _ _ e2, e5]; exact a7
      · rcases e12 with h | h <;> omega
      · rw [e10, e11]; exact b8
    · rw [hw, e1]
      exact ⟨qs1, r3, r4.trans r2⟩
    · simp only [ls_run_step, advance_counter]
      ring
    · simp [ls_run_step, ls_step.is_slave_call]
  | slave_call op bytes =>
    have hr0 := advance_ready c t.world c.slave op bytes hready
    obtain ⟨qs0, r1, r2⟩ := hring
    obtain ⟨qs1, r3, -, r4⟩ := advance_ptds t.world c.slave op bytes _ _ r1
    obtain ⟨⟨qm, lm, m, p2, q2, a1, a2, a3, a4, a5, a6, a7, a8, a9⟩,
      ⟨qs, s, b1, b2, b3, b4, b5, b6, b7, b8⟩⟩ := hr0
    obtain ⟨w1, e0, e1, e2, e3, s1, e4, e5, e6, e7, e8, e9, e10⟩ :=
      lockstep_slave_call c.slave c.block _ qs s b1 b2 b3 b4 b5 b8
    obtain ⟨g1, -⟩ := ls_task_check_single qs s (t.world.advance c.slave op bytes).now b6 b7
    have hw : (ls_run_step c t (.slave_call op bytes)).world = w1 := by
      simp only [ls_run_step, e0, Outcome.world]
    refine ⟨?_, ?_, ?_, ?_⟩
    · rw [hw]
      refine ⟨⟨qm, lm, m, p2, q2, by rw [e1]; exact a1, a2, a3, by rw [e3 lm a3]; exact a4,
        a5, a6, ?_, by rw [e1]; exact a8, a9⟩,
        ⟨qs, s1, by rw [e1]; exact b1, b2, e4, by rw [e6]; exact b4, by rw [e7]; exact b5,
          by rw [e8]; exact b6, by rw [e5]; exact g1, ?_⟩⟩
      · rw [target_of_ptdsp _ _ e2]; exact a7
      · rw [e9, e10]; exact b8
    · rw [hw, e1]
      exact ⟨qs1, r3, r4.trans r2⟩
    · simp only [ls_run_step, advance_counter]
      ring
    · simp [ls_run_step, ls_step.is_slave_call, e0, Outcome.value?]
  | master_finished =>
    refine ⟨master_finished_ready c t.world hready, ?_, ?_, ?_⟩
    · simp only [ls_run_step, master_finished_ptds]
      exact hring
    · simp only [ls_run_step, master_finished_counter]
    · simp [ls_run_step, ls_step.is_slave_call]

/-- What a run keeps. -/
theorem ls_run_keeps (c : ls_pair) (steps : List ls_step) (ring : Int) :
    ∀ t : ls_tally, ls_pair_ready c t.world →
      (∃ qs, t.world.ptds c.slave = some qs ∧ qs.my_pass_ring = ring) →
      ls_pair_ready c (ls_run c steps t).world ∧
      (∃ qs, (ls_run c steps t).world.ptds c.slave = some qs ∧ qs.my_pass_ring = ring) ∧
      ls_task_counter_at (ls_run c steps t).world c.block -
          (ls_run c steps t).pings + (ls_run c steps t).fires =
        ls_task_counter_at t.world c.block - t.pings + t.fires ∧
      (ls_run c steps t).slave_codes =
        t.slave_codes ++ List.replicate (steps.countP ls_step.is_slave_call) (some 0) := by
  induction steps with
  | nil =>
    intro t hr hq
    simp [ls_run, hr, hq]
  | cons st rest ih =>
    intro t hr hq
    obtain ⟨k1, k2, k3, k4⟩ := ls_run_step_keeps c t st ring hr hq
    obtain ⟨j1, j2, j3, j4⟩ := ih (ls_run_step c t st) k1 k2
    refine ⟨j1, j2, j3.trans k3, ?_⟩
    simp only [ls_run]
    rw [j4, k4, List.countP_cons]
    cases hst : st.is_slave_call
    · simp
    · simp only [↓reduceIte, List.append_assoc]
      rw [List.replicate_succ]
      rfl

/-- C10, as amended: for a pair set up for lockstep whose slave has at most one task
type configured and a task counter of 0, in every run (the master pings any
number of times, announces its end, the slave calls the stage any number of
times) the slave performs at most as many task fires as the master made pings,
the task counter is the pings less the fires, every slave call returns 0, and the
slave's `my_pass_ring` is never set. -/
theorem lockstep_fires_bounded_by_pings (c : ls_pair) (w : World) (steps : List ls_step)
    (qs : ptds_t) (hready : ls_pair_ready c w) (h0 : ls_task_counter_at w c.block = 0)
    (hqs : w.ptds c.slave = some qs) :
    (ls_run c steps ⟨w, 0, 0, []⟩).fires ≤ (ls_run c steps ⟨w, 0, 0, []⟩).pings ∧
    ls_task_counter_at (ls_run c steps ⟨w, 0, 0, []⟩).world c.block =
      (ls_run c steps ⟨w, 0, 0, []⟩).pings - (ls_run c steps ⟨w, 0, 0, []⟩).fires ∧
    (ls_run c steps ⟨w, 0, 0, []⟩).slave_codes =
      List.replicate (steps.countP ls_step.is_slave_call) (some 0) ∧
    ∃ qs1, (ls_run c steps ⟨w, 0, 0, []⟩).world.ptds c.slave = some qs1 ∧
      qs1.my_pass_ring = qs.my_pass_ring := by
  obtain ⟨k1, k2, k3, k4⟩ := ls_run_keeps c steps qs.my_pass_ring ⟨w, 0, 0, []⟩ hready
    ⟨qs, hqs, rfl⟩
  simp only [h0] at k3
  obtain ⟨-, ⟨qs2, s, -, -, b3, -, -, -, b7, -⟩⟩ := k1
  have hc : ls_task_counter_at (ls_run c steps ⟨w, 0, 0, []⟩).world c.block = s.ls_task_counter := by
    unfold ls_task_counter_at; rw [b3]
  refine ⟨?_, ?_, ?_, k2⟩
  · rw [hc] at k3; omega
  · omega
  · simpa using k4

/-! ## End-to-end: the receive loop -/

@[simp]
theorem e2e_dest_wait_q (clock : Nat → Int) (s : e2e_state) (r : e2e_recv_t) :
    (e2e_dest_wait clock s r).q = s.q := rfl

@[simp]
theorem e2e_dest_wait_msg (clock : Nat → Int) (s : e2e_state) (r : e2e_recv_t) :
    (e2e_dest_wait clock s r).ep.e2e_msg = r.msg := rfl

@[simp]
theorem e2e_dest_wait_timedout (clock : Nat → Int) (s : e2e_state) (r : e2e_recv_t) :
    (e2e_dest_wait clock s r).ep.e2e_timedout = r.timedout := rfl

@[simp]
theorem e2e_dest_wait_data_ready (clock : Nat → Int) (s : e2e_state) (r : e2e_recv_t) :
    (e2e_dest_wait clock s r).ep.e2e_data_ready = s.ep.e2e_data_ready := rfl

@[simp]
theorem e2e_dest_wait_last_sequence (clock : Nat → Int) (s : e2e_state) (r : e2e_recv_t) :
    (e2e_dest_wait clock s r).ep.e2e_msg_last_sequence = s.ep.e2e_msg_last_sequence := rfl

@[simp]
theorem e2e_dest_wait_prev_loc (clock : Nat → Int) (s : e2e_state) (r : e2e_recv_t) :
    (e2e_dest_wait clock s r).ep.e2e_prev_loc = s.ep.e2e_prev_loc := rfl

@[simp]
theorem e2e_dest_wait_prev_len (clock : Nat → Int) (s : e2e_state) (r : e2e_recv_t) :
    (e2e_dest_wait clock s r).ep.e2e_prev_len = s.ep.e2e_prev_len := rfl

@[simp]
theorem e2e_mark_ring_iosize (K : xdd_h) (q : ptds_t) (ep : e2e_t) :
    (e2e_mark_ring K q ep).iosize = q.iosize := by
  unfold e2e_mark_ring; split <;> rfl

@[simp]
theorem e2e_mark_ring_location (K : xdd_h) (q : ptds_t) (ep : e2e_t) :
    (e2e_mark_ring K q ep).my_current_byte_location = q.my_current_byte_location := by
  unfold e2e_mark_ring; split <;> rfl

@[simp]
theorem e2e_mark_ring_op (K : xdd_h) (q : ptds_t) (ep : e2e_t) :
    (e2e_mark_ring K q ep).my_current_op = q.my_current_op := by
  unfold e2e_mark_ring; split <;> rfl

@[simp]
theorem e2e_mark_ring_ops (K : xdd_h) (q : ptds_t) (ep : e2e_t) :
    (e2e_mark_ring K q ep).target_ops = q.target_ops := by
  unfold e2e_mark_ring; split <;> rfl

@[simp]
theorem e2e_mark_ring_break (K : xdd_h) (q : ptds_t) (ep : e2e_t) :
    (e2e_mark_ring K q ep).my_error_break = q.my_error_break := by
  unfold e2e_mark_ring; split <;> rfl

@[simp]
theorem e2e_credit_msg (ep : e2e_t) :
    (e2e_credit ep).e2e_msg = ep.e2e_msg := by
  unfold e2e_credit; split <;> rfl

@[simp]
theorem e2e_credit_last_sequence (ep : e2e_t) :
    (e2e_credit ep).e2e_msg_last_sequence = ep.e2e_msg_last_sequence + 1 := by
  unfold e2e_credit; split <;> rfl

@[simp]
theorem e2e_credit_data_ready (ep : e2e_t) :
    (e2e_credit ep).e2e_data_ready = ep.e2e_data_ready + ep.e2e_msg.length := by
  unfold e2e_credit; split <;> rfl

@[simp]
theorem e2e_credit_prev_loc (ep : e2e_t) :
    (e2e_credit ep).e2e_prev_loc = ep.e2e_msg.location := by
  unfold e2e_credit; split <;> rfl

@[simp]
theorem e2e_credit_prev_len (ep : e2e_t) :
    (e2e_credit ep).e2e_prev_len = ep.e2e_msg.length := by
  unfold e2e_credit; split <;> rfl

@[simp]
theorem e2e_shrink_iosize (q : ptds_t) (ep : e2e_t) :
    (e2e_shrink q ep).iosize = ep.e2e_msg.length := rfl

@[simp]
theorem e2e_shrink_ring (q : ptds_t) (ep : e2e_t) :
    (e2e_shrink q ep).my_pass_ring = q.my_pass_ring := rfl

@[simp]
theorem e2e_shrink_break (q : ptds_t) (ep : e2e_t) :
    (e2e_shrink q ep).my_error_break = q.my_error_break := rfl

theorem e2e_mark_ring_ring (K : xdd_h) (q : ptds_t) (ep : e2e_t)
    (h : ep.e2e_msg.magic = K.PTDS_E2E_MAGIQ) : (e2e_mark_ring K q ep).my_pass_ring = 1 := by
  unfold e2e_mark_ring; rw [if_pos h]

theorem e2e_mark_ring_keeps (K : xdd_h) (q : ptds_t) (ep : e2e_t) (h : q.my_pass_ring = 1) :
    (e2e_mark_ring K q ep).my_pass_ring = 1 := by
  unfold e2e_mark_ring; split
  · rfl
  · exact h

theorem e2e_iteration_failed_iff (K : xdd_h) (clock : Nat → Int) (s : e2e_state) (r : e2e_recv_t) :
    (∃ s1, e2e_iteration K clock s r = .failed s1) ↔ e2e_msg_fails K s r := by
  unfold e2e_iteration e2e_msg_fails
  by_cases h1 : r.status = K.FAILED
  · simp [h1]
  · by_cases h2 : r.msg.magic = K.PTDS_E2E_MAGIQ
    · by_cases h3 : r.timedout = true
      · simp [h1, h2, h3]
      · simp only [h1, h2, h3, e2e_dest_wait_q, e2e_dest_wait_msg, e2e_dest_wait_timedout,
          e2e_dest_wait_last_sequence, e2e_dest_wait_prev_loc]
        split_ifs <;> simp_all
    · by_cases h4 : r.msg.sequence = s.ep.e2e_msg_last_sequence
      · by_cases h3 : r.timedout = true
        · simp [h1, h2, h3, h4]
        · simp only [h1, h2, h3, h4, e2e_dest_wait_q, e2e_dest_wait_msg, e2e_dest_wait_timedout,
            e2e_dest_wait_last_sequence, e2e_dest_wait_prev_loc]
          split_ifs <;> simp_all
      · simp [h1, h2, h4]

theorem e2e_iteration_failed_credit (K : xdd_h) (clock : Nat → Int) (s s1 : e2e_state)
    (r : e2e_recv_t) (h : e2e_iteration K clock s r = .failed s1) :
    e2e_same_credit s s1.q s1.ep := by
  simp only [e2e_iteration] at h
  unfold e2e_same_credit
  split_ifs at h <;> (injection h with h; subst h; simp)


theorem e2e_loop_nil (K : xdd_h) (clock : Nat → Int) (s : e2e_state) :
    e2e_loop K clock [] s =
      if s.ep.e2e_data_ready < s.q.iosize then ⟨.blocked, s, [], []⟩
      else ⟨.completed, s, [], []⟩ := by
  simp [e2e_loop]

theorem e2e_loop_done (K : xdd_h) (clock : Nat → Int) (s : e2e_state) (msgs : List e2e_recv_t)
    (h : ¬ s.ep.e2e_data_ready < s.q.iosize) :
    e2e_loop K clock msgs s = ⟨.completed, s, msgs, []⟩ := by
  cases msgs <;> simp [e2e_loop, h]

theorem e2e_loop_failed (K : xdd_h) (clock : Nat → Int) (s s1 : e2e_state) (r : e2e_recv_t)
    (rest : List e2e_recv_t) (h : s.ep.e2e_data_ready < s.q.iosize)
    (hi : e2e_iteration K clock s r = .failed s1) :
    e2e_loop K clock (r :: rest) s = ⟨.failed, s1, rest, [(s, r)]⟩ := by
  simp [e2e_loop, h, hi]

theorem e2e_loop_short (K : xdd_h) (clock : Nat → Int) (s s1 : e2e_state) (r : e2e_recv_t)
    (rest : List e2e_recv_t) (h : s.ep.e2e_data_ready < s.q.iosize)
    (hi : e2e_iteration K clock s r = .short_tail s1) :
    e2e_loop K clock (r :: rest) s = ⟨.completed, s1, rest, [(s, r)]⟩ := by
  simp [e2e_loop, h, hi]

theorem e2e_loop_stale (K : xdd_h) (clock : Nat → Int) (s s1 : e2e_state) (r : e2e_recv_t)
    (rest : List e2e_recv_t) (h : s.ep.e2e_data_ready < s.q.iosize)
    (hi : e2e_iteration K clock s r = .stale s1) :
    e2e_loop K clock (r :: rest) s =
      { e2e_loop K clock rest s1 with received := (s, r) :: (e2e_loop K clock rest s1).received } := by
  simp [e2e_loop, h, hi]

theorem e2e_loop_accepted (K : xdd_h) (clock : Nat → Int) (s s1 : e2e_state) (r : e2e_recv_t)
    (rest : List e2e_recv_t) (h : s.ep.e2e_data_ready < s.q.iosize)
    (hi : e2e_iteration K clock s r = .accepted s1) :
    e2e_loop K clock (r :: rest) s =
      { e2e_loop K clock rest s1 with received := (s, r) :: (e2e_loop K clock rest s1).received } := by
  simp [e2e_loop, h, hi]

/-- What the log of a run says about each delivery in it. -/
theorem e2e_loop_log (K : xdd_h) (clock : Nat → Int) (msgs : List e2e_recv_t) :
    ∀ s : e2e_state,
      (∀ e ∈ (e2e_loop K clock msgs s).received, e.1.ep.e2e_data_ready < e.1.q.iosize) ∧
      (∀ e ∈ (e2e_loop K clock msgs s).received, ∀ s1,
        (e2e_iteration K clock e.1 e.2 = .failed s1 →
          (e2e_loop K clock msgs s).ending = .failed ∧ (e2e_loop K clock msgs s).final = s1 ∧
          (e2e_loop K clock msgs s).received.getLast? = some e) ∧
        (e2e_iteration K clock e.1 e.2 = .short_tail s1 →
          (e2e_loop K clock msgs s).ending = .completed ∧ (e2e_loop K clock msgs s).final = s1 ∧
          (e2e_loop K clock msgs s).received.getLast? = some e)) ∧
      ((e2e_loop K clock msgs s).ending = .failed →
        ∃ e s1, (e2e_loop K clock msgs s).received.getLast? = some e ∧
          e2e_iteration K clock e.1 e.2 = .failed s1) ∧
      msgs = (e2e_loop K clock msgs s).received.map Prod.snd ++ (e2e_loop K clock msgs s).rest := by
  induction msgs with
  | nil =>
    intro s
    rw [e2e_loop_nil]
    split <;> simp
  | cons r rest ih =>
    intro s
    by_cases h : s.ep.e2e_data_ready < s.q.iosize
    · cases hi : e2e_iteration K clock s r with
      | failed s1 =>
        rw [e2e_loop_failed K clock s s1 r rest h hi]
        simp [h, hi]
      | short_tail s1 =>
        rw [e2e_loop_short K clock s s1 r rest h hi]
        simp [h, hi]
      | stale s1 =>
        rw [e2e_loop_stale K clock s s1 r rest h hi]
        obtain ⟨ih1, ih2, ih3, ih4⟩ := ih s1
        refine ⟨?_, ?_, ?_, ?_⟩
        · intro e he
          simp only [List.mem_cons] at he
          rcases he with rfl | he
          · exact h
          · exact ih1 e he
        · intro e he s2
          simp only [List.mem_cons] at he
          rcases he with rfl | he
          · simp [hi]
          · obtain ⟨a, b⟩ := ih2 e he s2
            constructor
            · intro hf
              obtain ⟨a1, a2, a3⟩ := a hf
              refine ⟨a1, a2, ?_⟩
              simp only [List.getLast?_cons]
              rw [a3]; rfl
            · intro hf
              obtain ⟨a1, a2, a3⟩ := b hf
              refine ⟨a1, a2, ?_⟩
              simp only [List.getLast?_cons]
              rw [a3]; rfl
        · intro hf
          obtain ⟨e, s2, a1, a2⟩ := ih3 hf
          refine ⟨e, s2, ?_, a2⟩
          simp only [List.getLast?_cons]
          rw [a1]; rfl
        · simp only [List.map_cons, List.cons_append]
          rw [← ih4]
      | accepted s1 =>
        rw [e2e_loop_accepted K clock s s1 r rest h hi]
        obtain ⟨ih1, ih2, ih3, ih4⟩ := ih s1
        refine ⟨?_, ?_, ?_, ?_⟩
        · intro e he
          simp only [List.mem_cons] at he
          rcases he with rfl | he
          · exact h
          · exact ih1 e he
        · intro e he s2
          simp only [List.mem_cons] at he
          rcases he with rfl | he
          · simp [hi]
          · obtain ⟨a, b⟩ := ih2 e he s2
            constructor
            · intro hf
              obtain ⟨a1, a2, a3⟩ := a hf
              refine ⟨a1, a2, ?_⟩
              simp only [List.getLast?_cons]
              rw [a3]; rfl
            · intro hf
              obtain ⟨a1, a2, a3⟩ := b hf
              refine ⟨a1, a2, ?_⟩
              simp only [List.getLast?_cons]
              rw [a3]; rfl
        · intro hf
          obtain ⟨e, s2, a1, a2⟩ := ih3 hf
          refine ⟨e, s2, ?_, a2⟩
          simp only [List.getLast?_cons]
          rw [a1]; rfl
        · simp only [List.map_cons, List.cons_append]
          rw [← ih4]
    · rw [e2e_loop_done K clock s (r :: rest) h]
      simp


theorem e2e_commit_ptds (p : Nat) (w : World) (run : e2e_run) :
    (e2e_commit p w run).ptds p = some { run.final.q with e2ep := some run.final.ep } := by
  simp [e2e_commit]

theorem e2e_commit_msgs (p : Nat) (w : World) (run : e2e_run) :
    (e2e_commit p w run).e2e_msgs = run.rest := rfl

/-- The two ways the stage runs: it leaves before its loop, or it runs the loop on
the worker's block. -/
theorem e2e_stage_cases (K : xdd_h) (p : Nat) (w : World) :
    (e2e_received K p w = [] ∧
      (xdd_e2e_before_io_operation K p w = .fault w ∨
        xdd_e2e_before_io_operation K p w = .ret K.SUCCESS w)) ∨
    (∃ q ep, w.ptds p = some q ∧ q.e2ep = some ep ∧
      e2e_received K p w = (e2e_loop K w.clock w.e2e_msgs ⟨q, ep, w.clock_reads⟩).received ∧
      xdd_e2e_before_io_operation K p w =
        e2e_finish K p w (e2e_loop K w.clock w.e2e_msgs ⟨q, ep, w.clock_reads⟩)) := by
  unfold e2e_received xdd_e2e_before_io_operation
  cases hq : w.ptds p with
  | none => left; simp
  | some q =>
    by_cases h1 : q.target_options.TO_ENDTOEND = true
    · by_cases h2 : q.target_options.TO_E2E_SOURCE = true
      · left; simp [h1, h2]
      · cases hep : q.e2ep with
        | none => left; simp [h1, h2, hep]
        | some ep =>
          right
          refine ⟨q, ep, rfl, hep, ?_, ?_⟩
          · simp [h1, h2, hep]
          · simp [h1, h2, hep]
    · left; simp [h1]

/-- When the stage returns `FAILED`, the last delivery received is a failing one and
it credited nothing. -/
theorem e2e_stage_failed_last (K : xdd_h) (hK : K.SUCCESS ≠ K.FAILED) (p : Nat) (w w1 : World)
    (h : xdd_e2e_before_io_operation K p w = .ret K.FAILED w1) :
    ∃ e, (e2e_received K p w).getLast? = some e ∧ e2e_msg_fails K e.1 e.2 ∧
      ∃ q1 ep1, w1.ptds p = some q1 ∧ q1.e2ep = some ep1 ∧ e2e_same_credit e.1 q1 ep1 := by
  rcases e2e_stage_cases K p w with ⟨-, hst | hst⟩ | ⟨q, ep, hq, hep, hrec, hst⟩
  · rw [hst] at h; cases h
  · rw [hst] at h
    injection h with h1 _
    exact absurd h1 hK
  · rw [hrec]
    rw [hst] at h
    obtain ⟨_, l2, l3, _⟩ := e2e_loop_log K w.clock w.e2e_msgs ⟨q, ep, w.clock_reads⟩
    generalize e2e_loop K w.clock w.e2e_msgs ⟨q, ep, w.clock_reads⟩ = run at l2 l3 h
    have key : run.ending = .failed ∧ w1 = e2e_commit p w run := by
      unfold e2e_finish at h
      cases hend : run.ending with
      | blocked => rw [hend] at h; cases h
      | failed => rw [hend] at h; injection h with _ h2; exact ⟨rfl, h2.symm⟩
      | completed => rw [hend] at h; injection h with h1 _; exact absurd h1 hK
    obtain ⟨hend, hw1⟩ := key
    obtain ⟨e, s1, hl, hi⟩ := l3 hend
    obtain ⟨-, hfin, -⟩ := (l2 e (List.mem_of_getLast?_eq_some hl) s1).1 hi
    refine ⟨e, hl, (e2e_iteration_failed_iff K w.clock e.1 e.2).1 ⟨s1, hi⟩, ?_⟩
    refine ⟨{ run.final.q with e2ep := some run.final.ep }, run.final.ep, ?_, rfl, ?_⟩
    · rw [hw1]; exact e2e_commit_ptds p w run
    · have := e2e_iteration_failed_credit K w.clock e.1 s1 e.2 hi
      rw [hfin]
      exact this

/-- C3: the end-to-end destination stage returns `FAILED` exactly when, for some
delivery received during the call, the receive primitive failed, or the frame is
not `MAGIQ` and its sequence differs from the expected one, or the timed-out flag
is set; the failing delivery is then the last one received, and `data_ready`, the
expected sequence, `prev_loc`, `prev_len`, the worker's `iosize` and its byte
location are what they were just before it was received. -/
theorem e2e_failed_exactly_when (K : xdd_h) (hK : K.SUCCESS ≠ K.FAILED) (p : Nat) (w : World) :
    ((∃ w1, xdd_e2e_before_io_operation K p w = .ret K.FAILED w1) ↔
      ∃ e ∈ e2e_received K p w, e2e_msg_fails K e.1 e.2) ∧
    (∀ w1, xdd_e2e_before_io_operation K p w = .ret K.FAILED w1 →
      ∃ e, (e2e_received K p w).getLast? = some e ∧ e2e_msg_fails K e.1 e.2 ∧
        ∃ q1 ep1, w1.ptds p = some q1 ∧ q1.e2ep = some ep1 ∧ e2e_same_credit e.1 q1 ep1) := by
  refine ⟨⟨?_, ?_⟩, fun w1 h => e2e_stage_failed_last K hK p w w1 h⟩
  · rintro ⟨w1, h⟩
    obtain ⟨e, hl, hf, -⟩ := e2e_stage_failed_last K hK p w w1 h
    exact ⟨e, List.mem_of_getLast?_eq_some hl, hf⟩
  · rintro ⟨e, he, hf⟩
    rcases e2e_stage_cases K p w with ⟨hrec, -⟩ | ⟨q, ep, hq, hep, hrec, hst⟩
    · rw [hrec] at he; cases he
    · rw [hrec] at he
      rw [hst]
      obtain ⟨s1, hi⟩ := (e2e_iteration_failed_iff K w.clock e.1 e.2).2 hf
      obtain ⟨-, l2, -, -⟩ := e2e_loop_log K w.clock w.e2e_msgs ⟨q, ep, w.clock_reads⟩
      obtain ⟨hend, -, -⟩ := (l2 e he s1).1 hi
      unfold e2e_finish
      rw [hend]
      exact ⟨_, rfl⟩

theorem e2e_iteration_ring (K : xdd_h) (clock : Nat → Int) (s : e2e_state) (r : e2e_recv_t)
    (h : s.q.my_pass_ring = 1) : (e2e_iteration K clock s r).state.q.my_pass_ring = 1 := by
  simp only [e2e_iteration]
  split_ifs <;> simp [e2e_iter.state, e2e_mark_ring_keeps, h]

theorem e2e_iteration_magiq (K : xdd_h) (clock : Nat → Int) (s : e2e_state) (r : e2e_recv_t)
    (hok : r.status ≠ K.FAILED) (hmag : r.msg.magic = K.PTDS_E2E_MAGIQ)
    (hto : r.timedout = false) :
    (¬ ∃ s1, e2e_iteration K clock s r = .failed s1) ∧
      (e2e_iteration K clock s r).state.q.my_pass_ring = 1 := by
  constructor
  · rw [e2e_iteration_failed_iff]
    unfold e2e_msg_fails
    simp [hok, hmag, hto]
  · simp only [e2e_iteration]
    split_ifs <;> simp_all [e2e_iter.state, e2e_mark_ring_ring]

theorem e2e_loop_ring (K : xdd_h) (clock : Nat → Int) (msgs : List e2e_recv_t) :
    ∀ s : e2e_state,
      (s.q.my_pass_ring = 1 → (e2e_loop K clock msgs s).final.q.my_pass_ring = 1) ∧
      (∀ e ∈ (e2e_loop K clock msgs s).received,
        (e2e_iteration K clock e.1 e.2).state.q.my_pass_ring = 1 →
          (e2e_loop K clock msgs s).final.q.my_pass_ring = 1) := by
  induction msgs with
  | nil =>
    intro s
    rw [e2e_loop_nil]
    split <;> simp
  | cons r rest ih =>
    intro s
    by_cases h : s.ep.e2e_data_ready < s.q.iosize
    · have hr := e2e_iteration_ring K clock s r
      cases hi : e2e_iteration K clock s r with
      | failed s1 =>
        rw [e2e_loop_failed K clock s s1 r rest h hi]
        rw [hi] at hr
        simpa [hi, e2e_iter.state] using hr
      | short_tail s1 =>
        rw [e2e_loop_short K clock s s1 r rest h hi]
        rw [hi] at hr
        simpa [hi, e2e_iter.state] using hr
      | stale s1 =>
        rw [e2e_loop_stale K clock s s1 r rest h hi]
        rw [hi] at hr
        obtain ⟨ih1, ih2⟩ := ih s1
        refine ⟨fun h1 => ih1 (hr h1), ?_⟩
        intro e he
        simp only [List.mem_cons] at he
        rcases he with rfl | he
        · intro h2
          rw [hi] at h2
          exact ih1 h2
        · exact ih2 e he
      | accepted s1 =>
        rw [e2e_loop_accepted K clock s s1 r rest h hi]
        rw [hi] at hr
        obtain ⟨ih1, ih2⟩ := ih s1
        refine ⟨fun h1 => ih1 (hr h1), ?_⟩
        intro e he
        simp only [List.mem_cons] at he
        rcases he with rfl | he
        · intro h2
          rw [hi] at h2
          exact ih1 h2
        · exact ih2 e he
    · rw [e2e_loop_done K clock s (r :: rest) h]
      simp

theorem e2e_finish_world_ptds (K : xdd_h) (p : Nat) (w : World) (run : e2e_run) :
    ∃ q1, (e2e_finish K p w run).world.ptds p = some q1 ∧
      q1.my_pass_ring = run.final.q.my_pass_ring ∧ q1.e2ep = some run.final.ep ∧
      q1.iosize = run.final.q.iosize := by
  unfold e2e_finish
  cases run.ending
  · exact ⟨_, e2e_commit_ptds p w run, rfl, rfl, rfl⟩
  · exact ⟨_, e2e_commit_ptds p w (e2e_relocate run), rfl, rfl, rfl⟩
  · exact ⟨_, e2e_commit_ptds p w run, rfl, rfl, rfl⟩

/-- C6: for every delivery received by the stage whose receive succeeded, whose
frame is `MAGIQ` and which leaves the timed-out flag clear, whatever its sequence
number: the loop body does not fail on it, the worker's `my_pass_ring` is 1 after
it and still 1 when the stage is left, and if the stage returns `FAILED` this
delivery is not the one it failed on. -/
theorem e2e_magiq_rings_pass (K : xdd_h) (hK : K.SUCCESS ≠ K.FAILED) (p : Nat) (w : World)
    (e : e2e_state × e2e_recv_t) (he : e ∈ e2e_received K p w)
    (hok : e.2.status ≠ K.FAILED) (hmag : e.2.msg.magic = K.PTDS_E2E_MAGIQ)
    (hto : e.2.timedout = false) :
    (∀ s1, e2e_iteration K w.clock e.1 e.2 ≠ .failed s1) ∧
    (e2e_iteration K w.clock e.1 e.2).state.q.my_pass_ring = 1 ∧
    (∃ q1, (xdd_e2e_before_io_operation K p w).world.ptds p = some q1 ∧ q1.my_pass_ring = 1) ∧
    (∀ w1, xdd_e2e_before_io_operation K p w = .ret K.FAILED w1 →
      (e2e_received K p w).getLast? ≠ some e) := by
  obtain ⟨hnf, hring⟩ := e2e_iteration_magiq K w.clock e.1 e.2 hok hmag hto
  have hnf1 : ∀ s1, e2e_iteration K w.clock e.1 e.2 ≠ .failed s1 := fun s1 h => hnf ⟨s1, h⟩
  refine ⟨hnf1, hring, ?_, ?_⟩
  · rcases e2e_stage_cases K p w with ⟨hrec, _⟩ | ⟨q, ep, hq, hep, hrec, hst⟩
    · rw [hrec] at he; cases he
    · rw [hrec] at he
      rw [hst]
      obtain ⟨q1, h1, h2, -, -⟩ :=
        e2e_finish_world_ptds K p w (e2e_loop K w.clock w.e2e_msgs ⟨q, ep, w.clock_reads⟩)
      exact ⟨q1, h1, h2.trans ((e2e_loop_ring K w.clock w.e2e_msgs _).2 e he hring)⟩
  · intro w1 hf hl
    obtain ⟨e1, hl1, hfail, -⟩ := e2e_stage_failed_last K hK p w w1 hf
    rw [hl] at hl1
    injection hl1 with hl1
    subst hl1
    unfold e2e_msg_fails at hfail
    simp [hok, hmag, hto] at hfail


theorem e2e_iteration_accepted (K : xdd_h) (clock : Nat → Int) (s : e2e_state) (r : e2e_recv_t)
    (hacc : e2e_is_accepted K clock (s, r) = true) :
    (r.msg.magic = K.PTDS_E2E_MAGIQ ∨ r.msg.sequence = s.ep.e2e_msg_last_sequence) ∧
    (s.ep.e2e_msg_last_sequence = 0 ∨ r.msg.location > s.ep.e2e_prev_loc) ∧
    (e2e_iteration K clock s r).state.ep.e2e_msg_last_sequence = s.ep.e2e_msg_last_sequence + 1 ∧
    (e2e_iteration K clock s r).state.ep.e2e_data_ready = s.ep.e2e_data_ready + r.msg.length ∧
    (e2e_iteration K clock s r).state.ep.e2e_msg = r.msg ∧
    (s.q.my_current_op = s.q.target_ops - 1 → r.msg.length < s.q.iosize →
      ∃ s1, e2e_iteration K clock s r = .short_tail s1 ∧ s1.q.iosize = r.msg.length ∧
        (r.msg.magic = K.PTDS_E2E_MAGIQ → s1.q.my_pass_ring = 1)) := by
  unfold e2e_is_accepted at hacc
  simp only [e2e_iteration] at hacc ⊢
  split_ifs at hacc ⊢ with h1 h2 h3 h4 h5 <;> simp at hacc
  · simp only [e2e_dest_wait_q, e2e_dest_wait_msg, e2e_dest_wait_timedout,
      e2e_dest_wait_last_sequence, e2e_dest_wait_prev_loc, e2e_mark_ring_op, e2e_mark_ring_ops,
      e2e_mark_ring_iosize, e2e_credit_msg] at h2 h4 h5
    simp only [e2e_iter.state, e2e_credit_last_sequence, e2e_credit_data_ready, e2e_credit_msg,
      e2e_dest_wait_last_sequence, e2e_dest_wait_data_ready, e2e_dest_wait_msg, e2e_shrink_iosize,
      e2e_shrink_ring, e2e_dest_wait_q]
    refine ⟨?_, ?_, trivial, trivial, trivial, ?_⟩
    · by_contra hc
      push_neg at hc
      exact h2 ⟨hc.2, hc.1⟩
    · by_contra hc
      push_neg at hc
      exact h4 ⟨hc.1, hc.2⟩
    · intro _ _
      exact ⟨_, rfl, by simp, fun hm => by
        simpa using e2e_mark_ring_ring K s.q (e2e_dest_wait clock s r).ep (by simpa using hm)⟩
  · simp only [e2e_dest_wait_q, e2e_dest_wait_msg, e2e_dest_wait_timedout,
      e2e_dest_wait_last_sequence, e2e_dest_wait_prev_loc, e2e_mark_ring_op, e2e_mark_ring_ops,
      e2e_mark_ring_iosize, e2e_credit_msg] at h2 h4 h5
    simp only [e2e_iter.state, e2e_credit_last_sequence, e2e_credit_data_ready, e2e_credit_msg,
      e2e_dest_wait_last_sequence, e2e_dest_wait_data_ready, e2e_dest_wait_msg]
    refine ⟨?_, ?_, trivial, trivial, trivial, ?_⟩
    · by_contra hc
      push_neg at hc
      exact h2 ⟨hc.2, hc.1⟩
    · by_contra hc
      push_neg at hc
      exact h4 ⟨hc.1, hc.2⟩
    · intro a b
      exact absurd ⟨a, b⟩ h5

theorem e2e_iteration_stale (K : xdd_h) (clock : Nat → Int) (s s1 : e2e_state) (r : e2e_recv_t)
    (h : e2e_iteration K clock s r = .stale s1) :
    s1.ep.e2e_msg_last_sequence = s.ep.e2e_msg_last_sequence := by
  simp only [e2e_iteration] at h
  split_ifs at h
  injection h with h
  subst h
  simp


/-- C5, as amended: if the worker is on the last operation of the pass and the stage
accepts a message whose length is less than `iosize`, that message is the last one
received, the stage returns `SUCCESS` with `iosize` equal to the length of the
message and the byte location equal to its location, `data_ready` has grown by that
length (and is still below the original `iosize` when nothing was credited before
the message), and a `MAGIQ` message has rung the pass. -/
theorem e2e_short_tail_exit (K : xdd_h) (p : Nat) (w : World) (e : e2e_state × e2e_recv_t)
    (he : e ∈ e2e_received K p w) (hacc : e2e_is_accepted K w.clock e = true)
    (hlast : e.1.q.my_current_op = e.1.q.target_ops - 1)
    (hlen : e.2.msg.length < e.1.q.iosize) :
    ∃ w1 q1 ep1, xdd_e2e_before_io_operation K p w = .ret K.SUCCESS w1 ∧
      (e2e_received K p w).getLast? = some e ∧
      w.e2e_msgs = (e2e_received K p w).map Prod.snd ++ w1.e2e_msgs ∧
      w1.ptds p = some q1 ∧ q1.e2ep = some ep1 ∧
      q1.iosize = e.2.msg.length ∧
      q1.my_current_byte_location = e.2.msg.location ∧
      ep1.e2e_data_ready = e.1.ep.e2e_data_ready + e.2.msg.length ∧
      (e.1.ep.e2e_data_ready ≤ 0 → ep1.e2e_data_ready < e.1.q.iosize) ∧
      (e.2.msg.magic = K.PTDS_E2E_MAGIQ → q1.my_pass_ring = 1) := by
  rcases e2e_stage_cases K p w with ⟨hrec, _⟩ | ⟨q, ep, hq, hep, hrec, hst⟩
  · rw [hrec] at he; cases he
  · rw [hrec] at he ⊢
    rw [hst]
    obtain ⟨-, -, h3, h4, h5, h6⟩ := e2e_iteration_accepted K w.clock e.1 e.2 hacc
    obtain ⟨s1, hi, hio, hring⟩ := h6 hlast hlen
    rw [hi] at h3 h4 h5
    simp only [e2e_iter.state] at h3 h4 h5
    obtain ⟨-, l2, -, l4⟩ := e2e_loop_log K w.clock w.e2e_msgs ⟨q, ep, w.clock_reads⟩
    obtain ⟨hend, hfin, hl⟩ := (l2 e he s1).2 hi
    generalize e2e_loop K w.clock w.e2e_msgs ⟨q, ep, w.clock_reads⟩ = run at *
    refine ⟨e2e_commit p w (e2e_relocate run),
      { (e2e_relocate run).final.q with e2ep := some (e2e_relocate run).final.ep },
      run.final.ep, ?_, hl, l4, e2e_commit_ptds p w (e2e_relocate run), rfl, ?_, ?_, ?_, ?_, ?_⟩
    · unfold e2e_finish; rw [hend]
    · show run.final.q.iosize = _
      rw [hfin]; exact hio
    · show run.final.ep.e2e_msg.location = _
      rw [hfin, h5]
    · rw [hfin]; exact h4
    · intro h0
      rw [hfin, h4]
      omega
    · intro hm
      show run.final.q.my_pass_ring = 1
      rw [hfin]; exact hring hm

/-- The expected sequence and the position of each accepted message of a run. -/
theorem e2e_loop_accepted_order (K : xdd_h) (clock : Nat → Int) (msgs : List e2e_recv_t) :
    ∀ (s : e2e_state) (i : Nat) (e : e2e_state × e2e_recv_t),
      ((e2e_loop K clock msgs s).received.filter (e2e_is_accepted K clock))[i]? = some e →
      e.1.ep.e2e_msg_last_sequence = s.ep.e2e_msg_last_sequence + (i : Int) ∧
      (e.2.msg.magic = K.PTDS_E2E_MAGIQ ∨ e.2.msg.sequence = e.1.ep.e2e_msg_last_sequence) ∧
      (e.1.ep.e2e_msg_last_sequence = 0 ∨ e.2.msg.location > e.1.ep.e2e_prev_loc) := by
  induction msgs with
  | nil =>
    intro s i e
    rw [e2e_loop_nil]
    split <;> simp
  | cons r rest ih =>
    intro s i e
    by_cases h : s.ep.e2e_data_ready < s.q.iosize
    · cases hi : e2e_iteration K clock s r with
      | failed s1 =>
        rw [e2e_loop_failed K clock s s1 r rest h hi]
        have : e2e_is_accepted K clock (s, r) = false := by simp [e2e_is_accepted, hi]
        simp [List.filter, this]
      | short_tail s1 =>
        rw [e2e_loop_short K clock s s1 r rest h hi]
        have hacc : e2e_is_accepted K clock (s, r) = true := by simp [e2e_is_accepted, hi]
        obtain ⟨a1, a2, -⟩ := e2e_iteration_accepted K clock s r hacc
        simp only [List.filter, hacc]
        cases i with
        | zero =>
          intro he
          simp at he
          subst he
          simp [a1, a2]
        | succ j => simp
      | stale s1 =>
        rw [e2e_loop_stale K clock s s1 r rest h hi]
        have : e2e_is_accepted K clock (s, r) = false := by simp [e2e_is_accepted, hi]
        simp only [List.filter, this]
        intro he
        have := ih s1 i e he
        rw [e2e_iteration_stale K clock s s1 r hi] at this
        exact this
      | accepted s1 =>
        rw [e2e_loop_accepted K clock s s1 r rest h hi]
        have hacc : e2e_is_accepted K clock (s, r) = true := by simp [e2e_is_accepted, hi]
        obtain ⟨a1, a2, a3, -⟩ := e2e_iteration_accepted K clock s r hacc
        rw [hi] at a3
        simp only [e2e_iter.state] at a3
        simp only [List.filter, hacc]
        cases i with
        | zero =>
          intro he
          simp at he
          subst he
          simp [a1, a2]
        | succ j =>
          intro he
          simp only [List.getElem?_cons_succ] at he
          obtain ⟨b1, b2, b3⟩ := ih s1 j e he
          refine ⟨?_, b2, b3⟩
          rw [b1, a3]
          push_cast
          ring
    · rw [e2e_loop_done K clock s (r :: rest) h]
      simp

/-- C4, as amended: from a fresh end-to-end block, whose expected sequence is 0, the
`i`-th message accepted (counting from 0) is accepted while the expected sequence
is `i`; it is a `MAGIQ` frame or carries the sequence number `i`; and every accepted
message but the first has a location strictly greater than the `prev_loc` held just
before it was accepted. -/
theorem e2e_accepted_sequence (K : xdd_h) (p : Nat) (w : World) (q : ptds_t) (ep : e2e_t)
    (hq : w.ptds p = some q) (hep : q.e2ep = some ep) (hfresh : ep.e2e_msg_last_sequence = 0)
    (i : Nat) (e : e2e_state × e2e_recv_t) (he : (e2e_accepted K p w)[i]? = some e) :
    e.1.ep.e2e_msg_last_sequence = (i : Int) ∧
    (e.2.msg.magic = K.PTDS_E2E_MAGIQ ∨ e.2.msg.sequence = (i : Int)) ∧
    (i = 0 ∨ e.2.msg.location > e.1.ep.e2e_prev_loc) := by
  unfold e2e_accepted at he
  rcases e2e_stage_cases K p w with ⟨hrec, _⟩ | ⟨q1, ep1, hq1, hep1, hrec, -⟩
  · rw [hrec] at he; simp at he
  · rw [hq] at hq1
    injection hq1 with hq1
    subst hq1
    rw [hep] at hep1
    injection hep1 with hep1
    subst hep1
    rw [hrec] at he
    obtain ⟨b1, b2, b3⟩ := e2e_loop_accepted_order K w.clock w.e2e_msgs _ i e he
    simp only [hfresh, zero_add] at b1
    refine ⟨b1, ?_, ?_⟩
    · rw [← b1]; exact b2
    · rcases b3 with b3 | b3
      · left
        rw [b1] at b3
        exact_mod_cast b3
      · right; exact b3

/-! ## The driver -/

theorem keeps_flags_refl (w : World) : keeps_flags w w := ⟨rfl, fun _ q h => ⟨q, h, rfl⟩⟩

theorem keeps_flags_trans (w w1 w2 : World) (h1 : keeps_flags w w1) (h2 : keeps_flags w1 w2) :
    keeps_flags w w2 := by
  refine ⟨h2.1.trans h1.1, ?_⟩
  intro p q hq
  obtain ⟨q1, a, b⟩ := h1.2 p q hq
  obtain ⟨q2, c, d⟩ := h2.2 p q1 a
  exact ⟨q2, c, d.trans b⟩

theorem keeps_flags_of_eq (w w1 : World) (ha : w1.abort_io = w.abort_io) (hp : w1.ptds = w.ptds) :
    keeps_flags w w1 :=
  ⟨ha, fun p q h => ⟨q, by rw [hp]; exact h, rfl⟩⟩

theorem keeps_flags_setPtds (w : World) (p : Nat) (q q1 : ptds_t) (hq : w.ptds p = some q)
    (hb : q1.my_error_break = q.my_error_break) : keeps_flags w (w.setPtds p q1) := by
  refine ⟨rfl, ?_⟩
  intro p1 q0 h0
  by_cases hp : p1 = p
  · subst hp
    rw [hq] at h0
    injection h0 with h0
    subst h0
    exact ⟨q1, setPtds_same _ _ _, hb⟩
  · exact ⟨q0, by rw [setPtds_other _ _ _ _ hp]; exact h0, rfl⟩

theorem syncio_keeps (p : Nat) (w w1 : World) (a : Unit)
    (h : xdd_syncio_before_io_operation p w = .ret a w1) : keeps_flags w w1 := by
  unfold xdd_syncio_before_io_operation at h
  split at h
  · cases h
  · rename_i q hq
    split at h
    · injection h with _ h
      subst h
      exact keeps_flags_trans _ _ _ (keeps_flags_of_eq w (w.emit _) rfl rfl)
        (keeps_flags_setPtds _ p q _ hq rfl)
    · injection h with _ h
      subst h
      exact keeps_flags_refl w

theorem start_trigger_release_keeps (tgp2 : Option Nat) (w w1 : World) (a : Unit)
    (h : start_trigger_release tgp2 w = .ret a w1) : keeps_flags w w1 := by
  unfold start_trigger_release at h
  split at h
  · cases h
  · split at h
    · cases h
    · injection h with _ h
      subst h
      exact keeps_flags_of_eq _ _ rfl rfl

theorem start_trigger_thresholds_keeps (q : ptds_t) (tg : trigger_t) (tgp2 : Option Nat)
    (w w1 : World) (a : Unit) (h : start_trigger_thresholds q tg tgp2 w = .ret a w1) :
    keeps_flags w w1 := by
  unfold start_trigger_thresholds at h
  simp only at h
  obtain ⟨_, w3, h3, h⟩ := andThen_ret _ _ _ _ h
  obtain ⟨_, w2, h2, h3⟩ := andThen_ret _ _ _ _ h3
  obtain ⟨_, wa, h1, h2⟩ := andThen_ret _ _ _ _ h2
  have k1 : keeps_flags w wa := by
    split at h1
    · split at h1
      · exact keeps_flags_trans _ _ _ (keeps_flags_of_eq w w.tick rfl rfl)
          (start_trigger_release_keeps _ _ _ _ h1)
      · injection h1 with _ h1
        subst h1
        exact keeps_flags_of_eq w w.tick rfl rfl
    · injection h1 with _ h1
      subst h1
      exact keeps_flags_refl w
  have k2 : keeps_flags wa w2 := by
    split at h2
    · exact start_trigger_release_keeps _ _ _ _ h2
    · injection h2 with _ h2
      subst h2
      exact keeps_flags_refl _
  have k3 : keeps_flags w2 w3 := by
    split at h3
    · exact start_trigger_release_keeps _ _ _ _ h3
    · injection h3 with _ h3
      subst h3
      exact keeps_flags_refl _
  have k4 : keeps_flags w3 w1 := by
    split at h
    · exact start_trigger_release_keeps _ _ _ _ h
    · injection h with _ h
      subst h
      exact keeps_flags_refl _
  exact keeps_flags_trans _ _ _ (keeps_flags_trans _ _ _ (keeps_flags_trans _ _ _ k1 k2) k3) k4

theorem start_trigger_keeps (K : xdd_h) (p : Nat) (w w1 : World) (a : Option Int)
    (h : xdd_start_trigger_before_io_operation K p w = .ret a w1) : keeps_flags w w1 := by
  unfold xdd_start_trigger_before_io_operation at h
  split at h
  · cases h
  · rename_i q hq
    split at h
    · injection h with _ h
      subst h
      exact keeps_flags_refl w
    · split at h
      · cases h
      · split at h
        · injection h with _ h
          subst h
          exact keeps_flags_trans _ _ _
            (keeps_flags_of_eq w ((w.emit _).setTrigger _ _) rfl rfl)
            (keeps_flags_setPtds _ p q _ hq rfl)
        · split at h
          · split at h
            · cases h
            · split at h
              · cases h
              · split at h
                · obtain ⟨_, w0, h0, h⟩ := andThen_ret _ _ _ _ h
                  injection h with _ h
                  subst h
                  exact start_trigger_thresholds_keeps _ _ _ _ _ _ h0
                · injection h with _ h
                  subst h
                  exact keeps_flags_refl w
          · injection h with _ h
            subst h
            exact keeps_flags_refl w


theorem ls_ping_slave_frame (lsp2 : Option Nat) (w : World) :
    (ls_ping_slave lsp2 w).world.ptds = w.ptds ∧
      (ls_ping_slave lsp2 w).world.abort_io = w.abort_io := by
  unfold ls_ping_slave
  split
  · exact ⟨rfl, rfl⟩
  · split
    · exact ⟨rfl, rfl⟩
    · simp only
      split <;> exact ⟨rfl, rfl⟩

theorem lockstep_master_frame (q : ptds_t) (l : Nat) (w : World) :
    (lockstep_master q l w).world.ptds = w.ptds ∧
      (lockstep_master q l w).world.abort_io = w.abort_io := by
  unfold lockstep_master
  split
  · exact ⟨rfl, rfl⟩
  · split
    · split
      · exact ⟨rfl, rfl⟩
      · split
        · exact ⟨rfl, rfl⟩
        · simp only
          split
          · refine ⟨(ls_ping_slave_frame _ _).1.trans ?_, (ls_ping_slave_frame _ _).2.trans ?_⟩
            · exact ite_tick_ptds _ w
            · exact ite_tick_abort _ w
          · exact ⟨ite_tick_ptds _ w, ite_tick_abort _ w⟩
    · exact ⟨rfl, rfl⟩

theorem ls_slave_drain_frame (l : Nat) (ls : lockstep_t) (w : World) :
    (ls_slave_drain l ls w).ptds = w.ptds ∧ (ls_slave_drain l ls w).abort_io = w.abort_io := by
  unfold ls_slave_drain
  simp only
  split <;> exact ⟨rfl, rfl⟩

theorem lockstep_slave_frame (p : Nat) (q : ptds_t) (l : Nat) (w : World) :
    (lockstep_slave p q l w).world.abort_io = w.abort_io ∧
    ((lockstep_slave p q l w).world.ptds = w.ptds ∨
      (lockstep_slave p q l w).world.ptds =
        Function.update w.ptds p (some { q with my_pass_ring := TRUE })) := by
  unfold lockstep_slave
  split
  · exact ⟨rfl, Or.inl rfl⟩
  · simp only
    split
    · split
      · split
        · exact ⟨(ls_slave_drain_frame _ _ _).2.trans (ite_tick_abort _ (w.emit _)),
            Or.inl ((ls_slave_drain_frame _ _ _).1.trans (ite_tick_ptds _ (w.emit _)))⟩
        · split
          · refine ⟨(ls_slave_drain_frame _ _ _).2.trans (ite_tick_abort _ (w.emit _)), Or.inr ?_⟩
            simp only [Outcome.world, World.setPtds]
            rw [(ls_slave_drain_frame _ _ _).1, ite_tick_ptds _ (w.emit _)]
            rfl
          · exact ⟨ite_tick_abort _ (w.emit _), Or.inl (ite_tick_ptds _ (w.emit _))⟩
      · exact ⟨ite_tick_abort _ (w.emit _), Or.inl (ite_tick_ptds _ (w.emit _))⟩
    · exact ⟨rfl, Or.inl rfl⟩

theorem lockstep_keeps (p : Nat) (w w1 : World) (a : Int)
    (h : xdd_lockstep_before_io_operation p w = .ret a w1) : keeps_flags w w1 := by
  unfold xdd_lockstep_before_io_operation at h
  split at h
  · cases h
  · rename_i q hq
    split at h
    · injection h with _ h
      subst h
      exact keeps_flags_refl w
    · rename_i l _
      obtain ⟨_, w0, h0, h⟩ := andThen_ret _ _ _ _ h
      obtain ⟨m1, m2⟩ := lockstep_master_frame q l w
      rw [h0] at m1 m2
      simp only [Outcome.world] at m1 m2
      obtain ⟨s1, s2⟩ := lockstep_slave_frame p q l w0
      rw [h] at s1 s2
      simp only [Outcome.world] at s1 s2
      rcases s2 with s2 | s2
      · exact keeps_flags_of_eq _ _ (s1.trans m2) (s2.trans m1)
      · refine ⟨s1.trans m2, ?_⟩
        intro p1 q0 h0
        rw [s2, m1]
        by_cases hp : p1 = p
        · subst hp
          rw [hq] at h0
          injection h0 with h0
          subst h0
          exact ⟨_, Function.update_same _ _ _, rfl⟩
        · exact ⟨q0, by rw [Function.update_noteq hp]; exact h0, rfl⟩

theorem driver_to_lockstep_keeps (K : xdd_h) (p : Nat) (w w1 : World) (a : Int)
    (h : driver_to_lockstep K p w = .ret a w1) : keeps_flags w w1 := by
  unfold driver_to_lockstep at h
  obtain ⟨_, wa, h1, h⟩ := andThen_ret _ _ _ _ h
  obtain ⟨_, wb, h2, h⟩ := andThen_ret _ _ _ _ h
  exact keeps_flags_trans _ _ _ (keeps_flags_trans _ _ _ (syncio_keeps _ _ _ _ h1)
    (start_trigger_keeps _ _ _ _ _ h2)) (lockstep_keeps _ _ _ _ h)

theorem seek_resolution_break (p : Nat) (w w1 : World) (a : Unit)
    (h : seek_resolution p w = .ret a w1) :
    ∃ q1, w1.ptds p = some q1 ∧ q1.my_error_break = 0 := by
  unfold seek_resolution at h
  split at h
  · cases h
  · simp only at h
    split at h
    · cases h
    · injection h with _ h
      subst h
      exact ⟨_, setPtds_same _ _ _, rfl⟩

theorem dio_break (p : Nat) (w w1 : World) (a : Unit) (q : ptds_t) (hq : w.ptds p = some q)
    (h : xdd_dio_before_io_operation p w = .ret a w1) :
    ∃ q1, w1.ptds p = some q1 ∧ q1.my_error_break = q.my_error_break := by
  unfold xdd_dio_before_io_operation at h
  rw [hq] at h
  simp only at h
  split at h
  · injection h with _ h
    subst h
    exact ⟨q, hq, rfl⟩
  · split at h
    · injection h with _ h
      subst h
      exact ⟨q, hq, rfl⟩
    · split at h
      · injection h with _ h
        subst h
        exact ⟨q, hq, rfl⟩
      · injection h with _ h
        subst h
        refine ⟨_, setPtds_same _ _ _, ?_⟩
        split <;> rfl

theorem raw_break (p : Nat) (w w1 : World) (a : Unit) (q : ptds_t) (hq : w.ptds p = some q)
    (h : xdd_raw_before_io_operation p w = .ret a w1) :
    ∃ q1, w1.ptds p = some q1 ∧ q1.my_error_break = q.my_error_break := by
  unfold xdd_raw_before_io_operation at h
  rw [hq] at h
  simp only at h
  split at h
  · injection h with _ h
    subst h
    exact ⟨q, hq, rfl⟩
  · split at h
    · split at h <;> split at h
      all_goals first
        | cases h; done
        | (injection h with _ h; subst h; exact ⟨_, setPtds_same _ _ _, rfl⟩)
    · injection h with _ h
      subst h
      exact ⟨q, hq, rfl⟩

theorem e2e_iteration_break (K : xdd_h) (clock : Nat → Int) (s : e2e_state) (r : e2e_recv_t) :
    (e2e_iteration K clock s r).state.q.my_error_break = s.q.my_error_break := by
  simp only [e2e_iteration]
  split_ifs <;> simp [e2e_iter.state]

theorem e2e_loop_break (K : xdd_h) (clock : Nat → Int) (msgs : List e2e_recv_t) :
    ∀ s : e2e_state, (e2e_loop K clock msgs s).final.q.my_error_break = s.q.my_error_break := by
  induction msgs with
  | nil =>
    intro s
    rw [e2e_loop_nil]
    split <;> rfl
  | cons r rest ih =>
    intro s
    by_cases h : s.ep.e2e_data_ready < s.q.iosize
    · have hb := e2e_iteration_break K clock s r
      cases hi : e2e_iteration K clock s r with
      | failed s1 =>
        rw [e2e_loop_failed K clock s s1 r rest h hi]
        rw [hi] at hb
        exact hb
      | short_tail s1 =>
        rw [e2e_loop_short K clock s s1 r rest h hi]
        rw [hi] at hb
        exact hb
      | stale s1 =>
        rw [e2e_loop_stale K clock s s1 r rest h hi]
        rw [hi] at hb
        exact (ih s1).trans hb
      | accepted s1 =>
        rw [e2e_loop_accepted K clock s s1 r rest h hi]
        rw [hi] at hb
        exact (ih s1).trans hb
    · rw [e2e_loop_done K clock s (r :: rest) h]

theorem e2e_break (K : xdd_h) (p : Nat) (w w1 : World) (a : Int) (q : ptds_t)
    (hq : w.ptds p = some q) (h : xdd_e2e_before_io_operation K p w = .ret a w1) :
    ∃ q1, w1.ptds p = some q1 ∧ q1.my_error_break = q.my_error_break := by
  rcases e2e_stage_cases K p w with ⟨-, hst | hst⟩ | ⟨q0, ep, hq0, hep, -, hst⟩
  · rw [hst] at h; cases h
  · rw [hst] at h
    injection h with _ h
    subst h
    exact ⟨q, hq, rfl⟩
  · rw [hq] at hq0
    injection hq0 with hq0
    subst hq0
    rw [hst] at h
    have hb := e2e_loop_break K w.clock w.e2e_msgs ⟨q, ep, w.clock_reads⟩
    generalize e2e_loop K w.clock w.e2e_msgs ⟨q, ep, w.clock_reads⟩ = run at h hb
    unfold e2e_finish at h
    split at h
    · cases h
    · injection h with _ h
      subst h
      exact ⟨_, e2e_commit_ptds _ _ _, hb⟩
    · injection h with _ h
      subst h
      exact ⟨_, e2e_commit_ptds _ _ _, hb⟩

theorem driver_to_e2e_break (K : xdd_h) (p : Nat) (w w1 : World) (a : Int)
    (h : driver_to_e2e K p w = .ret a w1) :
    ∃ q1, w1.ptds p = some q1 ∧ q1.my_error_break = 0 := by
  unfold driver_to_e2e at h
  obtain ⟨_, w4, h4, h⟩ := andThen_ret _ _ _ _ h
  obtain ⟨_, w5, h5, h⟩ := andThen_ret _ _ _ _ h
  obtain ⟨_, w6, h6, h⟩ := andThen_ret _ _ _ _ h
  obtain ⟨q4, a4, b4⟩ := seek_resolution_break _ _ _ _ h4
  obtain ⟨q5, a5, b5⟩ := dio_break _ _ _ _ q4 a4 h5
  obtain ⟨q6, a6, b6⟩ := raw_break _ _ _ _ q5 a5 h6
  obtain ⟨q7, a7, b7⟩ := e2e_break _ _ _ _ _ q6 a6 h
  exact ⟨q7, a7, by rw [b7, b6, b5, b4]⟩

/-- C1: the driver returns `FAILED` when the lockstep stage returns a non-zero
status and when the end-to-end stage returns `FAILED`, and `SUCCESS` in every other
case in which its stages return; whenever it returns, its value is `FAILED` exactly
when one of those two happened.  The values of the other stages play no part. -/
theorem driver_failed_iff (K : xdd_h) (hK : K.SUCCESS ≠ K.FAILED) (p : Nat) (w : World) :
    (∀ s w3, driver_to_lockstep K p w = .ret s w3 → s ≠ 0 →
      xdd_io_loop_before_io_operation K p w = .ret K.FAILED w3) ∧
    (∀ w3 s2 w7, driver_to_lockstep K p w = .ret 0 w3 → driver_to_e2e K p w3 = .ret s2 w7 →
      (s2 = K.FAILED → xdd_io_loop_before_io_operation K p w = .ret K.FAILED w7) ∧
      (s2 ≠ K.FAILED → ∀ w9, driver_tail K p w7 = .ret () w9 →
        xdd_io_loop_before_io_operation K p w = .ret K.SUCCESS w9)) ∧
    (∀ r w1, xdd_io_loop_before_io_operation K p w = .ret r w1 →
      (r = K.FAILED ∨ r = K.SUCCESS) ∧
      (r = K.FAILED ↔ ∃ s w3, driver_to_lockstep K p w = .ret s w3 ∧
        (s ≠ 0 ∨ ∃ w7, driver_to_e2e K p w3 = .ret K.FAILED w7))) := by
  refine ⟨?_, ?_, ?_⟩
  · intro s w3 h hs
    simp [xdd_io_loop_before_io_operation, h, Outcome.andThen, hs]
  · intro w3 s2 w7 h h2
    constructor
    · intro hs
      simp [xdd_io_loop_before_io_operation, h, h2, Outcome.andThen, hs]
    · intro hs w9 h3
      simp [xdd_io_loop_before_io_operation, h, h2, h3, Outcome.andThen, hs]
  · intro r w1 h
    unfold xdd_io_loop_before_io_operation at h
    obtain ⟨s, w3, h3, h⟩ := andThen_ret _ _ _ _ h
    by_cases hs : s = 0
    · subst hs
      simp only [ne_eq, not_true_eq_false, if_false] at h
      obtain ⟨s2, w7, h7, h⟩ := andThen_ret _ _ _ _ h
      by_cases hs2 : s2 = K.FAILED
      · rw [if_pos hs2] at h
        injection h with hr hw
        subst hr hw hs2
        exact ⟨Or.inl rfl, fun _ => ⟨0, w3, h3, Or.inr ⟨_, h7⟩⟩, fun _ => rfl⟩
      · rw [if_neg hs2] at h
        obtain ⟨_, w9, h9, h⟩ := andThen_ret _ _ _ _ h
        injection h with hr hw
        subst hr hw
        refine ⟨Or.inr rfl, fun hf => absurd hf hK, ?_⟩
        rintro ⟨s', w3', h3', hc⟩
        rw [h3] at h3'
        injection h3' with e1 e2
        subst e1 e2
        rcases hc with hc | ⟨w7', hc⟩
        · exact absurd rfl hc
        · rw [h7] at hc
          injection hc with e1 _
          exact absurd e1 hs2
    · rw [if_pos hs] at h
      injection h with hr hw
      subst hr hw
      exact ⟨Or.inl rfl, fun _ => ⟨s, _, h3, Or.inl hs⟩, fun _ => rfl⟩

/-- C2, as amended: when the driver returns `FAILED` on the lockstep termination
code, the global abort flag and the worker's `my_error_break` are what they were on
entry; when it returns `FAILED` on an end-to-end failure, `my_error_break` is 0. -/
theorem driver_failed_flags (K : xdd_h) (hK : K.SUCCESS ≠ K.FAILED) (p : Nat) (w w1 : World)
    (q : ptds_t) (hq : w.ptds p = some q)
    (h : xdd_io_loop_before_io_operation K p w = .ret K.FAILED w1) :
    (∃ s, driver_to_lockstep K p w = .ret s w1 ∧ s ≠ 0 ∧ w1.abort_io = w.abort_io ∧
      ∃ q1, w1.ptds p = some q1 ∧ q1.my_error_break = q.my_error_break) ∨
    (∃ w3, driver_to_lockstep K p w = .ret 0 w3 ∧ driver_to_e2e K p w3 = .ret K.FAILED w1 ∧
      ∃ q1, w1.ptds p = some q1 ∧ q1.my_error_break = 0) := by
  unfold xdd_io_loop_before_io_operation at h
  obtain ⟨s, w3, h3, h⟩ := andThen_ret _ _ _ _ h
  by_cases hs : s = 0
  · subst hs
    simp only [ne_eq, not_true_eq_false, if_false] at h
    obtain ⟨s2, w7, h7, h⟩ := andThen_ret _ _ _ _ h
    by_cases hs2 : s2 = K.FAILED
    · rw [if_pos hs2] at h
      injection h with _ hw
      subst hw hs2
      exact Or.inr ⟨w3, h3, h7, driver_to_e2e_break _ _ _ _ _ h7⟩
    · rw [if_neg hs2] at h
      obtain ⟨_, w9, h9, h⟩ := andThen_ret _ _ _ _ h
      injection h with hr _
      exact absurd hr hK
  · rw [if_pos hs] at h
    injection h with _ hw
    subst hw
    obtain ⟨k1, k2⟩ := driver_to_lockstep_keeps _ _ _ _ _ h3
    exact Or.inl ⟨s, h3, hs, k1, k2 p q hq⟩


/-! ## Syncio -/

/-- Toggling the low bit changes the index. -/
theorem xor_one_ne (n : Nat) : n ^^^ 1 ≠ n := by
  intro h
  have h1 : n ^^^ (n ^^^ 1) = 1 := Nat.xor_cancel_left n 1
  rw [h, Nat.xor_self] at h1
  exact absurd h1 (by decide)

/-- The remainder of C is 0 exactly when the mathematical one is. -/
theorem tmod_zero_iff (a b : Int) : a.tmod b = 0 ↔ a % b = 0 := by
  rw [← Int.dvd_iff_tmod_eq_zero, Int.dvd_iff_emod_eq_zero]

/-- C11: the syncio stage always returns; when the period `S` is positive, there
is more than one target and `my_current_op mod S = 0`, it has entered the barrier
selected by `syncio_barrier_index` once and toggled that index, touching nothing
else; otherwise it has changed nothing.  So it enters a barrier exactly when the
three conditions hold. -/
theorem syncio_enters_iff (p : Nat) (w : World) (q : ptds_t) (hq : w.ptds p = some q) :
    ∃ w1, xdd_syncio_before_io_operation p w = .ret () w1 ∧
      ((0 < w.syncio ∧ 1 < w.number_of_targets ∧ q.my_current_op % w.syncio = 0) →
        w1.trace = w.trace ++ [.barrier (.syncio q.syncio_barrier_index)] ∧
        w1.ptds p = some { q with syncio_barrier_index := q.syncio_barrier_index ^^^ 1 } ∧
        q.syncio_barrier_index ^^^ 1 ≠ q.syncio_barrier_index ∧
        (q.syncio_barrier_index ^^^ 1) ^^^ 1 = q.syncio_barrier_index ∧
        w1 = (w.emit (.barrier (.syncio q.syncio_barrier_index))).setPtds p
          { q with syncio_barrier_index := q.syncio_barrier_index ^^^ 1 }) ∧
      (¬ (0 < w.syncio ∧ 1 < w.number_of_targets ∧ q.my_current_op % w.syncio = 0) → w1 = w) ∧
      (w1.trace ≠ w.trace ↔
        (0 < w.syncio ∧ 1 < w.number_of_targets ∧ q.my_current_op % w.syncio = 0)) := by
  unfold xdd_syncio_before_io_operation
  rw [hq]
  simp only [tmod_zero_iff]
  by_cases hc : 0 < w.syncio ∧ 1 < w.number_of_targets ∧ q.my_current_op % w.syncio = 0
  · rw [if_pos hc]
    refine ⟨_, rfl, fun _ => ⟨rfl, setPtds_same _ _ _, xor_one_ne _, ?_, rfl⟩,
      fun h => absurd hc h, ?_⟩
    · rw [Nat.xor_assoc]; simp
    · simp [hc]
  · rw [if_neg hc]
    exact ⟨_, rfl, fun h => absurd h hc, fun _ => rfl, fun h => absurd rfl h, fun h => absurd h hc⟩

/-- The two cases of the syncio stage, with the test on the operation number
written as a divisibility. -/
theorem syncio_step_cases (p : Nat) (w : World) (q : ptds_t) (hq : w.ptds p = some q) :
    ((0 < w.syncio ∧ 1 < w.number_of_targets ∧ w.syncio ∣ q.my_current_op) →
      xdd_syncio_before_io_operation p w = .ret ()
        ((w.emit (.barrier (.syncio q.syncio_barrier_index))).setPtds p
          { q with syncio_barrier_index := q.syncio_barrier_index ^^^ 1 })) ∧
    (¬ (0 < w.syncio ∧ 1 < w.number_of_targets ∧ w.syncio ∣ q.my_current_op) →
      xdd_syncio_before_io_operation p w = .ret () w) := by
  unfold xdd_syncio_before_io_operation
  rw [hq]
  simp only [← Int.dvd_iff_tmod_eq_zero]
  exact ⟨fun h => if_pos h, fun h => if_neg h⟩

theorem advance_some (w : World) (p : Nat) (op bytes : Int) (q : ptds_t) (hq : w.ptds p = some q) :
    w.advance p op bytes =
      w.setPtds p { q with my_current_op := op, my_current_bytes_xfered := bytes } := by
  unfold World.advance
  rw [hq]

/-- One operation of a pass through the syncio stage, when the period is positive
and there is more than one target. -/
theorem syncio_run_step_spec (p : Nat) (bytes : Int → Int) (t : syncio_tally) (op : Int)
    (q : ptds_t) (hq : t.world.ptds p = some q)
    (hS : 0 < t.world.syncio) (hT : 1 < t.world.number_of_targets) :
    (syncio_run_step p bytes t op).world.syncio = t.world.syncio ∧
    (syncio_run_step p bytes t op).world.number_of_targets = t.world.number_of_targets ∧
    (∃ q1, (syncio_run_step p bytes t op).world.ptds p = some q1 ∧
      q1.syncio_barrier_index =
        if t.world.syncio ∣ op then q.syncio_barrier_index ^^^ 1 else q.syncio_barrier_index) ∧
    (syncio_run_step p bytes t op).entries = t.entries ++
      (if t.world.syncio ∣ op then [(op, .barrier (.syncio q.syncio_barrier_index))] else []) ∧
    (syncio_run_step p bytes t op).toggles =
      t.toggles + (if t.world.syncio ∣ op then 1 else 0) ∧
    (syncio_run_step p bytes t op).world.trace = t.world.trace ++
      (if t.world.syncio ∣ op then [.barrier (.syncio q.syncio_barrier_index)] else []) := by
  have ha := advance_some t.world p op (bytes op) q hq
  have hq0 : (t.world.advance p op (bytes op)).ptds p =
      some { q with my_current_op := op, my_current_bytes_xfered := bytes op } := by
    rw [ha]; exact setPtds_same _ _ _
  have hs0 : (t.world.advance p op (bytes op)).syncio = t.world.syncio := by rw [ha]; rfl
  have ht0 : (t.world.advance p op (bytes op)).number_of_targets = t.world.number_of_targets := by
    rw [ha]; rfl
  have htr : (t.world.advance p op (bytes op)).trace = t.world.trace := by rw [ha]; rfl
  have hi0 : syncio_index_at (t.world.advance p op (bytes op)) p = q.syncio_barrier_index := by
    unfold syncio_index_at; rw [hq0]
  obtain ⟨hyes, hno⟩ := syncio_step_cases p _ _ hq0
  unfold syncio_run_step
  simp only [hi0]
  by_cases hd : t.world.syncio ∣ op
  · have h1 := hyes (by rw [hs0, ht0]; exact ⟨hS, hT, hd⟩)
    simp only [h1, Outcome.world, if_pos hd]
    have hi1 : syncio_index_at (((t.world.advance p op (bytes op)).emit
        (.barrier (.syncio q.syncio_barrier_index))).setPtds p
          { q with my_current_op := op, my_current_bytes_xfered := bytes op,
                   syncio_barrier_index := q.syncio_barrier_index ^^^ 1 }) p =
        q.syncio_barrier_index ^^^ 1 := by
      unfold syncio_index_at; rw [setPtds_same]
    refine ⟨hs0, ht0, ⟨_, setPtds_same _ _ _, rfl⟩, ?_, ?_, ?_⟩
    · simp [htr]
    · rw [hi1, if_neg (xor_one_ne _)]
    · simp [htr]
  · have h1 := hno (by rw [hs0]; exact fun h => hd h.2.2)
    simp only [h1, Outcome.world, if_neg hd, hi0, if_true, hs0, ht0, htr]
    exact ⟨trivial, trivial, ⟨_, hq0, rfl⟩, by simp, trivial, by simp⟩

theorem pass_ops_succ (n : Nat) : pass_ops (n + 1) = pass_ops n ++ [(n : Int)] := by
  unfold pass_ops
  rw [List.range_succ, List.map_append]
  rfl

theorem syncio_run_append (p : Nat) (bytes : Int → Int) (ops : List Int) (op : Int)
    (t : syncio_tally) :
    syncio_run p bytes (ops ++ [op]) t = syncio_run_step p bytes (syncio_run p bytes ops t) op := by
  unfold syncio_run
  rw [List.foldl_append]
  rfl

/-- A pass of `n` operations through the syncio stage: the barrier is entered at the
multiples of the period, the index is toggled at each entry, and nothing else is
appended to the trace. -/
theorem syncio_run_pass (p : Nat) (bytes : Int → Int) (w : World) (q : ptds_t)
    (hq : w.ptds p = some q) (hS : 0 < w.syncio) (hT : 1 < w.number_of_targets) (n : Nat) :
    (syncio_run p bytes (pass_ops n) ⟨w, [], 0⟩).world.syncio = w.syncio ∧
    (syncio_run p bytes (pass_ops n) ⟨w, [], 0⟩).world.number_of_targets = w.number_of_targets ∧
    (∃ q1, (syncio_run p bytes (pass_ops n) ⟨w, [], 0⟩).world.ptds p = some q1) ∧
    (syncio_run p bytes (pass_ops n) ⟨w, [], 0⟩).entries.map Prod.fst =
      ((List.range n).filter (fun k : Nat => decide (w.syncio ∣ Int.ofNat k))).map Int.ofNat ∧
    (∀ e ∈ (syncio_run p bytes (pass_ops n) ⟨w, [], 0⟩).entries, ∃ i, e.2 = .barrier (.syncio i)) ∧
    (syncio_run p bytes (pass_ops n) ⟨w, [], 0⟩).toggles =
      (syncio_run p bytes (pass_ops n) ⟨w, [], 0⟩).entries.length ∧
    (syncio_run p bytes (pass_ops n) ⟨w, [], 0⟩).world.trace =
      w.trace ++ (syncio_run p bytes (pass_ops n) ⟨w, [], 0⟩).entries.map Prod.snd := by
  induction n with
  | zero =>
    refine ⟨rfl, rfl, ⟨q, hq⟩, rfl, ?_, rfl, ?_⟩
    · intro e he
      cases he
    · show w.trace = w.trace ++ []
      rw [List.append_nil]
  | succ n ih =>
    obtain ⟨i1, i2, ⟨q1, i3⟩, i4, i5, i6, i7⟩ := ih
    rw [pass_ops_succ, syncio_run_append]
    generalize syncio_run p bytes (pass_ops n) ⟨w, [], 0⟩ = t at i1 i2 i3 i4 i5 i6 i7
    obtain ⟨s1, s2, ⟨q2, s3, -⟩, s4, s5, s6⟩ :=
      syncio_run_step_spec p bytes t (n : Int) q1 i3 (by rw [i1]; exact hS) (by rw [i2]; exact hT)
    rw [i1] at s4 s5 s6
    refine ⟨s1.trans i1, s2.trans i2, ⟨q2, s3⟩, ?_, ?_, ?_, ?_⟩
    · rw [s4, List.map_append, i4, List.range_succ, List.filter_append, List.map_append]
      congr 1
      by_cases hd : w.syncio ∣ (n : Int)
      · simp [hd]
      · simp [hd]
    · intro e he
      rw [s4, List.mem_append] at he
      rcases he with he | he
      · exact i5 e he
      · split at he
        · rw [List.mem_singleton] at he
          exact ⟨_, by rw [he]⟩
        · cases he
    · rw [s5, s4, List.length_append, i6]
      split <;> rfl
    · rw [s6, s4, i7, List.map_append, List.append_assoc]
      congr 1
      split <;> rfl

/-- The number of multiples of `S` among `0, ..., c`. -/
theorem multiples_count (S : Int) (hS : 0 < S) (c : Nat) :
    (((List.range (c + 1)).filter (fun k : Nat => decide (S ∣ Int.ofNat k))).length : Int) =
      (c : Int) / S + 1 := by
  obtain ⟨s, rfl⟩ : ∃ s : Nat, S = (s : Int) := ⟨S.toNat, (Int.toNat_of_nonneg hS.le).symm⟩
  have hs : 0 < s := by exact_mod_cast hS
  have hdvd : ∀ k : Nat, ((s : Int) ∣ Int.ofNat k) ↔ s ∣ k := fun k => Int.natCast_dvd_natCast
  simp only [hdvd]
  have hn : ∀ c : Nat, ((List.range (c + 1)).filter (fun k : Nat => decide (s ∣ k))).length =
      c / s + 1 := by
    intro c
    induction c with
    | zero => simp [List.range_succ]
    | succ c ih =>
      rw [List.range_succ, List.filter_append, List.length_append, ih, Nat.succ_div]
      by_cases hd : s ∣ c + 1
      · simp [hd]
      · simp [hd]
  rw [hn c]
  push_cast
  rfl

/-- C12: a worker that runs the operations `0, ..., n - 1` with a positive syncio
period `S` and more than one target enters the syncio barrier exactly at the
operations that are multiples of `S`, each entry being one barrier event, and its
`syncio_barrier_index` is toggled once for each entry; with `S = 4` and `n = 10`
these are the three entries at the operations 0, 4 and 8, and three toggles. -/
theorem syncio_pass_entries (p : Nat) (bytes : Int → Int) (w : World) (q : ptds_t)
    (hq : w.ptds p = some q) (hS : 0 < w.syncio) (hT : 1 < w.number_of_targets) (n : Nat) :
    (syncio_run p bytes (pass_ops n) ⟨w, [], 0⟩).entries.map Prod.fst =
      ((List.range n).filter (fun k : Nat => decide (w.syncio ∣ Int.ofNat k))).map Int.ofNat ∧
    (∀ e ∈ (syncio_run p bytes (pass_ops n) ⟨w, [], 0⟩).entries, ∃ i, e.2 = .barrier (.syncio i)) ∧
    (syncio_run p bytes (pass_ops n) ⟨w, [], 0⟩).world.trace =
      w.trace ++ (syncio_run p bytes (pass_ops n) ⟨w, [], 0⟩).entries.map Prod.snd ∧
    (syncio_run p bytes (pass_ops n) ⟨w, [], 0⟩).toggles =
      (syncio_run p bytes (pass_ops n) ⟨w, [], 0⟩).entries.length ∧
    (w.syncio = 4 → n = 10 →
      (syncio_run p bytes (pass_ops n) ⟨w, [], 0⟩).entries.map Prod.fst = [0, 4, 8] ∧
      (syncio_run p bytes (pass_ops n) ⟨w, [], 0⟩).entries.length = 3 ∧
      (syncio_run p bytes (pass_ops n) ⟨w, [], 0⟩).toggles = 3) := by
  obtain ⟨-, -, -, i4, i5, i6, i7⟩ := syncio_run_pass p bytes w q hq hS hT n
  refine ⟨i4, i5, i7, i6, ?_⟩
  intro h4 h10
  have hl : (syncio_run p bytes (pass_ops n) ⟨w, [], 0⟩).entries.map Prod.fst = [0, 4, 8] := by
    rw [i4, h4, h10]
    decide
  have hlen : (syncio_run p bytes (pass_ops n) ⟨w, [], 0⟩).entries.length = 3 := by
    have := congrArg List.length hl
    rw [List.length_map] at this
    exact this
  exact ⟨hl, hlen, i6.trans hlen⟩

/-- C13, as amended: with a positive syncio period `S` and more than one target,
once the syncio stage has run for the operations `0, ..., c` the worker has made
`floor (c / S) + 1` entries into the syncio barrier. -/
theorem syncio_entries_count (p : Nat) (bytes : Int → Int) (w : World) (q : ptds_t)
    (hq : w.ptds p = some q) (hS : 0 < w.syncio) (hT : 1 < w.number_of_targets) (c : Nat) :
    (∀ e ∈ (syncio_run p bytes (pass_ops (c + 1)) ⟨w, [], 0⟩).entries,
      ∃ i, e.2 = .barrier (.syncio i)) ∧
    (syncio_run p bytes (pass_ops (c + 1)) ⟨w, [], 0⟩).world.trace =
      w.trace ++ (syncio_run p bytes (pass_ops (c + 1)) ⟨w, [], 0⟩).entries.map Prod.snd ∧
    (((syncio_run p bytes (pass_ops (c + 1)) ⟨w, [], 0⟩).entries.length : Nat) : Int) =
      (c : Int) / w.syncio + 1 := by
  obtain ⟨-, -, -, i4, i5, -, i7⟩ := syncio_run_pass p bytes w q hq hS hT (c + 1)
  refine ⟨i5, i7, ?_⟩
  have := congrArg List.length i4
  rw [List.length_map, List.length_map] at this
  rw [this]
  exact multiples_count w.syncio hS c

/-! ## Start triggers -/

@[simp]
theorem setTrigger_trace (w : World) (t : Nat) (tg : trigger_t) :
    (w.setTrigger t tg).trace = w.trace := rfl

@[simp]
theorem setTrigger_ptds (w : World) (t : Nat) (tg : trigger_t) :
    (w.setTrigger t tg).ptds = w.ptds := rfl

@[simp]
theorem setPtds_trigger (w : World) (p : Nat) (q : ptds_t) :
    (w.setPtds p q).trigger = w.trigger := rfl

@[simp]
theorem emit_trigger (w : World) (e : Event) : (w.emit e).trigger = w.trigger := rfl

theorem setTrigger_same (w : World) (t : Nat) (tg : trigger_t) :
    (w.setTrigger t tg).trigger t = some tg := by
  simp [World.setTrigger]

theorem setTrigger_other (w : World) (t t1 : Nat) (tg : trigger_t) (h : t1 ≠ t) :
    (w.setTrigger t tg).trigger t1 = w.trigger t1 := by
  simp [World.setTrigger, Function.update_noteq h]

/-- C14: a worker with a trigger block that has `TO_WAITFORSTART` set and a
`run_status` of 0 enters its own start-trigger barrier, the one selected by the
index of its block, once; the stage then toggles that index, sets `run_status` to 1
and returns 1.  No other event is appended to the trace, and no other worker or
trigger block is touched. -/
theorem start_trigger_wait (K : xdd_h) (p : Nat) (w : World) (q : ptds_t) (t : Nat)
    (tg : trigger_t) (hq : w.ptds p = some q) (ht : q.tgp = some t) (htg : w.trigger t = some tg)
    (hwait : q.target_options.TO_WAITFORSTART = true) (hrs : q.run_status = 0) :
    ∃ w1, xdd_start_trigger_before_io_operation K p w = .ret (some 1) w1 ∧
      w1.trace = w.trace ++ [.barrier (.start_trigger t tg.Start_Trigger_Barrier_index)] ∧
      w1.trigger t = some
        { tg with Start_Trigger_Barrier_index := tg.Start_Trigger_Barrier_index ^^^ 1 } ∧
      tg.Start_Trigger_Barrier_index ^^^ 1 ≠ tg.Start_Trigger_Barrier_index ∧
      w1.ptds p = some { q with run_status := 1 } ∧
      (∀ t1, t1 ≠ t → w1.trigger t1 = w.trigger t1) ∧
      (∀ p1, p1 ≠ p → w1.ptds p1 = w.ptds p1) ∧
      w1.lockstep = w.lockstep ∧ w1.abort_io = w.abort_io := by
  unfold xdd_start_trigger_before_io_operation
  simp only [hq, ht, htg]
  rw [if_pos ⟨hwait, hrs⟩]
  refine ⟨_, rfl, rfl, ?_, xor_one_ne _, setPtds_same _ _ _, ?_, ?_, rfl, rfl⟩
  · rw [setPtds_trigger]
    exact setTrigger_same _ _ _
  · intro t1 h1
    rw [setPtds_trigger, setTrigger_other _ _ _ _ h1]
    rfl
  · intro p1 h1
    rw [setPtds_other _ _ _ _ h1]
    rfl

/-- The thresholds when only the operation threshold is configured. -/
theorem start_trigger_thresholds_op (q : ptds_t) (tg : trigger_t) (t2 : Nat) (tg2 : trigger_t)
    (w : World) (htg2 : w.trigger t2 = some tg2)
    (h1 : tg.trigger_types.TRIGGER_STARTTIME = false)
    (h3 : tg.trigger_types.TRIGGER_STARTPERCENT = false)
    (h4 : tg.trigger_types.TRIGGER_STARTBYTES = false) :
    start_trigger_thresholds q tg (some t2) w =
      .ret () (if tg.trigger_types.TRIGGER_STARTOP = true ∧ q.my_current_op > tg.start_trigger_op
        then w.emit (.barrier (.start_trigger t2 tg2.Start_Trigger_Barrier_index)) else w) := by
  unfold start_trigger_thresholds
  simp only [h1, h3, h4, Bool.false_eq_true, if_false, false_and, Outcome.andThen]
  by_cases hc : tg.trigger_types.TRIGGER_STARTOP = true ∧ q.my_current_op > tg.start_trigger_op
  · simp only [if_pos hc, start_trigger_release, htg2]
  · simp only [if_neg hc]

/-- C16: for a caller that does not itself wait for a start and whose triggeree is
set up, with only the operation threshold configured the stage enters the
triggeree's start barrier exactly when the triggeree's `run_status` is 0 and
`my_current_op > start_trigger_op`; with a threshold of 5 there is no release at
the operations up to 5 and one at operation 6.  When the triggeree's `run_status`
is not 0 nothing is released, whatever the types and thresholds. -/
theorem start_trigger_op_release (K : xdd_h) (p : Nat) (w : World) (q : ptds_t) (t : Nat)
    (tg : trigger_t) (p2 : Nat) (q2 : ptds_t) (t2 : Nat) (tg2 : trigger_t)
    (hq : w.ptds p = some q) (ht : q.tgp = some t) (htg : w.trigger t = some tg)
    (hnw : ¬ (q.target_options.TO_WAITFORSTART = true ∧ q.run_status = 0))
    (hp2 : w.target tg.start_trigger_target = some p2) (hq2 : w.ptds p2 = some q2)
    (ht2 : q2.tgp = some t2) (htg2 : w.trigger t2 = some tg2) :
    ((tg.trigger_types.TRIGGER_STARTOP = true ∧ tg.trigger_types.TRIGGER_STARTTIME = false ∧
        tg.trigger_types.TRIGGER_STARTPERCENT = false ∧
        tg.trigger_types.TRIGGER_STARTBYTES = false) →
      (xdd_start_trigger_before_io_operation K p w = .ret none
        (if q2.run_status = 0 ∧ q.my_current_op > tg.start_trigger_op then
          w.emit (.barrier (.start_trigger t2 tg2.Start_Trigger_Barrier_index))
        else w)) ∧
      ((xdd_start_trigger_before_io_operation K p w).world.trace ≠ w.trace ↔
        (q2.run_status = 0 ∧ q.my_current_op > tg.start_trigger_op)) ∧
      (tg.start_trigger_op = 5 → q2.run_status = 0 →
        (q.my_current_op ≤ 5 → xdd_start_trigger_before_io_operation K p w = .ret none w) ∧
        (q.my_current_op = 6 → xdd_start_trigger_before_io_operation K p w = .ret none
          (w.emit (.barrier (.start_trigger t2 tg2.Start_Trigger_Barrier_index)))))) ∧
    (q2.run_status ≠ 0 → xdd_start_trigger_before_io_operation K p w = .ret none w) := by
  have hstage : xdd_start_trigger_before_io_operation K p w =
      if tg.trigger_types.nonzero = true then
        if q2.run_status = 0 then
          (start_trigger_thresholds q tg (some t2) w).andThen fun _ w1 => .ret none w1
        else .ret none w
      else .ret none w := by
    unfold xdd_start_trigger_before_io_operation
    simp only [hq, ht, htg, hp2, hq2, ht2]
    rw [if_neg hnw]
  constructor
  · rintro ⟨ho, h1, h3, h4⟩
    have hnz : tg.trigger_types.nonzero = true := by
      unfold trigger_types_t.nonzero
      simp [ho]
    have hmain : xdd_start_trigger_before_io_operation K p w = .ret none
        (if q2.run_status = 0 ∧ q.my_current_op > tg.start_trigger_op then
          w.emit (.barrier (.start_trigger t2 tg2.Start_Trigger_Barrier_index))
        else w) := by
      rw [hstage, if_pos hnz, start_trigger_thresholds_op q tg t2 tg2 w htg2 h1 h3 h4]
      simp only [ho, true_and, Outcome.andThen]
      by_cases hr : q2.run_status = 0
      · simp [hr]
      · simp [hr]
    refine ⟨hmain, ?_, ?_⟩
    · rw [hmain]
      simp only [Outcome.world]
      by_cases hc : q2.run_status = 0 ∧ q.my_current_op > tg.start_trigger_op
      · simp [hc]
      · simp [hc]
    · intro h5 hr
      rw [hmain, h5]
      constructor
      · intro hle
        rw [if_neg (fun h => absurd h.2 (not_lt.2 hle))]
      · intro h6
        rw [if_pos ⟨hr, by rw [h6]; decide⟩]
  · intro hr
    rw [hstage]
    simp only [if_neg hr, ite_self]

/-! ## Direct I/O check -/

/-- The status flag of the alignment test, in words of divisibility. -/
theorem dio_status_ne_zero (q : ptds_t) (pagesize : Int) :
    dio_status q pagesize ≠ 0 ↔
      (q.my_current_op = q.target_ops - 1 ∧ q.last_iosize ≠ 0 ∧
        (q.last_iosize % pagesize ≠ 0 ∨ q.my_current_byte_location % pagesize ≠ 0)) := by
  unfold dio_status
  simp only [ne_eq, ← Int.dvd_iff_tmod_eq_zero, ← Int.dvd_iff_emod_eq_zero]
  by_cases h1 : q.my_current_op = q.target_ops - 1 ∧ ¬ q.last_iosize = 0
  · rw [if_pos h1]
    by_cases h2 : ¬ pagesize ∣ q.last_iosize ∨ ¬ pagesize ∣ q.my_current_byte_location
    · rw [if_pos h2]
      exact ⟨fun _ => ⟨h1.1, h1.2, h2⟩, fun _ => by decide⟩
    · rw [if_neg h2]
      exact ⟨fun h => absurd rfl h, fun h => absurd h.2.2 h2⟩
  · rw [if_neg h1]
    exact ⟨fun h => absurd rfl h, fun h => absurd ⟨h.1, h.2.1⟩ h1⟩

/-- The stage leaves everything as it is unless direct I/O is on, SGIO is off and
the alignment test fails. -/
theorem dio_skip (p : Nat) (w : World) (q : ptds_t) (hq : w.ptds p = some q)
    (h : q.target_options.TO_DIO = false ∨ q.target_options.TO_SGIO = true ∨
      dio_status q w.pagesize = 0) :
    xdd_dio_before_io_operation p w = .ret () w := by
  unfold xdd_dio_before_io_operation
  rw [hq]
  simp only
  split
  · rfl
  · split
    · rfl
    · split
      · rfl
      · rename_i h1 h2 h3
        rcases h with h | h | h
        · simp [h] at h1
        · exact absurd h h2
        · exact absurd h h3

/-- The stage when the alignment test fails: the target is closed and reopened
with the DIO bit clear, the descriptor is replaced, the abort flag is raised when
the descriptor compares equal to -1 as an `unsigned int`, and the DIO bit is set
again when there is more than one pass. -/
theorem dio_reopen (p : Nat) (w : World) (q : ptds_t) (hq : w.ptds p = some q)
    (hdio : q.target_options.TO_DIO = true) (hsg : q.target_options.TO_SGIO = false)
    (hst : dio_status q w.pagesize ≠ 0) :
    ∃ w1, xdd_dio_before_io_operation p w = .ret () w1 ∧
      w1.trace = w.trace ++ [.close q.fd, .open_target p false] ∧
      w1.ptds p = some { q with
        target_options := { q.target_options with TO_DIO := decide (w.passes > 1) },
        fd := w.open_fd w.opens } ∧
      w1.abort_io =
        (if uint32_cast (w.open_fd w.opens) = uint32_cast (-1) then 1 else w.abort_io) ∧
      (∀ p1, p1 ≠ p → w1.ptds p1 = w.ptds p1) := by
  unfold xdd_dio_before_io_operation
  rw [hq]
  simp only [hdio, hsg, Bool.not_true, Bool.false_eq_true, if_false, if_neg hst]
  refine ⟨_, rfl, ?_, ?_, ?_, ?_⟩
  · rw [setPtds_trace]
    split <;> simp [World.emit]
  · rw [setPtds_same]
    by_cases hp : w.passes > 1
    · simp [hp]
    · simp [hp]
  · rw [setPtds_abort]
    split <;> rfl
  · intro p1 h1
    rw [setPtds_other _ _ _ _ h1]
    split <;> rfl

/-- C17, as amended: with direct I/O on and SGIO off, the stage closes and reopens
the target with the DIO bit clear exactly when the operation is the last of the
pass, there is a short tail (`last_iosize` is not 0) and `last_iosize` is not a
multiple of the page size or the byte location is not page-aligned; in every other
case, and whenever direct I/O is off or SGIO is on, it changes nothing. -/
theorem dio_ineligible_iff (p : Nat) (w : World) (q : ptds_t) (hq : w.ptds p = some q) :
    (q.target_options.TO_DIO = true → q.target_options.TO_SGIO = false →
      ((q.my_current_op = q.target_ops - 1 ∧ q.last_iosize ≠ 0 ∧
          (q.last_iosize % w.pagesize ≠ 0 ∨ q.my_current_byte_location % w.pagesize ≠ 0)) →
        ∃ w1 q1, xdd_dio_before_io_operation p w = .ret () w1 ∧
          w1.trace = w.trace ++ [.close q.fd, .open_target p false] ∧
          w1.ptds p = some q1 ∧ q1.fd = w.open_fd w.opens) ∧
      (¬ (q.my_current_op = q.target_ops - 1 ∧ q.last_iosize ≠ 0 ∧
          (q.last_iosize % w.pagesize ≠ 0 ∨ q.my_current_byte_location % w.pagesize ≠ 0)) →
        xdd_dio_before_io_operation p w = .ret () w) ∧
      ((xdd_dio_before_io_operation p w).world.trace ≠ w.trace ↔
        (q.my_current_op = q.target_ops - 1 ∧ q.last_iosize ≠ 0 ∧
          (q.last_iosize % w.pagesize ≠ 0 ∨ q.my_current_byte_location % w.pagesize ≠ 0)))) ∧
    ((q.target_options.TO_DIO = false ∨ q.target_options.TO_SGIO = true) →
      xdd_dio_before_io_operation p w = .ret () w) := by
  constructor
  · intro hdio hsg
    have hyes : (q.my_current_op = q.target_ops - 1 ∧ q.last_iosize ≠ 0 ∧
          (q.last_iosize % w.pagesize ≠ 0 ∨ q.my_current_byte_location % w.pagesize ≠ 0)) →
        ∃ w1 q1, xdd_dio_before_io_operation p w = .ret () w1 ∧
          w1.trace = w.trace ++ [.close q.fd, .open_target p false] ∧
          w1.ptds p = some q1 ∧ q1.fd = w.open_fd w.opens := by
      intro hc
      obtain ⟨w1, h1, h2, h3, -, -⟩ :=
        dio_reopen p w q hq hdio hsg ((dio_status_ne_zero q w.pagesize).2 hc)
      exact ⟨w1, _, h1, h2, h3, rfl⟩
    have hno : ¬ (q.my_current_op = q.target_ops - 1 ∧ q.last_iosize ≠ 0 ∧
          (q.last_iosize % w.pagesize ≠ 0 ∨ q.my_current_byte_location % w.pagesize ≠ 0)) →
        xdd_dio_before_io_operation p w = .ret () w := by
      intro hc
      refine dio_skip p w q hq (Or.inr (Or.inr ?_))
      by_contra h0
      exact hc ((dio_status_ne_zero q w.pagesize).1 h0)
    refine ⟨hyes, hno, ?_⟩
    constructor
    · intro ht
      by_contra hc
      rw [hno hc] at ht
      exact ht rfl
    · intro hc
      obtain ⟨w1, q1, h1, h2, -, -⟩ := hyes hc
      rw [h1]
      simp only [Outcome.world, h2]
      simp
  · intro h
    refine dio_skip p w q hq ?_
    rcases h with h | h
    · exact Or.inl h
    · exact Or.inr (Or.inl h)

/-- C18: when the stage finds the operation unfit for direct I/O (direct I/O on,
SGIO off, the alignment test failed), it closes the target and reopens it with the
DIO bit clear; on return the DIO bit is set exactly when there is more than one
pass, and every other bit of `target_options` is what it was. -/
theorem dio_reopen_options (p : Nat) (w : World) (q : ptds_t) (hq : w.ptds p = some q)
    (hdio : q.target_options.TO_DIO = true) (hsg : q.target_options.TO_SGIO = false)
    (hst : dio_status q w.pagesize ≠ 0) :
    ∃ w1 q1, xdd_dio_before_io_operation p w = .ret () w1 ∧
      w1.trace = w.trace ++ [.close q.fd, .open_target p false] ∧
      w1.ptds p = some q1 ∧
      (q1.target_options.TO_DIO = true ↔ w.passes > 1) ∧
      q1.target_options.TO_WAITFORSTART = q.target_options.TO_WAITFORSTART ∧
      q1.target_options.TO_SGIO = q.target_options.TO_SGIO ∧
      q1.target_options.TO_READAFTERWRITE = q.target_options.TO_READAFTERWRITE ∧
      q1.target_options.TO_RAW_READER = q.target_options.TO_RAW_READER ∧
      q1.target_options.TO_ENDTOEND = q.target_options.TO_ENDTOEND ∧
      q1.target_options.TO_E2E_SOURCE = q.target_options.TO_E2E_SOURCE ∧
      q1.target_options.other_bits = q.target_options.other_bits ∧
      (∀ p1, p1 ≠ p → w1.ptds p1 = w.ptds p1) := by
  obtain ⟨w1, h1, h2, h3, -, h5⟩ := dio_reopen p w q hq hdio hsg hst
  refine ⟨w1, _, h1, h2, h3, ?_, rfl, rfl, rfl, rfl, rfl, rfl, rfl, h5⟩
  simp

theorem raw_abort (p : Nat) (w : World) :
    (xdd_raw_before_io_operation p w).world.abort_io = w.abort_io := by
  unfold xdd_raw_before_io_operation
  split
  · rfl
  · split
    · rfl
    · simp only
      split
      · split <;> split <;> rfl
      · rfl

theorem e2e_abort (K : xdd_h) (p : Nat) (w : World) :
    (xdd_e2e_before_io_operation K p w).world.abort_io = w.abort_io := by
  unfold xdd_e2e_before_io_operation
  split
  · rfl
  · split
    · rfl
    · split
      · rfl
      · split
        · rfl
        · unfold e2e_finish
          split <;> rfl

theorem ts_abort (p : Nat) (w : World) :
    (xdd_ts_before_io_operation p w).world.abort_io = w.abort_io := by
  unfold xdd_ts_before_io_operation
  split
  · rfl
  · split
    · rfl
    · split
      · rfl
      · simp only
        split
        · split
          · split <;> rfl
          · rfl
        · rfl

theorem throttle_abort (K : xdd_h) (p : Nat) (w : World) :
    (xdd_throttle_before_io_operation K p w).world.abort_io = w.abort_io := by
  unfold xdd_throttle_before_io_operation
  split
  · rfl
  · split
    · rfl
    · simp only
      split
      · rfl
      · split
        · rfl
        · split
          · split <;> rfl
          · rfl

/-- The abort flag at the end of the stages that follow the direct I/O check. -/
theorem driver_after_dio_abort (K : xdd_h) (p : Nat) (w5 w6 w7 w9 : World) (s : Int)
    (h6 : xdd_raw_before_io_operation p w5 = .ret () w6)
    (h7 : xdd_e2e_before_io_operation K p w6 = .ret s w7)
    (h9 : driver_tail K p w7 = .ret () w9) : w9.abort_io = w5.abort_io := by
  have a6 := raw_abort p w5
  rw [h6] at a6
  have a7 := e2e_abort K p w6
  rw [h7] at a7
  unfold driver_tail at h9
  obtain ⟨_, w8, h8, h9⟩ := andThen_ret _ _ _ _ h9
  have a8 := ts_abort p w7
  rw [h8] at a8
  have a9 := throttle_abort K p w8
  rw [h9] at a9
  simp only [Outcome.world] at a6 a7 a8 a9
  rw [a9, a8, a7, a6]

theorem uint32_cast_minus_one (x : Int) (h1 : -2 ^ 31 ≤ x) (h2 : x < 2 ^ 31) :
    uint32_cast x = uint32_cast (-1) ↔ x = -1 := by
  unfold uint32_cast
  norm_num
  omega

/-- C19: when the alignment test of the direct I/O stage has failed and the reopen
returns -1, the stage returns with the global abort flag at 1; when the reopen
returns any other `int`, the abort flag is what it was.  In both cases the driver
goes on: if lockstep returned 0 before, and read-after-write, end-to-end (not with
`FAILED`), timestamp and throttle return after, the driver returns `SUCCESS`, with
the abort flag as the direct I/O stage left it. -/
theorem dio_reopen_failure (K : xdd_h) (p : Nat) (w : World) (q : ptds_t) (hq : w.ptds p = some q)
    (hdio : q.target_options.TO_DIO = true) (hsg : q.target_options.TO_SGIO = false)
    (hst : dio_status q w.pagesize ≠ 0)
    (hint : -2 ^ 31 ≤ w.open_fd w.opens ∧ w.open_fd w.opens < 2 ^ 31) :
    ∃ w5, xdd_dio_before_io_operation p w = .ret () w5 ∧
      (w.open_fd w.opens = -1 → w5.abort_io = 1) ∧
      (w.open_fd w.opens ≠ -1 → w5.abort_io = w.abort_io) ∧
      (∀ w0 w3 w6 s w7 w9, driver_to_lockstep K p w0 = .ret 0 w3 →
        seek_resolution p w3 = .ret () w →
        xdd_raw_before_io_operation p w5 = .ret () w6 →
        xdd_e2e_before_io_operation K p w6 = .ret s w7 → s ≠ K.FAILED →
        driver_tail K p w7 = .ret () w9 →
        xdd_io_loop_before_io_operation K p w0 = .ret K.SUCCESS w9 ∧
          w9.abort_io = w5.abort_io) := by
  obtain ⟨w5, h1, -, -, h4, -⟩ := dio_reopen p w q hq hdio hsg hst
  have hm := uint32_cast_minus_one (w.open_fd w.opens) hint.1 hint.2
  refine ⟨w5, h1, ?_, ?_, ?_⟩
  · intro hf
    rw [h4, if_pos (hm.2 hf)]
  · intro hf
    rw [h4, if_neg (fun h => hf (hm.1 h))]
  · intro w0 w3 w6 s w7 w9 h3 hseek h6 h7 hs h9
    refine ⟨?_, driver_after_dio_abort K p w5 w6 w7 w9 s h6 h7 h9⟩
    unfold xdd_io_loop_before_io_operation
    simp only [h3, Outcome.andThen, ne_eq, not_true_eq_false, if_false]
    unfold driver_to_e2e
    simp only [hseek, h1, h6, h7, Outcome.andThen, if_neg hs, h9]

/-! ## Read-after-write: the polling loop -/

/-- What one `fstat` result makes of `raw_data_ready`. -/
theorem raw_stat_iteration_eq (q : ptds_t) (r : raw_t) (st : stat_t) :
    raw_stat_iteration q r st =
      { r with raw_data_ready :=
        if st.status < 0 ∨ st.st_size < q.my_current_byte_location then q.iosize
        else st.st_size - q.my_current_byte_location } := by
  unfold raw_stat_iteration
  by_cases h1 : st.status < 0
  · simp [h1]
  · by_cases h2 : st.st_size < q.my_current_byte_location
    · have h3 : st.st_size - q.my_current_byte_location < 0 := by omega
      simp [h1, h2, h3]
    · have h3 : ¬ st.st_size - q.my_current_byte_location < 0 := by omega
      simp [h1, h2, h3]

/-- The loop test after an `fstat` result fails exactly at a stopping result. -/
theorem raw_stat_stops_iff (q : ptds_t) (r : raw_t) (st : stat_t) :
    raw_stat_stops q st ↔ ¬ (raw_stat_iteration q r st).raw_data_ready < q.iosize := by
  rw [raw_stat_iteration_eq]
  unfold raw_stat_stops
  simp only
  by_cases h1 : st.status < 0
  · simp [h1]
  · by_cases h2 : st.st_size < q.my_current_byte_location
    · simp [h1, h2]
    · simp [h1, h2]

theorem raw_stat_loop_done (q : ptds_t) (msgs : List raw_recv_t) (stats : List stat_t) (r : raw_t)
    (h : ¬ r.raw_data_ready < q.iosize) : raw_stat_loop q msgs stats r = ⟨false, r, stats, msgs⟩ := by
  cases stats with
  | nil => simp [raw_stat_loop, h]
  | cons st rest => simp [raw_stat_loop, h]

theorem raw_stat_loop_step (q : ptds_t) (msgs : List raw_recv_t) (st : stat_t)
    (rest : List stat_t) (r : raw_t) (h : r.raw_data_ready < q.iosize) :
    raw_stat_loop q msgs (st :: rest) r = raw_stat_loop q msgs rest (raw_stat_iteration q r st) := by
  simp [raw_stat_loop, h]

/-- The loop stops at the first stopping result. -/
theorem raw_stat_loop_stops (q : ptds_t) (msgs : List raw_recv_t) (st : stat_t)
    (rest : List stat_t) :
    ∀ (pre : List stat_t) (r : raw_t), r.raw_data_ready < q.iosize →
      (∀ s ∈ pre, ¬ raw_stat_stops q s) → raw_stat_stops q st →
      raw_stat_loop q msgs (pre ++ st :: rest) r =
        ⟨false, { r with raw_data_ready :=
          if st.status < 0 ∨ st.st_size < q.my_current_byte_location then q.iosize
          else st.st_size - q.my_current_byte_location }, rest, msgs⟩ := by
  intro pre
  induction pre with
  | nil =>
    intro r hr _ hst
    rw [List.nil_append, raw_stat_loop_step q msgs st rest r hr,
      raw_stat_loop_done q msgs rest _ ((raw_stat_stops_iff q r st).1 hst), raw_stat_iteration_eq]
  | cons s pre ih =>
    intro r hr hpre hst
    rw [List.cons_append, raw_stat_loop_step q msgs s _ r hr]
    have hs : ¬ raw_stat_stops q s := hpre s (List.mem_cons_self _ _)
    have hr1 : (raw_stat_iteration q r s).raw_data_ready < q.iosize := by
      by_contra hc
      exact hs ((raw_stat_stops_iff q r s).2 hc)
    rw [ih _ hr1 (fun x hx => hpre x (List.mem_cons_of_mem _ hx)) hst, raw_stat_iteration_eq]

/-- Without a stopping result the loop uses up every result and goes on waiting. -/
theorem raw_stat_loop_blocks (q : ptds_t) (msgs : List raw_recv_t) :
    ∀ (stats : List stat_t) (r : raw_t), r.raw_data_ready < q.iosize →
      (∀ s ∈ stats, ¬ raw_stat_stops q s) →
      (raw_stat_loop q msgs stats r).blocked = true ∧ (raw_stat_loop q msgs stats r).stats = [] := by
  intro stats
  induction stats with
  | nil =>
    intro r hr _
    simp [raw_stat_loop, hr]
  | cons s rest ih =>
    intro r hr hall
    rw [raw_stat_loop_step q msgs s rest r hr]
    have hs : ¬ raw_stat_stops q s := hall s (List.mem_cons_self _ _)
    have hr1 : (raw_stat_iteration q r s).raw_data_ready < q.iosize := by
      by_contra hc
      exact hs ((raw_stat_stops_iff q r s).2 hc)
    exact ih _ hr1 (fun x hx => hall x (List.mem_cons_of_mem _ hx))

/-- When the loop is left, `raw_data_ready` has reached `iosize`. -/
theorem raw_stat_loop_ready (q : ptds_t) (msgs : List raw_recv_t) :
    ∀ (stats : List stat_t) (r : raw_t), (raw_stat_loop q msgs stats r).blocked = false →
      q.iosize ≤ (raw_stat_loop q msgs stats r).rawp.raw_data_ready := by
  intro stats
  induction stats with
  | nil =>
    intro r h
    by_cases hr : r.raw_data_ready < q.iosize
    · simp [raw_stat_loop, hr] at h
    · rw [raw_stat_loop_done q msgs [] r hr]
      exact not_lt.1 hr
  | cons s rest ih =>
    intro r h
    by_cases hr : r.raw_data_ready < q.iosize
    · rw [raw_stat_loop_step q msgs s rest r hr] at h ⊢
      exact ih _ h
    · rw [raw_stat_loop_done q msgs _ r hr]
      exact not_lt.1 hr

/-- The stage for a reader in polling mode, in terms of the run of its loop. -/
theorem raw_stage_poll (p : Nat) (w : World) (q : ptds_t) (r : raw_t) (run : raw_run)
    (hq : w.ptds p = some q) (hr : q.rawp = some r)
    (hraw : q.target_options.TO_READAFTERWRITE = true ∧ q.target_options.TO_RAW_READER = true)
    (hstat : r.PTDS_RAW_STAT = true)
    (hrun : raw_stat_loop q w.raw_msgs w.stat_results r = run) :
    xdd_raw_before_io_operation p w =
      if run.blocked = true then
        .blocked (({ w with stat_results := run.stats, raw_msgs := run.msgs }).setPtds p
          { q with rawp := some run.rawp })
      else
        .ret () (({ w with stat_results := run.stats, raw_msgs := run.msgs }).setPtds p
          { q with rawp := some run.rawp }) := by
  unfold xdd_raw_before_io_operation
  simp only [hq, hr, hraw, hstat, and_self, if_true, hrun]

/-- C20: for a read-after-write reader in polling mode.  If `raw_data_ready` has
reached `iosize` on entry, no `fstat` is made and nothing changes.  Otherwise the
loop stops at the first `fstat` that fails, or reports a size below the byte
location, or reports at least `iosize` bytes beyond it: the results before it and
that one are used up, and `raw_data_ready` is `iosize` after a failed `fstat` (and
after a size below the byte location) and the reported excess otherwise; without
such a result the loop never ends.  Whenever the stage returns, `raw_data_ready` is
at least `iosize`. -/
theorem raw_stat_poll_stops (p : Nat) (w : World) (q : ptds_t) (r : raw_t)
    (hq : w.ptds p = some q) (hr : q.rawp = some r)
    (hraw : q.target_options.TO_READAFTERWRITE = true ∧ q.target_options.TO_RAW_READER = true)
    (hstat : r.PTDS_RAW_STAT = true) :
    (q.iosize ≤ r.raw_data_ready →
      ∃ w1, xdd_raw_before_io_operation p w = .ret () w1 ∧
        w1.stat_results = w.stat_results ∧ w1.ptds p = some q ∧ w1.trace = w.trace) ∧
    (r.raw_data_ready < q.iosize → ∀ pre st rest, w.stat_results = pre ++ st :: rest →
      (∀ s ∈ pre, ¬ raw_stat_stops q s) → raw_stat_stops q st →
      ∃ w1 r1, xdd_raw_before_io_operation p w = .ret () w1 ∧
        w1.stat_results = rest ∧ w1.ptds p = some { q with rawp := some r1 } ∧
        r1 = { r with raw_data_ready :=
          if st.status < 0 ∨ st.st_size < q.my_current_byte_location then q.iosize
          else st.st_size - q.my_current_byte_location } ∧
        q.iosize ≤ r1.raw_data_ready ∧
        (st.status < 0 → r1.raw_data_ready = q.iosize)) ∧
    (r.raw_data_ready < q.iosize → (∀ s ∈ w.stat_results, ¬ raw_stat_stops q s) →
      ∃ w1, xdd_raw_before_io_operation p w = .blocked w1 ∧ w1.stat_results = []) ∧
    (∀ w1, xdd_raw_before_io_operation p w = .ret () w1 →
      ∃ q1 r1, w1.ptds p = some q1 ∧ q1.rawp = some r1 ∧ q1.iosize ≤ r1.raw_data_ready) := by
  refine ⟨?_, ?_, ?_, ?_⟩
  · intro hready
    have hrun := raw_stat_loop_done q w.raw_msgs w.stat_results r (not_lt.2 hready)
    rw [raw_stage_poll p w q r _ hq hr hraw hstat hrun]
    refine ⟨_, rfl, rfl, ?_, rfl⟩
    rw [setPtds_same, ← hr]
  · intro hlt pre st rest hst hpre hstop
    have hrun := raw_stat_loop_stops q w.raw_msgs st rest pre r hlt hpre hstop
    rw [← hst] at hrun
    rw [raw_stage_poll p w q r _ hq hr hraw hstat hrun]
    refine ⟨_, _, rfl, rfl, setPtds_same _ _ _, rfl, ?_, ?_⟩
    · have h := (raw_stat_stops_iff q r st).1 hstop
      rw [raw_stat_iteration_eq] at h
      exact not_lt.1 h
    · intro hf
      simp [hf]
  · intro hlt hall
    obtain ⟨hb, hs⟩ := raw_stat_loop_blocks q w.raw_msgs w.stat_results r hlt hall
    rw [raw_stage_poll p w q r _ hq hr hraw hstat rfl, if_pos hb]
    exact ⟨_, rfl, hs⟩
  · intro w1 h1
    rw [raw_stage_poll p w q r _ hq hr hraw hstat rfl] at h1
    split at h1
    · cases h1
    · rename_i hb
      injection h1 with _ h1
      subst h1
      refine ⟨_, _, setPtds_same _ _ _, rfl, ?_⟩
      exact raw_stat_loop_ready q w.raw_msgs w.stat_results r (by simpa using hb)


/-! ## Read-after-write: the message loop -/

theorem raw_msg_loop_done (q : ptds_t) (stats : List stat_t) (msgs : List raw_recv_t) (r : raw_t)
    (h : ¬ r.raw_data_ready < q.iosize) : raw_msg_loop q stats msgs r = ⟨false, r, stats, msgs⟩ := by
  cases msgs with
  | nil => simp [raw_msg_loop, h]
  | cons m rest => simp [raw_msg_loop, h]

theorem raw_msg_loop_step (q : ptds_t) (stats : List stat_t) (m : raw_recv_t)
    (rest : List raw_recv_t) (r : raw_t) (h : r.raw_data_ready < q.iosize) :
    raw_msg_loop q stats (m :: rest) r = raw_msg_loop q stats rest (raw_msg_iteration r m) := by
  simp [raw_msg_loop, h]

theorem raw_msg_loop_nil (q : ptds_t) (stats : List stat_t) (r : raw_t)
    (h : r.raw_data_ready < q.iosize) : raw_msg_loop q stats [] r = ⟨true, r, stats, []⟩ := by
  simp [raw_msg_loop, h]

/-- A stale notification only lands in `raw_msg`. -/
theorem raw_msg_iteration_stale (r : raw_t) (m : raw_recv_t)
    (hnf : r.raw_msg_last_sequence ≠ 0) (hold : m.msg.location ≤ r.raw_prev_loc) :
    raw_msg_iteration r m = { r with raw_msg := m.msg } := by
  unfold raw_msg_iteration
  simp only
  rw [if_pos ⟨hnf, hold⟩]

/-- An accepted notification: the block afterwards, field by field. -/
theorem raw_msg_iteration_accepted (r : raw_t) (m : raw_recv_t)
    (hacc : r.raw_msg_last_sequence = 0 ∨ m.msg.location > r.raw_prev_loc) :
    raw_msg_iteration r m =
      { r with
        raw_msg := m.msg,
        raw_msg_last_sequence := r.raw_msg_last_sequence + 1,
        raw_data_length := (m.msg.location + m.msg.length) -
          ((if r.raw_msg_last_sequence = 0 then m.msg.location else r.raw_prev_loc) +
            (if r.raw_msg_last_sequence = 0 then 0 else r.raw_prev_len)),
        raw_data_ready := r.raw_data_ready + ((m.msg.location + m.msg.length) -
          ((if r.raw_msg_last_sequence = 0 then m.msg.location else r.raw_prev_loc) +
            (if r.raw_msg_last_sequence = 0 then 0 else r.raw_prev_len))),
        raw_prev_loc := m.msg.location,
        raw_prev_len := (m.msg.location + m.msg.length) -
          ((if r.raw_msg_last_sequence = 0 then m.msg.location else r.raw_prev_loc) +
            (if r.raw_msg_last_sequence = 0 then 0 else r.raw_prev_len)) } := by
  unfold raw_msg_iteration
  simp only
  have hn : ¬ (r.raw_msg_last_sequence ≠ 0 ∧ m.msg.location ≤ r.raw_prev_loc) := by
    rintro ⟨h1, h2⟩
    rcases hacc with h | h
    · exact h1 h
    · exact absurd h (not_lt.2 h2)
  rw [if_neg hn]
  by_cases h0 : r.raw_msg_last_sequence = 0
  · simp [h0]
  · simp [h0]

/-- C21: in message mode, a notification that the loop receives, that is not the
first one (`raw_msg_last_sequence` is not 0) and whose location is not beyond
`raw_prev_loc`, is discarded: it only lands in `raw_msg`; the expected sequence,
`raw_data_ready`, `raw_prev_loc`, `raw_prev_len` and `raw_data_length` are what they
were, and the loop, whose test still holds, goes on to the next notification (and
waits when none has arrived). -/
theorem raw_stale_discarded (q : ptds_t) (stats : List stat_t) (r : raw_t) (m : raw_recv_t)
    (rest : List raw_recv_t) (hready : r.raw_data_ready < q.iosize)
    (hnf : r.raw_msg_last_sequence ≠ 0) (hold : m.msg.location ≤ r.raw_prev_loc) :
    (raw_msg_iteration r m).raw_msg_last_sequence = r.raw_msg_last_sequence ∧
    (raw_msg_iteration r m).raw_data_ready = r.raw_data_ready ∧
    (raw_msg_iteration r m).raw_prev_loc = r.raw_prev_loc ∧
    (raw_msg_iteration r m).raw_prev_len = r.raw_prev_len ∧
    (raw_msg_iteration r m).raw_data_length = r.raw_data_length ∧
    (raw_msg_iteration r m).raw_data_ready < q.iosize ∧
    raw_msg_loop q stats (m :: rest) r = raw_msg_loop q stats rest (raw_msg_iteration r m) ∧
    (∀ m2 rest2, rest = m2 :: rest2 →
      raw_msg_loop q stats (m :: rest) r =
        raw_msg_loop q stats rest2 (raw_msg_iteration (raw_msg_iteration r m) m2)) ∧
    (rest = [] → (raw_msg_loop q stats (m :: rest) r).blocked = true) := by
  have hs := raw_msg_iteration_stale r m hnf hold
  have hr1 : (raw_msg_iteration r m).raw_data_ready < q.iosize := by rw [hs]; exact hready
  refine ⟨by rw [hs], by rw [hs], by rw [hs], by rw [hs], by rw [hs], hr1,
    raw_msg_loop_step q stats m rest r hready, ?_, ?_⟩
  · intro m2 rest2 he
    rw [raw_msg_loop_step q stats m rest r hready, he, raw_msg_loop_step q stats m2 rest2 _ hr1]
  · intro he
    rw [raw_msg_loop_step q stats m rest r hready, he, raw_msg_loop_nil q stats _ hr1]

/-- C22: in message mode, a notification that the loop receives and accepts (the
first one, or one located beyond `raw_prev_loc`) advances the expected sequence by
1; `raw_data_length` becomes `(location + length) - (prev_loc + prev_len)` with the
`prev_loc` and `prev_len` in force for it, which for the first notification are its
own location and 0, so that the length is then the one of the message;
`raw_data_ready` grows by that `raw_data_length`, and `raw_prev_loc` becomes the
location of the message. -/
theorem raw_accept_credit (q : ptds_t) (stats : List stat_t) (r : raw_t) (m : raw_recv_t)
    (rest : List raw_recv_t) (hready : r.raw_data_ready < q.iosize)
    (hacc : r.raw_msg_last_sequence = 0 ∨ m.msg.location > r.raw_prev_loc) :
    raw_msg_loop q stats (m :: rest) r = raw_msg_loop q stats rest (raw_msg_iteration r m) ∧
    (raw_msg_iteration r m).raw_msg_last_sequence = r.raw_msg_last_sequence + 1 ∧
    (r.raw_msg_last_sequence ≠ 0 → (raw_msg_iteration r m).raw_data_length =
      (m.msg.location + m.msg.length) - (r.raw_prev_loc + r.raw_prev_len)) ∧
    (r.raw_msg_last_sequence = 0 → (raw_msg_iteration r m).raw_data_length =
      (m.msg.location + m.msg.length) - (m.msg.location + 0) ∧
      (raw_msg_iteration r m).raw_data_length = m.msg.length) ∧
    (raw_msg_iteration r m).raw_data_ready =
      r.raw_data_ready + (raw_msg_iteration r m).raw_data_length ∧
    (raw_msg_iteration r m).raw_prev_loc = m.msg.location ∧
    (raw_msg_iteration r m).raw_prev_len = (raw_msg_iteration r m).raw_data_length ∧
    (raw_msg_iteration r m).raw_msg = m.msg := by
  have ha := raw_msg_iteration_accepted r m hacc
  refine ⟨raw_msg_loop_step q stats m rest r hready, by rw [ha], ?_, ?_, by rw [ha], by rw [ha],
    by rw [ha], by rw [ha]⟩
  · intro h0
    rw [ha]
    simp only [if_neg h0]
  · intro h0
    rw [ha]
    simp only [if_pos h0]
    exact ⟨trivial, by omega⟩

/-! ## The byte location of an operation -/

theorem same_seek_inputs_refl (q : ptds_t) : same_seek_inputs q q :=
  ⟨rfl, rfl, rfl, rfl, rfl, rfl⟩

theorem same_seek_inputs_trans (q q1 q2 : ptds_t) (h1 : same_seek_inputs q q1)
    (h2 : same_seek_inputs q1 q2) : same_seek_inputs q q2 :=
  ⟨h2.1.trans h1.1, h2.2.1.trans h1.2.1, h2.2.2.1.trans h1.2.2.1,
    h2.2.2.2.1.trans h1.2.2.2.1, h2.2.2.2.2.1.trans h1.2.2.2.2.1,
    h2.2.2.2.2.2.trans h1.2.2.2.2.2⟩

theorem keeps_seek_inputs_refl (p : Nat) (w : World) : keeps_seek_inputs p w w :=
  ⟨rfl, fun q h => ⟨q, h, same_seek_inputs_refl q⟩⟩

theorem keeps_seek_inputs_trans (p : Nat) (w w1 w2 : World) (h1 : keeps_seek_inputs p w w1)
    (h2 : keeps_seek_inputs p w1 w2) : keeps_seek_inputs p w w2 := by
  refine ⟨h2.1.trans h1.1, ?_⟩
  intro q hq
  obtain ⟨q1, a, b⟩ := h1.2 q hq
  obtain ⟨q2, c, d⟩ := h2.2 q1 a
  exact ⟨q2, c, same_seek_inputs_trans _ _ _ b d⟩

theorem keeps_seek_inputs_of_eq (p : Nat) (w w1 : World) (ho : w1.target_offset = w.target_offset)
    (hp : w1.ptds = w.ptds) : keeps_seek_inputs p w w1 :=
  ⟨ho, fun q h => ⟨q, by rw [hp]; exact h, same_seek_inputs_refl q⟩⟩

theorem keeps_seek_inputs_setPtds (p : Nat) (w : World) (q q1 : ptds_t) (hq : w.ptds p = some q)
    (hs : same_seek_inputs q q1) : keeps_seek_inputs p w (w.setPtds p q1) := by
  refine ⟨rfl, ?_⟩
  intro q0 h0
  rw [hq] at h0
  injection h0 with h0
  subst h0
  exact ⟨q1, setPtds_same _ _ _, hs⟩

theorem syncio_seek_inputs (p : Nat) (w : World) :
    keeps_seek_inputs p w (xdd_syncio_before_io_operation p w).world := by
  unfold xdd_syncio_before_io_operation
  split
  · exact keeps_seek_inputs_refl p w
  · rename_i q hq
    split
    · exact keeps_seek_inputs_trans _ _ _ _ (keeps_seek_inputs_of_eq p w (w.emit _) rfl rfl)
        (keeps_seek_inputs_setPtds p _ q _ hq ⟨rfl, rfl, rfl, rfl, rfl, rfl⟩)
    · exact keeps_seek_inputs_refl p w

theorem start_trigger_release_frame (tgp2 : Option Nat) (w : World) :
    (start_trigger_release tgp2 w).world.ptds = w.ptds ∧
      (start_trigger_release tgp2 w).world.target_offset = w.target_offset := by
  unfold start_trigger_release
  split
  · exact ⟨rfl, rfl⟩
  · split <;> exact ⟨rfl, rfl⟩

theorem andThen_world_frame {α β : Type} (o : Outcome α) (f : α → World → Outcome β)
    (P : World → Prop) (ho : P o.world) (hf : ∀ a w, P w → P (f a w).world) :
    P (o.andThen f).world := by
  cases o with
  | ret a w0 => exact hf a w0 ho
  | blocked w0 => exact ho
  | fault w0 => exact ho

theorem start_trigger_thresholds_frame (q : ptds_t) (tg : trigger_t) (tgp2 : Option Nat)
    (w : World) :
    (start_trigger_thresholds q tg tgp2 w).world.ptds = w.ptds ∧
      (start_trigger_thresholds q tg tgp2 w).world.target_offset = w.target_offset := by
  unfold start_trigger_thresholds
  simp only
  have hrel : ∀ (c : Prop) [Decidable c] (w1 : World),
      (w1.ptds = w.ptds ∧ w1.target_offset = w.target_offset) →
      ((if c then start_trigger_release tgp2 w1 else Outcome.ret () w1).world.ptds = w.ptds ∧
        (if c then start_trigger_release tgp2 w1 else Outcome.ret () w1).world.target_offset =
          w.target_offset) := by
    intro c _ w1 h1
    split
    · exact ⟨(start_trigger_release_frame tgp2 w1).1.trans h1.1,
        (start_trigger_release_frame tgp2 w1).2.trans h1.2⟩
    · exact h1
  refine andThen_world_frame _ _ (fun w1 => w1.ptds = w.ptds ∧ w1.target_offset = w.target_offset)
    ?_ (fun _ w1 h1 => hrel _ w1 h1)
  refine andThen_world_frame _ _ (fun w1 => w1.ptds = w.ptds ∧ w1.target_offset = w.target_offset)
    ?_ (fun _ w1 h1 => hrel _ w1 h1)
  refine andThen_world_frame _ _ (fun w1 => w1.ptds = w.ptds ∧ w1.target_offset = w.target_offset)
    ?_ (fun _ w1 h1 => hrel _ w1 h1)
  split
  · split
    · exact start_trigger_release_frame tgp2 w.tick
    · exact ⟨rfl, rfl⟩
  · exact ⟨rfl, rfl⟩

theorem start_trigger_seek_inputs (K : xdd_h) (p : Nat) (w : World) :
    keeps_seek_inputs p w (xdd_start_trigger_before_io_operation K p w).world := by
  unfold xdd_start_trigger_before_io_operation
  split
  · exact keeps_seek_inputs_refl p w
  · rename_i q hq
    split
    · exact keeps_seek_inputs_refl p w
    · split
      · exact keeps_seek_inputs_refl p w
      · split
        · exact keeps_seek_inputs_trans _ _ _ _
            (keeps_seek_inputs_of_eq p w ((w.emit _).setTrigger _ _) rfl rfl)
            (keeps_seek_inputs_setPtds p _ q _ hq ⟨rfl, rfl, rfl, rfl, rfl, rfl⟩)
        · split
          · split
            · exact keeps_seek_inputs_refl p w
            · split
              · exact keeps_seek_inputs_refl p w
              · split
                · rename_i q2 _ _
                  obtain ⟨f1, f2⟩ := start_trigger_thresholds_frame q _ q2.tgp w
                  generalize start_trigger_thresholds q _ q2.tgp w = o at f1 f2
                  cases o with
                  | ret a w0 => exact keeps_seek_inputs_of_eq p w w0 f2 f1
                  | blocked w0 => exact keeps_seek_inputs_of_eq p w w0 f2 f1
                  | fault w0 => exact keeps_seek_inputs_of_eq p w w0 f2 f1
                · exact keeps_seek_inputs_refl p w
          · exact keeps_seek_inputs_refl p w

theorem ite_tick_offset (c : Prop) [Decidable c] (w : World) :
    (if c then w.tick else w).target_offset = w.target_offset := by
  split <;> rfl

theorem ls_ping_slave_offset (lsp2 : Option Nat) (w : World) :
    (ls_ping_slave lsp2 w).world.target_offset = w.target_offset := by
  unfold ls_ping_slave
  split
  · rfl
  · split
    · rfl
    · simp only
      split <;> rfl

theorem lockstep_master_offset (q : ptds_t) (l : Nat) (w : World) :
    (lockstep_master q l w).world.target_offset = w.target_offset := by
  unfold lockstep_master
  split
  · rfl
  · split
    · split
      · rfl
      · split
        · rfl
        · simp only
          split
          · exact (ls_ping_slave_offset _ _).trans (ite_tick_offset _ w)
          · exact ite_tick_offset _ w
    · rfl

theorem ls_slave_drain_offset (l : Nat) (ls : lockstep_t) (w : World) :
    (ls_slave_drain l ls w).target_offset = w.target_offset := by
  unfold ls_slave_drain
  simp only
  split <;> rfl

theorem lockstep_slave_offset (p : Nat) (q : ptds_t) (l : Nat) (w : World) :
    (lockstep_slave p q l w).world.target_offset = w.target_offset := by
  unfold lockstep_slave
  split
  · rfl
  · simp only
    split
    · split
      · split
        · exact (ls_slave_drain_offset _ _ _).trans (ite_tick_offset _ (w.emit _))
        · split
          · exact (ls_slave_drain_offset _ _ _).trans (ite_tick_offset _ (w.emit _))
          · exact ite_tick_offset _ (w.emit _)
      · exact ite_tick_offset _ (w.emit _)
    · rfl

theorem lockstep_seek_inputs (p : Nat) (w : World) :
    keeps_seek_inputs p w (xdd_lockstep_before_io_operation p w).world := by
  unfold xdd_lockstep_before_io_operation
  split
  · exact keeps_seek_inputs_refl p w
  · rename_i q hq
    split
    · exact keeps_seek_inputs_refl p w
    · rename_i l _
      obtain ⟨m1, -⟩ := lockstep_master_frame q l w
      have m2 := lockstep_master_offset q l w
      generalize lockstep_master q l w = o at m1 m2
      cases o with
      | blocked w0 => exact keeps_seek_inputs_of_eq p w w0 m2 m1
      | fault w0 => exact keeps_seek_inputs_of_eq p w w0 m2 m1
      | ret a w0 =>
        simp only [Outcome.world] at m1 m2
        simp only [Outcome.andThen]
        obtain ⟨-, s2⟩ := lockstep_slave_frame p q l w0
        have s1 := lockstep_slave_offset p q l w0
        rcases s2 with s2 | s2
        · exact keeps_seek_inputs_of_eq p w _ (s1.trans m2) (s2.trans m1)
        · refine ⟨s1.trans m2, ?_⟩
          intro q0 h0
          rw [hq] at h0
          injection h0 with h0
          subst h0
          rw [s2]
          exact ⟨_, Function.update_same _ _ _, ⟨rfl, rfl, rfl, rfl, rfl, rfl⟩⟩

theorem driver_to_lockstep_seek_inputs (K : xdd_h) (p : Nat) (w w3 : World) (a : Int)
    (h : driver_to_lockstep K p w = .ret a w3) : keeps_seek_inputs p w w3 := by
  unfold driver_to_lockstep at h
  obtain ⟨_, w1, h1, h⟩ := andThen_ret _ _ _ _ h
  obtain ⟨_, w2, h2, h⟩ := andThen_ret _ _ _ _ h
  have k1 := syncio_seek_inputs p w
  rw [h1] at k1
  have k2 := start_trigger_seek_inputs K p w1
  rw [h2] at k2
  have k3 := lockstep_seek_inputs p w2
  rw [h] at k3
  exact keeps_seek_inputs_trans _ _ _ _ (keeps_seek_inputs_trans _ _ _ _ k1 k2) k3

/-! ### After the seek resolution -/

theorem same_location_refl (q : ptds_t) : same_location q q := ⟨rfl, rfl, rfl, rfl⟩

theorem same_location_trans (q q1 q2 : ptds_t) (h1 : same_location q q1)
    (h2 : same_location q1 q2) : same_location q q2 :=
  ⟨h2.1.trans h1.1, h2.2.1.trans h1.2.1, h2.2.2.1.trans h1.2.2.1, h2.2.2.2.trans h1.2.2.2⟩

theorem dio_location (p : Nat) (w : World) (q : ptds_t) (hq : w.ptds p = some q) :
    ∃ q1, (xdd_dio_before_io_operation p w).world.ptds p = some q1 ∧ same_location q q1 := by
  unfold xdd_dio_before_io_operation
  rw [hq]
  simp only
  split
  · exact ⟨q, hq, same_location_refl q⟩
  · split
    · exact ⟨q, hq, same_location_refl q⟩
    · split
      · exact ⟨q, hq, same_location_refl q⟩
      · refine ⟨_, setPtds_same _ _ _, ?_⟩
        split <;> exact ⟨rfl, rfl, rfl, rfl⟩

theorem raw_location (p : Nat) (w : World) (q : ptds_t) (hq : w.ptds p = some q) :
    ∃ q1, (xdd_raw_before_io_operation p w).world.ptds p = some q1 ∧ same_location q q1 := by
  unfold xdd_raw_before_io_operation
  rw [hq]
  simp only
  split
  · exact ⟨q, hq, same_location_refl q⟩
  · split
    · split <;> split <;> exact ⟨_, setPtds_same _ _ _, ⟨rfl, rfl, rfl, rfl⟩⟩
    · exact ⟨q, hq, same_location_refl q⟩

theorem ts_location (p : Nat) (w : World) (q : ptds_t) (hq : w.ptds p = some q) :
    ∃ q1, (xdd_ts_before_io_operation p w).world.ptds p = some q1 ∧ same_location q q1 := by
  unfold xdd_ts_before_io_operation
  rw [hq]
  simp only
  split
  · exact ⟨q, hq, same_location_refl q⟩
  · split
    · exact ⟨q, hq, same_location_refl q⟩
    · split
      · split
        · split
          · exact ⟨_, setPtds_same _ _ _, ⟨rfl, rfl, rfl, rfl⟩⟩
          · exact ⟨_, setPtds_same _ _ _, ⟨rfl, rfl, rfl, rfl⟩⟩
        · exact ⟨_, setPtds_same _ _ _, ⟨rfl, rfl, rfl, rfl⟩⟩
      · exact ⟨q, hq, same_location_refl q⟩

theorem throttle_ptds (K : xdd_h) (p : Nat) (w : World) :
    (xdd_throttle_before_io_operation K p w).world.ptds = w.ptds := by
  unfold xdd_throttle_before_io_operation
  split
  · rfl
  · split
    · rfl
    · simp only
      split
      · rfl
      · split
        · rfl
        · split
          · split <;> rfl
          · rfl

/-- The stages after the end-to-end stage keep the byte location. -/
theorem driver_tail_location (K : xdd_h) (p : Nat) (w w9 : World) (q : ptds_t)
    (hq : w.ptds p = some q) (h : driver_tail K p w = .ret () w9) :
    ∃ q9, w9.ptds p = some q9 ∧ same_location q q9 := by
  unfold driver_tail at h
  obtain ⟨_, w8, h8, h⟩ := andThen_ret _ _ _ _ h
  obtain ⟨q8, a8, b8⟩ := ts_location p w q hq
  rw [h8] at a8
  have a9 := throttle_ptds K p w8
  rw [h] at a9
  simp only [Outcome.world] at a8 a9
  exact ⟨q8, by rw [a9]; exact a8, b8⟩

theorem e2e_iteration_options (K : xdd_h) (clock : Nat → Int) (s : e2e_state) (r : e2e_recv_t) :
    (e2e_iteration K clock s r).state.q.target_options = s.q.target_options := by
  simp only [e2e_iteration]
  split_ifs <;> simp [e2e_iter.state, e2e_mark_ring, e2e_shrink] <;> split_ifs <;> rfl

theorem e2e_loop_options (K : xdd_h) (clock : Nat → Int) (msgs : List e2e_recv_t) :
    ∀ s : e2e_state, (e2e_loop K clock msgs s).final.q.target_options = s.q.target_options := by
  induction msgs with
  | nil =>
    intro s
    rw [e2e_loop_nil]
    split <;> rfl
  | cons r rest ih =>
    intro s
    by_cases h : s.ep.e2e_data_ready < s.q.iosize
    · have hb := e2e_iteration_options K clock s r
      cases hi : e2e_iteration K clock s r with
      | failed s1 =>
        rw [e2e_loop_failed K clock s s1 r rest h hi]
        rw [hi] at hb
        exact hb
      | short_tail s1 =>
        rw [e2e_loop_short K clock s s1 r rest h hi]
        rw [hi] at hb
        exact hb
      | stale s1 =>
        rw [e2e_loop_stale K clock s s1 r rest h hi]
        rw [hi] at hb
        exact (ih s1).trans hb
      | accepted s1 =>
        rw [e2e_loop_accepted K clock s s1 r rest h hi]
        rw [hi] at hb
        exact (ih s1).trans hb
    · rw [e2e_loop_done K clock s (r :: rest) h]

/-- What the end-to-end stage leaves as the byte location when it does not fail:
the one it found, for a worker that is not a destination; the location of the
message in `e2e_msg`, for a destination. -/
theorem e2e_location (K : xdd_h) (p : Nat) (w w7 : World) (s : Int) (hs : s ≠ K.FAILED)
    (q : ptds_t) (hq : w.ptds p = some q)
    (h : xdd_e2e_before_io_operation K p w = .ret s w7) :
    ∃ q7, w7.ptds p = some q7 ∧
      (¬ e2e_destination q → same_location q q7) ∧
      (e2e_destination q → ∃ ep7, q7.e2ep = some ep7 ∧
        q7.target_options = q.target_options ∧
        q7.my_current_byte_location = ep7.e2e_msg.location) := by
  unfold xdd_e2e_before_io_operation at h
  rw [hq] at h
  simp only at h
  unfold e2e_destination
  split at h
  · rename_i h1
    injection h with _ h
    subst h
    refine ⟨q, hq, fun _ => same_location_refl q, ?_⟩
    rintro ⟨d1, -, -⟩
    simp [d1] at h1
  · split at h
    · rename_i h2
      injection h with _ h
      subst h
      refine ⟨q, hq, fun _ => same_location_refl q, ?_⟩
      rintro ⟨-, d2, -⟩
      rw [d2] at h2
      exact absurd h2 (by decide)
    · split at h
      · rename_i h3
        injection h with _ h
        subst h
        refine ⟨q, hq, fun _ => same_location_refl q, ?_⟩
        rintro ⟨-, -, d3⟩
        exact absurd h3 d3
      · rename_i h1 h2 _ ep hep
        have hb := e2e_loop_options K w.clock w.e2e_msgs ⟨q, ep, w.clock_reads⟩
        generalize e2e_loop K w.clock w.e2e_msgs ⟨q, ep, w.clock_reads⟩ = run at h hb
        unfold e2e_finish at h
        split at h
        · cases h
        · injection h with hv _
          exact absurd hv.symm hs
        · injection h with _ h
          subst h
          refine ⟨_, e2e_commit_ptds _ _ _, ?_, ?_⟩
          · intro hnd
            exfalso
            apply hnd
            refine ⟨?_, ?_, ?_⟩
            · simpa using h1
            · simpa using h2
            · rw [hep]; exact Option.some_ne_none _
          · intro _
            exact ⟨_, rfl, hb, rfl⟩

theorem seek_resolution_location (p : Nat) (w w4 : World) (q : ptds_t) (hq : w.ptds p = some q)
    (h : seek_resolution p w = .ret () w4) :
    ∃ sk, q.seekhdr.seek (if q.seekhdr.SO_SEEK_NONE = true then 0 else q.my_current_op) = some sk ∧
      w4.ptds p = some { q with
        my_error_break := 0,
        my_current_byte_location :=
          uint64_cast (uint64_cast (q.my_target_number * w.target_offset + sk.block_location) *
            q.block_size) } := by
  unfold seek_resolution at h
  rw [hq] at h
  simp only at h
  split at h
  · cases h
  · rename_i sk hsk
    injection h with _ h
    subst h
    exact ⟨sk, hsk, setPtds_same _ _ _⟩

theorem e2e_destination_congr (q q1 : ptds_t) (h1 : q1.e2ep = q.e2ep)
    (h2 : q1.target_options.TO_ENDTOEND = q.target_options.TO_ENDTOEND)
    (h3 : q1.target_options.TO_E2E_SOURCE = q.target_options.TO_E2E_SOURCE) :
    e2e_destination q1 ↔ e2e_destination q := by
  unfold e2e_destination
  rw [h1, h2, h3]

/-- C23, as amended: when the driver returns `SUCCESS` for a worker that is not the
destination of an end-to-end transfer, the byte location of the worker is
`(my_target_number * target_offset + block_location) * block_size`, taken as an
unsigned 64-bit value, for the entry of the seek table at `my_current_op`, or the
entry 0 when `SO_SEEK_NONE` is set; it is the plain product when nothing wraps.
For a destination it is the location of the message left in `e2e_msg`. -/
theorem driver_byte_location (K : xdd_h) (hK : K.SUCCESS ≠ K.FAILED) (p : Nat) (w w9 : World)
    (q : ptds_t) (hq : w.ptds p = some q)
    (h : xdd_io_loop_before_io_operation K p w = .ret K.SUCCESS w9) :
    ∃ q9 sk, w9.ptds p = some q9 ∧
      q.seekhdr.seek (if q.seekhdr.SO_SEEK_NONE = true then 0 else q.my_current_op) = some sk ∧
      (¬ e2e_destination q →
        q9.my_current_byte_location =
          uint64_cast (uint64_cast (q.my_target_number * w.target_offset + sk.block_location) *
            q.block_size) ∧
        (0 ≤ q.my_target_number * w.target_offset + sk.block_location → 0 ≤ q.block_size →
          (q.my_target_number * w.target_offset + sk.block_location) * q.block_size < 2 ^ 64 →
          q9.my_current_byte_location =
            (q.my_target_number * w.target_offset + sk.block_location) * q.block_size)) ∧
      (e2e_destination q →
        ∃ ep9, q9.e2ep = some ep9 ∧ q9.my_current_byte_location = ep9.e2e_msg.location) := by
  unfold xdd_io_loop_before_io_operation at h
  obtain ⟨s, w3, h3, h⟩ := andThen_ret _ _ _ _ h
  by_cases hs : s = 0
  swap
  · rw [if_pos hs] at h
    injection h with hv _
    exact absurd hv.symm hK
  rw [if_neg (not_not.2 hs)] at h
  obtain ⟨s2, w7, h7, h⟩ := andThen_ret _ _ _ _ h
  by_cases hs2 : s2 = K.FAILED
  · rw [if_pos hs2] at h
    injection h with hv _
    exact absurd hv.symm hK
  rw [if_neg hs2] at h
  obtain ⟨_, w9', h9, h⟩ := andThen_ret _ _ _ _ h
  injection h with _ h
  subst h
  obtain ⟨ho, hk⟩ := driver_to_lockstep_seek_inputs K p w w3 s h3
  obtain ⟨q3, hq3, i1, i2, i3, i4, i5, i6⟩ := hk q hq
  unfold driver_to_e2e at h7
  obtain ⟨_, w4, h4, h7⟩ := andThen_ret _ _ _ _ h7
  obtain ⟨_, w5, h5, h7⟩ := andThen_ret _ _ _ _ h7
  obtain ⟨_, w6, h6, h7⟩ := andThen_ret _ _ _ _ h7
  obtain ⟨sk, hsk, hq4⟩ := seek_resolution_location p w3 w4 q3 hq3 h4
  rw [i3, i4] at hsk
  rw [i1, i2, ho] at hq4
  obtain ⟨q5, hq5, l5, e5, a5, b5⟩ := dio_location p w4 _ hq4
  rw [h5] at hq5
  obtain ⟨q6, hq6, l6, e6, a6, b6⟩ := raw_location p w5 q5 hq5
  rw [h6] at hq6
  simp only [Outcome.world] at hq5 hq6
  have hd : e2e_destination q6 ↔ e2e_destination q := by
    refine e2e_destination_congr q q6 ?_ ?_ ?_
    · rw [e6, e5]; exact i6
    · rw [a6, a5]; show q3.target_options.TO_ENDTOEND = _; rw [i5]
    · rw [b6, b5]; show q3.target_options.TO_E2E_SOURCE = _; rw [i5]
  obtain ⟨q7, hq7, n7, d7⟩ := e2e_location K p w6 w7 s2 hs2 q6 hq6 h7
  obtain ⟨q9, hq9, l9, e9, -, -⟩ := driver_tail_location K p w7 w9' q7 hq7 h9
  refine ⟨q9, sk, hq9, hsk, ?_, ?_⟩
  · intro hnd
    obtain ⟨l7, -, -, -⟩ := n7 (fun hc => hnd (hd.1 hc))
    have hl : q9.my_current_byte_location =
        uint64_cast (uint64_cast (q.my_target_number * w.target_offset + sk.block_location) *
          q.block_size) := by
      rw [l9, l7, l6, l5]
    refine ⟨hl, ?_⟩
    intro n1 n2 n3
    rw [hl]
    unfold uint64_cast
    have m1 : 0 ≤ (q.my_target_number * w.target_offset + sk.block_location) * q.block_size :=
      Int.mul_nonneg n1 n2
    by_cases hb : q.block_size = 0
    · simp [hb]
    · have hb1 : 1 ≤ q.block_size := by omega
      have m2 : q.my_target_number * w.target_offset + sk.block_location < 2 ^ 64 := by
        nlinarith
      rw [Int.emod_eq_of_lt n1 m2, Int.emod_eq_of_lt m1 n3]
  · intro hdq
    obtain ⟨ep7, x1, -, x3⟩ := d7 (hd.2 hdq)
    exact ⟨ep7, by rw [e9]; exact x1, by rw [l9]; exact x3⟩

/-! ## Timestamps -/

/-- The stage when it records: the clock is read, `TS_TRIGGERED` is set, the record
goes to the slot `tte_indx` and `timestamps` is incremented. -/
theorem ts_record (p : Nat) (w : World) (q : ptds_t) (ts : timestamp_t) (hdr : tthdr_t)
    (sk : seek_t) (hq : w.ptds p = some q) (hts : q.tsp = some ts)
    (hon : ts.ts_options.TS_ON = true) (http : ts.ttp = some hdr)
    (hidx : 0 ≤ hdr.tte_indx ∧ hdr.tte_indx.toNat < hdr.tte.length)
    (hsk : q.seekhdr.seek q.my_current_op = some sk)
    (harm : ts.ts_options.TS_TRIGGERED = true ∨ ts.ts_options.TS_ALL = true ∨
      (ts.ts_options.TS_TRIGTIME = true ∧ w.now ≥ ts.ts_trigtime) ∨
      (ts.ts_options.TS_TRIGOP = true ∧ ts.ts_trigop = q.my_current_op)) :
    ∃ ts1 hdr1,
      xdd_ts_before_io_operation p w = .ret () (w.tick.setPtds p { q with tsp := some ts1 }) ∧
      ts1.ts_options = { ts.ts_options with TS_TRIGGERED := true } ∧
      ts1.timestamps = ts.timestamps + 1 ∧ ts1.ttp = some hdr1 ∧
      hdr1.tte_indx = hdr.tte_indx ∧
      hdr1.tte = hdr.tte.set hdr.tte_indx.toNat ⟨sk.operation, q.my_current_pass_number,
        q.my_current_byte_location, q.my_current_op, w.now⟩ := by
  unfold xdd_ts_before_io_operation
  simp only [hq, hts, hon, Bool.not_true, Bool.false_eq_true, if_false, if_pos harm, http, hsk,
    if_pos hidx]
  exact ⟨_, _, rfl, rfl, rfl, rfl, rfl, rfl⟩

/-- The stage when it does not record: only the clock is read. -/
theorem ts_skip (p : Nat) (w : World) (q : ptds_t) (ts : timestamp_t)
    (hq : w.ptds p = some q) (hts : q.tsp = some ts) (hon : ts.ts_options.TS_ON = true)
    (harm : ¬ (ts.ts_options.TS_TRIGGERED = true ∨ ts.ts_options.TS_ALL = true ∨
      (ts.ts_options.TS_TRIGTIME = true ∧ w.now ≥ ts.ts_trigtime) ∨
      (ts.ts_options.TS_TRIGOP = true ∧ ts.ts_trigop = q.my_current_op))) :
    xdd_ts_before_io_operation p w = .ret () w.tick := by
  unfold xdd_ts_before_io_operation
  simp only [hq, hts, hon, Bool.not_true, Bool.false_eq_true, if_false, if_neg harm]

/-- C24: with timestamping on, a table whose insertion index is valid and a seek
entry for the operation, the stage writes a record (and counts it in `timestamps`)
exactly when `TS_TRIGGERED` is set already, or `TS_ALL` is set, or `TS_TRIGTIME` is
set and the time read is at least `ts_trigtime`, or `TS_TRIGOP` is set and
`my_current_op` is `ts_trigop`; otherwise it only reads the clock.  When it writes,
it leaves `TS_TRIGGERED` set and `TS_ON` as it was, and then any later call on the
block it left records again, at whatever time and operation. -/
theorem ts_records_iff (p : Nat) (w : World) (q : ptds_t) (ts : timestamp_t) (hdr : tthdr_t)
    (sk : seek_t) (hq : w.ptds p = some q) (hts : q.tsp = some ts)
    (hon : ts.ts_options.TS_ON = true) (http : ts.ttp = some hdr)
    (hidx : 0 ≤ hdr.tte_indx ∧ hdr.tte_indx.toNat < hdr.tte.length)
    (hsk : q.seekhdr.seek q.my_current_op = some sk) :
    ((ts.ts_options.TS_TRIGGERED = true ∨ ts.ts_options.TS_ALL = true ∨
        (ts.ts_options.TS_TRIGTIME = true ∧ w.now ≥ ts.ts_trigtime) ∨
        (ts.ts_options.TS_TRIGOP = true ∧ ts.ts_trigop = q.my_current_op)) →
      ∃ w1 ts1 hdr1, xdd_ts_before_io_operation p w = .ret () w1 ∧
        w1.ptds p = some { q with tsp := some ts1 } ∧
        ts1.timestamps = ts.timestamps + 1 ∧ ts1.ttp = some hdr1 ∧
        hdr1.tte.get? hdr.tte_indx.toNat = some ⟨sk.operation, q.my_current_pass_number,
          q.my_current_byte_location, q.my_current_op, w.now⟩ ∧
        ts1.ts_options.TS_TRIGGERED = true ∧ ts1.ts_options.TS_ON = true ∧
        ∀ (w2 : World) (q2 : ptds_t) (sk2 : seek_t), w2.ptds p = some q2 → q2.tsp = some ts1 →
          q2.seekhdr.seek q2.my_current_op = some sk2 →
          ∃ w3 ts3 hdr3, xdd_ts_before_io_operation p w2 = .ret () w3 ∧
            w3.ptds p = some { q2 with tsp := some ts3 } ∧
            ts3.timestamps = ts1.timestamps + 1 ∧ ts3.ttp = some hdr3 ∧
            hdr3.tte.get? hdr.tte_indx.toNat = some ⟨sk2.operation, q2.my_current_pass_number,
              q2.my_current_byte_location, q2.my_current_op, w2.now⟩ ∧
            ts3.ts_options.TS_TRIGGERED = true) ∧
    (¬ (ts.ts_options.TS_TRIGGERED = true ∨ ts.ts_options.TS_ALL = true ∨
        (ts.ts_options.TS_TRIGTIME = true ∧ w.now ≥ ts.ts_trigtime) ∨
        (ts.ts_options.TS_TRIGOP = true ∧ ts.ts_trigop = q.my_current_op)) →
      xdd_ts_before_io_operation p w = .ret () w.tick ∧ w.tick.ptds = w.ptds) := by
  constructor
  · intro harm
    obtain ⟨ts1, hdr1, h1, o1, c1, t1, x1, e1⟩ :=
      ts_record p w q ts hdr sk hq hts hon http hidx hsk harm
    have hon1 : ts1.ts_options.TS_ON = true := by rw [o1]; exact hon
    have htr1 : ts1.ts_options.TS_TRIGGERED = true := by rw [o1]
    have hidx1 : 0 ≤ hdr1.tte_indx ∧ hdr1.tte_indx.toNat < hdr1.tte.length := by
      rw [x1, e1, List.length_set]
      exact hidx
    refine ⟨_, ts1, hdr1, h1, setPtds_same _ _ _, c1, t1, ?_, htr1, hon1, ?_⟩
    · rw [e1, List.get?_eq_getElem?, List.getElem?_set_self hidx.2]
    · intro w2 q2 sk2 hq2 hts2 hsk2
      obtain ⟨ts3, hdr3, h3, o3, c3, t3, x3, e3⟩ :=
        ts_record p w2 q2 ts1 hdr1 sk2 hq2 hts2 hon1 t1 hidx1 hsk2 (Or.inl htr1)
      refine ⟨_, ts3, hdr3, h3, setPtds_same _ _ _, c3, t3, ?_, by rw [o3]⟩
      have hlen : hdr.tte_indx.toNat < hdr1.tte.length := by rw [← x1]; exact hidx1.2
      rw [e3, x1, List.get?_eq_getElem?, List.getElem?_set_self hlen]
  · intro harm
    exact ⟨ts_skip p w q ts hq hts hon harm, rfl⟩

/-- C25, as amended: a record that the stage writes goes to the slot `tte_indx` of
the table header, and the stage leaves `tte_indx`, the number of slots and every
other slot as they were; the next record that the stage writes on the block it
left goes to the same slot and replaces the first.  The stage makes no test on the
capacity of the table. -/
theorem ts_record_index (p : Nat) (w : World) (q : ptds_t) (ts : timestamp_t) (hdr : tthdr_t)
    (sk : seek_t) (hq : w.ptds p = some q) (hts : q.tsp = some ts)
    (hon : ts.ts_options.TS_ON = true) (http : ts.ttp = some hdr)
    (hidx : 0 ≤ hdr.tte_indx ∧ hdr.tte_indx.toNat < hdr.tte.length)
    (hsk : q.seekhdr.seek q.my_current_op = some sk)
    (harm : ts.ts_options.TS_TRIGGERED = true ∨ ts.ts_options.TS_ALL = true ∨
      (ts.ts_options.TS_TRIGTIME = true ∧ w.now ≥ ts.ts_trigtime) ∨
      (ts.ts_options.TS_TRIGOP = true ∧ ts.ts_trigop = q.my_current_op)) :
    ∃ w1 ts1 hdr1, xdd_ts_before_io_operation p w = .ret () w1 ∧
      w1.ptds p = some { q with tsp := some ts1 } ∧ ts1.ttp = some hdr1 ∧
      hdr1.tte_indx = hdr.tte_indx ∧ hdr1.tte.length = hdr.tte.length ∧
      hdr1.tte = hdr.tte.set hdr.tte_indx.toNat ⟨sk.operation, q.my_current_pass_number,
        q.my_current_byte_location, q.my_current_op, w.now⟩ ∧
      (∀ i, i ≠ hdr.tte_indx.toNat → hdr1.tte.get? i = hdr.tte.get? i) ∧
      ∀ (w2 : World) (q2 : ptds_t) (sk2 : seek_t), w2.ptds p = some q2 → q2.tsp = some ts1 →
        q2.seekhdr.seek q2.my_current_op = some sk2 →
        ∃ w3 ts3 hdr3, xdd_ts_before_io_operation p w2 = .ret () w3 ∧
          w3.ptds p = some { q2 with tsp := some ts3 } ∧ ts3.ttp = some hdr3 ∧
          hdr3.tte_indx = hdr.tte_indx ∧
          hdr3.tte = hdr.tte.set hdr.tte_indx.toNat ⟨sk2.operation, q2.my_current_pass_number,
            q2.my_current_byte_location, q2.my_current_op, w2.now⟩ := by
  obtain ⟨ts1, hdr1, h1, o1, -, t1, x1, e1⟩ :=
    ts_record p w q ts hdr sk hq hts hon http hidx hsk harm
  have hon1 : ts1.ts_options.TS_ON = true := by rw [o1]; exact hon
  have htr1 : ts1.ts_options.TS_TRIGGERED = true := by rw [o1]
  have hidx1 : 0 ≤ hdr1.tte_indx ∧ hdr1.tte_indx.toNat < hdr1.tte.length := by
    rw [x1, e1, List.length_set]
    exact hidx
  refine ⟨_, ts1, hdr1, h1, setPtds_same _ _ _, t1, x1, ?_, e1, ?_, ?_⟩
  · rw [e1, List.length_set]
  · intro i hi
    rw [e1, List.get?_eq_getElem?, List.get?_eq_getElem?, List.getElem?_set_ne (Ne.symm hi)]
  · intro w2 q2 sk2 hq2 hts2 hsk2
    obtain ⟨ts3, hdr3, h3, -, -, t3, x3, e3⟩ :=
      ts_record p w2 q2 ts1 hdr1 sk2 hq2 hts2 hon1 t1 hidx1 hsk2 (Or.inl htr1)
    refine ⟨_, ts3, hdr3, h3, setPtds_same _ _ _, t3, x3.trans x1, ?_⟩
    rw [e3, x1, e1, List.set_set]

/-! ## Target data: the number of operations -/

/-- The number of operations for `bytes` bytes and an I/O size `io`. -/
theorem xfer_target_ops_spec (t : target_data_t) (hio : 0 < t.td_iosize)
    (hb : 0 ≤ t.td_target_bytes_to_xfer_per_pass) :
    (xfer_target_ops t).td_iosize = t.td_iosize ∧
    (xfer_target_ops t).td_target_bytes_to_xfer_per_pass = t.td_target_bytes_to_xfer_per_pass ∧
    (xfer_target_ops t).td_target_ops * t.td_iosize ≥ t.td_target_bytes_to_xfer_per_pass ∧
    t.td_target_bytes_to_xfer_per_pass > ((xfer_target_ops t).td_target_ops - 1) * t.td_iosize ∧
    (xfer_target_ops t).td_target_ops =
      (t.td_target_bytes_to_xfer_per_pass + t.td_iosize - 1) / t.td_iosize := by
  have hd : t.td_target_bytes_to_xfer_per_pass.tdiv t.td_iosize =
      t.td_target_bytes_to_xfer_per_pass / t.td_iosize := Int.tdiv_eq_ediv hb hio.le
  have hm : t.td_target_bytes_to_xfer_per_pass.tmod t.td_iosize =
      t.td_target_bytes_to_xfer_per_pass % t.td_iosize := Int.tmod_eq_emod hb hio.le
  have e := Int.emod_add_ediv t.td_target_bytes_to_xfer_per_pass t.td_iosize
  have m0 := Int.emod_nonneg t.td_target_bytes_to_xfer_per_pass hio.ne'
  have m1 := Int.emod_lt_of_pos t.td_target_bytes_to_xfer_per_pass hio
  unfold xfer_target_ops
  simp only [hd, hm]
  generalize t.td_target_bytes_to_xfer_per_pass / t.td_iosize = d at e ⊢
  generalize t.td_target_bytes_to_xfer_per_pass % t.td_iosize = m at e m0 m1 ⊢
  generalize t.td_target_bytes_to_xfer_per_pass = b at e hb ⊢
  generalize t.td_iosize = io at e m1 hio ⊢
  have hceil : ∀ c : Int, (c - 1) * io < b → b ≤ c * io → c = (b + io - 1) / io := by
    intro c h1 h2
    have l1 : c ≤ (b + io - 1) / io := (Int.le_ediv_iff_mul_le hio).2 (by nlinarith)
    have l2 : (b + io - 1) / io < c + 1 := (Int.ediv_lt_iff_lt_mul hio).2 (by nlinarith)
    omega
  by_cases hz : m = 0
  · subst hz
    rw [if_neg (not_not.2 rfl)]
    have h1 : d * io ≥ b := by nlinarith
    have h2 : b > (d - 1) * io := by nlinarith
    exact ⟨rfl, rfl, h1, h2, hceil d h2 h1⟩
  · rw [if_pos hz]
    have hpos : 0 < m := by omega
    have h1 : (d + 1) * io ≥ b := by nlinarith
    have h2 : b > (d + 1 - 1) * io := by nlinarith
    exact ⟨rfl, rfl, h1, h2, hceil (d + 1) h2 h1⟩

/-- C28: for a target without a restart block, with a positive
`td_reqsize * td_block_size` and with `td_numreqs` or `td_bytes` given,
`xdd_calculate_xfer_info` sets `td_iosize` to that product, the bytes of a pass to
`td_numreqs * td_iosize` (or to `td_bytes`), as an unsigned 64-bit value, and
`td_target_ops` to the ceiling of their quotient: `td_target_ops * td_iosize` is at
least the bytes of a pass, which exceed `(td_target_ops - 1) * td_iosize`. -/
theorem xfer_info_ceiling (t : target_data_t) (hio : 0 < t.td_reqsize * t.td_block_size)
    (hspec : t.td_numreqs ≠ 0 ∨ t.td_bytes ≠ 0) (hnr : t.td_restartp = none) :
    (xdd_calculate_xfer_info t).td_iosize = t.td_reqsize * t.td_block_size ∧
    (xdd_calculate_xfer_info t).td_target_bytes_to_xfer_per_pass =
      (if t.td_numreqs ≠ 0 then uint64_cast (t.td_numreqs * (t.td_reqsize * t.td_block_size))
       else uint64_cast t.td_bytes) ∧
    (xdd_calculate_xfer_info t).td_target_ops * (xdd_calculate_xfer_info t).td_iosize ≥
      (xdd_calculate_xfer_info t).td_target_bytes_to_xfer_per_pass ∧
    (xdd_calculate_xfer_info t).td_target_bytes_to_xfer_per_pass >
      ((xdd_calculate_xfer_info t).td_target_ops - 1) * (xdd_calculate_xfer_info t).td_iosize ∧
    (xdd_calculate_xfer_info t).td_target_ops =
      ((xdd_calculate_xfer_info t).td_target_bytes_to_xfer_per_pass +
        (xdd_calculate_xfer_info t).td_iosize - 1) / (xdd_calculate_xfer_info t).td_iosize := by
  have hcast : ∀ x : Int, 0 ≤ uint64_cast x := by
    intro x
    unfold uint64_cast
    exact Int.emod_nonneg x (by norm_num)
  have hne : ¬ t.td_reqsize * t.td_block_size = 0 := hio.ne'
  have key : ∀ b : Int, 0 ≤ b →
      xdd_calculate_xfer_info t = xfer_target_ops { t with
        td_iosize := t.td_reqsize * t.td_block_size, td_target_bytes_to_xfer_per_pass := b } →
      (xdd_calculate_xfer_info t).td_iosize = t.td_reqsize * t.td_block_size ∧
      (xdd_calculate_xfer_info t).td_target_bytes_to_xfer_per_pass = b ∧
      (xdd_calculate_xfer_info t).td_target_ops * (xdd_calculate_xfer_info t).td_iosize ≥
        (xdd_calculate_xfer_info t).td_target_bytes_to_xfer_per_pass ∧
      (xdd_calculate_xfer_info t).td_target_bytes_to_xfer_per_pass >
        ((xdd_calculate_xfer_info t).td_target_ops - 1) * (xdd_calculate_xfer_info t).td_iosize ∧
      (xdd_calculate_xfer_info t).td_target_ops =
        ((xdd_calculate_xfer_info t).td_target_bytes_to_xfer_per_pass +
          (xdd_calculate_xfer_info t).td_iosize - 1) / (xdd_calculate_xfer_info t).td_iosize := by
    intro b hb he
    obtain ⟨a1, a2, a3, a4, a5⟩ := xfer_target_ops_spec { t with
      td_iosize := t.td_reqsize * t.td_block_size, td_target_bytes_to_xfer_per_pass := b } hio hb
    rw [he, a1, a2]
    exact ⟨rfl, rfl, a3, a4, a5⟩
  by_cases hn : t.td_numreqs = 0
  · have hb : t.td_bytes ≠ 0 := by
      rcases hspec with h | h
      · exact absurd hn h
      · exact h
    rw [if_neg (not_not.2 hn)]
    refine key _ (hcast _) ?_
    unfold xdd_calculate_xfer_info
    simp only [hne, hn, hb, if_false, ne_eq, not_true_eq_false, not_false_eq_true, if_true,
      xfer_restart, hnr]
  · rw [if_pos hn]
    refine key _ (hcast _) ?_
    unfold xdd_calculate_xfer_info
    simp only [hne, hn, if_false, ne_eq, not_false_eq_true, if_true, xfer_restart, hnr]

/-! ## Target data: the ports of an end-to-end target -/

theorem e2e_update_port_count_some (f : Int → Int) (i : Nat) (tbl : List e2e_address_t)
    (e : e2e_address_t) (he : tbl.get? i = some e) :
    e2e_update_port_count f (i : Int) tbl =
      some (tbl.set i { e with port_count := f e.port_count }) := by
  unfold e2e_update_port_count
  simp only [Int.natCast_nonneg, if_true, Int.toNat_ofNat, he]

theorem get?_set_same (tbl : List e2e_address_t) (i : Nat) (x : e2e_address_t)
    (h : i < tbl.length) : (tbl.set i x).get? i = some x := by
  rw [List.get?_eq_getElem?, List.getElem?_set_self h]

theorem get?_set_other (tbl : List e2e_address_t) (i j : Nat) (x : e2e_address_t) (h : i ≠ j) :
    (tbl.set i x).get? j = tbl.get? j := by
  rw [List.get?_eq_getElem?, List.get?_eq_getElem?, List.getElem?_set_ne h]

theorem get?_of_lt (tbl : List e2e_address_t) (i : Nat) (h : i < tbl.length) :
    ∃ e, tbl.get? i = some e := by
  rw [List.get?_eq_getElem?, List.getElem?_eq_getElem h]
  exact ⟨_, rfl⟩

/-- The loops that set the port counts of the entries `e, ..., e + n - 1` to `v`. -/
theorem e2e_fill_port_counts_spec (v : Int) :
    ∀ (n e : Nat) (tbl : List e2e_address_t), e + n ≤ tbl.length →
      ∃ tbl1, e2e_fill_port_counts v n (e : Int) tbl = some tbl1 ∧
        tbl1.length = tbl.length ∧
        (∀ i, e ≤ i → i < e + n → ∃ a a0, tbl1.get? i = some a ∧ tbl.get? i = some a0 ∧
          a.base_port = a0.base_port ∧ a.port_count = v) ∧
        (∀ i, (i < e ∨ e + n ≤ i) → tbl1.get? i = tbl.get? i) := by
  intro n
  induction n with
  | zero =>
    intro e tbl _
    refine ⟨tbl, rfl, rfl, ?_, fun _ _ => rfl⟩
    intro i h1 h2
    omega
  | succ n ih =>
    intro e tbl hlen
    obtain ⟨x, hx⟩ := get?_of_lt tbl e (by omega)
    have hcast : ((e : Int) + 1) = ((e + 1 : Nat) : Int) := by push_cast; rfl
    obtain ⟨tbl1, h1, h2, h3, h4⟩ := ih (e + 1) (tbl.set e { x with port_count := v })
      (by rw [List.length_set]; omega)
    refine ⟨tbl1, ?_, ?_, ?_, ?_⟩
    · rw [e2e_fill_port_counts, e2e_update_port_count_some _ e tbl x hx]
      simp only [hcast]
      exact h1
    · rw [h2, List.length_set]
    · intro i hi1 hi2
      by_cases hie : i = e
      · subst hie
        refine ⟨{ x with port_count := v }, x, ?_, hx, rfl, rfl⟩
        rw [h4 i (Or.inl (by omega)), get?_set_same _ _ _ (by omega)]
      · obtain ⟨a, a0, b1, b2, b3, b4⟩ := h3 i (by omega) (by omega)
        rw [get?_set_other _ _ _ _ (Ne.symm hie)] at b2
        exact ⟨a, a0, b1, b2, b3, b4⟩
    · intro i hi
      rw [h4 i (by omega), get?_set_other _ _ _ _ (by omega)]

/-- The quotient and the remainder of `k + 1`. -/
theorem succ_div_mod (k H : Nat) (hH : 0 < H) :
    (k % H + 1 < H → (k + 1) / H = k / H ∧ (k + 1) % H = k % H + 1) ∧
    (¬ k % H + 1 < H → (k + 1) / H = k / H + 1 ∧ (k + 1) % H = 0) := by
  have e := Nat.mod_add_div k H
  have l := Nat.mod_lt k hH
  constructor
  · intro h
    rw [Nat.div_mod_unique hH]
    constructor
    · omega
    · exact h
  · intro h
    have hr : k % H + 1 = H := by omega
    rw [Nat.div_mod_unique hH]
    constructor
    · rw [Nat.mul_add, Nat.mul_one]
      omega
    · exact hH

/-- The loop that hands out the ports one by one: after `k` ports the entry `i`
holds `k / H` ports and one more if `i < k % H`. -/
theorem e2e_distribute_ports_spec (orig : List e2e_address_t) (H : Nat) (hH : 0 < H)
    (hlen : H ≤ orig.length) :
    ∀ (n k : Nat) (tbl : List e2e_address_t),
      ports_spread orig tbl H (fun i => ((k / H : Nat) : Int) + if i < k % H then 1 else 0) →
      ∃ tbl1, e2e_distribute_ports (H : Int) n ((k % H : Nat) : Int) tbl = some tbl1 ∧
        ports_spread orig tbl1 H
          (fun i => (((k + n) / H : Nat) : Int) + if i < (k + n) % H then 1 else 0) := by
  intro n
  induction n with
  | zero =>
    intro k tbl h
    exact ⟨tbl, rfl, h⟩
  | succ n ih =>
    intro k tbl h
    obtain ⟨hl, hin, hout⟩ := h
    have hr : k % H < H := Nat.mod_lt k hH
    obtain ⟨a, a0, g1, g2, g3, g4⟩ := hin (k % H) hr
    obtain ⟨dm1, dm2⟩ := succ_div_mod k H hH
    have hnext : (if ((k % H : Nat) : Int) + 1 ≥ (H : Int) then (0 : Int)
        else ((k % H : Nat) : Int) + 1) = (((k + 1) % H : Nat) : Int) := by
      by_cases hc : k % H + 1 < H
      · rw [(dm1 hc).2, if_neg (by push_cast; omega)]
        push_cast
        rfl
      · rw [(dm2 hc).2, if_pos (by push_cast; omega)]
        rfl
    have hspread : ports_spread orig (tbl.set (k % H) { a with port_count := a.port_count + 1 }) H
        (fun i => (((k + 1) / H : Nat) : Int) + if i < (k + 1) % H then 1 else 0) := by
      refine ⟨by rw [List.length_set]; exact hl, ?_, ?_⟩
      · intro i hi
        by_cases hie : i = k % H
        · subst hie
          refine ⟨{ a with port_count := a.port_count + 1 }, a0, ?_, g2, g3, ?_⟩
          · exact get?_set_same _ _ _ (by omega)
          · show a.port_count + 1 = _
            rw [g4]
            simp only [lt_self_iff_false, if_false]
            by_cases hc : k % H + 1 < H
            · rw [(dm1 hc).1, (dm1 hc).2, if_pos (Nat.lt_succ_self _)]
              ring
            · rw [(dm2 hc).1, (dm2 hc).2, if_neg (Nat.not_lt_zero _)]
              push_cast
              ring
        · obtain ⟨b, b0, c1, c2, c3, c4⟩ := hin i hi
          refine ⟨b, b0, ?_, c2, c3, ?_⟩
          · rw [get?_set_other _ _ _ _ (Ne.symm hie)]
            exact c1
          · rw [c4]
            beta_reduce
            by_cases hc : k % H + 1 < H
            · rw [(dm1 hc).1, (dm1 hc).2]
              by_cases hlt : i < k % H
              · rw [if_pos hlt, if_pos (by omega)]
              · rw [if_neg hlt, if_neg (by omega)]
            · rw [(dm2 hc).1, (dm2 hc).2, if_pos (by omega), if_neg (Nat.not_lt_zero _)]
              push_cast
              ring
      · intro i hi
        rw [get?_set_other _ _ _ _ (by omega)]
        exact hout i hi
    obtain ⟨tbl1, t1, t2⟩ := ih (k + 1) _ hspread
    refine ⟨tbl1, ?_, ?_⟩
    · rw [e2e_distribute_ports, e2e_update_port_count_some _ (k % H) tbl a g1]
      simp only [hnext]
      exact t1
    · have hk : k + 1 + n = k + (n + 1) := by omega
      rw [hk] at t2
      exact t2

theorem ports_spread_congr (orig tbl : List e2e_address_t) (H : Nat) (c1 c2 : Nat → Int)
    (hc : ∀ i, i < H → c1 i = c2 i) (h : ports_spread orig tbl H c1) :
    ports_spread orig tbl H c2 := by
  obtain ⟨h1, h2, h3⟩ := h
  refine ⟨h1, ?_, h3⟩
  intro i hi
  obtain ⟨a, a0, b1, b2, b3, b4⟩ := h2 i hi
  exact ⟨a, a0, b1, b2, b3, b4.trans (hc i hi)⟩

/-- The port counts of the first `H` entries, as a list. -/
theorem ports_spread_counts (orig tbl : List e2e_address_t) (H : Nat) (count : Nat → Int)
    (h : ports_spread orig tbl H count) :
    (tbl.take H).map (fun a => a.port_count) = (List.range H).map count := by
  obtain ⟨-, h2, -⟩ := h
  apply List.ext_getElem?
  intro i
  by_cases hi : i < H
  · obtain ⟨a, a0, b1, -, -, b4⟩ := h2 i hi
    rw [List.get?_eq_getElem?] at b1
    simp [List.getElem?_take, hi, b1, b4, List.getElem?_range]
  · have h1 : ((tbl.take H).map (fun a => a.port_count))[i]? = none := by
      rw [List.getElem?_eq_none_iff, List.length_map, List.length_take]
      omega
    have h2 : ((List.range H).map count)[i]? = none := by
      rw [List.getElem?_eq_none_iff, List.length_map, List.length_range]
      omega
    rw [h1, h2]

/-- The sum of `n` counts of which the first `m` carry one more. -/
theorem sum_counts (c m : Int) :
    ∀ n : Nat, ((List.range n).map (fun i : Nat => c + if (i : Int) < m then 1 else 0)).sum =
      n * c + max 0 (min (n : Int) m) := by
  intro n
  induction n with
  | zero => simp
  | succ n ih =>
    rw [List.range_succ, List.map_append, List.sum_append, ih]
    simp only [List.map_cons, List.map_nil, List.sum_cons, List.sum_nil, add_zero]
    push_cast
    by_cases hlt : (n : Int) < m
    · rw [if_pos hlt, max_eq_right (by omega), max_eq_right (by omega), min_eq_left (by omega),
        min_eq_left (by omega)]
      ring
    · rw [if_neg hlt]
      have e1 : min (n : Int) m = min ((n : Int) + 1) m := by
        rw [min_eq_right (by omega), min_eq_right (by omega)]
      rw [e1]
      ring

/-- C29: when no port count was given (the port count of the table is 0), there
are `h > 0` destination hosts, all within the table, and the queue depth `qd`, an
`int32_t`, exceeds `h`, the function returns and has spread the ports evenly: the
entry `i < h` holds `qd / h` ports, and one more if `i < qd mod h`, which is the
floor or the ceiling of `qd / h`; the port counts of the `h` entries sum to `qd`,
the port count of the table is `qd`, and nothing else changes.  A queue depth of 12
over 4 hosts gives 3 each, 16 over 2 gives 8 each. -/
theorem e2e_ports_distributed (abort : Int) (t : target_data_t) (e : td_e2e_t)
    (he : t.td_e2ep = some e) (hport : e.e2e_address_table_port_count = 0)
    (hh : 0 < e.e2e_address_table_host_count)
    (hlen : e.e2e_address_table_host_count.toNat ≤ e.e2e_address_table.length)
    (hqd : e.e2e_address_table_host_count < t.td_queue_depth) (h32 : t.td_queue_depth < 2 ^ 31) :
    ∃ tbl e1, xdd_build_target_data_substructure_e2e abort t =
        .done (abort, { t with td_e2ep := some e1 }) ∧
      e1 = ⟨e.e2e_address_table_host_count, t.td_queue_depth, tbl⟩ ∧
      ports_spread e.e2e_address_table tbl e.e2e_address_table_host_count.toNat
        (fun i => t.td_queue_depth / e.e2e_address_table_host_count +
          if (i : Int) < t.td_queue_depth % e.e2e_address_table_host_count then 1 else 0) ∧
      ((tbl.take e.e2e_address_table_host_count.toNat).map (fun a => a.port_count)).sum =
        t.td_queue_depth ∧
      (∀ i a, i < e.e2e_address_table_host_count.toNat → tbl.get? i = some a →
        a.port_count = t.td_queue_depth / e.e2e_address_table_host_count ∨
        (t.td_queue_depth % e.e2e_address_table_host_count ≠ 0 ∧
          a.port_count = t.td_queue_depth / e.e2e_address_table_host_count + 1)) ∧
      (t.td_queue_depth = 12 → e.e2e_address_table_host_count = 4 →
        ∀ i a, i < 4 → tbl.get? i = some a → a.port_count = 3) ∧
      (t.td_queue_depth = 16 → e.e2e_address_table_host_count = 2 →
        ∀ i a, i < 2 → tbl.get? i = some a → a.port_count = 8) := by
  obtain ⟨H, hH⟩ : ∃ H : Nat, e.e2e_address_table_host_count = (H : Int) :=
    ⟨_, (Int.toNat_of_nonneg hh.le).symm⟩
  obtain ⟨k, hk⟩ : ∃ k : Nat, t.td_queue_depth = (k : Int) :=
    ⟨_, (Int.toNat_of_nonneg (by omega)).symm⟩
  have hHn : e.e2e_address_table_host_count.toNat = H := by rw [hH]; rfl
  rw [hHn] at hlen
  rw [hH] at hh hqd
  rw [hk] at hqd h32
  have hHpos : 0 < H := by exact_mod_cast hh
  obtain ⟨tbl0, f1, f2, f3, f4⟩ := e2e_fill_port_counts_spec 0 H 0 e.e2e_address_table (by omega)
  have hs0 : ports_spread e.e2e_address_table tbl0 H
      (fun i => ((0 / H : Nat) : Int) + if i < 0 % H then 1 else 0) := by
    refine ⟨f2, ?_, ?_⟩
    · intro i hi
      obtain ⟨a, a0, b1, b2, b3, b4⟩ := f3 i (by omega) (by omega)
      exact ⟨a, a0, b1, b2, b3, by rw [b4]; simp⟩
    · intro i hi
      exact f4 i (Or.inr (by omega))
  obtain ⟨tbl, d1, d2⟩ := e2e_distribute_ports_spec e.e2e_address_table H hHpos hlen k 0 tbl0 hs0
  have d3 : ports_spread e.e2e_address_table tbl H
      (fun i => (k : Int) / (H : Int) + if (i : Int) < (k : Int) % (H : Int) then 1 else 0) := by
    refine ports_spread_congr _ _ _ _ _ ?_ d2
    intro i _
    simp only [Nat.zero_add]
    push_cast
    by_cases hc : i < k % H
    · rw [if_pos hc, if_pos (by exact_mod_cast hc)]
    · rw [if_neg hc, if_neg (by exact_mod_cast hc)]
  have hcast32 : int32_cast t.td_queue_depth = (k : Int) := by
    rw [hk]
    unfold int32_cast
    omega
  have hspread : e2e_spread t e =
      .done { t with td_e2ep := some (⟨(H : Int), t.td_queue_depth, tbl⟩ : td_e2e_t) } := by
    unfold e2e_spread
    rw [hHn]
    simp only [Nat.cast_zero] at f1
    rw [f1]
    simp only [hcast32]
    rw [if_neg (by omega)]
    simp only [Nat.zero_mod, Nat.cast_zero] at d1
    simp only [Int.toNat_ofNat, hH, d1]
  have hstage : xdd_build_target_data_substructure_e2e abort t =
      .done (abort, { t with td_e2ep := some (⟨(H : Int), t.td_queue_depth, tbl⟩ : td_e2e_t) }) := by
    unfold xdd_build_target_data_substructure_e2e
    simp only [he]
    rw [if_neg (by omega), if_neg (by omega), if_neg (by omega), hspread]
  have hm0 : (0 : Int) ≤ (k : Int) % (H : Int) := Int.emod_nonneg _ (by omega)
  have hm1 : (k : Int) % (H : Int) < (H : Int) := Int.emod_lt_of_pos _ hh
  have hpoint : ∀ i a, i < H → tbl.get? i = some a →
      a.port_count = (k : Int) / (H : Int) + if (i : Int) < (k : Int) % (H : Int) then 1 else 0 := by
    intro i a hi ha
    obtain ⟨b, -, c1, -, -, c4⟩ := d3.2.1 i hi
    rw [ha] at c1
    injection c1 with c1
    rw [c1]
    exact c4
  refine ⟨tbl, _, hstage, by rw [hH], ?_, ?_, ?_, ?_, ?_⟩
  · rw [hHn, hH, hk]
    exact d3
  · rw [hHn, hk, ports_spread_counts _ _ _ _ d3, sum_counts, min_eq_right hm1.le,
      max_eq_right hm0]
    have := Int.emod_add_ediv (k : Int) (H : Int)
    linarith
  · intro i a hi ha
    rw [hHn] at hi
    rw [hH, hk]
    have hp := hpoint i a hi ha
    by_cases hc : (i : Int) < (k : Int) % (H : Int)
    · rw [if_pos hc] at hp
      exact Or.inr ⟨by omega, hp⟩
    · rw [if_neg hc, add_zero] at hp
      exact Or.inl hp
  · intro h12 h4 i a hi ha
    have e4 : H = 4 := by omega
    have e12 : k = 12 := by omega
    have hp := hpoint i a (by omega) ha
    rw [e12, e4] at hp
    rw [hp]
    norm_num
  · intro h16 h2 i a hi ha
    have e2 : H = 2 := by omega
    have e16 : k = 16 := by omega
    have hp := hpoint i a (by omega) ha
    rw [e16, e2] at hp
    rw [hp]
    norm_num

/-- C30, at the failing input: the two targets of queue depths 3 and 2 of the
comment above the function, every allocation succeeding.  When the local `q` holds 7
as it is first read, the chain of target 0 has four structures, numbered 7, 0, 1, 2,
and the chain of target 1 three, numbered 3, 0, 1; when it holds 0, the chain of
target 0 is numbered 0, 0, 1, 2. -/
theorem build_chain_extra_worker :
    (sample_plan2.target_datap.map fun t => t.td_queue_depth) = [3, 2] ∧
    ((xdd_build_target_data_substructure (fun _ => true) 7 sample_plan2).plan?).map
        (fun pl => (chain_numbers pl 0, chain_numbers pl 1, pl.workers.length)) =
      some ([7, 0, 1, 2], [3, 0, 1], 7) ∧
    ((xdd_build_target_data_substructure (fun _ => true) 0 sample_plan2).plan?).map
        (fun pl => (chain_numbers pl 0, chain_numbers pl 1, pl.workers.length)) =
      some ([0, 0, 1, 2], [3, 0, 1], 7) := by
  decide


/-! ## Lockstep: the ping of the master and the waiting slave -/

/-- What the slave half does for a caller whose block is not the block at `lb`: it
returns, the block at `lb` is left alone and none of its barriers is entered. -/
theorem lockstep_slave_other (p : Nat) (q : ptds_t) (l lb : Nat) (w : World) (ls : lockstep_t)
    (hls : w.lockstep l = some ls) (hne : lb ≠ l) :
    ∃ r w1 evs, lockstep_slave p q l w = .ret r w1 ∧ w1.lockstep lb = w.lockstep lb ∧
      w1.trace = w.trace ++ evs ∧ lock_step_entries lb evs = [] := by
  have hne2 : ¬ l = lb := fun h => hne h.symm
  have hw0 : ∀ c : Prop, ∀ _ : Decidable c,
      (if c then (w.emit (.mutex_lock l)).tick else w.emit (.mutex_lock l)).trace =
        w.trace ++ [.mutex_lock l] ∧
      (if c then (w.emit (.mutex_lock l)).tick else w.emit (.mutex_lock l)).lockstep =
        w.lockstep := by
    intro c _; split <;> simp
  have hu : ∀ (s : lockstep_t) (w0 : World), w0.trace = w.trace ++ [.mutex_lock l] →
      w0.lockstep = w.lockstep →
      (ls_slave_unlock l s w0).lockstep lb = w.lockstep lb ∧
      ∃ evs, (ls_slave_unlock l s w0).trace = w.trace ++ evs ∧ lock_step_entries lb evs = [] := by
    intro s w0 h1 h2
    refine ⟨?_, [.mutex_lock l, .mutex_unlock l s.ls_task_counter], ?_, ?_⟩
    · simp only [ls_slave_unlock, emit_lockstep]
      rw [setLockstep_other _ _ _ _ hne, h2]
    · simp [ls_slave_unlock, h1]
    · simp [lock_step_entries]
  have hr : ∀ (s : lockstep_t) (w0 : World), w0.trace = w.trace ++ [.mutex_lock l] →
      w0.lockstep = w.lockstep →
      (ls_slave_rendezvous l s w0).lockstep lb = w.lockstep lb ∧
      ∃ evs, (ls_slave_rendezvous l s w0).trace = w.trace ++ evs ∧
        lock_step_entries lb evs = [] := by
    intro s w0 h1 h2
    refine ⟨?_, [.mutex_lock l, .mutex_unlock l s.ls_task_counter,
      .barrier (.lock_step l s.Lock_Step_Barrier_Slave_Index)], ?_, ?_⟩
    · simp only [ls_slave_rendezvous]
      rw [setLockstep_other _ _ _ _ hne]
      simp only [emit_lockstep]
      rw [setLockstep_other _ _ _ _ hne, h2]
    · simp [ls_slave_rendezvous, h1]
    · simp [lock_step_entries, hne2]
  have hd : ∀ (s : lockstep_t) (w0 : World), w0.trace = w.trace ++ [.mutex_lock l] →
      w0.lockstep = w.lockstep →
      (ls_slave_drain l s w0).lockstep lb = w.lockstep lb ∧
      ∃ evs, (ls_slave_drain l s w0).trace = w.trace ++ evs ∧ lock_step_entries lb evs = [] := by
    intro s w0 h1 h2
    unfold ls_slave_drain
    simp only
    split
    · exact hr _ w0 h1 h2
    · exact hu _ w0 h1 h2
  unfold lockstep_slave
  simp only [hls]
  split
  · obtain ⟨t1, t2⟩ := hw0 (0 < ls.ls_task_counter ∧ ls.ls_task_type.TIME = true) inferInstance
    split
    · split
      · obtain ⟨a, evs, b, c⟩ := hd (ls_task_check q ls (w.emit (.mutex_lock l)).now).2 _ t1 t2
        exact ⟨_, _, evs, rfl, a, b, c⟩
      · split
        · obtain ⟨a, evs, b, c⟩ := hd (ls_task_check q ls (w.emit (.mutex_lock l)).now).2 _ t1 t2
          exact ⟨_, _, evs, rfl, by simpa using a, by simpa using b, c⟩
        · obtain ⟨a, evs, b, c⟩ := hr _ _ t1 t2
          exact ⟨_, _, evs, rfl, a, b, c⟩
    · obtain ⟨a, evs, b, c⟩ := hu (ls_task_check q ls (w.emit (.mutex_lock l)).now).2 _ t1 t2
      exact ⟨_, _, evs, rfl, a, b, c⟩
  · exact ⟨0, w, [], rfl, rfl, by simp, rfl⟩

theorem lock_step_entries_append (l : Nat) (a b : List Event) :
    lock_step_entries l (a ++ b) = lock_step_entries l a ++ lock_step_entries l b := by
  simp [lock_step_entries, List.filterMap_append]

/-- C32: when the interval tests of a master tell it to ping its slave, whose
lockstep block is not the master's own, the stage returns with the slave's
`ls_task_counter` incremented by exactly 1 and the slave-side barrier index left
alone.  If `LS_SLAVE_WAITING` was set in the slave's block the flag is cleared,
the barrier of that block is entered exactly once, with the master-side index,
and this index is toggled afterwards; if it was not set no barrier of the block
is entered and its `ls_ms_state` and its master-side index are what they were. -/
theorem lockstep_master_ping (pm lm lb p2 : Nat) (w : World) (qm q2 : ptds_t) (m s : lockstep_t)
    (hqm : w.ptds pm = some qm) (hlm : qm.lsp = some lm) (hm : w.lockstep lm = some m)
    (hms : 0 ≤ m.ls_slave) (ht : w.target m.ls_slave = some p2)
    (hq2 : w.ptds p2 = some q2) (hl2 : q2.lsp = some lb) (hne : lm ≠ lb)
    (hs : w.lockstep lb = some s) (hfire : (ls_interval_check qm m w.now).1 = true) :
    ∃ r w1 s1 evs, xdd_lockstep_before_io_operation pm w = .ret r w1 ∧
      w1.lockstep lb = some s1 ∧ w1.trace = w.trace ++ evs ∧
      s1.ls_task_counter = s.ls_task_counter + 1 ∧
      s1.Lock_Step_Barrier_Slave_Index = s.Lock_Step_Barrier_Slave_Index ∧
      (s.ls_ms_state.LS_SLAVE_WAITING = true →
        s1.ls_ms_state = { s.ls_ms_state with LS_SLAVE_WAITING := false } ∧
        lock_step_entries lb evs = [s.Lock_Step_Barrier_Master_Index] ∧
        s1.Lock_Step_Barrier_Master_Index = s.Lock_Step_Barrier_Master_Index ^^^ 1) ∧
      (s.ls_ms_state.LS_SLAVE_WAITING = false →
        s1.ls_ms_state = s.ls_ms_state ∧ lock_step_entries lb evs = [] ∧
        s1.Lock_Step_Barrier_Master_Index = s.Lock_Step_Barrier_Master_Index) := by
  have hne2 : lb ≠ lm := fun h => hne h.symm
  generalize hw0 : ((if m.ls_interval_type.TIME = true then w.tick else w).setLockstep lm
      (ls_interval_check qm m w.now).2) = w0
  have t0 : w0.trace = w.trace := by
    rw [← hw0]; simp only [setLockstep_trace]; split <;> rfl
  have l0 : w0.lockstep lm = some (ls_interval_check qm m w.now).2 := by
    rw [← hw0]; exact setLockstep_same _ _ _
  have s0 : w0.lockstep lb = some s := by
    rw [← hw0, setLockstep_other _ _ _ _ hne2]
    split <;> simpa using hs
  unfold xdd_lockstep_before_io_operation
  simp only [hqm, hlm]
  unfold lockstep_master
  simp only [hm, hms, if_true, ht, hq2, hfire, hl2, hw0]
  unfold ls_ping_slave
  simp only [s0]
  by_cases hsw : s.ls_ms_state.LS_SLAVE_WAITING = true
  · simp only [hsw, if_true, Outcome.andThen]
    generalize hw1 : World.setLockstep _ lb _ = w1
    have l1 : w1.lockstep lm = some (ls_interval_check qm m w.now).2 := by
      rw [← hw1, setLockstep_other _ _ _ _ hne]
      simp only [emit_lockstep]
      rw [setLockstep_other _ _ _ _ hne]
      simpa using l0
    have hb : ∃ s1, w1.lockstep lb = some s1 ∧ s1.ls_task_counter = s.ls_task_counter + 1 ∧
        s1.Lock_Step_Barrier_Slave_Index = s.Lock_Step_Barrier_Slave_Index ∧
        s1.ls_ms_state = { s.ls_ms_state with LS_SLAVE_WAITING := false } ∧
        s1.Lock_Step_Barrier_Master_Index = s.Lock_Step_Barrier_Master_Index ^^^ 1 := by
      rw [← hw1]
      exact ⟨_, setLockstep_same _ _ _, rfl, rfl, rfl, rfl⟩
    obtain ⟨s1, b1, b2, b3, b4, b5⟩ := hb
    obtain ⟨r, w2, evs, e1, e2, e3, e4⟩ := lockstep_slave_other pm qm lm lb w1 _ l1 hne2
    refine ⟨r, w2, s1, [.mutex_lock lb, .mutex_unlock lb (s.ls_task_counter + 1),
      .barrier (.lock_step lb s.Lock_Step_Barrier_Master_Index)] ++ evs, e1, ?_, ?_, b2, b3, ?_, ?_⟩
    · rw [e2, b1]
    · rw [e3, ← hw1]
      simp [t0]
    · intro _
      refine ⟨b4, ?_, b5⟩
      rw [lock_step_entries_append, e4]
      simp [lock_step_entries]
    · intro h
      cases h
  · have hsw2 : s.ls_ms_state.LS_SLAVE_WAITING = false := by simpa using hsw
    simp only [hsw2, Bool.false_eq_true, if_false, Outcome.andThen]
    generalize hw1 : World.emit _ (Event.mutex_unlock lb _) = w1
    have l1 : w1.lockstep lm = some (ls_interval_check qm m w.now).2 := by
      rw [← hw1]
      simp only [emit_lockstep]
      rw [setLockstep_other _ _ _ _ hne]
      simpa using l0
    have hb : ∃ s1, w1.lockstep lb = some s1 ∧ s1.ls_task_counter = s.ls_task_counter + 1 ∧
        s1.Lock_Step_Barrier_Slave_Index = s.Lock_Step_Barrier_Slave_Index ∧
        s1.ls_ms_state = s.ls_ms_state ∧
        s1.Lock_Step_Barrier_Master_Index = s.Lock_Step_Barrier_Master_Index := by
      rw [← hw1]
      simp only [emit_lockstep]
      exact ⟨_, setLockstep_same _ _ _, rfl, rfl, rfl, rfl⟩
    obtain ⟨s1, b1, b2, b3, b4, b5⟩ := hb
    obtain ⟨r, w2, evs, e1, e2, e3, e4⟩ := lockstep_slave_other pm qm lm lb w1 _ l1 hne2
    refine ⟨r, w2, s1, [.mutex_lock lb, .mutex_unlock lb (s.ls_task_counter + 1)] ++ evs,
      e1, ?_, ?_, b2, b3, ?_, ?_⟩
    · rw [e2, b1]
    · rw [e3, ← hw1]
      simp [t0]
    · intro h
      cases h
    · intro _
      refine ⟨b4, ?_, b5⟩
      rw [lock_step_entries_append, e4]
      simp [lock_step_entries]

/-- C33: in the slave path, when the slave must wait (its task counter is not
positive on entry, or a task predicate fired) and `ls_ms_state` has
`MASTER_FINISHED` and `SLAVE_COMPLETE` set, whatever `SLAVE_STOP` is, the stage
returns 0 and leaves the worker, its `my_pass_ring` included, as it was;
`SLAVE_WAITING` and `MASTER_WAITING` are clear afterwards, and exactly when
`MASTER_WAITING` was set the slave-side barrier is entered after the unlock, the
slave-side index toggled and the slave loop counter incremented. -/
theorem lockstep_slave_complete (p : Nat) (w w1 : World) (q : ptds_t) (l : Nat) (ls : lockstep_t)
    (hq : w.ptds p = some q) (hl : q.lsp = some l)
    (hm : lockstep_master q l w = .ret () w1)
    (hls : w1.lockstep l = some ls) (hslave : 0 ≤ ls.ls_master)
    (hwait : ls.ls_task_counter ≤ 0 ∨
      (ls_task_check q ls w1.now).2.ls_task_counter < ls.ls_task_counter)
    (hfin : ls.ls_ms_state.LS_MASTER_FINISHED = true)
    (hcomp : ls.ls_ms_state.LS_SLAVE_COMPLETE = true) :
    ∃ w2 s2, xdd_lockstep_before_io_operation p w = .ret 0 w2 ∧
      w2.ptds p = some q ∧ w2.lockstep l = some s2 ∧
      s2.ls_ms_state =
        { ls.ls_ms_state with LS_SLAVE_WAITING := false, LS_MASTER_WAITING := false } ∧
      s2.Lock_Step_Barrier_Slave_Index =
        (if ls.ls_ms_state.LS_MASTER_WAITING = true then ls.Lock_Step_Barrier_Slave_Index ^^^ 1
         else ls.Lock_Step_Barrier_Slave_Index) ∧
      s2.ls_slave_loop_counter =
        (if ls.ls_ms_state.LS_MASTER_WAITING = true then ls.ls_slave_loop_counter + 1
         else ls.ls_slave_loop_counter) ∧
      w2.trace = w1.trace ++
        (if ls.ls_ms_state.LS_MASTER_WAITING = true then
          [.mutex_lock l, .mutex_unlock l (ls_task_check q ls w1.now).2.ls_task_counter,
            .barrier (.lock_step l ls.Lock_Step_Barrier_Slave_Index)]
        else [.mutex_lock l, .mutex_unlock l (ls_task_check q ls w1.now).2.ls_task_counter]) := by
  obtain ⟨f1, -, -, -, f5⟩ := ls_task_check_frame q ls w1.now
  have f6 : (ls_task_check q ls w1.now).2.ls_slave_loop_counter = ls.ls_slave_loop_counter := by
    simp only [ls_task_check]
    split_ifs <;> rfl
  replace hwait := (ls_task_check_wait q ls w1.now).2 hwait
  have hp1 : w1.ptds = w.ptds := by
    have h := (lockstep_master_frame q l w).1
    rw [hm] at h
    exact h
  have hw2 : ∀ c : Prop, ∀ _ : Decidable c,
      (if c then (w1.emit (.mutex_lock l)).tick else w1.emit (.mutex_lock l)).trace =
        w1.trace ++ [.mutex_lock l] ∧
      (if c then (w1.emit (.mutex_lock l)).tick else w1.emit (.mutex_lock l)).ptds = w.ptds := by
    intro c _; split <;> simp [hp1]
  unfold xdd_lockstep_before_io_operation
  simp only [hq, hl, hm, Outcome.andThen]
  unfold lockstep_slave
  simp only [hls, hslave, if_true, emit_now, hwait, f1, hfin, hcomp, and_self]
  generalize (ls_task_check q ls w1.now).2 = ls1 at f1 f5 f6 ⊢
  generalize hw0 : (if 0 < ls.ls_task_counter ∧ ls.ls_task_type.TIME = true then
    (w1.emit (.mutex_lock l)).tick else w1.emit (.mutex_lock l)) = w0
  obtain ⟨t1, t2⟩ : w0.trace = w1.trace ++ [.mutex_lock l] ∧ w0.ptds = w.ptds := by
    rw [← hw0]; exact hw2 _ _
  unfold ls_slave_drain
  by_cases hmw : ls.ls_ms_state.LS_MASTER_WAITING = true
  · simp only [f1, hmw, if_true]
    refine ⟨_, _, rfl, ?_, setLockstep_same _ _ _, ?_, ?_, ?_, ?_⟩
    · simp [ls_slave_rendezvous, t2, hq]
    · simp [f1, hcomp, hfin]
    · simp [f5]
    · simp [f6]
    · simp [ls_slave_rendezvous, t1, f5]
  · have hmw2 : ls.ls_ms_state.LS_MASTER_WAITING = false := by simpa using hmw
    simp only [f1, hmw2, Bool.false_eq_true, if_false]
    refine ⟨_, _, rfl, ?_, setLockstep_same _ _ _, ?_, ?_, ?_, ?_⟩
    · simp [ls_slave_unlock, t2, hq]
    · simp [f1, hcomp, hfin, hmw2]
    · exact f5
    · exact f6
    · simp [ls_slave_unlock, t1]

/-- C34: in the slave path, when the slave must wait (its task counter is not
positive on entry, or a task predicate fired) and the master is still running
(`MASTER_FINISHED` is clear, or it is set with neither `SLAVE_COMPLETE` nor
`SLAVE_STOP`), the stage returns 0 and leaves the worker as it was; it clears
`MASTER_WAITING`, sets `SLAVE_WAITING`, and after the lock and the unlock enters
the slave-side barrier once, toggles the slave-side index and increments the slave
loop counter by 1.  A task counter that is not positive on entry is enough to take
this path, and the task counter and the task base are then what they were. -/
theorem lockstep_slave_waits (p : Nat) (w w1 : World) (q : ptds_t) (l : Nat) (ls : lockstep_t)
    (hq : w.ptds p = some q) (hl : q.lsp = some l)
    (hm : lockstep_master q l w = .ret () w1)
    (hls : w1.lockstep l = some ls) (hslave : 0 ≤ ls.ls_master)
    (hwait : ls.ls_task_counter ≤ 0 ∨
      (ls_task_check q ls w1.now).2.ls_task_counter < ls.ls_task_counter)
    (hrun : ls.ls_ms_state.LS_MASTER_FINISHED = false ∨
      (ls.ls_ms_state.LS_SLAVE_COMPLETE = false ∧ ls.ls_ms_state.LS_SLAVE_STOP = false)) :
    ∃ w2 s2, xdd_lockstep_before_io_operation p w = .ret 0 w2 ∧
      w2.ptds p = some q ∧ w2.lockstep l = some s2 ∧
      s2.ls_ms_state =
        { ls.ls_ms_state with LS_MASTER_WAITING := false, LS_SLAVE_WAITING := true } ∧
      s2.Lock_Step_Barrier_Slave_Index = ls.Lock_Step_Barrier_Slave_Index ^^^ 1 ∧
      s2.ls_slave_loop_counter = ls.ls_slave_loop_counter + 1 ∧
      w2.trace = w1.trace ++
        [.mutex_lock l, .mutex_unlock l (ls_task_check q ls w1.now).2.ls_task_counter,
          .barrier (.lock_step l ls.Lock_Step_Barrier_Slave_Index)] ∧
      (ls.ls_task_counter ≤ 0 → s2.ls_task_counter = ls.ls_task_counter ∧
        s2.ls_task_base_value = ls.ls_task_base_value) := by
  obtain ⟨f1, -, -, -, f5⟩ := ls_task_check_frame q ls w1.now
  have f6 : (ls_task_check q ls w1.now).2.ls_slave_loop_counter = ls.ls_slave_loop_counter := by
    simp only [ls_task_check]
    split_ifs <;> rfl
  have f7 : ls.ls_task_counter ≤ 0 → (ls_task_check q ls w1.now).2 = ls := by
    intro h
    have h2 : ¬ 0 < ls.ls_task_counter := not_lt.2 h
    simp only [ls_task_check, h2, if_false]
  replace hwait := (ls_task_check_wait q ls w1.now).2 hwait
  have hp1 : w1.ptds = w.ptds := by
    have h := (lockstep_master_frame q l w).1
    rw [hm] at h
    exact h
  have hw2 : ∀ c : Prop, ∀ _ : Decidable c,
      (if c then (w1.emit (.mutex_lock l)).tick else w1.emit (.mutex_lock l)).trace =
        w1.trace ++ [.mutex_lock l] ∧
      (if c then (w1.emit (.mutex_lock l)).tick else w1.emit (.mutex_lock l)).ptds = w.ptds := by
    intro c _; split <;> simp [hp1]
  have hn1 : ¬ (ls.ls_ms_state.LS_MASTER_FINISHED = true ∧
      ls.ls_ms_state.LS_SLAVE_COMPLETE = true) := by
    rintro ⟨a, b⟩
    rcases hrun with h | ⟨h, -⟩
    · rw [h] at a; cases a
    · rw [h] at b; cases b
  have hn2 : ¬ (ls.ls_ms_state.LS_MASTER_FINISHED = true ∧
      ls.ls_ms_state.LS_SLAVE_STOP = true) := by
    rintro ⟨a, b⟩
    rcases hrun with h | ⟨-, h⟩
    · rw [h] at a; cases a
    · rw [h] at b; cases b
  unfold xdd_lockstep_before_io_operation
  simp only [hq, hl, hm, Outcome.andThen]
  unfold lockstep_slave
  simp only [hls, hslave, if_true, emit_now, hwait, f1, hn1, hn2, if_false]
  generalize (ls_task_check q ls w1.now).2 = ls1 at f1 f5 f6 f7 ⊢
  generalize hw0 : (if 0 < ls.ls_task_counter ∧ ls.ls_task_type.TIME = true then
    (w1.emit (.mutex_lock l)).tick else w1.emit (.mutex_lock l)) = w0
  obtain ⟨t1, t2⟩ : w0.trace = w1.trace ++ [.mutex_lock l] ∧ w0.ptds = w.ptds := by
    rw [← hw0]; exact hw2 _ _
  refine ⟨_, _, rfl, ?_, setLockstep_same _ _ _, ?_, ?_, ?_, ?_, ?_⟩
  · simp [ls_slave_rendezvous, t2, hq]
  · simp
  · simp [f5]
  · simp [f6]
  · simp [ls_slave_rendezvous, t1, f5]
  · intro h
    rw [f7 h]
    exact ⟨rfl, rfl⟩
/-! ## End-to-end: the location of the operation -/

theorem e2e_iteration_msg (K : xdd_h) (clock : Nat → Int) (s : e2e_state) (r : e2e_recv_t) :
    (e2e_iteration K clock s r).state.ep.e2e_msg = r.msg := by
  unfold e2e_iteration
  simp only
  split_ifs <;> simp [e2e_iter.state]

theorem e2e_last_msg_cons (msg : e2e_msg_t) (e : e2e_state × e2e_recv_t)
    (rest : List (e2e_state × e2e_recv_t)) :
    e2e_last_msg msg (e :: rest) = e2e_last_msg e.2.msg rest := by
  unfold e2e_last_msg
  cases rest with
  | nil => rfl
  | cons a as => simp [List.getLast?_cons_cons, List.getLast?_eq_getLast _ (List.cons_ne_nil a as)]

/-- The header in the block when the loop is left is the one of the last delivery
of the run. -/
theorem e2e_loop_last_msg (K : xdd_h) (clock : Nat → Int) (msgs : List e2e_recv_t) :
    ∀ s : e2e_state, (e2e_loop K clock msgs s).final.ep.e2e_msg =
      e2e_last_msg s.ep.e2e_msg (e2e_loop K clock msgs s).received := by
  induction msgs with
  | nil =>
    intro s
    rw [e2e_loop_nil]
    split <;> rfl
  | cons r rest ih =>
    intro s
    by_cases h : s.ep.e2e_data_ready < s.q.iosize
    · have hm := e2e_iteration_msg K clock s r
      cases hi : e2e_iteration K clock s r with
      | failed s1 =>
        rw [hi] at hm
        rw [e2e_loop_failed K clock s s1 r rest h hi]
        exact hm
      | short_tail s1 =>
        rw [hi] at hm
        rw [e2e_loop_short K clock s s1 r rest h hi]
        exact hm
      | stale s1 =>
        rw [hi] at hm
        rw [e2e_loop_stale K clock s s1 r rest h hi]
        simp only [e2e_last_msg_cons]
        rw [ih s1]
        exact congrArg (fun x => e2e_last_msg x _) hm
      | accepted s1 =>
        rw [hi] at hm
        rw [e2e_loop_accepted K clock s s1 r rest h hi]
        simp only [e2e_last_msg_cons]
        rw [ih s1]
        exact congrArg (fun x => e2e_last_msg x _) hm
    · rw [e2e_loop_done K clock s (r :: rest) h]
      rfl

/-- C35: a worker that is not the destination of an end-to-end transfer (no
`TO_ENDTOEND`, or `TO_E2E_SOURCE`, or no end-to-end block) gets `SUCCESS` from the
stage with nothing changed.  For a destination, whenever the stage returns
`SUCCESS` the byte location of the worker is the location in the frame header
held in its block, which is the header of the last delivery received during the
call, or the header the block held on entry when none was received; this is the
case when `e2e_data_ready` is not below the I/O size on entry. -/
theorem e2e_location_last_message (K : xdd_h) (p : Nat) (w : World) (q : ptds_t)
    (hK : K.SUCCESS ≠ K.FAILED) (hq : w.ptds p = some q) :
    (¬ e2e_destination q → xdd_e2e_before_io_operation K p w = .ret K.SUCCESS w) ∧
    ∀ ep w1, e2e_destination q → q.e2ep = some ep →
      xdd_e2e_before_io_operation K p w = .ret K.SUCCESS w1 →
      ∃ q1 ep1, w1.ptds p = some q1 ∧ q1.e2ep = some ep1 ∧
        q1.my_current_byte_location = ep1.e2e_msg.location ∧
        ep1.e2e_msg = e2e_last_msg ep.e2e_msg (e2e_received K p w) ∧
        (¬ ep.e2e_data_ready < q.iosize →
          e2e_received K p w = [] ∧ q1.my_current_byte_location = ep.e2e_msg.location) := by
  constructor
  · intro hd
    unfold e2e_destination at hd
    unfold xdd_e2e_before_io_operation
    simp only [hq]
    by_cases h1 : q.target_options.TO_ENDTOEND = true
    · by_cases h2 : q.target_options.TO_E2E_SOURCE = true
      · simp [h1, h2]
      · cases hep : q.e2ep with
        | none => simp [h1, h2]
        | some ep =>
          exfalso
          apply hd
          refine ⟨h1, by simpa using h2, ?_⟩
          rw [hep]
          exact Option.some_ne_none ep
    · simp [h1]
  · rintro ep w1 ⟨d1, d2, -⟩ hep h
    have hrec : e2e_received K p w =
        (e2e_loop K w.clock w.e2e_msgs ⟨q, ep, w.clock_reads⟩).received := by
      simp [e2e_received, hq, d1, d2, hep]
    have hlast := e2e_loop_last_msg K w.clock w.e2e_msgs ⟨q, ep, w.clock_reads⟩
    have hfull : ¬ ep.e2e_data_ready < q.iosize →
        (e2e_loop K w.clock w.e2e_msgs ⟨q, ep, w.clock_reads⟩).received = [] ∧
        (e2e_loop K w.clock w.e2e_msgs ⟨q, ep, w.clock_reads⟩).final.ep.e2e_msg = ep.e2e_msg := by
      intro hf
      rw [e2e_loop_done K w.clock ⟨q, ep, w.clock_reads⟩ w.e2e_msgs hf]
      exact ⟨rfl, rfl⟩
    unfold xdd_e2e_before_io_operation at h
    simp only [hq, d1, d2, hep, Bool.not_true, Bool.false_eq_true, if_false] at h
    rw [hrec]
    generalize e2e_loop K w.clock w.e2e_msgs ⟨q, ep, w.clock_reads⟩ = run at h hlast hfull ⊢
    unfold e2e_finish at h
    cases he : run.ending with
    | blocked => rw [he] at h; cases h
    | failed =>
      rw [he] at h
      injection h with h1 _
      exact absurd h1.symm hK
    | completed =>
      rw [he] at h
      injection h with _ h2
      subst h2
      refine ⟨_, run.final.ep, e2e_commit_ptds p w (e2e_relocate run), rfl, rfl, hlast, ?_⟩
      intro hf
      exact ⟨(hfull hf).1, congrArg e2e_msg_t.location (hfull hf).2⟩

/-! ## Read-after-write: the sequence number and the length credited -/

/-- One pass through the body of the message loop does not look at the sequence
number of the notification. -/
theorem raw_msg_iteration_blind (r1 r2 : raw_t) (m1 m2 : raw_recv_t)
    (hr : same_raw_counters r1 r2) (hm : same_but_sequence m1 m2) :
    same_raw_counters (raw_msg_iteration r1 m1) (raw_msg_iteration r2 m2) := by
  obtain ⟨a, b, c, d, e⟩ := hr
  obtain ⟨-, y, z⟩ := hm
  unfold same_raw_counters raw_msg_iteration
  simp only [a, b, c, d, e, y, z]
  split_ifs <;> simp_all

theorem raw_msg_loop_blind (q : ptds_t) (stats : List stat_t) (msgs1 msgs2 : List raw_recv_t)
    (h : List.Forall₂ same_but_sequence msgs1 msgs2) :
    ∀ r1 r2 : raw_t, same_raw_counters r1 r2 →
      (raw_msg_loop q stats msgs1 r1).blocked = (raw_msg_loop q stats msgs2 r2).blocked ∧
      same_raw_counters (raw_msg_loop q stats msgs1 r1).rawp (raw_msg_loop q stats msgs2 r2).rawp ∧
      List.Forall₂ same_but_sequence (raw_msg_loop q stats msgs1 r1).msgs
        (raw_msg_loop q stats msgs2 r2).msgs := by
  induction h with
  | nil =>
    intro r1 r2 hr
    by_cases h1 : r1.raw_data_ready < q.iosize
    · have h2 : r2.raw_data_ready < q.iosize := by rw [← hr.1]; exact h1
      rw [raw_msg_loop_nil q stats r1 h1, raw_msg_loop_nil q stats r2 h2]
      exact ⟨rfl, hr, .nil⟩
    · have h2 : ¬ r2.raw_data_ready < q.iosize := by rw [← hr.1]; exact h1
      rw [raw_msg_loop_done q stats [] r1 h1, raw_msg_loop_done q stats [] r2 h2]
      exact ⟨rfl, hr, .nil⟩
  | cons hm hrest ih =>
    rename_i m1 m2 rest1 rest2
    intro r1 r2 hr
    by_cases h1 : r1.raw_data_ready < q.iosize
    · have h2 : r2.raw_data_ready < q.iosize := by rw [← hr.1]; exact h1
      rw [raw_msg_loop_step q stats m1 rest1 r1 h1, raw_msg_loop_step q stats m2 rest2 r2 h2]
      exact ih _ _ (raw_msg_iteration_blind r1 r2 m1 m2 hr hm)
    · have h2 : ¬ r2.raw_data_ready < q.iosize := by rw [← hr.1]; exact h1
      rw [raw_msg_loop_done q stats _ r1 h1, raw_msg_loop_done q stats _ r2 h2]
      exact ⟨rfl, hr, .cons hm hrest⟩

/-- C37: for a reader in message mode, replace the sequence numbers of the
notifications to come by any others.  The stage ends the same way (it returns or
it waits for a further notification, and it never fails), it consumes as many
notifications, and it leaves the same `raw_data_ready`, expected sequence,
`raw_prev_loc`, `raw_prev_len` and `raw_data_length`. -/
theorem raw_sequence_blind (p : Nat) (w : World) (q : ptds_t) (r : raw_t)
    (msgs2 : List raw_recv_t) (hq : w.ptds p = some q) (hr : q.rawp = some r)
    (hraw : q.target_options.TO_READAFTERWRITE = true)
    (hreader : q.target_options.TO_RAW_READER = true) (hmp : r.PTDS_RAW_STAT = false)
    (h : List.Forall₂ same_but_sequence w.raw_msgs msgs2) :
    ((∃ w1 w2, xdd_raw_before_io_operation p w = .ret () w1 ∧
        xdd_raw_before_io_operation p { w with raw_msgs := msgs2 } = .ret () w2) ∨
      (∃ w1 w2, xdd_raw_before_io_operation p w = .blocked w1 ∧
        xdd_raw_before_io_operation p { w with raw_msgs := msgs2 } = .blocked w2)) ∧
    (∃ r1 r2, rawp_at (xdd_raw_before_io_operation p w) p = some r1 ∧
      rawp_at (xdd_raw_before_io_operation p { w with raw_msgs := msgs2 }) p = some r2 ∧
      same_raw_counters r1 r2) ∧
    List.Forall₂ same_but_sequence (xdd_raw_before_io_operation p w).world.raw_msgs
      (xdd_raw_before_io_operation p { w with raw_msgs := msgs2 }).world.raw_msgs := by
  obtain ⟨b1, b2, b3⟩ := raw_msg_loop_blind q w.stat_results w.raw_msgs msgs2 h r r
    ⟨rfl, rfl, rfl, rfl, rfl⟩
  unfold xdd_raw_before_io_operation rawp_at
  simp only [hq, hr, hraw, hreader, hmp, and_self, if_true, Bool.false_eq_true, if_false]
  generalize raw_msg_loop q w.stat_results w.raw_msgs r = run1 at b1 b2 b3 ⊢
  generalize raw_msg_loop q w.stat_results msgs2 r = run2 at b1 b2 b3 ⊢
  rw [← b1]
  cases hb : run1.blocked
  · refine ⟨Or.inl ⟨_, _, rfl, rfl⟩, ⟨run1.rawp, run2.rawp, ?_, ?_, b2⟩, b3⟩
    · simp [Outcome.world]
    · simp [Outcome.world]
  · refine ⟨Or.inr ⟨_, _, rfl, rfl⟩, ⟨run1.rawp, run2.rawp, ?_, ?_, b2⟩, b3⟩
    · simp [Outcome.world]
    · simp [Outcome.world]

/-- C36: a reader in message mode receives three notifications of 100 bytes at the
locations 0, 200 and 300 and accepts each of them.  The second one ends at 300,
but the `raw_prev_loc + raw_prev_len` kept for it is 400, because `raw_prev_len` is
the `raw_data_length` of 200 that was credited for it; so the third one, which
ends at 400, gets a `raw_data_length` of 0 where 100 bytes lie between the two
ends, and 300 bytes are credited in all for the 400 announced. -/
theorem raw_data_length_after_gap :
    (raw_msg_iteration (raw_msg_iteration (sample_raw_mp 0 0 0 0) ⟨0, ⟨0, 0, 100⟩⟩)
      ⟨0, ⟨1, 200, 100⟩⟩).raw_msg_last_sequence = 2 ∧
    (raw_msg_iteration (raw_msg_iteration (sample_raw_mp 0 0 0 0) ⟨0, ⟨0, 0, 100⟩⟩)
      ⟨0, ⟨1, 200, 100⟩⟩).raw_data_length = 200 ∧
    (raw_msg_iteration (raw_msg_iteration (sample_raw_mp 0 0 0 0) ⟨0, ⟨0, 0, 100⟩⟩)
      ⟨0, ⟨1, 200, 100⟩⟩).raw_prev_loc = 200 ∧
    (raw_msg_iteration (raw_msg_iteration (sample_raw_mp 0 0 0 0) ⟨0, ⟨0, 0, 100⟩⟩)
      ⟨0, ⟨1, 200, 100⟩⟩).raw_prev_len = 200 ∧
    (rawp_at (xdd_raw_before_io_operation 0 (sample_mp_world raw_gap_msgs)) 0).map
        (fun r => (r.raw_msg_last_sequence, r.raw_msg.location + r.raw_msg.length,
          r.raw_data_length, r.raw_data_ready)) = some (3, 400, 0, 300) ∧
    data_length_between ⟨1, 200, 100⟩ ⟨2, 300, 100⟩ = 100 := by
  decide
/-! ## Target data: the divisions -/

theorem xfer_restart_guarded_eq (t : target_data_t) (hb : t.td_block_size ≠ 0) :
    xfer_restart_guarded t = .done (xfer_restart t) := by
  unfold xfer_restart_guarded xfer_restart
  cases t.td_restartp with
  | none => rfl
  | some rp =>
    simp only
    by_cases hc : rp.RESTART_FLAG_RESUME_COPY = true
    · simp only [hc, if_true, hb, if_false]
    · simp only [hc, Bool.false_eq_true, if_false]

theorem xfer_restart_iosize (t : target_data_t) : (xfer_restart t).td_iosize = t.td_iosize := by
  unfold xfer_restart
  split
  · rfl
  · split <;> rfl

theorem xfer_target_ops_guarded_eq (t : target_data_t) (hio : t.td_iosize ≠ 0) :
    xfer_target_ops_guarded t = .done (xfer_target_ops t) := by
  unfold xfer_target_ops_guarded xfer_target_ops
  rw [if_neg hio]
  simp only
  split <;> rfl

theorem xfer_finish_guarded_eq (t : target_data_t) (hb : t.td_block_size ≠ 0)
    (hio : t.td_iosize ≠ 0) :
    xfer_finish_guarded t = .done (xfer_target_ops (xfer_restart t)) := by
  unfold xfer_finish_guarded
  rw [xfer_restart_guarded_eq t hb]
  exact xfer_target_ops_guarded_eq _ (by rw [xfer_restart_iosize]; exact hio)

/-- C38: `xdd_calculate_xfer_info` never divides by 0: the run with guarded
divisions ends as the function does.  When `td_reqsize * td_block_size` is 0, or
when `td_numreqs` and `td_bytes` are both 0, only `td_iosize` and the bytes of a
pass, which become 0, are assigned.  With no restart block, a positive
`td_numreqs` and a positive I/O size whose product is below `2 ^ 64`, the bytes
of a pass are that product, whatever `td_bytes` is, and `td_target_ops` is
`td_numreqs`. -/
theorem xfer_info_no_zero_divisor (t : target_data_t) :
    xdd_calculate_xfer_info_guarded t = .done (xdd_calculate_xfer_info t) ∧
    (t.td_reqsize * t.td_block_size = 0 ∨ (t.td_numreqs = 0 ∧ t.td_bytes = 0) →
      xdd_calculate_xfer_info t =
        { t with td_iosize := t.td_reqsize * t.td_block_size, td_target_bytes_to_xfer_per_pass := 0 }) ∧
    (t.td_restartp = none → 0 < t.td_numreqs → 0 < t.td_reqsize * t.td_block_size →
      t.td_numreqs * (t.td_reqsize * t.td_block_size) < 2 ^ 64 →
      (xdd_calculate_xfer_info t).td_target_bytes_to_xfer_per_pass =
        t.td_numreqs * (t.td_reqsize * t.td_block_size) ∧
      (xdd_calculate_xfer_info t).td_target_ops = t.td_numreqs) := by
  refine ⟨?_, ?_, ?_⟩
  · unfold xdd_calculate_xfer_info_guarded xdd_calculate_xfer_info
    simp only
    by_cases hio : t.td_reqsize * t.td_block_size = 0
    · simp only [hio, if_true]
    · have hb : t.td_block_size ≠ 0 := by
        intro h
        rw [h, mul_zero] at hio
        exact hio rfl
      simp only [hio, if_false]
      split
      · exact xfer_finish_guarded_eq _ hb hio
      · split
        · exact xfer_finish_guarded_eq _ hb hio
        · rfl
  · intro h
    unfold xdd_calculate_xfer_info
    simp only
    by_cases hio : t.td_reqsize * t.td_block_size = 0
    · simp only [hio, if_true]
    · rcases h with h | ⟨h1, h2⟩
      · exact absurd h hio
      · simp only [hio, if_false, h1, h2, ne_eq, not_true_eq_false]
  · intro hnr hn hio hlt
    have hne : ¬ t.td_reqsize * t.td_block_size = 0 := hio.ne'
    have hn0 : t.td_numreqs ≠ 0 := hn.ne'
    have hprod : 0 ≤ t.td_numreqs * (t.td_reqsize * t.td_block_size) :=
      (mul_pos hn hio).le
    have hcast : uint64_cast (t.td_numreqs * (t.td_reqsize * t.td_block_size)) =
        t.td_numreqs * (t.td_reqsize * t.td_block_size) := by
      unfold uint64_cast
      exact Int.emod_eq_of_lt hprod hlt
    have he : xdd_calculate_xfer_info t = xfer_target_ops { t with
        td_iosize := t.td_reqsize * t.td_block_size,
        td_target_bytes_to_xfer_per_pass := t.td_numreqs * (t.td_reqsize * t.td_block_size) } := by
      unfold xdd_calculate_xfer_info
      simp only [hne, hn0, if_false, ne_eq, not_false_eq_true, if_true, xfer_restart, hnr, hcast]
    rw [he]
    unfold xfer_target_ops
    simp only
    have hd : (t.td_numreqs * (t.td_reqsize * t.td_block_size)).tdiv
        (t.td_reqsize * t.td_block_size) = t.td_numreqs := by
      rw [Int.tdiv_eq_ediv hprod hio.le]
      exact Int.mul_ediv_cancel _ hne
    have hm : (t.td_numreqs * (t.td_reqsize * t.td_block_size)).tmod
        (t.td_reqsize * t.td_block_size) = 0 := by
      rw [Int.tmod_eq_emod hprod hio.le]
      exact Int.mul_emod_left _ _
    simp only [hd, hm, ne_eq, not_true_eq_false, if_false, and_self]

/-! ## The options of `xdd-lite`: strings and conversions -/

theorem deref_cons (c : Char) (cs : List Char) : deref (c :: cs) = c.toNat := rfl

theorem strlen_of_no_nul (val : List Char) (hv : ∀ c ∈ val, c.toNat ≠ 0) :
    strlen val = val.length := by
  unfold strlen
  rw [List.takeWhile_eq_self_iff.2]
  intro c hc
  simpa using hv c hc

/-- The comparison over the length of `val` finds no difference exactly when `val`
is the beginning of `name`. -/
theorem strncmp_eq_zero_iff (val : List Char) (hv : ∀ c ∈ val, c.toNat ≠ 0) :
    ∀ name : List Char, strncmp name val val.length = 0 ↔ val <+: name := by
  induction val with
  | nil => intro name; simp [strncmp]
  | cons c cs ih =>
    intro name
    have hc : c.toNat ≠ 0 := hv c (List.mem_cons_self _ _)
    have hcs : ∀ x ∈ cs, x.toNat ≠ 0 := fun x hx => hv x (List.mem_cons_of_mem _ hx)
    cases name with
    | nil =>
      have h0 : (0 : Nat) < c.toNat := Nat.pos_of_ne_zero hc
      simp [strncmp, deref, h0]
    | cons d ds =>
      simp only [List.length_cons, strncmp, deref_cons, List.tail_cons]
      by_cases h1 : d.toNat < c.toNat
      · have hne : ¬ c = d := by
          intro h; subst h; exact absurd h1 (lt_irrefl _)
        simp [h1, List.cons_prefix_cons, hne]
      · by_cases h2 : d.toNat > c.toNat
        · have hne : ¬ c = d := by
            intro h; subst h; exact absurd h2 (lt_irrefl _)
          simp [h1, h2, List.cons_prefix_cons, hne]
        · have he : d.toNat = c.toNat := by omega
          have hcd : c = d := Char.ext (UInt32.ext he.symm)
          subst hcd
          simp only [h1, h2, if_false, hc, List.cons_prefix_cons, true_and]
          exact ih hcs ds

theorem scan_digits_append (ds rest : List Char) (hd : ∀ c ∈ ds, 48 ≤ c.toNat ∧ c.toNat ≤ 57)
    (hr : ¬ (48 ≤ deref rest ∧ deref rest ≤ 57)) :
    ∀ acc, scan_digits (ds ++ rest) acc =
      (ds.foldl (fun n c => 10 * n + (c.toNat - 48)) acc, rest) := by
  induction ds with
  | nil =>
    intro acc
    cases rest with
    | nil => rfl
    | cons c cs =>
      rw [deref_cons] at hr
      simp [scan_digits, digit_value, hr]
  | cons d ds ih =>
    intro acc
    have h1 := hd d (List.mem_cons_self _ _)
    simp only [List.cons_append, scan_digits, digit_value, h1, and_self, if_true, List.foldl_cons]
    exact ih (fun c hc => hd c (List.mem_cons_of_mem _ hc)) _

/-- The conversion of a decimal number that fits the type, whatever follows it. -/
theorem strtou_decimal (max : Nat) (ds rest : List Char) (hd : is_decimal ds)
    (hr : ¬ (48 ≤ deref rest ∧ deref rest ≤ 57)) (hm : decimal ds ≤ max) :
    strtou max (ds ++ rest) = ⟨decimal ds, rest, false⟩ := by
  obtain ⟨hne, hall⟩ := hd
  cases ds with
  | nil => exact absurd rfl hne
  | cons d ds =>
    have h1 := hall d (List.mem_cons_self _ _)
    have hsp : isspace d = false := by
      simp only [isspace, decide_eq_false_iff_not]; omega
    have hscan := scan_digits_append (d :: ds) rest hall hr 0
    have h43 : ¬ d.toNat = 43 := by omega
    have h45 : ¬ d.toNat = 45 := by omega
    unfold strtou
    simp only [List.cons_append, List.dropWhile_cons, hsp, Bool.false_eq_true, if_false, deref_cons,
      h43, h45, or_self, h1, and_self, if_true, decide_False]
    rw [← List.cons_append, hscan]
    have hm2 : ¬ List.foldl (fun n c => 10 * n + (c.toNat - 48)) 0 (d :: ds) > max := by
      unfold decimal at hm; omega
    simp only [hm2, if_false]
    rfl

theorem store_some (m : lite_state) (f : target_options → target_options) (rc : Int) (a : Nat)
    (t : target_options) (hcur : m.opts.to_current = some a) (ht : m.targets.get? a = some t) :
    m.store f rc = .ret rc (m.put a (f t)) := by
  unfold lite_state.store
  rw [hcur]
  simp only
  rw [ht]

theorem store_none (m : lite_state) (f : target_options → target_options) (rc : Int)
    (hcur : m.opts.to_current = none) : m.store f rc = .fault := by
  simp [lite_state.store, hcur]

/-- C39: with an active target, `parse_target_access` returns 0 exactly for the
strings that are the beginning (the empty string included) of one of "loose",
"random", "serial", "unordered", and stores the access type of the first of
these names, in this order, that the string begins; for every other string it
returns 1 and leaves everything as it was. -/
theorem parse_target_access_names (H : xdd_lite_h) (m : lite_state) (val : List Char) (a : Nat)
    (t : target_options) (hcur : m.opts.to_current = some a) (ht : m.targets.get? a = some t)
    (hv : ∀ c ∈ val, c.toNat ≠ 0) :
    parse_target_access H m val =
      if val <+: "loose".toList then
        .ret 0 (m.put a { t with access := H.XDDLITE_LOOSE_ACCESS_TYPE })
      else if val <+: "random".toList then
        .ret 0 (m.put a { t with access := H.XDDLITE_RANDOM_ACCESS_TYPE })
      else if val <+: "serial".toList then
        .ret 0 (m.put a { t with access := H.XDDLITE_SERIAL_ACCESS_TYPE })
      else if val <+: "unordered".toList then
        .ret 0 (m.put a { t with access := H.XDDLITE_UNORDERED_ACCESS_TYPE })
      else .ret 1 m := by
  unfold parse_target_access
  simp only [strlen_of_no_nul val hv, strncmp_eq_zero_iff val hv, hcur, reduceCtorEq, if_false,
    store_some m _ 0 a t hcur ht]

theorem converted_errno (H : xdd_lite_h) (m : lite_state) (r : strto_t) :
    ∃ e, m.converted H r = { m with errno := e } := by
  unfold lite_state.converted
  split
  · exact ⟨H.ERANGE, rfl⟩
  · exact ⟨m.errno, rfl⟩

theorem converted_in_range (H : xdd_lite_h) (m : lite_state) (r : strto_t)
    (h : r.erange = false) : m.converted H r = m := by
  simp [lite_state.converted, h]

theorem converted_to_current (H : xdd_lite_h) (m : lite_state) (r : strto_t) :
    (m.converted H r).opts.to_current = m.opts.to_current := by
  unfold lite_state.converted
  split <;> rfl

theorem deref_nil : deref [] = 0 := rfl

/-- C31: with an active target, `parse_target_num_threads` returns 1 for every
decimal number that fits an `unsigned long` and leaves the target as it was (only
`errno` is cleared), where `parse_target_length` returns 0 and stores the number;
and for such a number followed by a character that is neither a digit nor the NUL
it returns 0 and stores the number in `num_threads`, where `parse_target_length`
returns 1. -/
theorem parse_target_num_threads_inverted (H : xdd_lite_h) (m : lite_state) (val : List Char)
    (a : Nat) (t : target_options) (hE : H.ERANGE ≠ 0)
    (hcur : m.opts.to_current = some a) (ht : m.targets.get? a = some t)
    (hd : is_decimal val) (hr : decimal val ≤ H.ULONG_MAX) (hr2 : decimal val ≤ H.ULLONG_MAX) :
    parse_target_num_threads H m val = .ret 1 { m with errno := 0 } ∧
    parse_target_length H m val =
      .ret 0 (({ m with errno := 0 }).put a { t with length := decimal val }) ∧
    ∀ (c : Char) (rest : List Char), c.toNat ≠ 0 → ¬ (48 ≤ c.toNat ∧ c.toNat ≤ 57) →
      parse_target_num_threads H m (val ++ c :: rest) =
        .ret 0 (({ m with errno := 0 }).put a { t with num_threads := decimal val }) ∧
      parse_target_length H m (val ++ c :: rest) = .ret 1 { m with errno := 0 } := by
  have hnil : ¬ (48 ≤ deref [] ∧ deref [] ≤ 57) := by rw [deref_nil]; omega
  have c1 : strtoul H val = ⟨decimal val, [], false⟩ := by
    have h := strtou_decimal H.ULONG_MAX val [] hd hnil hr
    rw [List.append_nil] at h
    exact h
  have c2 : strtoull H val = ⟨decimal val, [], false⟩ := by
    have h := strtou_decimal H.ULLONG_MAX val [] hd hnil hr2
    rw [List.append_nil] at h
    exact h
  have hE2 : ¬ H.ERANGE = 0 := hE
  have hcur0 : ({ m with errno := 0 } : lite_state).opts.to_current = some a := hcur
  have ht0 : ({ m with errno := 0 } : lite_state).targets.get? a = some t := ht
  refine ⟨?_, ?_, ?_⟩
  · unfold parse_target_num_threads
    simp only [c1, converted_in_range, hE2, if_false, deref_nil, if_true]
  · unfold parse_target_length
    simp only [c2, converted_in_range, hE2, if_false, deref_nil, hcur, reduceCtorEq, ne_eq,
      not_true_eq_false]
    exact store_some _ _ 0 a t hcur0 ht0
  · intro c rest hc0 hcd
    have hrest : ¬ (48 ≤ deref (c :: rest) ∧ deref (c :: rest) ≤ 57) := hcd
    have d1 : strtoul H (val ++ c :: rest) = ⟨decimal val, c :: rest, false⟩ :=
      strtou_decimal H.ULONG_MAX val (c :: rest) hd hrest hr
    have d2 : strtoull H (val ++ c :: rest) = ⟨decimal val, c :: rest, false⟩ :=
      strtou_decimal H.ULLONG_MAX val (c :: rest) hd hrest hr2
    constructor
    · unfold parse_target_num_threads
      simp only [d1, converted_in_range, hE2, if_false, deref_cons, hc0, hcur, reduceCtorEq]
      exact store_some _ _ 0 a t hcur0 ht0
    · unfold parse_target_length
      simp only [d2, converted_in_range, hE2, if_false, deref_cons, hc0, hcur, reduceCtorEq, ne_eq,
        not_false_eq_true, if_true]

/-- C40: without an active target (`to_current` is `NULL`), for every string, the
parsers of the access type, of the direct I/O flag, of the length and of the start
offset return 1 and change nothing but `errno`; `parse_target_policy` fails its
assertion; `parse_target_num_threads` returns 1 with nothing but `errno` changed
when the conversion is out of range or consumed the whole string, and otherwise
stores through the `NULL` pointer. -/
theorem parse_without_target (H : xdd_lite_h) (m : lite_state) (val : List Char)
    (hE : H.ERANGE ≠ 0) (hcur : m.opts.to_current = none) :
    parse_target_access H m val = .ret 1 m ∧
    parse_target_direct_io m = .ret 1 m ∧
    (∃ e, parse_target_length H m val = .ret 1 { m with errno := e }) ∧
    (∃ e, parse_target_start_offset H m val = .ret 1 { m with errno := e }) ∧
    parse_target_policy H m val = .assert_failed ∧
    ((strtoul H val).erange = true ∨ deref (strtoul H val).endptr = 0 →
      ∃ e, parse_target_num_threads H m val = .ret 1 { m with errno := e }) ∧
    ((strtoul H val).erange = false ∧ deref (strtoul H val).endptr ≠ 0 →
      parse_target_num_threads H m val = .fault) := by
  have hcur0 : ∀ e : Int, ({ m with errno := e } : lite_state).opts.to_current = none :=
    fun _ => hcur
  refine ⟨?_, ?_, ?_, ?_, ?_, ?_, ?_⟩
  · simp [parse_target_access, hcur]
  · simp [parse_target_direct_io, hcur]
  · obtain ⟨e, he⟩ := converted_errno H { m with errno := 0 } (strtoull H val)
    refine ⟨e, ?_⟩
    unfold parse_target_length
    simp only [he, hcur, if_true]
  · obtain ⟨e, he⟩ := converted_errno H m (strtoul H val)
    refine ⟨e, ?_⟩
    unfold parse_target_start_offset
    simp only [he, hcur, if_true]
  · simp [parse_target_policy, hcur]
  · intro h
    unfold parse_target_num_threads
    rcases h with h | h
    · refine ⟨H.ERANGE, ?_⟩
      simp [lite_state.converted, h]
    · obtain ⟨e, he⟩ := converted_errno H { m with errno := 0 } (strtoul H val)
      refine ⟨e, ?_⟩
      simp only [he, h, if_true, ite_self]
  · rintro ⟨h1, h2⟩
    have hE2 : ¬ H.ERANGE = 0 := hE
    unfold parse_target_num_threads
    simp only [converted_in_range _ _ _ h1, hE2, if_false, h2]
    exact store_none _ _ _ (hcur0 0)

/-! ## Throttle -/

/-- C26: in the IOPS/BANDWIDTH mode the stage does not sleep with a throttle value
that is not positive; with a positive one it calls `usleep` exactly when the time
since the start of the pass is before `time1` of the operation and the quotient
`ms` of the difference by `BILLION` is positive, and then for `ms * 1000`
microseconds (`ms` as a 32-bit value), whatever `ms * CLK_TCK` is: the test of one
clock tick plays no part. -/
theorem throttle_sleep_ignores_tick (K : xdd_h) (p : Nat) (w : World) (q : ptds_t) (sk : seek_t)
    (hq : w.ptds p = some q) (hmode : q.PTDS_THROTTLE_DELAY = false)
    (hsk : q.seekhdr.seek q.my_current_op = some sk) :
    (q.throttle ≤ 0 → xdd_throttle_before_io_operation K p w = .ret () w) ∧
    (0 < q.throttle →
      ¬ (w.now - q.my_pass_start_time < sk.time1 ∧
        0 < (sk.time1 - (w.now - q.my_pass_start_time)).tdiv K.BILLION) →
      xdd_throttle_before_io_operation K p w = .ret () w.tick) ∧
    (0 < q.throttle → w.now - q.my_pass_start_time < sk.time1 →
      0 < (sk.time1 - (w.now - q.my_pass_start_time)).tdiv K.BILLION →
      xdd_throttle_before_io_operation K p w = .ret () (w.tick.emit (.usleep
        (int32_cast ((sk.time1 - (w.now - q.my_pass_start_time)).tdiv K.BILLION) * 1000)))) := by
  refine ⟨?_, ?_, ?_⟩
  · intro h
    unfold xdd_throttle_before_io_operation
    simp only [hq, h, if_true]
  · intro h hn
    have h1 : ¬ q.throttle ≤ 0 := not_le.2 h
    unfold xdd_throttle_before_io_operation
    simp only [hq, h1, if_false, hmode, Bool.false_eq_true, hsk]
    by_cases ha : w.now - q.my_pass_start_time < sk.time1
    · have hb : ¬ (sk.time1 - (w.now - q.my_pass_start_time)).tdiv K.BILLION > 0 :=
        fun hb => hn ⟨ha, hb⟩
      simp only [ha, if_true, hb, if_false]
    · simp only [ha, if_false]
  · intro h ha hb
    have h1 : ¬ q.throttle ≤ 0 := not_le.2 h
    have hb2 : (sk.time1 - (w.now - q.my_pass_start_time)).tdiv K.BILLION > 0 := hb
    unfold xdd_throttle_before_io_operation
    simp only [hq, h1, if_false, hmode, Bool.false_eq_true, hsk, ha, if_true, hb2]

/-! ## The claims at sample states -/

/-- C1, at a sample state: a destination whose second frame is out of sequence; the
driver returns `FAILED`, on the end-to-end stage. -/
theorem driver_failed_iff_witness :
    sample_h.SUCCESS ≠ sample_h.FAILED ∧
    (xdd_io_loop_before_io_operation sample_h 0 e2e_sequence_error_world).value? =
      some sample_h.FAILED ∧
    ∃ s w3, driver_to_lockstep sample_h 0 e2e_sequence_error_world = .ret s w3 ∧
      (s ≠ 0 ∨ ∃ w7, driver_to_e2e sample_h 0 w3 = .ret sample_h.FAILED w7) :=
  ⟨by decide, by decide,
    ((driver_failed_iff sample_h (by decide) 0 e2e_sequence_error_world).2.2 sample_h.FAILED
      (xdd_io_loop_before_io_operation sample_h 0 e2e_sequence_error_world).world
      (by rfl)).2.1 rfl⟩

/-- C2, counterexample: the driver returns `FAILED` on an end-to-end failure and
leaves `my_error_break` at 0 and the global abort flag at 0; and it returns `FAILED`
on the lockstep termination code 1 and leaves both flags at 0 as well. -/
theorem driver_failed_flags_counterexample :
    ((xdd_io_loop_before_io_operation sample_h 0 e2e_sequence_error_world).value? =
        some sample_h.FAILED ∧
      (xdd_io_loop_before_io_operation sample_h 0 e2e_sequence_error_world).world.abort_io = 0 ∧
      ((xdd_io_loop_before_io_operation sample_h 0 e2e_sequence_error_world).world.ptds 0).map
        (fun q => q.my_error_break) = some 0) ∧
    ((xdd_lockstep_before_io_operation 1 ls_stop_world).value? = some 1 ∧
      (xdd_io_loop_before_io_operation sample_h 1 ls_stop_world).value? =
        some sample_h.FAILED ∧
      (xdd_io_loop_before_io_operation sample_h 1 ls_stop_world).world.abort_io = 0 ∧
      ((xdd_io_loop_before_io_operation sample_h 1 ls_stop_world).world.ptds 1).map
        (fun q => q.my_error_break) = some 0) := by
  decide

/-- C2 as amended, at the same state: the failure is the end-to-end one and
`my_error_break` is 0. -/
theorem driver_failed_flags_witness :
    sample_h.SUCCESS ≠ sample_h.FAILED ∧
    e2e_sequence_error_world.ptds 0 = some (sample_dest 0 (sample_e2e 0 0 0)) ∧
    xdd_io_loop_before_io_operation sample_h 0 e2e_sequence_error_world =
      .ret sample_h.FAILED
        (xdd_io_loop_before_io_operation sample_h 0 e2e_sequence_error_world).world ∧
    ((∃ s, driver_to_lockstep sample_h 0 e2e_sequence_error_world =
          .ret s (xdd_io_loop_before_io_operation sample_h 0 e2e_sequence_error_world).world ∧
        s ≠ 0 ∧
        (xdd_io_loop_before_io_operation sample_h 0 e2e_sequence_error_world).world.abort_io =
          e2e_sequence_error_world.abort_io ∧
        ∃ q1, (xdd_io_loop_before_io_operation sample_h 0 e2e_sequence_error_world).world.ptds 0 =
            some q1 ∧
          q1.my_error_break = (sample_dest 0 (sample_e2e 0 0 0)).my_error_break) ∨
      (∃ w3, driver_to_lockstep sample_h 0 e2e_sequence_error_world = .ret 0 w3 ∧
        driver_to_e2e sample_h 0 w3 =
          .ret sample_h.FAILED
            (xdd_io_loop_before_io_operation sample_h 0 e2e_sequence_error_world).world ∧
        ∃ q1, (xdd_io_loop_before_io_operation sample_h 0 e2e_sequence_error_world).world.ptds 0 =
            some q1 ∧
          q1.my_error_break = 0)) :=
  ⟨by decide, rfl, by rfl,
    driver_failed_flags sample_h (by decide) 0 e2e_sequence_error_world _ _ rfl (by rfl)⟩

/-- C3, at a sample state: the second frame carries sequence 5 where 1 is expected;
the stage returns `FAILED`. -/
theorem e2e_failed_exactly_when_witness :
    sample_h.SUCCESS ≠ sample_h.FAILED ∧
    (xdd_e2e_before_io_operation sample_h 0 e2e_sequence_error_world).value? =
      some sample_h.FAILED ∧
    (((∃ w1, xdd_e2e_before_io_operation sample_h 0 e2e_sequence_error_world =
          .ret sample_h.FAILED w1) ↔
        ∃ e ∈ e2e_received sample_h 0 e2e_sequence_error_world, e2e_msg_fails sample_h e.1 e.2) ∧
      (∀ w1, xdd_e2e_before_io_operation sample_h 0 e2e_sequence_error_world =
          .ret sample_h.FAILED w1 →
        ∃ e, (e2e_received sample_h 0 e2e_sequence_error_world).getLast? = some e ∧
          e2e_msg_fails sample_h e.1 e.2 ∧
          ∃ q1 ep1, w1.ptds 0 = some q1 ∧ q1.e2ep = some ep1 ∧ e2e_same_credit e.1 q1 ep1)) :=
  ⟨by decide, by decide, e2e_failed_exactly_when sample_h (by decide) 0 e2e_sequence_error_world⟩

/-- C4, counterexample: a fresh destination accepts a frame with sequence number 0
at location 0, which is not greater than the `prev_loc` 0 held before it; and a
destination expecting sequence 1 accepts a `MAGIQ` frame with sequence number 9. -/
theorem e2e_accepted_sequence_counterexample :
    (e2e_accepted sample_h 0 e2e_first_frame_world).map
        (fun e => (e.1.ep.e2e_msg_last_sequence, e.2.msg.sequence, e.2.msg.location,
          e.1.ep.e2e_prev_loc)) = [(0, 0, 0, 0)] ∧
    (e2e_accepted sample_h 0 e2e_magiq_first_world).map
        (fun e => (e.1.ep.e2e_msg_last_sequence, e.2.msg.sequence)) = [(1, 9)] := by
  decide

/-- C4 as amended, at a sample state: the second of two frames accepted by a fresh
destination. -/
theorem e2e_accepted_sequence_witness :
    e2e_two_frames_world.ptds 0 = some (sample_dest 0 (sample_e2e 0 0 0)) ∧
    (sample_dest 0 (sample_e2e 0 0 0)).e2ep = some (sample_e2e 0 0 0) ∧
    (sample_e2e 0 0 0).e2e_msg_last_sequence = 0 ∧
    ∃ e, (e2e_accepted sample_h 0 e2e_two_frames_world)[1]? = some e ∧
      e.1.ep.e2e_msg_last_sequence = ((1 : Nat) : Int) ∧
      (e.2.msg.magic = sample_h.PTDS_E2E_MAGIQ ∨ e.2.msg.sequence = ((1 : Nat) : Int)) ∧
      (1 = 0 ∨ e.2.msg.location > e.1.ep.e2e_prev_loc) := by
  refine ⟨rfl, rfl, rfl, ?_⟩
  have hsome : ((e2e_accepted sample_h 0 e2e_two_frames_world)[1]?).isSome = true := by decide
  obtain ⟨e, he⟩ := Option.isSome_iff_exists.1 hsome
  exact ⟨e, he, e2e_accepted_sequence sample_h 0 e2e_two_frames_world _ _ rfl rfl rfl 1 e he⟩

/-- C5, counterexample: with 3000 bytes credited before it, the short last message
of 2048 bytes brings `data_ready` to 5048, which is not below the original
`iosize` of 4096; the stage returns `SUCCESS` all the same. -/
theorem e2e_short_tail_exit_counterexample :
    (sample_dest 3 (sample_e2e 6 20480 3000)).iosize = 4096 ∧
    (xdd_e2e_before_io_operation sample_h 0 e2e_short_tail_credit_world).value? =
      some sample_h.SUCCESS ∧
    ((xdd_e2e_before_io_operation sample_h 0 e2e_short_tail_credit_world).world.ptds 0).map
      (fun q => (q.iosize, q.my_current_byte_location, q.my_pass_ring,
        q.e2ep.map (fun ep => ep.e2e_data_ready))) = some (2048, 24576, 1, some 5048) := by
  decide

/-- C5 as amended, at the state of the specification's scenario: `iosize` 4096, a
`MAGIQ` frame with sequence 6 and length 2048 on the last operation. -/
theorem e2e_short_tail_exit_witness :
    e2e_short_tail_entry ∈ e2e_received sample_h 0 e2e_short_tail_world ∧
    e2e_is_accepted sample_h e2e_short_tail_world.clock e2e_short_tail_entry = true ∧
    e2e_short_tail_entry.1.q.my_current_op = e2e_short_tail_entry.1.q.target_ops - 1 ∧
    e2e_short_tail_entry.2.msg.length < e2e_short_tail_entry.1.q.iosize ∧
    ∃ w1 q1 ep1, xdd_e2e_before_io_operation sample_h 0 e2e_short_tail_world =
        .ret sample_h.SUCCESS w1 ∧
      (e2e_received sample_h 0 e2e_short_tail_world).getLast? = some e2e_short_tail_entry ∧
      e2e_short_tail_world.e2e_msgs =
        (e2e_received sample_h 0 e2e_short_tail_world).map Prod.snd ++ w1.e2e_msgs ∧
      w1.ptds 0 = some q1 ∧ q1.e2ep = some ep1 ∧
      q1.iosize = e2e_short_tail_entry.2.msg.length ∧
      q1.my_current_byte_location = e2e_short_tail_entry.2.msg.location ∧
      ep1.e2e_data_ready =
        e2e_short_tail_entry.1.ep.e2e_data_ready + e2e_short_tail_entry.2.msg.length ∧
      (e2e_short_tail_entry.1.ep.e2e_data_ready ≤ 0 →
        ep1.e2e_data_ready < e2e_short_tail_entry.1.q.iosize) ∧
      (e2e_short_tail_entry.2.msg.magic = sample_h.PTDS_E2E_MAGIQ → q1.my_pass_ring = 1) :=
  ⟨by decide, by decide, by decide, by decide,
    e2e_short_tail_exit sample_h 0 e2e_short_tail_world e2e_short_tail_entry
      (by decide) (by decide) (by decide) (by decide)⟩

/-- C6, at a sample state: a `MAGIQ` frame with sequence 99 where 6 is expected. -/
theorem e2e_magiq_rings_pass_witness :
    sample_h.SUCCESS ≠ sample_h.FAILED ∧
    e2e_magiq_mismatch_entry ∈ e2e_received sample_h 0 e2e_magiq_mismatch_world ∧
    e2e_magiq_mismatch_entry.2.status ≠ sample_h.FAILED ∧
    e2e_magiq_mismatch_entry.2.msg.magic = sample_h.PTDS_E2E_MAGIQ ∧
    e2e_magiq_mismatch_entry.2.msg.sequence ≠
      e2e_magiq_mismatch_entry.1.ep.e2e_msg_last_sequence ∧
    e2e_magiq_mismatch_entry.2.timedout = false ∧
    ((∀ s1, e2e_iteration sample_h e2e_magiq_mismatch_world.clock e2e_magiq_mismatch_entry.1
        e2e_magiq_mismatch_entry.2 ≠ .failed s1) ∧
      (e2e_iteration sample_h e2e_magiq_mismatch_world.clock e2e_magiq_mismatch_entry.1
        e2e_magiq_mismatch_entry.2).state.q.my_pass_ring = 1 ∧
      (∃ q1, (xdd_e2e_before_io_operation sample_h 0 e2e_magiq_mismatch_world).world.ptds 0 =
          some q1 ∧ q1.my_pass_ring = 1) ∧
      (∀ w1, xdd_e2e_before_io_operation sample_h 0 e2e_magiq_mismatch_world =
          .ret sample_h.FAILED w1 →
        (e2e_received sample_h 0 e2e_magiq_mismatch_world).getLast? ≠
          some e2e_magiq_mismatch_entry)) :=
  ⟨by decide, by decide, by decide, by decide, by decide, by decide,
    e2e_magiq_rings_pass sample_h (by decide) 0 e2e_magiq_mismatch_world e2e_magiq_mismatch_entry
      (by decide) (by decide) (by decide) (by decide)⟩

/-- C7, at the failing input: the slave enters the stage with a task counter of 1
and the operation and byte task types configured; both predicates fire, and the
mutex is released with a task counter of -1. -/
theorem lockstep_double_fire :
    ls_task_counter_at ls_double_fire_world 1 = 1 ∧
    (xdd_lockstep_before_io_operation 1 ls_double_fire_world).value? = some 0 ∧
    (xdd_lockstep_before_io_operation 1 ls_double_fire_world).world.trace =
      [.mutex_lock 1, .mutex_unlock 1 (-1), .barrier (.lock_step 1 0)] ∧
    ls_task_counter_at (xdd_lockstep_before_io_operation 1 ls_double_fire_world).world 1 = -1 := by
  decide

/-- C9, at a sample state: the slave has no task pending, its master has finished,
waits, and told the slave to stop. -/
theorem lockstep_slave_stop_witness :
    ls_stop_world.ptds 1 =
      some { sample_ptds 0 with my_target_number := 1, target_ops := 2, lsp := some 1 } ∧
    lockstep_master { sample_ptds 0 with my_target_number := 1, target_ops := 2, lsp := some 1 }
      1 ls_stop_world = .ret () ls_stop_world ∧
    (∃ ls, ls_stop_world.lockstep 1 = some ls ∧ 0 ≤ ls.ls_master ∧ ls.ls_task_counter ≤ 0 ∧
      ls.ls_ms_state.LS_MASTER_FINISHED = true ∧ ls.ls_ms_state.LS_SLAVE_STOP = true ∧
      ls.ls_ms_state.LS_SLAVE_COMPLETE = false ∧ ls.ls_ms_state.LS_MASTER_WAITING = true) ∧
    ∃ w2 q2, xdd_lockstep_before_io_operation 1 ls_stop_world = .ret 1 w2 ∧
      w2.ptds 1 = some q2 ∧ q2.my_pass_ring = TRUE ∧
      w2.trace = ls_stop_world.trace ++
        [.mutex_lock 1, .mutex_unlock 1 0, .barrier (.lock_step 1 0)] :=
  ⟨rfl, rfl, ⟨_, rfl, by decide, by decide, rfl, rfl, rfl, rfl⟩,
    lockstep_slave_stop 1 ls_stop_world ls_stop_world _ 1 _ rfl rfl rfl rfl (by decide)
      (Or.inl (by decide)) rfl rfl rfl⟩

/-- C10, counterexample: the master pings three times and announces its end; the
slave then runs its pass of two operations and returns 0 from both calls, having
performed one task fire. -/
theorem lockstep_fires_bounded_by_pings_counterexample :
    ls_task_counter_at ls_run_world sample_pair.block = 0 ∧
    (ls_run sample_pair ls_run_steps ⟨ls_run_world, 0, 0, []⟩).pings = 3 ∧
    (ls_run sample_pair ls_run_steps ⟨ls_run_world, 0, 0, []⟩).fires = 1 ∧
    (ls_run sample_pair ls_run_steps ⟨ls_run_world, 0, 0, []⟩).slave_codes =
      [some 0, some 0] := by
  decide

/-- The pair of `ls_run_world` is set up for lockstep. -/
theorem ls_run_world_ready : ls_pair_ready sample_pair ls_run_world :=
  ⟨⟨_, 0, _, 1, _, rfl, rfl, by decide, rfl, by decide, by decide, rfl, rfl, rfl⟩,
    ⟨_, _, rfl, rfl, rfl, by decide, by decide, by decide, by decide, by decide⟩⟩

/-- C10 as amended, at the same run. -/
theorem lockstep_fires_bounded_by_pings_witness :
    ls_pair_ready sample_pair ls_run_world ∧
    ls_task_counter_at ls_run_world sample_pair.block = 0 ∧
    (ls_run sample_pair ls_run_steps ⟨ls_run_world, 0, 0, []⟩).fires ≤
      (ls_run sample_pair ls_run_steps ⟨ls_run_world, 0, 0, []⟩).pings ∧
    ls_task_counter_at (ls_run sample_pair ls_run_steps ⟨ls_run_world, 0, 0, []⟩).world
        sample_pair.block =
      (ls_run sample_pair ls_run_steps ⟨ls_run_world, 0, 0, []⟩).pings -
        (ls_run sample_pair ls_run_steps ⟨ls_run_world, 0, 0, []⟩).fires ∧
    (ls_run sample_pair ls_run_steps ⟨ls_run_world, 0, 0, []⟩).slave_codes =
      List.replicate (ls_run_steps.countP ls_step.is_slave_call) (some 0) ∧
    ∃ qs1, (ls_run sample_pair ls_run_steps ⟨ls_run_world, 0, 0, []⟩).world.ptds
        sample_pair.slave = some qs1 ∧
      qs1.my_pass_ring =
        ({ sample_ptds 0 with my_target_number := 1, target_ops := 2, lsp := some 1 } :
          ptds_t).my_pass_ring :=
  ⟨ls_run_world_ready, by decide,
    lockstep_fires_bounded_by_pings sample_pair ls_run_world ls_run_steps _ ls_run_world_ready
      (by decide) rfl⟩

/-- C11, at a sample state: operation 0 with a period of 4 and two targets. -/
theorem syncio_enters_iff_witness :
    syncio_sample_world.ptds 0 = some { sample_ptds 0 with target_ops := 10 } ∧
    ∃ w1, xdd_syncio_before_io_operation 0 syncio_sample_world = .ret () w1 ∧
      w1.trace = [.barrier (.syncio 0)] ∧
      (w1.ptds 0).map (fun q => q.syncio_barrier_index) = some 1 := by
  obtain ⟨w1, h1, h2, -, -⟩ := syncio_enters_iff 0 syncio_sample_world _ rfl
  obtain ⟨a, b, -⟩ := h2 (by decide)
  exact ⟨rfl, w1, h1, a, by rw [b]; rfl⟩

/-- C12, at the scenario of the specification: a period of 4, two targets, ten
operations. -/
theorem syncio_pass_entries_witness :
    syncio_sample_world.ptds 0 = some { sample_ptds 0 with target_ops := 10 } ∧
    0 < syncio_sample_world.syncio ∧ 1 < syncio_sample_world.number_of_targets ∧
    (syncio_run 0 (fun _ => 0) (pass_ops 10) ⟨syncio_sample_world, [], 0⟩).entries.map Prod.fst =
      [0, 4, 8] ∧
    (syncio_run 0 (fun _ => 0) (pass_ops 10) ⟨syncio_sample_world, [], 0⟩).entries.length = 3 ∧
    (syncio_run 0 (fun _ => 0) (pass_ops 10) ⟨syncio_sample_world, [], 0⟩).toggles = 3 :=
  ⟨rfl, by decide, by decide,
    (syncio_pass_entries 0 (fun _ => 0) syncio_sample_world _ rfl (by decide) (by decide)
      10).2.2.2.2 rfl rfl⟩

/-- C13, counterexample: with a period of 4 the worker has made one entry once
operation 0 has run, where `floor (0 / 4)` is 0, and three entries once the
operations 0 to 9 have run, where `floor (9 / 4)` is 2. -/
theorem syncio_entries_count_counterexample :
    0 < syncio_sample_world.syncio ∧ 1 < syncio_sample_world.number_of_targets ∧
    (syncio_run 0 (fun _ => 0) (pass_ops 1) ⟨syncio_sample_world, [], 0⟩).entries.length = 1 ∧
    (0 : Int) / syncio_sample_world.syncio = 0 ∧
    (syncio_run 0 (fun _ => 0) (pass_ops 10) ⟨syncio_sample_world, [], 0⟩).entries.length = 3 ∧
    (9 : Int) / syncio_sample_world.syncio = 2 := by
  decide

/-- C13 as amended, at the same pass: `floor (9 / 4) + 1` entries. -/
theorem syncio_entries_count_witness :
    syncio_sample_world.ptds 0 = some { sample_ptds 0 with target_ops := 10 } ∧
    0 < syncio_sample_world.syncio ∧ 1 < syncio_sample_world.number_of_targets ∧
    (((syncio_run 0 (fun _ => 0) (pass_ops (9 + 1)) ⟨syncio_sample_world, [], 0⟩).entries.length :
      Nat) : Int) = ((9 : Nat) : Int) / syncio_sample_world.syncio + 1 :=
  ⟨rfl, by decide, by decide,
    (syncio_entries_count 0 (fun _ => 0) syncio_sample_world _ rfl (by decide) (by decide) 9).2.2⟩

/-- C14, at a sample state: target B waits for its start. -/
theorem start_trigger_wait_witness :
    ∃ w1, xdd_start_trigger_before_io_operation sample_h 1
        (sample_trigger_world start_op_only 6 0) = .ret (some 1) w1 ∧
      w1.trace = [.barrier (.start_trigger 1 0)] ∧
      (w1.trigger 1).map (fun tg => tg.Start_Trigger_Barrier_index) = some 1 ∧
      (w1.ptds 1).map (fun q => q.run_status) = some 1 := by
  obtain ⟨w1, h1, h2, h3, -, h5, -⟩ :=
    start_trigger_wait sample_h 1 (sample_trigger_world start_op_only 6 0) _ 1
      (sample_trigger no_trigger_types) rfl rfl rfl rfl rfl
  exact ⟨w1, h1, h2, by rw [h3]; rfl, by rw [h5]; rfl⟩

/-- C15, at the failing input: target A at operation 6, with 24576 bytes
transferred, has the operation threshold 5 and the byte threshold 1000 configured;
target B has not started.  One call enters B's start barrier twice. -/
theorem start_trigger_double_release :
    ((sample_trigger_world start_op_and_bytes 6 0).ptds 1).map (fun q => q.run_status) = some 0 ∧
    (xdd_start_trigger_before_io_operation sample_h 0
      (sample_trigger_world start_op_and_bytes 6 0)).value? = some none ∧
    (xdd_start_trigger_before_io_operation sample_h 0
      (sample_trigger_world start_op_and_bytes 6 0)).world.trace =
      [.barrier (.start_trigger 1 0), .barrier (.start_trigger 1 0)] := by
  decide

/-- C16, at the scenario of the specification: an operation threshold of 5, the
caller at operation 6, the triggeree not started. -/
theorem start_trigger_op_release_witness :
    (sample_trigger_world start_op_only 6 0).ptds 0 =
      some { sample_ptds 6 with target_ops := 10, tgp := some 0 } ∧
    (sample_trigger_world start_op_only 6 0).trigger 0 = some (sample_trigger start_op_only) ∧
    (sample_trigger_world start_op_only 6 0).target 1 = some 1 ∧
    xdd_start_trigger_before_io_operation sample_h 0 (sample_trigger_world start_op_only 6 0) =
      .ret none ((sample_trigger_world start_op_only 6 0).emit (.barrier (.start_trigger 1 0))) :=
  ⟨rfl, rfl, rfl,
    (((start_trigger_op_release sample_h 0 (sample_trigger_world start_op_only 6 0) _ 0
      (sample_trigger start_op_only) 1 _ 1 (sample_trigger no_trigger_types)
      rfl rfl rfl (by decide) rfl rfl rfl rfl).1 ⟨rfl, rfl, rfl, rfl⟩).2.2 rfl rfl).2 rfl⟩

/-- C17, counterexample: direct I/O on, SGIO off, the last operation of the pass at
the byte location 512, which is not a multiple of the page size 4096, and no short
tail (`last_iosize` is 0): the stage returns and has changed nothing. -/
theorem dio_ineligible_iff_counterexample :
    (sample_dio_ptds 0 512).target_options.TO_DIO = true ∧
    (sample_dio_ptds 0 512).target_options.TO_SGIO = false ∧
    (sample_dio_ptds 0 512).my_current_op = (sample_dio_ptds 0 512).target_ops - 1 ∧
    (sample_dio_ptds 0 512).my_current_byte_location % (sample_dio_world 0 512 1 5).pagesize ≠ 0 ∧
    (xdd_dio_before_io_operation 0 (sample_dio_world 0 512 1 5)).value? = some () ∧
    (xdd_dio_before_io_operation 0 (sample_dio_world 0 512 1 5)).world.trace = [] ∧
    (xdd_dio_before_io_operation 0 (sample_dio_world 0 512 1 5)).world.ptds 0 =
      some (sample_dio_ptds 0 512) := by
  decide

/-- C17 as amended, at a sample state: a short tail of 3000 bytes on the last
operation. -/
theorem dio_ineligible_iff_witness :
    (sample_dio_world 3000 12288 1 5).ptds 0 = some (sample_dio_ptds 3000 12288) ∧
    ∃ w1 q1, xdd_dio_before_io_operation 0 (sample_dio_world 3000 12288 1 5) = .ret () w1 ∧
      w1.trace = [.close 3, .open_target 0 false] ∧ w1.ptds 0 = some q1 ∧ q1.fd = 5 := by
  obtain ⟨w1, q1, h1, h2, h3, h4⟩ :=
    ((dio_ineligible_iff 0 (sample_dio_world 3000 12288 1 5) _ rfl).1 rfl rfl).1 (by decide)
  exact ⟨rfl, w1, q1, h1, h2, h3, h4⟩

/-- C18, at the scenario of the specification (block size 4096, a tail of 3000 bytes
at a page-aligned location), with two passes: the DIO bit is set again. -/
theorem dio_reopen_options_witness :
    (sample_dio_world 3000 12288 2 5).ptds 0 = some (sample_dio_ptds 3000 12288) ∧
    (sample_dio_ptds 3000 12288).block_size = 4096 ∧
    dio_status (sample_dio_ptds 3000 12288) (sample_dio_world 3000 12288 2 5).pagesize ≠ 0 ∧
    ∃ w1 q1, xdd_dio_before_io_operation 0 (sample_dio_world 3000 12288 2 5) = .ret () w1 ∧
      w1.trace = [.close 3, .open_target 0 false] ∧ w1.ptds 0 = some q1 ∧
      q1.target_options.TO_DIO = true := by
  obtain ⟨w1, q1, h1, h2, h3, h4, -⟩ :=
    dio_reopen_options 0 (sample_dio_world 3000 12288 2 5) _ rfl rfl rfl (by decide)
  exact ⟨rfl, rfl, by decide, w1, q1, h1, h2, h3, h4.2 (by decide)⟩

/-- C19, at a sample state: the reopen returns -1; the driver returns `SUCCESS`
with the abort flag at 1. -/
theorem dio_reopen_failure_witness :
    (sample_dio_world 3000 12288 1 (-1)).open_fd 0 = -1 ∧
    (sample_dio_world 3000 12288 1 (-1)).abort_io = 0 ∧
    (xdd_io_loop_before_io_operation sample_h 0 (sample_dio_world 3000 12288 1 (-1))).value? =
      some sample_h.SUCCESS ∧
    (xdd_io_loop_before_io_operation sample_h 0 (sample_dio_world 3000 12288 1 (-1))).world.abort_io
      = 1 := by
  obtain ⟨w5, h5, hfail, -, hdrv⟩ :=
    dio_reopen_failure sample_h 0 (seek_resolution 0 (sample_dio_world 3000 12288 1 (-1))).world
      (sample_dio_resolved 3000) rfl rfl rfl (by decide) (by decide)
  have e5 : w5 = (xdd_dio_before_io_operation 0
      (seek_resolution 0 (sample_dio_world 3000 12288 1 (-1))).world).world := by
    rw [h5]; rfl
  have ha := hfail rfl
  subst e5
  obtain ⟨d1, d2⟩ := hdrv (sample_dio_world 3000 12288 1 (-1)) (sample_dio_world 3000 12288 1 (-1))
    _ sample_h.SUCCESS _ _ rfl rfl rfl rfl (by decide) rfl
  rw [d1]
  exact ⟨rfl, rfl, rfl, d2.trans ha⟩

/-- C20, at a sample state: the first result reports 808 bytes beyond the byte
location, the second is a failure; the loop stops there and leaves the third. -/
theorem raw_stat_poll_stops_witness :
    (sample_reader_world 0 sample_stats).ptds 0 = some (sample_reader 0) ∧
    ¬ raw_stat_stops (sample_reader 0) ⟨0, 9000⟩ ∧ raw_stat_stops (sample_reader 0) ⟨-1, 0⟩ ∧
    ∃ w1 r1, xdd_raw_before_io_operation 0 (sample_reader_world 0 sample_stats) = .ret () w1 ∧
      w1.stat_results = [⟨0, 20000⟩] ∧
      w1.ptds 0 = some { sample_reader 0 with rawp := some r1 } ∧
      r1.raw_data_ready = 4096 := by
  obtain ⟨w1, r1, h1, h2, h3, h4, -, h6⟩ :=
    (raw_stat_poll_stops 0 (sample_reader_world 0 sample_stats) (sample_reader 0) (sample_raw 0)
      rfl rfl ⟨rfl, rfl⟩ rfl).2.1 (by decide) [⟨0, 9000⟩] ⟨-1, 0⟩ [⟨0, 20000⟩] rfl
      (by decide) (by decide)
  exact ⟨rfl, by decide, by decide, w1, r1, h1, h2, h3, h6 (by decide)⟩

/-- C21, at the scenario of the specification: the reader holds `raw_prev_loc` 10000
and receives a notification located at 9000. -/
theorem raw_stale_discarded_witness :
    (sample_raw_mp 3 10000 4096 0).raw_prev_loc = 10000 ∧
    (raw_msg_iteration (sample_raw_mp 3 10000 4096 0) ⟨0, ⟨3, 9000, 4096⟩⟩).raw_msg_last_sequence
      = 3 ∧
    (raw_msg_iteration (sample_raw_mp 3 10000 4096 0) ⟨0, ⟨3, 9000, 4096⟩⟩).raw_data_ready = 0 ∧
    (raw_msg_iteration (sample_raw_mp 3 10000 4096 0) ⟨0, ⟨3, 9000, 4096⟩⟩).raw_prev_loc = 10000 ∧
    (raw_msg_iteration (sample_raw_mp 3 10000 4096 0) ⟨0, ⟨3, 9000, 4096⟩⟩).raw_prev_len = 4096 ∧
    (raw_msg_loop (sample_reader 0) [] [⟨0, ⟨3, 9000, 4096⟩⟩]
      (sample_raw_mp 3 10000 4096 0)).blocked = true := by
  obtain ⟨h1, h2, h3, h4, -, -, -, -, h9⟩ :=
    raw_stale_discarded (sample_reader 0) [] (sample_raw_mp 3 10000 4096 0)
      ⟨0, ⟨3, 9000, 4096⟩⟩ [] (by decide) (by decide) (by decide)
  exact ⟨rfl, h1, h2, h3, h4, h9 rfl⟩

/-- C22, at a sample state: the first notification, 4096 bytes at 8192. -/
theorem raw_accept_credit_witness :
    (sample_raw_mp 0 0 0 0).raw_msg_last_sequence = 0 ∧
    (raw_msg_iteration (sample_raw_mp 0 0 0 0) ⟨0, ⟨0, 8192, 4096⟩⟩).raw_msg_last_sequence = 1 ∧
    (raw_msg_iteration (sample_raw_mp 0 0 0 0) ⟨0, ⟨0, 8192, 4096⟩⟩).raw_data_length = 4096 ∧
    (raw_msg_iteration (sample_raw_mp 0 0 0 0) ⟨0, ⟨0, 8192, 4096⟩⟩).raw_prev_loc = 8192 := by
  obtain ⟨-, h2, -, h4, -, h6, -⟩ :=
    raw_accept_credit (sample_reader 0) [] (sample_raw_mp 0 0 0 0) ⟨0, ⟨0, 8192, 4096⟩⟩ []
      (by decide) (Or.inl rfl)
  exact ⟨rfl, h2, (h4 rfl).2, h6⟩

/-- C23, counterexample: with `SO_SEEK_NONE` set the driver returns `SUCCESS` for
operation 1 with the byte location 0, where the entry 1 of the seek table gives
4096; and for a destination of an end-to-end transfer it returns `SUCCESS` for
operation 0 with the byte location 1024 of the last frame, where the entry 0 gives
0. -/
theorem driver_byte_location_counterexample :
    ((xdd_io_loop_before_io_operation sample_h 0 sample_noseek_world).value? =
        some sample_h.SUCCESS ∧
      ((xdd_io_loop_before_io_operation sample_h 0 sample_noseek_world).world.ptds 0).map
        (fun q => q.my_current_byte_location) = some 0 ∧
      (sample_noseek_world.ptds 0).map (fun q => (q.my_current_op,
        (q.seekhdr.seek q.my_current_op).map fun sk =>
          (q.my_target_number * sample_noseek_world.target_offset + sk.block_location) *
            q.block_size)) = some (1, some 4096)) ∧
    ((xdd_io_loop_before_io_operation sample_h 0 e2e_two_frames_world).value? =
        some sample_h.SUCCESS ∧
      ((xdd_io_loop_before_io_operation sample_h 0 e2e_two_frames_world).world.ptds 0).map
        (fun q => q.my_current_byte_location) = some 1024 ∧
      (e2e_two_frames_world.ptds 0).map (fun q => (q.my_current_op,
        (q.seekhdr.seek q.my_current_op).map fun sk =>
          (q.my_target_number * e2e_two_frames_world.target_offset + sk.block_location) *
            q.block_size)) = some (0, some 0)) := by
  decide

/-- C23 as amended, at a sample state: operation 3 of a worker that is not an
end-to-end destination. -/
theorem driver_byte_location_witness :
    sample_h.SUCCESS ≠ sample_h.FAILED ∧
    (sample_dio_world 3000 12288 1 5).ptds 0 = some (sample_dio_ptds 3000 12288) ∧
    ¬ e2e_destination (sample_dio_ptds 3000 12288) ∧
    ∃ q9, (xdd_io_loop_before_io_operation sample_h 0 (sample_dio_world 3000 12288 1 5)).world.ptds
        0 = some q9 ∧ q9.my_current_byte_location = 49152 := by
  obtain ⟨q9, sk, h1, h2, h3, -⟩ :=
    driver_byte_location sample_h (by decide) 0 (sample_dio_world 3000 12288 1 5)
      (xdd_io_loop_before_io_operation sample_h 0 (sample_dio_world 3000 12288 1 5)).world
      (sample_dio_ptds 3000 12288) rfl (by rfl)
  have hsk : sk = ⟨12, 0, 0⟩ := by
    have h2' : some (⟨12, 0, 0⟩ : seek_t) = some sk := h2
    injection h2' with h2'
    exact h2'.symm
  subst hsk
  exact ⟨by decide, rfl, by decide, q9, h1, ((h3 (by decide)).2 (by decide) (by decide)
    (by decide))⟩

/-- C24, at a sample state: `TS_TRIGOP` with a trigger operation of 2, the worker at
operation 2. -/
theorem ts_records_iff_witness :
    (sample_ts_world ts_at_op 2).ptds 0 = some { sample_ptds 2 with tsp := some (sample_ts ts_at_op) } ∧
    (sample_ts ts_at_op).ts_options.TS_ON = true ∧
    (sample_ts ts_at_op).ts_options.TS_TRIGGERED = false ∧
    ∃ w1 ts1 hdr1, xdd_ts_before_io_operation 0 (sample_ts_world ts_at_op 2) = .ret () w1 ∧
      w1.ptds 0 = some { sample_ptds 2 with tsp := some ts1 } ∧ ts1.timestamps = 1 ∧
      ts1.ttp = some hdr1 ∧ hdr1.tte.get? 0 = some ⟨0, 1, 0, 2, 0⟩ ∧
      ts1.ts_options.TS_TRIGGERED = true := by
  obtain ⟨w1, ts1, hdr1, h1, h2, h3, h4, h5, h6, -⟩ :=
    (ts_records_iff 0 (sample_ts_world ts_at_op 2) _ (sample_ts ts_at_op) ⟨0, [blank_tte, blank_tte]⟩
      ⟨8, 0, 0⟩ rfl rfl rfl rfl (by decide) rfl).1 (Or.inr (Or.inr (Or.inr ⟨rfl, rfl⟩)))
  exact ⟨rfl, rfl, rfl, w1, ts1, hdr1, h1, h2, h3, h4, h5, h6⟩

/-- C25, counterexample: with room for two records and every operation recorded,
the records of the operations 0 and 1 both go to the slot 0, the second replacing
the first, and the slot 1 stays empty; with two records counted, the call at
operation 2 still writes, again to the slot 0. -/
theorem ts_record_index_counterexample :
    (tsp_at (sample_ts_world ts_all 0) 0).map (fun ts => (ts.timestamps, ts.ttp)) =
      some (0, some ⟨0, [blank_tte, blank_tte]⟩) ∧
    (tsp_at (ts_run 0 [0] (sample_ts_world ts_all 0)) 0).map (fun ts => (ts.timestamps, ts.ttp)) =
      some (1, some ⟨0, [⟨0, 1, 0, 0, 0⟩, blank_tte]⟩) ∧
    (tsp_at (ts_run 0 [0, 1] (sample_ts_world ts_all 0)) 0).map
        (fun ts => (ts.timestamps, ts.ttp)) =
      some (2, some ⟨0, [⟨0, 1, 0, 1, 10⟩, blank_tte]⟩) ∧
    (tsp_at (ts_run 0 [0, 1, 2] (sample_ts_world ts_all 0)) 0).map
        (fun ts => (ts.timestamps, ts.ttp)) =
      some (3, some ⟨0, [⟨0, 1, 0, 2, 20⟩, blank_tte]⟩) := by
  decide

/-- C25 as amended, at the same state: the record of operation 0 goes to the slot
0 and the insertion index stays 0. -/
theorem ts_record_index_witness :
    (sample_ts_world ts_all 0).ptds 0 = some { sample_ptds 0 with tsp := some (sample_ts ts_all) } ∧
    ∃ w1 ts1 hdr1, xdd_ts_before_io_operation 0 (sample_ts_world ts_all 0) = .ret () w1 ∧
      w1.ptds 0 = some { sample_ptds 0 with tsp := some ts1 } ∧ ts1.ttp = some hdr1 ∧
      hdr1.tte_indx = 0 ∧ hdr1.tte = [⟨0, 1, 0, 0, 0⟩, blank_tte] := by
  obtain ⟨w1, ts1, hdr1, h1, h2, h3, h4, -, h6, -⟩ :=
    ts_record_index 0 (sample_ts_world ts_all 0) _ (sample_ts ts_all) ⟨0, [blank_tte, blank_tte]⟩
      ⟨0, 0, 0⟩ rfl rfl rfl rfl (by decide) rfl (Or.inr (Or.inl rfl))
  exact ⟨rfl, w1, ts1, hdr1, h1, h2, h3, h4, h6⟩

/-- C26, at the failing input: a clock of 100 ticks a second and an operation due
5 ms after the time read; `5 * CLK_TCK` is 500, half a tick, and the stage sleeps
for 5000 microseconds; with 10 ms, one tick, it sleeps for 10000 microseconds. -/
theorem throttle_sleep_ignores_tick_witness :
    int32_cast (((5000000000 : Int) - (0 - 0)).tdiv sample_h.BILLION) * sample_h.CLK_TCK = 500 ∧
    xdd_throttle_before_io_operation sample_h 0 (sample_throttle_world 5000000000 false) =
      .ret () ((sample_throttle_world 5000000000 false).tick.emit (.usleep 5000)) ∧
    xdd_throttle_before_io_operation sample_h 0 (sample_throttle_world 10000000000 false) =
      .ret () ((sample_throttle_world 10000000000 false).tick.emit (.usleep 10000)) :=
  ⟨by decide,
    (throttle_sleep_ignores_tick sample_h 0 (sample_throttle_world 5000000000 false) _
      ⟨0, 0, 5000000000⟩ rfl rfl rfl).2.2 (by decide) (by decide) (by decide),
    (throttle_sleep_ignores_tick sample_h 0 (sample_throttle_world 10000000000 false) _
      ⟨0, 0, 10000000000⟩ rfl rfl rfl).2.2 (by decide) (by decide) (by decide)⟩

/-- C27, at the failing input: the DELAY mode with a throttle value of 2; the stage
returns without a sleep. -/
theorem throttle_delay_no_sleep :
    ((sample_throttle_world 0 true).ptds 0).map (fun q => (q.throttle, q.PTDS_THROTTLE_DELAY)) =
      some (2, true) ∧
    (xdd_throttle_before_io_operation sample_h 0 (sample_throttle_world 0 true)).value? =
      some () ∧
    (xdd_throttle_before_io_operation sample_h 0 (sample_throttle_world 0 true)).world.trace =
      [] := by
  decide

/-- C28, at a sample state: 10000 bytes in requests of 8 blocks of 512 bytes make 3
operations. -/
theorem xfer_info_ceiling_witness :
    0 < (sample_target 3).td_reqsize * (sample_target 3).td_block_size ∧
    (sample_target 3).td_bytes ≠ 0 ∧ (sample_target 3).td_restartp = none ∧
    (xdd_calculate_xfer_info (sample_target 3)).td_iosize = 4096 ∧
    (xdd_calculate_xfer_info (sample_target 3)).td_target_bytes_to_xfer_per_pass = 10000 ∧
    (xdd_calculate_xfer_info (sample_target 3)).td_target_ops = 3 ∧
    (xdd_calculate_xfer_info (sample_target 3)).td_target_ops *
        (xdd_calculate_xfer_info (sample_target 3)).td_iosize ≥
      (xdd_calculate_xfer_info (sample_target 3)).td_target_bytes_to_xfer_per_pass ∧
    (xdd_calculate_xfer_info (sample_target 3)).td_target_bytes_to_xfer_per_pass >
      ((xdd_calculate_xfer_info (sample_target 3)).td_target_ops - 1) *
        (xdd_calculate_xfer_info (sample_target 3)).td_iosize := by
  obtain ⟨h1, h2, h3, h4, -⟩ :=
    xfer_info_ceiling (sample_target 3) (by decide) (Or.inr (by decide)) rfl
  exact ⟨by decide, by decide, rfl, h1, h2, by decide, h3, h4⟩

/-- C29, at the scenario of the comment above the function: a queue depth of 12
over 4 hosts. -/
theorem e2e_ports_distributed_witness :
    (sample_e2e_target 12 4).td_e2ep = some ⟨4, 0, List.replicate 4 ⟨40010, 0⟩⟩ ∧
    (sample_e2e_target 12 4).td_queue_depth = 12 ∧
    ∃ tbl e1, xdd_build_target_data_substructure_e2e 0 (sample_e2e_target 12 4) =
        .done (0, { sample_e2e_target 12 4 with td_e2ep := some e1 }) ∧
      e1 = ⟨4, 12, tbl⟩ ∧
      ((tbl.take 4).map (fun a => a.port_count)).sum = 12 ∧
      ∀ i a, i < 4 → tbl.get? i = some a → a.port_count = 3 := by
  obtain ⟨tbl, e1, h1, h2, -, h4, -, h6, -⟩ :=
    e2e_ports_distributed 0 (sample_e2e_target 12 4) ⟨4, 0, List.replicate 4 ⟨40010, 0⟩⟩ rfl rfl
      (by decide) (by decide) (by decide) (by decide)
  exact ⟨rfl, rfl, tbl, e1, h1, h2, h4, h6 rfl rfl⟩

/-- C31, at a sample state: for the target of `lite_one_target` the string "4" is
turned down by `parse_target_num_threads` and taken by `parse_target_length`, and
the string "4x" is taken by `parse_target_num_threads`, which stores 4. -/
theorem parse_target_num_threads_inverted_witness :
    parse_target_num_threads sample_lite_h lite_one_target "4".toList = .ret 1 lite_one_target ∧
    parse_target_length sample_lite_h lite_one_target "4".toList =
      .ret 0 (lite_one_target.put 0 { blank_target with length := 4 }) ∧
    parse_target_num_threads sample_lite_h lite_one_target "4x".toList =
      .ret 0 (lite_one_target.put 0 { blank_target with num_threads := 4 }) ∧
    parse_target_length sample_lite_h lite_one_target "4x".toList = .ret 1 lite_one_target := by
  have h := parse_target_num_threads_inverted sample_lite_h lite_one_target "4".toList 0
    blank_target (by decide) rfl rfl (by decide) (by decide) (by decide)
  have h2 := h.2.2 'x' [] (by decide) (by decide)
  exact ⟨h.1, h.2.1, h2.1, h2.2⟩

/-- C40, at a sample state: before any target is declared, with the string "4x",
four parsers return 1, `parse_target_policy` fails its assertion and
`parse_target_num_threads` stores through the `NULL` pointer. -/
theorem parse_without_target_witness :
    parse_target_access sample_lite_h lite_no_target "4x".toList = .ret 1 lite_no_target ∧
    parse_target_direct_io lite_no_target = .ret 1 lite_no_target ∧
    parse_target_length sample_lite_h lite_no_target "4x".toList = .ret 1 lite_no_target ∧
    parse_target_start_offset sample_lite_h lite_no_target "4x".toList = .ret 1 lite_no_target ∧
    parse_target_policy sample_lite_h lite_no_target "4x".toList = .assert_failed ∧
    parse_target_num_threads sample_lite_h lite_no_target "4x".toList = .fault := by
  have h := parse_without_target sample_lite_h lite_no_target "4x".toList (by decide) rfl
  exact ⟨h.1, h.2.1, by decide, by decide, h.2.2.2.2.1, h.2.2.2.2.2.2 (by decide)⟩

/-- C32, at a sample state: the master of `ls_ping_world` pings at operation 0; a
slave that waits is released through the barrier with the master-side index 0,
which becomes 1, a slave that does not wait only has its counter incremented. -/
theorem lockstep_master_ping_witness :
    (ls_interval_check { sample_ptds 0 with lsp := some 0 }
      { sample_master_block with ls_interval_value := 0 } (ls_ping_world true).now).1 = true ∧
    (∃ r w1 s1 evs, xdd_lockstep_before_io_operation 0 (ls_ping_world true) = .ret r w1 ∧
      w1.lockstep 1 = some s1 ∧ w1.trace = (ls_ping_world true).trace ++ evs ∧
      s1.ls_task_counter = 1 ∧ s1.ls_ms_state.LS_SLAVE_WAITING = false ∧
      lock_step_entries 1 evs = [0] ∧ s1.Lock_Step_Barrier_Master_Index = 1) ∧
    (∃ r w1 s1 evs, xdd_lockstep_before_io_operation 0 (ls_ping_world false) = .ret r w1 ∧
      w1.lockstep 1 = some s1 ∧ w1.trace = (ls_ping_world false).trace ++ evs ∧
      s1.ls_task_counter = 1 ∧ s1.ls_ms_state = ⟨false, false, false, false, false, 0⟩ ∧
      lock_step_entries 1 evs = [] ∧ s1.Lock_Step_Barrier_Master_Index = 0) := by
  refine ⟨by decide, ?_, ?_⟩
  · obtain ⟨r, w1, s1, evs, a, b, c, d, -, f, -⟩ :=
      lockstep_master_ping 0 0 1 1 (ls_ping_world true) _ _ _ _ rfl rfl rfl (by decide) rfl rfl rfl
        (by decide) rfl (by decide)
    obtain ⟨f1, f2, f3⟩ := f rfl
    exact ⟨r, w1, s1, evs, a, b, c, d, by rw [f1], f2, f3⟩
  · obtain ⟨r, w1, s1, evs, a, b, c, d, -, -, g⟩ :=
      lockstep_master_ping 0 0 1 1 (ls_ping_world false) _ _ _ _ rfl rfl rfl (by decide) rfl rfl rfl
        (by decide) rfl (by decide)
    obtain ⟨g1, g2, g3⟩ := g rfl
    exact ⟨r, w1, s1, evs, a, b, c, d, g1, g2, g3⟩

/-- C33, at a sample state: the slave of `ls_complete_world` has no task pending,
its master has finished and waits, and `SLAVE_COMPLETE` and `SLAVE_STOP` are both
set. -/
theorem lockstep_slave_complete_witness :
    lockstep_master { sample_ptds 0 with my_target_number := 1, target_ops := 2, lsp := some 1 }
      1 ls_complete_world = .ret () ls_complete_world ∧
    ∃ w2 s2, xdd_lockstep_before_io_operation 1 ls_complete_world = .ret 0 w2 ∧
      w2.ptds 1 = ls_complete_world.ptds 1 ∧ w2.lockstep 1 = some s2 ∧
      s2.ls_ms_state = ⟨false, true, true, true, false, 0⟩ ∧
      s2.Lock_Step_Barrier_Slave_Index = 1 ∧ s2.ls_slave_loop_counter = 1 ∧
      w2.trace = ls_complete_world.trace ++
        [.mutex_lock 1, .mutex_unlock 1 0, .barrier (.lock_step 1 0)] := by
  refine ⟨rfl, ?_⟩
  obtain ⟨w2, s2, a, b, c, d, e, f, g⟩ :=
    lockstep_slave_complete 1 ls_complete_world ls_complete_world _ 1 _ rfl rfl rfl rfl
      (by decide) (Or.inl (by decide)) rfl rfl
  exact ⟨w2, s2, a, b, c, d, e, f, g⟩

/-- C34, at a sample state: the slave of `ls_run_world` has no task pending and its
master is running. -/
theorem lockstep_slave_waits_witness :
    lockstep_master { sample_ptds 0 with my_target_number := 1, target_ops := 2, lsp := some 1 }
      1 ls_run_world = .ret () ls_run_world ∧
    ∃ w2 s2, xdd_lockstep_before_io_operation 1 ls_run_world = .ret 0 w2 ∧
      w2.ptds 1 = ls_run_world.ptds 1 ∧ w2.lockstep 1 = some s2 ∧
      s2.ls_ms_state = ⟨true, false, false, false, false, 0⟩ ∧
      s2.Lock_Step_Barrier_Slave_Index = 1 ∧ s2.ls_slave_loop_counter = 1 ∧
      w2.trace = ls_run_world.trace ++
        [.mutex_lock 1, .mutex_unlock 1 0, .barrier (.lock_step 1 0)] ∧
      s2.ls_task_counter = 0 ∧ s2.ls_task_base_value = 0 := by
  refine ⟨rfl, ?_⟩
  obtain ⟨w2, s2, a, b, c, d, e, f, g, h⟩ :=
    lockstep_slave_waits 1 ls_run_world ls_run_world _ 1 _ rfl rfl rfl rfl
      (by decide) (Or.inl (by decide)) (Or.inl rfl)
  obtain ⟨h1, h2⟩ := h (by decide)
  exact ⟨w2, s2, a, b, c, d, e, f, g, h1, h2⟩

/-- C35, at sample states: a destination that has 8192 bytes credited on entry
receives nothing and gets the location 0 of the frame it holds, although a frame
for the location 8192 is waiting; a fresh destination that receives the frames at
0 and at 1024 gets the location 1024; and a worker with no option set gets
`SUCCESS` with nothing changed. -/
theorem e2e_location_last_message_witness :
    xdd_e2e_before_io_operation sample_h 0 (sample_dest_world (sample_ptds 0) []) =
      .ret sample_h.SUCCESS (sample_dest_world (sample_ptds 0) []) ∧
    (∃ w1 q1, xdd_e2e_before_io_operation sample_h 0 e2e_credited_world = .ret sample_h.SUCCESS w1 ∧
      e2e_received sample_h 0 e2e_credited_world = [] ∧
      w1.ptds 0 = some q1 ∧ q1.my_current_byte_location = 0) ∧
    (∃ w1 q1, xdd_e2e_before_io_operation sample_h 0 e2e_two_frames_world = .ret sample_h.SUCCESS w1 ∧
      w1.ptds 0 = some q1 ∧ q1.my_current_byte_location = 1024) := by
  have h0 := (e2e_location_last_message sample_h 0 (sample_dest_world (sample_ptds 0) [])
    (sample_ptds 0) (by decide) rfl).1 (by decide)
  have h1 := (e2e_location_last_message sample_h 0 e2e_credited_world _ (by decide) rfl).2
    { sample_e2e 1 0 8192 with e2e_msg := ⟨119544153, 0, 0, 8192⟩ }
  have h2 := (e2e_location_last_message sample_h 0 e2e_two_frames_world _ (by decide) rfl).2
    (sample_e2e 0 0 0)
  refine ⟨h0, ?_, ?_⟩
  · cases hs : xdd_e2e_before_io_operation sample_h 0 e2e_credited_world with
    | ret s w1 =>
      have hs1 : s = sample_h.SUCCESS := by
        have : (xdd_e2e_before_io_operation sample_h 0 e2e_credited_world).value? =
            some sample_h.SUCCESS := by decide
        rw [hs] at this
        exact Option.some.inj this
      subst hs1
      obtain ⟨q1, ep1, a, -, -, -, e⟩ := h1 w1 (by decide) rfl hs
      obtain ⟨e1, e2⟩ := e (by decide)
      exact ⟨w1, q1, rfl, e1, a, e2⟩
    | blocked w1 =>
      have : (xdd_e2e_before_io_operation sample_h 0 e2e_credited_world).value? =
          some sample_h.SUCCESS := by decide
      rw [hs] at this
      cases this
    | fault w1 =>
      have : (xdd_e2e_before_io_operation sample_h 0 e2e_credited_world).value? =
          some sample_h.SUCCESS := by decide
      rw [hs] at this
      cases this
  · cases hs : xdd_e2e_before_io_operation sample_h 0 e2e_two_frames_world with
    | ret s w1 =>
      have hs1 : s = sample_h.SUCCESS := by
        have : (xdd_e2e_before_io_operation sample_h 0 e2e_two_frames_world).value? =
            some sample_h.SUCCESS := by decide
        rw [hs] at this
        exact Option.some.inj this
      subst hs1
      obtain ⟨q1, ep1, a, -, c, d, -⟩ := h2 w1 (by decide) rfl hs
      refine ⟨w1, q1, rfl, a, ?_⟩
      rw [c, d]
      decide
    | blocked w1 =>
      have : (xdd_e2e_before_io_operation sample_h 0 e2e_two_frames_world).value? =
          some sample_h.SUCCESS := by decide
      rw [hs] at this
      cases this
    | fault w1 =>
      have : (xdd_e2e_before_io_operation sample_h 0 e2e_two_frames_world).value? =
          some sample_h.SUCCESS := by decide
      rw [hs] at this
      cases this

/-- C37, at a sample state: the notifications of `raw_gap_msgs` with the sequence
numbers 7, 7 and 0 instead of 0, 1 and 2. -/
theorem raw_sequence_blind_witness :
    List.Forall₂ same_but_sequence raw_gap_msgs
      [⟨0, ⟨7, 0, 100⟩⟩, ⟨0, ⟨7, 200, 100⟩⟩, ⟨0, ⟨0, 300, 100⟩⟩] ∧
    ∃ r1 r2, rawp_at (xdd_raw_before_io_operation 0 (sample_mp_world raw_gap_msgs)) 0 = some r1 ∧
      rawp_at (xdd_raw_before_io_operation 0
        (sample_mp_world [⟨0, ⟨7, 0, 100⟩⟩, ⟨0, ⟨7, 200, 100⟩⟩, ⟨0, ⟨0, 300, 100⟩⟩])) 0 = some r2 ∧
      same_raw_counters r1 r2 := by
  have hf : List.Forall₂ same_but_sequence raw_gap_msgs
      [⟨0, ⟨7, 0, 100⟩⟩, ⟨0, ⟨7, 200, 100⟩⟩, ⟨0, ⟨0, 300, 100⟩⟩] :=
    .cons ⟨rfl, rfl, rfl⟩ (.cons ⟨rfl, rfl, rfl⟩ (.cons ⟨rfl, rfl, rfl⟩ .nil))
  exact ⟨hf, (raw_sequence_blind 0 (sample_mp_world raw_gap_msgs) sample_mp_reader
    (sample_raw_mp 0 0 0 0) _ rfl rfl rfl rfl rfl hf).2.1⟩

/-- C38, counterexample: with `td_numreqs` at -1 the product wraps as an unsigned
64-bit value and `td_target_ops` becomes `2 ^ 52 - 1`; with `td_numreqs` at `2 ^ 52`
and an I/O size of 4096 the product is `2 ^ 64`, the bytes of a pass are 0 and so
is `td_target_ops`. -/
theorem xfer_info_no_zero_divisor_counterexample :
    (xdd_calculate_xfer_info { sample_target 1 with td_numreqs := -1 }).td_target_ops =
      2 ^ 52 - 1 ∧
    (xdd_calculate_xfer_info { sample_target 1 with td_numreqs := 2 ^ 52 }).td_target_ops = 0 := by
  decide

/-- C38, at sample states: a target of 8 blocks of 512 bytes with 3 requests gets 3
operations, and with a request size of 0 its `td_target_ops` stays 0. -/
theorem xfer_info_no_zero_divisor_witness :
    (xdd_calculate_xfer_info { sample_target 1 with td_numreqs := 3 }).td_target_ops = 3 ∧
    (xdd_calculate_xfer_info { sample_target 1 with td_reqsize := 0 }).td_target_ops = 0 := by
  have h := xfer_info_no_zero_divisor { sample_target 1 with td_numreqs := 3 }
  have h2 := xfer_info_no_zero_divisor { sample_target 1 with td_reqsize := 0 }
  refine ⟨(h.2.2 rfl (by decide) (by decide) (by decide)).2, ?_⟩
  rw [h2.2.1 (Or.inl (by decide))]
  rfl

/-- C39, at sample states: the empty string and "l" select the loose access, "ser"
selects the serial access, which is the first name it begins, and "loosely", which
begins none of the names, is turned down. -/
theorem parse_target_access_names_witness :
    parse_target_access sample_lite_h lite_one_target "".toList =
      .ret 0 (lite_one_target.put 0 { blank_target with access := 1 }) ∧
    parse_target_access sample_lite_h lite_one_target "l".toList =
      .ret 0 (lite_one_target.put 0 { blank_target with access := 1 }) ∧
    parse_target_access sample_lite_h lite_one_target "ser".toList =
      .ret 0 (lite_one_target.put 0 { blank_target with access := 3 }) ∧
    parse_target_access sample_lite_h lite_one_target "loosely".toList =
      .ret 1 lite_one_target := by
  have h := fun val hv =>
    parse_target_access_names sample_lite_h lite_one_target val 0 blank_target rfl rfl hv
  refine ⟨?_, ?_, ?_, ?_⟩
  · rw [h "".toList (by decide)]
    decide
  · rw [h "l".toList (by decide)]
    decide
  · rw [h "ser".toList (by decide)]
    decide
  · rw [h "loosely".toList (by decide)]
    decide

end Xdd
